import Mathlib

/-! # sf1r-lite: the distributed master controller (`MasterManagerBase.cpp`)

A shallow embedding of the write-request broker, the worker detection pass, failover,
recovery, the migration handshake, the service state and the start of `MasterManagerBase`,
together with the properties of the specification that were checked against it.

Conventions of the embedding

* A method of `MasterManagerBase` becomes a function on the controller record and the
  coordination store, returning the new controller and the new store.
* `zookeeper_` is a pointer that is null until `init()` ran.  A call through the null pointer
  is the result `none` of the embedded method, and so is an exception that leaves the method
  (the uncaught `lexical_cast` of `isMineNewSharding`, the `runtime_error` of `start`); every
  other result is `some _`.
* Sleeps, log lines and the test hooks of `DistributeTestSuit` have no effect on the state
  and are left out.
* The coordination client, the znode paths (`ZooKeeperNamespace`), the key/value payload
  (`ZNode`) and the node record (`Sf1rTopology.h`) are not part of the sources at hand; they
  are modelled from the specification and marked so.  The payload codec and the strict port
  parser are parameters (`Env`), and so are the conversions between ids and text (`IdText`)
  and the services of the master (`MasterServices`).
* The callback `on_new_req_available_` is a parameter (`NewReqHandler`) that is handed the
  controller and the store; the calls made to it and to the aggregator binder are recorded,
  latest first, in the field `calls`.
* `std::map` is a list of entries in increasing key order (`ShardMap`); the properties about
  the comparison of two maps assume that order (`ShardMap.Ordered`) of the maps they start
  from, and `ShardMap.insert` keeps it.
-/

namespace Sf1r

abbrev shardid_t := Nat
abbrev replicaid_t := Nat
abbrev port_t := Nat

/-! ## Key/value payload -/

/-- Modelled from the spec: the `ZNode` key/value payload (its class is declared in
`ZooKeeperNamespace.h`, which is not among the sources).  A payload is a finite map from keys
to string values. -/
abbrev ZNode := List (String × String)

namespace ZNode

/-- Modelled from the spec: payload keys of section 6 (`KV payload codec`). -/
def KEY_HOST : String := "host"
def KEY_BA_PORT : String := "ba_port"
def KEY_WORKER_PORT : String := "worker_port"
def KEY_DATA_PORT : String := "data_port"
def KEY_MASTER_PORT : String := "master_port"
def KEY_MASTER_NAME : String := "master_name"
def KEY_SERVICE_NAMES : String := "service_names"
def KEY_SERVICE_STATE : String := "service_state"
def KEY_REPLICA_ID : String := "replica_id"
def KEY_NODE_STATE : String := "node_state"
def KEY_REQ_TYPE : String := "req_type"
def KEY_REQ_DATA : String := "req_data"
def KEY_MASTER_SERVER_REAL_PATH : String := "master_server_real_path"
def KEY_SELF_REG_PRIMARY_PATH : String := "self_reg_primary_path"
def KEY_NEW_SHARDING_NODEIDS : String := "new_sharding_nodeids"
/-- The busy-state key read by `updateWorkerNode`; the specification does not list its text. -/
def KEY_NODE_BUSY_STATE : String := "node_busy_state"

/-- Modelled from the spec: `ZNode::setValue`, overwrite the value of a key or add the key. -/
def setValue : ZNode → String → String → ZNode
  | [], k, v => [(k, v)]
  | (k', v') :: rest, k, v =>
    if k' = k then (k, v) :: rest else (k', v') :: setValue rest k v

/-- Modelled from the spec: `ZNode::hasKey`. -/
def hasKey : ZNode → String → Bool
  | [], _ => false
  | (k', _) :: rest, k => if k' = k then true else hasKey rest k

/-- Modelled from the spec: `ZNode::getStrValue`, the value of a key, empty when absent. -/
def getStrValue : ZNode → String → String
  | [], _ => ""
  | (k', v') :: rest, k => if k' = k then v' else getStrValue rest k

end ZNode

/-- The parts of the environment that the controller uses and that live outside
`MasterManagerBase.cpp`: the payload codec `ZNode::serialize` / `ZNode::loadKvString`, the
strict parser `boost::lexical_cast<port_t>` (with `none` for the thrown exception) and the
process-wide switch `NodeManagerBase::isAsyncEnabled()`. -/
structure Env where
  serialize : ZNode → String
  loadKvString : String → ZNode
  lexicalCastPort : String → Option port_t
  isAsyncEnabled : Bool

/-! ## Coordination paths -/

/-- Modelled from the spec: the coordination paths of section 6 (`ZooKeeperNamespace` is not
among the sources).  `seq base n` is the znode that a sequential create on `base` yields when
the store hands out sequence number `n`. -/
inductive ZPath where
  | cluster
  | topology
  | replica (r : replicaid_t)
  | node (r : replicaid_t) (s : shardid_t)
  | serverParent
  | server
  | writeReqQueueRoot
  | writeReqQueueParent (s : shardid_t)
  | writeReqQueueNode (s : shardid_t)
  | writePrepareParent
  | writePrepare (s : shardid_t)
  | migratePrepare
  | primaryNodeParent (s : shardid_t)
  | primaryNode (s : shardid_t)
  | other (name : String)
  | seq (base : ZPath) (n : Nat)
  deriving DecidableEq, Repr

namespace ZPath

/-- The znode under which a path lives (`none` for the cluster root and for free paths). -/
def parent : ZPath → Option ZPath
  | cluster => none
  | topology => some cluster
  | replica _ => some topology
  | node r _ => some (replica r)
  | serverParent => some cluster
  | server => some serverParent
  | writeReqQueueRoot => some cluster
  | writeReqQueueParent _ => some writeReqQueueRoot
  | writeReqQueueNode s => some (writeReqQueueParent s)
  | writePrepareParent => some cluster
  | writePrepare _ => some writePrepareParent
  | migratePrepare => some cluster
  | primaryNodeParent _ => some cluster
  | primaryNode s => some (primaryNodeParent s)
  | other _ => none
  | seq base _ => parent base

/-- The sequence number of a sequentially created znode, `0` for any other path. -/
def seqNo : ZPath → Nat
  | seq _ n => n
  | _ => 0

/-- The order of sequentially created znodes: by sequence number. -/
def seqLe (a b : ZPath) : Prop := a.seqNo ≤ b.seqNo

instance : DecidableRel seqLe := fun a b => inferInstanceAs (Decidable (a.seqNo ≤ b.seqNo))

instance : IsTotal ZPath seqLe := ⟨fun a b => Nat.le_total a.seqNo b.seqNo⟩

instance : IsTrans ZPath seqLe := ⟨fun _ _ _ hab hbc => Nat.le_trans hab hbc⟩

/-- The text of a path, as it is written into payloads. -/
def toStr : ZPath → String
  | cluster => "/sf1r"
  | topology => "/sf1r/Topology"
  | replica r => "/sf1r/Topology/Replica" ++ toString r
  | node r s => "/sf1r/Topology/Replica" ++ toString r ++ "/Node" ++ toString s
  | serverParent => "/sf1r/Servers"
  | server => "/sf1r/Servers/Server"
  | writeReqQueueRoot => "/sf1r/WriteReqQueue"
  | writeReqQueueParent s => "/sf1r/WriteReqQueue/" ++ toString s
  | writeReqQueueNode s => "/sf1r/WriteReqQueue/" ++ toString s ++ "/req"
  | writePrepareParent => "/sf1r/WriteReqPrepare"
  | writePrepare s => "/sf1r/WriteReqPrepare/" ++ toString s
  | migratePrepare => "/sf1r/migrate_sharding"
  | primaryNodeParent s => "/sf1r/PrimaryNodes/" ++ toString s
  | primaryNode s => "/sf1r/PrimaryNodes/" ++ toString s ++ "/Node"
  | other name => name
  | seq base n => toStr base ++ toString n

end ZPath

/-- Modelled from the spec: `ZooKeeperNamespace`, the paths that `initCfg` and the methods
ask for. -/
def getNodePath (r : replicaid_t) (s : shardid_t) : ZPath := ZPath.node r s
def getWriteReqQueueNode (s : shardid_t) : ZPath := ZPath.writeReqQueueNode s
def getCurrWriteReqQueueParent (s : shardid_t) : ZPath := ZPath.writeReqQueueParent s
def getWriteReqPrepareNode (s : shardid_t) : ZPath := ZPath.writePrepare s
def getPrimaryNodeParentPath (s : shardid_t) : ZPath := ZPath.primaryNodeParent s

/-! ## Coordination store and client -/

/-- One znode of the store. -/
structure ZEntry where
  path : ZPath
  data : String
  ephemeral : Bool
  deriving DecidableEq, Repr

/-- Modelled from the spec: the hierarchical store shared by all masters.  `nextSeq` is the
counter from which sequential creates take their sequence number. -/
structure Store where
  nodes : List ZEntry
  nextSeq : Nat
  deriving DecidableEq, Repr

inductive ZNodeCreateType where
  | ZNODE_NORMAL
  | ZNODE_EPHEMERAL
  | ZNODE_SEQUENCE
  | ZNODE_EPHEMERAL_SEQUENCE
  deriving DecidableEq, Repr

inductive WatchType where
  | NOT_WATCH
  | WATCH
  deriving DecidableEq, Repr

inductive ZkError where
  | ZERR_OK
  | ZERR_ZNODEEXISTS
  | ZERR_UNKNOWN
  deriving DecidableEq, Repr

/-- Modelled from the spec: the state of one coordination client (section 4.1): whether its
session is connected, the paths it watches, the error of its last create and the real path of
the last znode it created.  A call of the source that passes no watch argument is embedded
with `NOT_WATCH`. -/
structure ZooKeeper where
  connected : Bool
  watches : List ZPath
  errorCode : ZkError
  lastCreatedNodePath : ZPath
  deriving DecidableEq, Repr

namespace Store

def find (st : Store) (p : ZPath) : Option ZEntry :=
  st.nodes.find? (fun e => decide (e.path = p))

def contains (st : Store) (p : ZPath) : Bool :=
  st.nodes.any (fun e => decide (e.path = p))

def erase (st : Store) (p : ZPath) : Store :=
  { st with nodes := st.nodes.filter (fun e => !decide (e.path = p)) }

/-- The children of `p`, ordered by their sequence numbers. -/
def childrenOf (st : Store) (p : ZPath) : List ZPath :=
  ((st.nodes.filter (fun e => decide (e.path.parent = some p))).map ZEntry.path).insertionSort
    ZPath.seqLe

end Store

namespace ZooKeeper

def isConnected (zk : ZooKeeper) : Bool := zk.connected

def addWatch (zk : ZooKeeper) (w : WatchType) (p : ZPath) : ZooKeeper :=
  match w with
  | WatchType.NOT_WATCH => zk
  | WatchType.WATCH => if zk.connected then { zk with watches := p :: zk.watches } else zk

/-- Modelled from the spec: `exists(path, watch?)`. -/
def isZNodeExists (zk : ZooKeeper) (st : Store) (p : ZPath) (w : WatchType) :
    Bool × ZooKeeper :=
  (zk.connected && st.contains p, zk.addWatch w p)

/-- Modelled from the spec: `getData(path, watch?)`; `none` when the read fails. -/
def getZNodeData (zk : ZooKeeper) (st : Store) (p : ZPath) (w : WatchType) :
    Option String × ZooKeeper :=
  (if zk.connected then (st.find p).map ZEntry.data else none, zk.addWatch w p)

/-- Modelled from the spec: `getChildren(path, watch?)`, ordered by sequence. -/
def getZNodeChildren (zk : ZooKeeper) (st : Store) (p : ZPath) (w : WatchType) :
    List ZPath × ZooKeeper :=
  (if zk.connected then st.childrenOf p else [], zk.addWatch w p)

/-- Modelled from the spec: `create(path, data, flags)`.  It fails with `ALREADY_EXISTS` when
the path exists and with another error when the store cannot be reached; a sequential create
appends the sequence number handed out by the store. -/
def createZNode (zk : ZooKeeper) (st : Store) (p : ZPath) (data : String)
    (flags : ZNodeCreateType) : Bool × ZooKeeper × Store :=
  if !zk.connected then (false, { zk with errorCode := ZkError.ZERR_UNKNOWN }, st)
  else
    let sequential := decide (flags = ZNodeCreateType.ZNODE_SEQUENCE) ||
      decide (flags = ZNodeCreateType.ZNODE_EPHEMERAL_SEQUENCE)
    let ephemeral := decide (flags = ZNodeCreateType.ZNODE_EPHEMERAL) ||
      decide (flags = ZNodeCreateType.ZNODE_EPHEMERAL_SEQUENCE)
    let real := if sequential then ZPath.seq p st.nextSeq else p
    if st.contains real then (false, { zk with errorCode := ZkError.ZERR_ZNODEEXISTS }, st)
    else
      (true, { zk with errorCode := ZkError.ZERR_OK, lastCreatedNodePath := real },
        { nodes := st.nodes ++ [{ path := real, data := data, ephemeral := ephemeral }],
          nextSeq := if sequential then st.nextSeq + 1 else st.nextSeq })

/-- Modelled from the spec: `delete(path)`. -/
def deleteZNode (zk : ZooKeeper) (st : Store) (p : ZPath) : Bool × ZooKeeper × Store :=
  if zk.connected && st.contains p then (true, zk, st.erase p) else (false, zk, st)

/-- Modelled from the spec: `setData(path, data)`. -/
def setZNodeData (zk : ZooKeeper) (st : Store) (p : ZPath) (data : String) :
    Bool × ZooKeeper × Store :=
  if zk.connected && st.contains p then
    let rewrite : ZEntry → ZEntry := fun e => if e.path = p then { e with data := data } else e
    (true, zk, { st with nodes := st.nodes.map rewrite })
  else (false, zk, st)

end ZooKeeper

/-! ## Topology and worker registry -/

/-- Modelled from the spec: the worker part of a node (`Sf1rTopology.h` is not among the
sources). -/
structure WorkerAgent where
  port_ : port_t
  isGood_ : Bool
  busyState_ : String
  deriving DecidableEq, Repr

/-- Modelled from the spec: `Sf1rNode` of section 3. -/
structure Sf1rNode where
  nodeId_ : shardid_t
  replicaId_ : replicaid_t
  host_ : String
  baPort_ : port_t
  dataPort_ : port_t
  worker_ : WorkerAgent
  deriving DecidableEq, Repr

/-- The freshly constructed node of `new Sf1rNode`. -/
def Sf1rNode.new : Sf1rNode :=
  { nodeId_ := 0, replicaId_ := 0, host_ := "", baPort_ := 0, dataPort_ := 0,
    worker_ := { port_ := 0, isGood_ := false, busyState_ := "" } }

/-- Modelled from the spec: `Topology` of section 3.  `all_shard_nodes_` is the `std::set` of
shard ids, kept as its list in increasing order; `shardidLists` is `perCollectionShardIds`. -/
structure Sf1rTopology where
  curNode_ : Sf1rNode
  all_shard_nodes_ : List shardid_t
  shardidLists : List ((String × String) × List shardid_t)
  deriving DecidableEq, Repr

/-- Modelled from the spec: `getShardidList(service, collection)`, `none` when the collection
has no configured shard list. -/
def Sf1rTopology.getShardidList (t : Sf1rTopology) (service collection : String) :
    Option (List shardid_t) :=
  (t.shardidLists.find? (fun e => decide (e.1 = (service, collection)))).map Prod.snd

inductive MasterStateType where
  | MASTER_STATE_INIT
  | MASTER_STATE_STARTING
  | MASTER_STATE_STARTING_WAIT_ZOOKEEPER
  | MASTER_STATE_STARTING_WAIT_WORKERS
  | MASTER_STATE_STARTED
  deriving DecidableEq, Repr

/-- One routing entry handed to an aggregator (`addWorker` / `addReadOnlyWorker`). -/
structure WorkerServerInfo where
  host : String
  port : port_t
  shardid : shardid_t
  isLocal : Bool
  deriving DecidableEq, Repr

structure AggregatorConfig where
  readonly : Bool
  workers : List WorkerServerInfo
  deriving DecidableEq, Repr

/-- Modelled from the spec: an aggregator, reduced to what the controller hands to it: the
routing table of the last `setAggregatorConfig` and the list of the last
`setBusyAggregatorList`. -/
structure AggregatorBase where
  service : String
  collection : String
  config : Option AggregatorConfig
  busyList : Option (List (String × port_t))
  deriving DecidableEq, Repr

/-- The calls that the controller makes to its collaborators, in the order made. -/
inductive Call where
  | resetAggregatorConfig
  | resetReadOnlyAggregatorConfig
  | resetAggregatorBusyState
  | onNewReqAvailable
  deriving DecidableEq, Repr

/-- `std::map<shardid_t, V>`: the entries in increasing key order. -/
abbrev ShardMap (V : Type) := List (Nat × V)

namespace ShardMap

def find {V : Type} : ShardMap V → Nat → Option V
  | [], _ => none
  | (k', v) :: rest, k => if k' = k then some v else find rest k

/-- The assignment `map[k] = v`. -/
def insert {V : Type} : ShardMap V → Nat → V → ShardMap V
  | [], k, v => [(k, v)]
  | (k', v') :: rest, k, v =>
    if k < k' then (k, v) :: (k', v') :: rest
    else if k' = k then (k, v) :: rest
    else (k', v') :: insert rest k v

end ShardMap

abbrev WorkerMapT := ShardMap Sf1rNode
abbrev ROWorkerMapT := ShardMap (ShardMap Sf1rNode)

/-- The fields of `MasterManagerBase`.  `calls` is the record of the collaborator calls made
so far, newest first. -/
structure MasterManagerBase where
  isDistributeEnable_ : Bool
  masterState_ : MasterStateType
  stopping_ : Bool
  write_prepared_ : Bool
  new_write_disabled_ : Bool
  is_mine_primary_ : Bool
  is_ready_for_new_write_ : Bool
  waiting_request_num_ : Nat
  zookeeper_ : Option ZooKeeper
  sf1rTopology_ : Sf1rTopology
  topologyPath_ : ZPath
  serverParentPath_ : ZPath
  serverPath_ : ZPath
  serverRealPath_ : ZPath
  write_req_queue_ : ZPath
  write_req_queue_parent_ : ZPath
  write_req_queue_root_parent_ : ZPath
  write_prepare_node_ : ZPath
  write_prepare_node_parent_ : ZPath
  migrate_prepare_node_ : ZPath
  workerMap_ : WorkerMapT
  readonly_workerMap_ : ROWorkerMapT
  replicaIdList_ : List replicaid_t
  cached_write_reqlist_ : List (ZPath × String × String)
  aggregatorList_ : List AggregatorBase
  readonly_aggregatorList_ : List AggregatorBase
  calls : List Call
  deriving DecidableEq, Repr

namespace MasterManagerBase

/-- The constructor `MasterManagerBase::MasterManagerBase()` for a node of the topology. -/
def create (topology : Sf1rTopology) : MasterManagerBase :=
  { isDistributeEnable_ := false
    masterState_ := MasterStateType.MASTER_STATE_INIT
    stopping_ := false
    write_prepared_ := false
    new_write_disabled_ := false
    is_mine_primary_ := false
    is_ready_for_new_write_ := false
    waiting_request_num_ := 0
    zookeeper_ := none
    sf1rTopology_ := topology
    topologyPath_ := ZPath.other ""
    serverParentPath_ := ZPath.other ""
    serverPath_ := ZPath.other ""
    serverRealPath_ := ZPath.other ""
    write_req_queue_ := ZPath.other ""
    write_req_queue_parent_ := ZPath.other ""
    write_req_queue_root_parent_ := ZPath.other ""
    write_prepare_node_ := ZPath.other ""
    write_prepare_node_parent_ := ZPath.other ""
    migrate_prepare_node_ := ZPath.other ""
    workerMap_ := []
    readonly_workerMap_ := []
    replicaIdList_ := []
    cached_write_reqlist_ := []
    aggregatorList_ := []
    readonly_aggregatorList_ := []
    calls := [] }

/-- `MasterManagerBase::initCfg`. -/
def initCfg (m : MasterManagerBase) (topology : Sf1rTopology) : MasterManagerBase :=
  { m with
    topologyPath_ := ZPath.topology
    serverParentPath_ := ZPath.serverParent
    serverPath_ := ZPath.server
    sf1rTopology_ := topology
    write_req_queue_ := getWriteReqQueueNode topology.curNode_.nodeId_
    write_req_queue_parent_ := getCurrWriteReqQueueParent topology.curNode_.nodeId_
    write_req_queue_root_parent_ := ZPath.writeReqQueueRoot
    write_prepare_node_ := getWriteReqPrepareNode topology.curNode_.nodeId_
    write_prepare_node_parent_ := ZPath.writePrepareParent
    migrate_prepare_node_ := ZPath.migratePrepare }

/-! ### Calls through `zookeeper_` -/

def zkIsZNodeExists (m : MasterManagerBase) (st : Store) (p : ZPath) (w : WatchType) :
    Option (Bool × MasterManagerBase) :=
  match m.zookeeper_ with
  | none => none
  | some zk => some ((zk.isZNodeExists st p w).1,
      { m with zookeeper_ := some (zk.isZNodeExists st p w).2 })

def zkGetZNodeData (m : MasterManagerBase) (st : Store) (p : ZPath) (w : WatchType) :
    Option (Option String × MasterManagerBase) :=
  match m.zookeeper_ with
  | none => none
  | some zk => some ((zk.getZNodeData st p w).1,
      { m with zookeeper_ := some (zk.getZNodeData st p w).2 })

def zkGetZNodeChildren (m : MasterManagerBase) (st : Store) (p : ZPath) (w : WatchType) :
    Option (List ZPath × MasterManagerBase) :=
  match m.zookeeper_ with
  | none => none
  | some zk => some ((zk.getZNodeChildren st p w).1,
      { m with zookeeper_ := some (zk.getZNodeChildren st p w).2 })

def zkCreateZNode (m : MasterManagerBase) (st : Store) (p : ZPath) (data : String)
    (flags : ZNodeCreateType) : Option (Bool × MasterManagerBase × Store) :=
  match m.zookeeper_ with
  | none => none
  | some zk => some ((zk.createZNode st p data flags).1,
      { m with zookeeper_ := some (zk.createZNode st p data flags).2.1 },
      (zk.createZNode st p data flags).2.2)

def zkDeleteZNode (m : MasterManagerBase) (st : Store) (p : ZPath) :
    Option (Bool × MasterManagerBase × Store) :=
  match m.zookeeper_ with
  | none => none
  | some zk => some ((zk.deleteZNode st p).1,
      { m with zookeeper_ := some (zk.deleteZNode st p).2.1 }, (zk.deleteZNode st p).2.2)

def zkIsConnected (m : MasterManagerBase) : Option Bool :=
  m.zookeeper_.map ZooKeeper.isConnected

/-- The guard `!zookeeper_ || !zookeeper_->isConnected()`. -/
def notConnected (m : MasterManagerBase) : Bool :=
  match m.zookeeper_ with
  | none => true
  | some zk => !zk.isConnected

/-! ### Write-request broker -/

/-- `MasterManagerBase::isMinePrimary`. -/
def isMinePrimary (m : MasterManagerBase) : Bool :=
  if !m.isDistributeEnable_ then true
  else if m.notConnected then false
  else m.is_mine_primary_

/-- `MasterManagerBase::prepareWriteReq`. -/
def prepareWriteReq (env : Env) (m : MasterManagerBase) (st : Store) :
    Option (Bool × MasterManagerBase × Store) :=
  if !m.isDistributeEnable_ then some (true, m, st)
  else if m.stopping_ then some (false, m, st)
  else if !m.isMinePrimary then do
    let (_, m1) ← m.zkIsZNodeExists st m.write_prepare_node_ WatchType.NOT_WATCH
    let (_, m2) ← m1.zkIsZNodeExists st m1.write_req_queue_parent_ WatchType.NOT_WATCH
    some (false, m2, st)
  else if m.new_write_disabled_ then some (false, m, st)
  else if env.isAsyncEnabled then some (true, { m with write_prepared_ := true }, st)
  else do
    let znode : ZNode :=
      ZNode.setValue [] ZNode.KEY_MASTER_SERVER_REAL_PATH m.serverRealPath_.toStr
    let (created, m1, st1) ← m.zkCreateZNode st m.write_prepare_node_ (env.serialize znode)
      ZNodeCreateType.ZNODE_EPHEMERAL
    if !created then do
      let (_, m2) ← m1.zkIsZNodeExists st1 m1.write_prepare_node_ WatchType.WATCH
      some (false, m2, st1)
    else some (true, { m1 with write_prepared_ := true }, st1)

/-- `MasterManagerBase::endWriteReq`. -/
def endWriteReq (env : Env) (m : MasterManagerBase) (st : Store) :
    Option (Bool × MasterManagerBase × Store) :=
  if env.isAsyncEnabled then some (true, m, st)
  else if m.stopping_ then some (true, m, st)
  else
    match m.zookeeper_ with
    | none => some (true, m, st)
    | some _ => do
      let (found, m1) ← m.zkIsZNodeExists st m.write_prepare_node_ WatchType.NOT_WATCH
      if !found then some (true, m1, st)
      else do
        let (sdata, m2) ← m1.zkGetZNodeData st m1.write_prepare_node_ WatchType.NOT_WATCH
        match sdata with
        | some sdata =>
          let znode := env.loadKvString sdata
          let write_server := ZNode.getStrValue znode ZNode.KEY_MASTER_SERVER_REAL_PATH
          if write_server ≠ m2.serverRealPath_.toStr then some (false, m2, st)
          else do
            let (_, m3, st3) ← m2.zkDeleteZNode st m2.write_prepare_node_
            some (true, m3, st3)
        | none => some (false, m2, st)

/-- The loop of `cacheNewWriteFromZNode` over the first `pop_num` children. -/
def cacheLoop (env : Env) (st : Store) :
    List ZPath → MasterManagerBase → Option MasterManagerBase
  | [], m => some m
  | child :: rest, m => do
    let (sdata, m1) ← m.zkGetZNodeData st child WatchType.NOT_WATCH
    let znode := env.loadKvString (sdata.getD "")
    cacheLoop env st rest { m1 with cached_write_reqlist_ := m1.cached_write_reqlist_ ++
      [(child, ZNode.getStrValue znode ZNode.KEY_REQ_DATA,
        ZNode.getStrValue znode ZNode.KEY_REQ_TYPE)] }

/-- `MasterManagerBase::cacheNewWriteFromZNode`. -/
def cacheNewWriteFromZNode (env : Env) (m : MasterManagerBase) (st : Store) :
    Option (Bool × MasterManagerBase) :=
  if !m.cached_write_reqlist_.isEmpty then some (false, m)
  else do
    let (reqchild, m1) ← m.zkGetZNodeChildren st m.write_req_queue_parent_ WatchType.NOT_WATCH
    if reqchild.isEmpty then do
      let (_, m2) ← m1.zkGetZNodeChildren st m1.write_req_queue_parent_ WatchType.WATCH
      some (false, m2)
    else do
      let m2 := { m1 with waiting_request_num_ := reqchild.length }
      let pop_num := if reqchild.length > 1000 then 1000 else reqchild.length
      let m3 ← cacheLoop env st (reqchild.take pop_num) m2
      some (true, m3)

/-- `MasterManagerBase::popWriteReq`; the second and third component are the values left in
the reference parameters `reqdata` and `type`, which the method leaves untouched (`none`)
when it returns before assigning them. -/
def popWriteReq (env : Env) (m : MasterManagerBase) (st : Store) :
    Option (Bool × Option String × Option String × MasterManagerBase × Store) :=
  if !m.isDistributeEnable_ then some (false, none, none, m, st)
  else do
    let (refilled, m1) ←
      if m.cached_write_reqlist_.isEmpty then cacheNewWriteFromZNode env m st
      else some (true, m)
    if !refilled then some (false, none, none, m1, st)
    else
      match m1.cached_write_reqlist_ with
      | [] => none
      | front :: rest => do
        let (deleted, m2, st2) ← m1.zkDeleteZNode st front.1
        let connected ← m2.zkIsConnected
        if !deleted && !connected then
          some (false, some front.2.1, some front.2.2, m2, st2)
        else
          some (true, some front.2.1, some front.2.2,
            { m2 with cached_write_reqlist_ := rest }, st2)

/-- `MasterManagerBase::pushWriteReq`. -/
def pushWriteReq (env : Env) (m : MasterManagerBase) (st : Store) (reqdata type : String) :
    Option (Bool × MasterManagerBase × Store) :=
  if !m.isDistributeEnable_ then some (false, m, st)
  else if m.stopping_ then some (false, m, st)
  else if m.notConnected then some (false, m, st)
  else do
    let (migrating, m1) ← m.zkIsZNodeExists st m.migrate_prepare_node_ WatchType.WATCH
    if migrating then some (false, m1, st)
    else do
      let znode : ZNode :=
        ZNode.setValue (ZNode.setValue [] ZNode.KEY_REQ_TYPE type) ZNode.KEY_REQ_DATA reqdata
      let (created, m2, st2) ← m1.zkCreateZNode st m1.write_req_queue_ (env.serialize znode)
        ZNodeCreateType.ZNODE_SEQUENCE
      if created then some (true, m2, st2) else some (false, m2, st2)

/-- The payload that `prepareWriteReq` writes into the prepare znode. -/
def preparePayload (env : Env) (m : MasterManagerBase) : String :=
  env.serialize (ZNode.setValue [] ZNode.KEY_MASTER_SERVER_REAL_PATH m.serverRealPath_.toStr)

/-- The payload that `pushWriteReq` writes into a request znode. -/
def requestPayload (env : Env) (reqdata type : String) : String :=
  env.serialize
    (ZNode.setValue (ZNode.setValue [] ZNode.KEY_REQ_TYPE type) ZNode.KEY_REQ_DATA reqdata)

/-! ### Aggregator binder -/

/-- The busy list built in `resetAggregatorConfig` and `resetAggregatorBusyState`. -/
def busyListFor (ro : ROWorkerMapT) (coll : String) : List (String × port_t) :=
  ro.flatMap (fun it =>
    (it.2.filter (fun nit => decide (nit.2.worker_.busyState_ = coll))).map
      (fun nit => (nit.2.host_, nit.2.worker_.port_)))

/-- The read-only routing table of `resetAggregatorConfig(aggregator, true)`. -/
def readOnlyWorkersFor (ro : ROWorkerMapT) (shardidList : List shardid_t) :
    List WorkerServerInfo :=
  shardidList.flatMap (fun shardid =>
    match ShardMap.find ro shardid with
    | some nodes =>
      (nodes.filter (fun nit => nit.2.worker_.isGood_)).map
        (fun nit => { host := nit.2.host_, port := nit.2.worker_.port_, shardid := shardid,
                      isLocal := false })
    | none => [])

/-- The primary routing table of `resetAggregatorConfig(aggregator, false)`. -/
def primaryWorkersFor (workers : WorkerMapT) (curNodeId : shardid_t)
    (shardidList : List shardid_t) : List WorkerServerInfo :=
  shardidList.flatMap (fun shardid =>
    match ShardMap.find workers shardid with
    | some node =>
      if !node.worker_.isGood_ then []
      else [{ host := node.host_, port := node.worker_.port_, shardid := shardid,
              isLocal := decide (node.nodeId_ = curNodeId) }]
    | none => [])

/-- `MasterManagerBase::resetAggregatorConfig(aggregator, readonly)`. -/
def resetAggregatorConfigFor (m : MasterManagerBase) (aggregator : AggregatorBase)
    (readonly : Bool) : AggregatorBase :=
  match m.sf1rTopology_.getShardidList aggregator.service aggregator.collection with
  | none => aggregator
  | some shardidList =>
    if readonly then
      let aggregator1 :=
        if aggregator.collection ≠ "" then
          { aggregator with
            busyList := some (busyListFor m.readonly_workerMap_ aggregator.collection) }
        else aggregator
      { aggregator1 with
        config := some { readonly := true,
                         workers := readOnlyWorkersFor m.readonly_workerMap_ shardidList } }
    else
      { aggregator with
        config := some { readonly := false,
                         workers := primaryWorkersFor m.workerMap_
                           m.sf1rTopology_.curNode_.nodeId_ shardidList } }

/-- `MasterManagerBase::resetReadOnlyAggregatorConfig`. -/
def resetReadOnlyAggregatorConfig (m : MasterManagerBase) : MasterManagerBase :=
  { m with
    readonly_aggregatorList_ :=
      m.readonly_aggregatorList_.map (fun a => m.resetAggregatorConfigFor a true)
    calls := Call.resetReadOnlyAggregatorConfig :: m.calls }

/-- `MasterManagerBase::resetAggregatorConfig()`. -/
def resetAggregatorConfig (m : MasterManagerBase) : MasterManagerBase :=
  { m with
    aggregatorList_ := m.aggregatorList_.map (fun a => m.resetAggregatorConfigFor a false)
    calls := Call.resetAggregatorConfig :: m.calls }

/-- `MasterManagerBase::resetAggregatorBusyState`. -/
def resetAggregatorBusyState (m : MasterManagerBase) : MasterManagerBase :=
  { m with
    readonly_aggregatorList_ := m.readonly_aggregatorList_.map (fun a =>
      if a.collection = "" then a
      else { a with busyList := some (busyListFor m.readonly_workerMap_ a.collection) })
    calls := Call.resetAggregatorBusyState :: m.calls }

/-! ### Worker detection -/

/-- `MasterManagerBase::isPrimaryWorker`. -/
def isPrimaryWorker (env : Env) (m : MasterManagerBase) (st : Store) (replicaId : replicaid_t)
    (nodeId : shardid_t) : Bool × MasterManagerBase :=
  match m.zookeeper_ with
  | none => (false, m)
  | some zk =>
    let r1 := zk.getZNodeData st (getNodePath replicaId nodeId) WatchType.WATCH
    match r1.1 with
    | some sdata =>
      let znode := env.loadKvString sdata
      let self_reg_primary := ZNode.getStrValue znode ZNode.KEY_SELF_REG_PRIMARY_PATH
      let r2 := r1.2.getZNodeChildren st (getPrimaryNodeParentPath nodeId) WatchType.NOT_WATCH
      match r2.1 with
      | [] => (false, { m with zookeeper_ := some r2.2 })
      | first :: _ =>
        (decide (self_reg_primary = first.toStr), { m with zookeeper_ := some r2.2 })
    | none => (false, { m with zookeeper_ := some r1.2 })

/-- `MasterManagerBase::updateWorkerNode`. -/
def updateWorkerNode (env : Env) (m : MasterManagerBase) (workerNode : Sf1rNode)
    (znode : ZNode) : Sf1rNode :=
  let n1 : Sf1rNode :=
    { workerNode with
      replicaId_ := m.sf1rTopology_.curNode_.replicaId_
      host_ := ZNode.getStrValue znode ZNode.KEY_HOST
      worker_ := { workerNode.worker_ with
        busyState_ := ZNode.getStrValue znode ZNode.KEY_NODE_BUSY_STATE } }
  let n2 : Sf1rNode :=
    match env.lexicalCastPort (ZNode.getStrValue znode ZNode.KEY_WORKER_PORT) with
    | some port => { n1 with worker_ := { n1.worker_ with port_ := port } }
    | none => { n1 with worker_ := { n1.worker_ with isGood_ := false } }
  match env.lexicalCastPort (ZNode.getStrValue znode ZNode.KEY_DATA_PORT) with
  | some port => { n2 with dataPort_ := port }
  | none => { n2 with worker_ := { n2.worker_ with isGood_ := false } }

/-- The counters `detected` and `good` of a detection pass, next to the controller. -/
structure DetectState where
  m : MasterManagerBase
  detected : Nat
  good : Nat

/-- One round of the loop of `detectWorkersInReplica`, for the shard `nodeid`. -/
def detectWorkerStep (env : Env) (st : Store) (replicaId : replicaid_t) (mine_primary : Bool)
    (d : DetectState) (nodeid : shardid_t) : Option DetectState := do
  let nodePath := getNodePath replicaId nodeid
  let (data, m1) ← d.m.zkGetZNodeData st nodePath WatchType.WATCH
  match data with
  | some data =>
    let znode := env.loadKvString data
    if ZNode.hasKey znode ZNode.KEY_WORKER_PORT then
      let pr := if mine_primary then isPrimaryWorker env m1 st replicaId nodeid else (true, m1)
      if !pr.1 then some { d with m := pr.2 }
      else
        let m2 := pr.2
        match ShardMap.find m2.workerMap_ nodeid with
        | some existing =>
          if existing.worker_.isGood_ then some { d with m := m2 }
          else
            let marked := { existing with worker_ := { existing.worker_ with isGood_ := true } }
            let workerNode :=
              { updateWorkerNode env m2 { marked with nodeId_ := nodeid } znode with
                replicaId_ := replicaId }
            some { m := { m2 with workerMap_ := ShardMap.insert m2.workerMap_ nodeid workerNode }
                   detected := d.detected + 1
                   good := if workerNode.worker_.isGood_ then d.good + 1 else d.good }
        | none =>
          let fresh := { Sf1rNode.new with worker_ := { Sf1rNode.new.worker_ with isGood_ := true } }
          let workerNode :=
            { updateWorkerNode env m2 { fresh with nodeId_ := nodeid } znode with
              replicaId_ := replicaId }
          some { m := { m2 with workerMap_ := ShardMap.insert m2.workerMap_ nodeid workerNode }
                 detected := d.detected + 1
                 good := if workerNode.worker_.isGood_ then d.good + 1 else d.good }
    else some { d with m := m1 }
  | none => do
    let (_, m2) ← m1.zkIsZNodeExists st nodePath WatchType.WATCH
    some { d with m := m2 }

/-- The loop of `detectWorkersInReplica` over `all_shard_nodes_`. -/
def detectWorkerLoop (env : Env) (st : Store) (replicaId : replicaid_t) (mine_primary : Bool) :
    List shardid_t → DetectState → Option DetectState
  | [], d => some d
  | nodeid :: rest, d => do
    let d1 ← detectWorkerStep env st replicaId mine_primary d nodeid
    detectWorkerLoop env st replicaId mine_primary rest d1

/-- `MasterManagerBase::detectWorkersInReplica`; the counters are the reference parameters. -/
def detectWorkersInReplica (env : Env) (st : Store) (replicaId : replicaid_t)
    (d : DetectState) : Option DetectState := do
  let mine_primary := d.m.isMinePrimary
  let d1 ← detectWorkerLoop env st replicaId mine_primary d.m.sf1rTopology_.all_shard_nodes_ d
  if d1.detected ≥ d1.m.sf1rTopology_.all_shard_nodes_.length then
    some { d1 with m := { d1.m with masterState_ := MasterStateType.MASTER_STATE_STARTED } }
  else
    some { d1 with
      m := { d1.m with masterState_ := MasterStateType.MASTER_STATE_STARTING_WAIT_WORKERS } }

/-- The assignment `readonly_workerMap_[nodeid][replicaId] = node`. -/
def roInsert (ro : ROWorkerMapT) (nodeid : shardid_t) (replicaId : replicaid_t)
    (node : Sf1rNode) : ROWorkerMapT :=
  ShardMap.insert ro nodeid
    (ShardMap.insert ((ShardMap.find ro nodeid).getD []) replicaId node)

/-- The node that the read-only detection builds from a znode. -/
def readOnlyNode (env : Env) (m : MasterManagerBase) (replicaId : replicaid_t)
    (nodeid : shardid_t) (znode : ZNode) : Sf1rNode :=
  let fresh := { Sf1rNode.new with worker_ := { Sf1rNode.new.worker_ with isGood_ := true } }
  { updateWorkerNode env m { fresh with nodeId_ := nodeid } znode with replicaId_ := replicaId }

/-- The loop of `detectReadOnlyWorkersInReplica` over `all_shard_nodes_`. -/
def detectReadOnlyLoop (env : Env) (st : Store) (replicaId : replicaid_t) :
    List shardid_t → MasterManagerBase → Option MasterManagerBase
  | [], m => some m
  | nodeid :: rest, m => do
    let nodePath := getNodePath replicaId nodeid
    let (data, m1) ← m.zkGetZNodeData st nodePath WatchType.WATCH
    match data with
    | some data =>
      let znode := env.loadKvString data
      if ZNode.hasKey znode ZNode.KEY_WORKER_PORT then
        let node := readOnlyNode env m1 replicaId nodeid znode
        detectReadOnlyLoop env st replicaId rest
          { m1 with readonly_workerMap_ := roInsert m1.readonly_workerMap_ nodeid replicaId node }
      else detectReadOnlyLoop env st replicaId rest m1
    | none => do
      let (_, m2) ← m1.zkIsZNodeExists st nodePath WatchType.WATCH
      detectReadOnlyLoop env st replicaId rest m2

/-- `MasterManagerBase::detectReadOnlyWorkersInReplica`. -/
def detectReadOnlyWorkersInReplica (env : Env) (st : Store) (replicaId : replicaid_t)
    (m : MasterManagerBase) : Option MasterManagerBase :=
  detectReadOnlyLoop env st replicaId m.sf1rTopology_.all_shard_nodes_ m

/-- `isSameWorkerNode` of the anonymous namespace. -/
def isSameWorkerNode (left right : Sf1rNode) : Bool :=
  if left.nodeId_ ≠ right.nodeId_ then false
  else if left.replicaId_ ≠ right.replicaId_ then false
  else if left.host_ ≠ right.host_ then false
  else if left.worker_.port_ ≠ right.worker_.port_ then false
  else if left.worker_.isGood_ ≠ right.worker_.isGood_ then false
  else true

/-- The inner lock-step loop of `detectReadOnlyWorkers`: the value of `same` after it. -/
def sameReplicaNodes : ShardMap Sf1rNode → ShardMap Sf1rNode → Bool
  | (ko, no) :: ro, (kn, nn) :: rn =>
    if ko ≠ kn then false
    else if !isSameWorkerNode no nn then false
    else sameReplicaNodes ro rn
  | _, _ => true

/-- The outer lock-step loop of `detectReadOnlyWorkers`: the value of `compared_size`. -/
def comparedSizeRO : ROWorkerMapT → ROWorkerMapT → Nat
  | (ko, vo) :: ro, (kn, vn) :: rn =>
    if ko ≠ kn then 0
    else if vo.length ≠ vn.length then 0
    else if !sameReplicaNodes vo vn then 0
    else comparedSizeRO ro rn + 1
  | _, _ => 0

/-- The lock-step loop of `detectWorkers`: the value of `compared_size`. -/
def comparedSize : WorkerMapT → WorkerMapT → Nat
  | (ko, no) :: ro, (kn, nn) :: rn =>
    if ko ≠ kn then 0
    else if !isSameWorkerNode no nn then 0
    else comparedSize ro rn + 1
  | _, _ => 0

/-- The search of `detectReadOnlyWorkers` for the shard and replica of a node path: the values
of `nodeid` and `replicaId` after the two nested loops. -/
def findCaredNode (replicas : List replicaid_t) (nodepath : ZPath) :
    List shardid_t → shardid_t × replicaid_t → shardid_t × replicaid_t
  | [], acc => acc
  | s :: rest, acc =>
    match replicas.find? (fun r => decide (getNodePath r s = nodepath)) with
    | some r => findCaredNode replicas nodepath rest (s, r)
    | none => findCaredNode replicas nodepath rest acc

/-- The loop of `detectReadOnlyWorkers` over `replicaIdList_`. -/
def detectReadOnlyReplicas (env : Env) (st : Store) :
    List replicaid_t → MasterManagerBase → Option MasterManagerBase
  | [], m => some m
  | r :: rest, m => do
    let m1 ← detectReadOnlyWorkersInReplica env st r m
    detectReadOnlyReplicas env st rest m1

/-- `MasterManagerBase::detectReadOnlyWorkers`; the empty node path is `ZPath.other ""`. -/
def detectReadOnlyWorkers (env : Env) (st : Store) (m : MasterManagerBase) (nodepath : ZPath)
    (is_created_node : Bool) : Option MasterManagerBase :=
  if nodepath ≠ ZPath.other "" then
    let found := findCaredNode m.replicaIdList_ nodepath m.sf1rTopology_.all_shard_nodes_ (0, 0)
    let nodeid := found.1
    let replicaId := found.2
    if nodeid = 0 then some m
    else
      let existing := (ShardMap.find m.readonly_workerMap_ nodeid).bind
        (fun nodes => ShardMap.find nodes replicaId)
      if !is_created_node then
        match existing with
        | none => some m
        | some node =>
          let bad := { node with worker_ := { node.worker_ with isGood_ := false } }
          some (resetReadOnlyAggregatorConfig
            { m with readonly_workerMap_ := roInsert m.readonly_workerMap_ nodeid replicaId bad })
      else do
        let (data, m1) ← m.zkGetZNodeData st nodepath WatchType.WATCH
        match data with
        | none => some m1
        | some data =>
          let znode := env.loadKvString data
          if !ZNode.hasKey znode ZNode.KEY_WORKER_PORT then some m1
          else
            let node := readOnlyNode env m1 replicaId nodeid znode
            some (resetReadOnlyAggregatorConfig
              { m1 with
                readonly_workerMap_ := roInsert m1.readonly_workerMap_ nodeid replicaId node })
  else do
    let old_workers := m.readonly_workerMap_
    let m1 ← detectReadOnlyReplicas env st m.replicaIdList_ { m with readonly_workerMap_ := [] }
    let compared_size := comparedSizeRO old_workers m1.readonly_workerMap_
    if compared_size ≠ old_workers.length ∨ compared_size ≠ m1.readonly_workerMap_.length then
      some (resetReadOnlyAggregatorConfig m1)
    else some (resetAggregatorBusyState m1)

/-- The loop of `detectWorkers` over the other replicas. -/
def detectOtherReplicas (env : Env) (st : Store) (replicaId : replicaid_t) :
    List replicaid_t → DetectState → Option DetectState
  | [], d => some d
  | r :: rest, d =>
    if d.m.masterState_ ≠ MasterStateType.MASTER_STATE_STARTING_WAIT_WORKERS then some d
    else if replicaId = r then detectOtherReplicas env st replicaId rest d
    else do
      let d1 ← detectWorkersInReplica env st r d
      detectOtherReplicas env st replicaId rest d1

/-- `MasterManagerBase::detectWorkers`; the first component is the returned `good`. -/
def detectWorkers (env : Env) (st : Store) (m : MasterManagerBase) :
    Option (Nat × MasterManagerBase) := do
  let old_workers := m.workerMap_
  let replicaId := m.sf1rTopology_.curNode_.replicaId_
  let d1 ← detectWorkersInReplica env st replicaId
    { m := { m with workerMap_ := [] }, detected := 0, good := 0 }
  let d2 ← detectOtherReplicas env st replicaId d1.m.replicaIdList_ d1
  let compared_size := comparedSize old_workers d2.m.workerMap_
  let m3 :=
    if compared_size ≠ old_workers.length ∨ compared_size ≠ d2.m.workerMap_.length then
      resetAggregatorConfig d2.m
    else d2.m
  let m4 ← detectReadOnlyWorkers env st m3 (ZPath.other "") true
  some (d2.good, m4)

/-! ### Failover and recovery -/

/-- The loop of `failover(sf1rNode)` over `replicaIdList_`. -/
def failoverLoop (env : Env) (st : Store) (mine_primary : Bool) :
    List replicaid_t → Sf1rNode → MasterManagerBase → Option (Sf1rNode × MasterManagerBase)
  | [], sf1rNode, m => some (sf1rNode, m)
  | r :: rest, sf1rNode, m =>
    if r ≠ sf1rNode.replicaId_ then do
      let nodePath := getNodePath r sf1rNode.nodeId_
      let (sdata, m1) ← m.zkGetZNodeData st nodePath WatchType.WATCH
      match sdata with
      | some sdata =>
        let pr :=
          if mine_primary then isPrimaryWorker env m1 st r sf1rNode.nodeId_ else (true, m1)
        if !pr.1 then failoverLoop env st mine_primary rest sf1rNode pr.2
        else
          let znode := env.loadKvString sdata
          if ZNode.hasKey znode ZNode.KEY_WORKER_PORT then
            let switched :=
              { sf1rNode with replicaId_ := r, host_ := ZNode.getStrValue znode ZNode.KEY_HOST }
            match env.lexicalCastPort (ZNode.getStrValue znode ZNode.KEY_WORKER_PORT) with
            | none => failoverLoop env st mine_primary rest switched pr.2
            | some port =>
              some ({ switched with worker_ := { switched.worker_ with
                        port_ := port, isGood_ := true } }, pr.2)
          else failoverLoop env st mine_primary rest sf1rNode pr.2
      | none => failoverLoop env st mine_primary rest sf1rNode m1
    else failoverLoop env st mine_primary rest sf1rNode m

/-- `MasterManagerBase::failover(boost::shared_ptr<Sf1rNode>&)`: the returned flag, the node
behind the pointer after the call, and the controller. -/
def failoverNode (env : Env) (st : Store) (m : MasterManagerBase) (sf1rNode : Sf1rNode) :
    Option (Bool × Sf1rNode × MasterManagerBase) := do
  let marked := { sf1rNode with worker_ := { sf1rNode.worker_ with isGood_ := false } }
  let mine_primary := m.isMinePrimary
  let (node1, m1) ← failoverLoop env st mine_primary m.replicaIdList_ marked m
  let (_, m2) ← m1.zkIsZNodeExists st
    (getNodePath m1.sf1rTopology_.curNode_.replicaId_ node1.nodeId_) WatchType.WATCH
  some (node1.worker_.isGood_, node1, m2)

/-- `MasterManagerBase::failover(const std::string&)`. -/
def failover (env : Env) (st : Store) (m : MasterManagerBase) (zpath : ZPath) :
    Option MasterManagerBase := do
  let m1 ← detectReadOnlyWorkers env st m zpath false
  let scan := m1.workerMap_.span
    (fun it => !decide (zpath = getNodePath it.2.replicaId_ it.2.nodeId_))
  match scan.2 with
  | [] => some m1
  | (shard, sf1rNode) :: later => do
    let (covered, node1, m2) ← failoverNode env st m1 sf1rNode
    let m3 := { m2 with workerMap_ := scan.1 ++ (shard, node1) :: later }
    let m4 :=
      if covered then m3
      else { m3 with masterState_ := MasterStateType.MASTER_STATE_STARTING_WAIT_WORKERS }
    some (resetAggregatorConfig m4)

/-- The result of the loop of `recover`: the worker map, `need_reset_agg`, the controller. -/
structure RecoverState where
  workers : WorkerMapT
  need_reset_agg : Bool
  m : MasterManagerBase

/-- The loop of `recover` over the entries of `workerMap_`. -/
def recoverLoop (env : Env) (st : Store) (zpath : ZPath) (mine_primary : Bool) :
    WorkerMapT → MasterManagerBase → Option RecoverState
  | [], m => some { workers := [], need_reset_agg := false, m := m }
  | (shard, sf1rNode) :: later, m =>
    let cur := m.sf1rTopology_.curNode_.replicaId_
    if zpath = getNodePath cur sf1rNode.nodeId_ then
      let pr :=
        if mine_primary then isPrimaryWorker env m st cur sf1rNode.nodeId_ else (true, m)
      if !pr.1 then do
        let r ← recoverLoop env st zpath mine_primary later pr.2
        some { r with workers := (shard, sf1rNode) :: r.workers }
      else if sf1rNode.replicaId_ = cur ∧ sf1rNode.worker_.isGood_ = true then
        some { workers := (shard, sf1rNode) :: later, need_reset_agg := false, m := pr.2 }
      else do
        let (sdata, m2) ← pr.2.zkGetZNodeData st zpath WatchType.WATCH
        let next := (recoverLoop env st zpath mine_primary later m2).map
          (fun r => { r with workers := (shard, sf1rNode) :: r.workers })
        match sdata with
        | some sdata =>
          let znode := env.loadKvString sdata
          if !ZNode.hasKey znode ZNode.KEY_WORKER_PORT then next
          else
            match env.lexicalCastPort (ZNode.getStrValue znode ZNode.KEY_WORKER_PORT) with
            | none => next
            | some port =>
              let recovered :=
                { sf1rNode with
                  replicaId_ := cur
                  host_ := ZNode.getStrValue znode ZNode.KEY_HOST
                  worker_ := { sf1rNode.worker_ with port_ := port, isGood_ := true } }
              some { workers := (shard, recovered) :: later, need_reset_agg := true, m := m2 }
        | none => next
    else do
      let r ← recoverLoop env st zpath mine_primary later m
      some { r with workers := (shard, sf1rNode) :: r.workers }

/-- `MasterManagerBase::recover`. -/
def recover (env : Env) (st : Store) (m : MasterManagerBase) (zpath : ZPath) :
    Option MasterManagerBase := do
  let mine_primary := m.isMinePrimary
  let r ← recoverLoop env st zpath mine_primary m.workerMap_ m
  let m1 := { r.m with workerMap_ := r.workers }
  let m2 := if r.need_reset_agg then resetAggregatorConfig m1 else m1
  detectReadOnlyWorkers env st m2 zpath true

/-! ### Migration coordinator -/

/-- The loop of `isAllShardNodeOK`. -/
def allShardNodeOKLoop (m : MasterManagerBase) : List shardid_t → Bool
  | [] => true
  | shardid :: rest =>
    if shardid = m.sf1rTopology_.curNode_.nodeId_ then allShardNodeOKLoop m rest
    else
      match ShardMap.find m.workerMap_ shardid with
      | none => allShardNodeOKLoop m rest
      | some node => if !node.worker_.isGood_ then false else allShardNodeOKLoop m rest

/-- `MasterManagerBase::isAllShardNodeOK`. -/
def isAllShardNodeOK (m : MasterManagerBase) (shardids : List shardid_t) : Bool :=
  if m.notConnected then false else allShardNodeOKLoop m shardids

/-- The loop of `isWriteQueueEmpty`, run with the client behind `zookeeper_`. -/
def writeQueueEmptyLoop (st : Store) (own : ZPath) :
    List shardid_t → ZooKeeper → Bool × ZooKeeper
  | [], zk => (true, zk)
  | shardid :: rest, zk =>
    let write_req_queue := getCurrWriteReqQueueParent shardid
    let r1 := zk.getZNodeChildren st write_req_queue WatchType.NOT_WATCH
    if r1.1.isEmpty then
      if write_req_queue = own then
        writeQueueEmptyLoop st own rest
          (r1.2.getZNodeChildren st write_req_queue WatchType.WATCH).2
      else writeQueueEmptyLoop st own rest r1.2
    else (false, r1.2)

/-- `MasterManagerBase::isWriteQueueEmpty`. -/
def isWriteQueueEmpty (m : MasterManagerBase) (st : Store) (shardids : List shardid_t) :
    Bool × MasterManagerBase :=
  match m.zookeeper_ with
  | none => (false, m)
  | some zk =>
    let r := writeQueueEmptyLoop st m.write_req_queue_parent_ shardids zk
    (r.1, { m with zookeeper_ := some r.2 })

/-- `MasterManagerBase::notifyAllShardingBeginMigrate`. -/
def notifyAllShardingBeginMigrate (env : Env) (m : MasterManagerBase) (st : Store)
    (shardids : List shardid_t) : Option (Bool × MasterManagerBase × Store) :=
  if !m.isMinePrimary then some (false, m, st)
  else if !m.isAllShardNodeOK shardids then some (false, m, st)
  else if m.write_prepared_ then some (false, m, st)
  else do
    let (writing, m1) ← m.zkIsZNodeExists st m.write_prepare_node_ WatchType.WATCH
    if writing then some (false, m1, st)
    else
      let q := m1.isWriteQueueEmpty st shardids
      if !q.1 then some (false, q.2, st)
      else do
        let (created, m3, st3) ← q.2.zkCreateZNode st q.2.migrate_prepare_node_
          (env.serialize []) ZNodeCreateType.ZNODE_EPHEMERAL
        if !created then do
          let (_, m4) ← m3.zkIsZNodeExists st3 m3.migrate_prepare_node_ WatchType.WATCH
          some (false, m4, st3)
        else some (true, m3, st3)

/-- `MasterManagerBase::notifyAllShardingEndMigrate`. -/
def notifyAllShardingEndMigrate (m : MasterManagerBase) (st : Store) :
    Option (MasterManagerBase × Store) := do
  let (_, m1, st1) ← m.zkDeleteZNode st m.migrate_prepare_node_
  some (m1, st1)

/-- The cache entry `(path, req_data, req_type)` that a refill builds for a queue child whose
payload it reads from the store. -/
def cacheEntry (env : Env) (st : Store) (child : ZPath) : ZPath × String × String :=
  (child,
    ZNode.getStrValue (env.loadKvString (((st.find child).map ZEntry.data).getD ""))
      ZNode.KEY_REQ_DATA,
    ZNode.getStrValue (env.loadKvString (((st.find child).map ZEntry.data).getD ""))
      ZNode.KEY_REQ_TYPE)

/-- The dispatch loop of the request handler: `k` calls of `popWriteReq` in a row, each of
which has to return true; the result lists the `(reqdata, type)` pairs in the order popped. -/
def popWriteReqs (env : Env) : Nat → MasterManagerBase → Store →
    Option (List (Option String × Option String) × MasterManagerBase × Store)
  | 0, m, st => some ([], m, st)
  | k + 1, m, st =>
    match m.popWriteReq env st with
    | some (true, reqdata, type, m1, st1) =>
      (popWriteReqs env k m1 st1).map (fun r => ((reqdata, type) :: r.1, r.2))
    | _ => none

end MasterManagerBase

/-! ## A concrete environment

A codec in the format of section 6 and a strict decimal port parser, used to run the
controller on concrete stores. -/

/-- Split a text at every occurrence of a delimiter. -/
def splitOnChar (d : Char) : List Char → List (List Char)
  | [] => [[]]
  | c :: cs =>
    if c = d then [] :: splitOnChar d cs
    else
      match splitOnChar d cs with
      | [] => [[c]]
      | w :: ws => (c :: w) :: ws

/-- Split a text at the first occurrence of a delimiter. -/
def splitFirst (d : Char) : List Char → Option (List Char × List Char)
  | [] => none
  | c :: cs =>
    if c = d then some ([], cs) else (splitFirst d cs).map (fun r => (c :: r.1, r.2))

/-- Modelled from the spec: the payload codec of section 6, `key=value` pairs separated by a
single delimiter (here `$`). -/
def kvSerialize (z : ZNode) : String :=
  String.intercalate "$" (z.map (fun kv => kv.1 ++ "=" ++ kv.2))

def kvLoad (s : String) : ZNode :=
  (splitOnChar '$' s.toList).filterMap (fun item =>
    (splitFirst '=' item).map (fun r => (String.mk r.1, String.mk r.2)))

def digitsValue : List Char → Nat → Option Nat
  | [], acc => some acc
  | c :: cs, acc => if c.isDigit then digitsValue cs (acc * 10 + (c.toNat - 48)) else none

/-- A strict port parser: a non-empty run of decimal digits with a value below `65536`. -/
def parsePort (s : String) : Option port_t :=
  match s.toList with
  | [] => none
  | cs => (digitsValue cs 0).bind (fun n => if n < 65536 then some n else none)

def kvEnv : Env :=
  { serialize := kvSerialize, loadKvString := kvLoad, lexicalCastPort := parsePort,
    isAsyncEnabled := false }

/-- The topology of a node with id `s` in replica `r` of a cluster with the given shards. -/
def topologyOf (r : replicaid_t) (s : shardid_t) (shards : List shardid_t) : Sf1rTopology :=
  { curNode_ := { Sf1rNode.new with nodeId_ := s, replicaId_ := r, host_ := "10.0.0.1" },
    all_shard_nodes_ := shards, shardidLists := [] }

def clientUp : ZooKeeper :=
  { connected := true, watches := [], errorCode := ZkError.ZERR_OK,
    lastCreatedNodePath := ZPath.other "" }

/-- A started master of shard `s` in replica `r`, registered as server number `n`, in
distributed mode, with a connected client. -/
def startedMaster (r : replicaid_t) (s : shardid_t) (shards : List shardid_t) (n : Nat)
    (primary : Bool) : MasterManagerBase :=
  { MasterManagerBase.initCfg (MasterManagerBase.create (topologyOf r s shards))
      (topologyOf r s shards) with
    isDistributeEnable_ := true
    masterState_ := MasterStateType.MASTER_STATE_STARTED
    zookeeper_ := some clientUp
    serverRealPath_ := ZPath.seq ZPath.server n
    is_mine_primary_ := primary }

/-- The payload of a worker node znode. -/
def workerPayload (host workerPort dataPort : String) : String :=
  kvSerialize [(ZNode.KEY_HOST, host), (ZNode.KEY_WORKER_PORT, workerPort),
    (ZNode.KEY_DATA_PORT, dataPort)]

def emptyStore : Store := { nodes := [], nextSeq := 0 }

/-- A master of shard 1 that lost its connection after it became primary. -/
def disconnectedMaster : MasterManagerBase :=
  { startedMaster 1 1 [1] 0 true with
    zookeeper_ := some { clientUp with connected := false } }

/-- A store in which shard 1 is write-locked by the master registered as server number 0. -/
def lockedStore : Store :=
  { nodes := [{ path := getWriteReqPrepareNode 1,
                data := MasterManagerBase.preparePayload kvEnv (startedMaster 1 1 [1] 0 true),
                ephemeral := true }],
    nextSeq := 0 }

/-- A master of shard 1 in distributed mode on which `start()` has not run yet: its
`zookeeper_` pointer is still null. -/
def masterBeforeStart : MasterManagerBase :=
  { MasterManagerBase.initCfg (MasterManagerBase.create (topologyOf 1 1 [1]))
      (topologyOf 1 1 [1]) with
    isDistributeEnable_ := true }

/-- A store whose request queue of shard 1 holds two requests; the znode with the larger
sequence number is listed first. -/
def queuedStore : Store :=
  { nodes := [{ path := ZPath.seq (getWriteReqQueueNode 1) 1,
                data := MasterManagerBase.requestPayload kvEnv "second" "index",
                ephemeral := false },
              { path := ZPath.seq (getWriteReqQueueNode 1) 0,
                data := MasterManagerBase.requestPayload kvEnv "first" "index",
                ephemeral := false }],
    nextSeq := 2 }

/-- What a call leaves alone when it only touches the client and the read-only side of the
controller: the worker map, the master state, the topology, the replica list, the primary
aggregators and the number of primary rebinds; a client that was there is still there. -/
def MasterManagerBase.PrimarySideKept (m m' : MasterManagerBase) : Prop :=
  m'.workerMap_ = m.workerMap_ ∧ m'.masterState_ = m.masterState_ ∧
  m'.sf1rTopology_ = m.sf1rTopology_ ∧ m'.replicaIdList_ = m.replicaIdList_ ∧
  m'.aggregatorList_ = m.aggregatorList_ ∧
  m'.calls.count Call.resetAggregatorConfig = m.calls.count Call.resetAggregatorConfig ∧
  m'.isDistributeEnable_ = m.isDistributeEnable_ ∧
  m'.is_mine_primary_ = m.is_mine_primary_ ∧
  (m.zookeeper_.isSome = true → m'.zookeeper_.isSome = true) ∧
  (∀ zk, m.zookeeper_ = some zk → ∃ zk', m'.zookeeper_ = some zk' ∧
    zk'.connected = zk.connected)

/-- Every node znode that offers a worker port carries a worker port and a data port that
pass the strict parser. -/
def PortsParse (env : Env) (st : Store) : Prop :=
  ∀ (r : replicaid_t) (s : shardid_t) (e : ZEntry), st.find (getNodePath r s) = some e →
    ZNode.hasKey (env.loadKvString e.data) ZNode.KEY_WORKER_PORT = true →
    (env.lexicalCastPort
      (ZNode.getStrValue (env.loadKvString e.data) ZNode.KEY_WORKER_PORT)).isSome = true ∧
    (env.lexicalCastPort
      (ZNode.getStrValue (env.loadKvString e.data) ZNode.KEY_DATA_PORT)).isSome = true

/-- The invariant of a detection pass in which every port parses: the worker map has one good
entry per detected shard of the topology. -/
def DetectInv (shards : List shardid_t) (d : MasterManagerBase.DetectState) : Prop :=
  (d.m.workerMap_.map Prod.fst).Nodup ∧
  (∀ e ∈ d.m.workerMap_, e.2.worker_.isGood_ = true ∧ e.1 ∈ shards) ∧
  d.detected ≤ d.m.workerMap_.length

/-- A store in which the only shard advertises a worker port that is not a number. -/
def badPortStore : Store :=
  { nodes := [{ path := getNodePath 1 1, data := workerPayload "10.0.0.2" "abc" "18121",
                ephemeral := true }],
    nextSeq := 0 }

/-- A started master of shard 1 in replica 1 of a cluster with the shards 1 and 2 and the
replicas 1 and 2. -/
def twoReplicaMaster : MasterManagerBase :=
  { startedMaster 1 1 [1, 2] 0 false with replicaIdList_ := [1, 2] }

/-- A store in which shard 1 advertises an unparsable worker port in replica 1 and a good
one in replica 2, and shard 2 has no node znode at all. -/
def countedTwiceStore : Store :=
  { nodes := [{ path := getNodePath 1 1, data := workerPayload "10.0.0.2" "abc" "18121",
                ephemeral := true },
              { path := getNodePath 2 1, data := workerPayload "10.0.0.3" "18151" "18121",
                ephemeral := true }],
    nextSeq := 0 }

/-- A store in which the worker of shard 1 is registered in replica 1 with ports that parse. -/
def goodStore : Store :=
  { nodes := [{ path := getNodePath 1 1, data := workerPayload "10.0.0.2" "18151" "18121",
                ephemeral := true }],
    nextSeq := 0 }

/-- A started master of shard 1 in replica 1 whose slot for shard 2 is bound to the worker of
replica 1; the replicas are listed as 2, 1. -/
def failoverMaster : MasterManagerBase :=
  { startedMaster 1 1 [1, 2] 0 false with
    replicaIdList_ := [2, 1]
    workerMap_ := [(2, { Sf1rNode.new with
      nodeId_ := 2, replicaId_ := 1, host_ := "10.0.0.2", dataPort_ := 18121,
      worker_ := { port_ := 18151, isGood_ := true, busyState_ := "" } })] }

/-- A store in which the worker of shard 2 in replica 2 advertises a worker port that is not
a number, while the znode of shard 2 in replica 1 is present with a port that parses. -/
def failoverStore : Store :=
  { nodes := [{ path := getNodePath 2 2, data := workerPayload "10.0.0.7" "abc" "18121",
                ephemeral := true },
              { path := getNodePath 1 2, data := workerPayload "10.0.0.9" "18152" "18121",
                ephemeral := true }],
    nextSeq := 0 }

/-- The slot that `recover` binds back to the current replica from a znode payload. -/
def recoveredSlot (env : Env) (cur : replicaid_t) (slot : Sf1rNode) (sdata : String)
    (port : port_t) : Sf1rNode :=
  { slot with
    replicaId_ := cur
    host_ := ZNode.getStrValue (env.loadKvString sdata) ZNode.KEY_HOST
    worker_ := { slot.worker_ with port_ := port, isGood_ := true } }

/-- A slot of shard 2 that failed over to the worker of replica 2. -/
def foreignSlot : Sf1rNode :=
  { Sf1rNode.new with
    nodeId_ := 2, replicaId_ := 2, host_ := "10.0.0.7", dataPort_ := 18121,
    worker_ := { port_ := 18151, isGood_ := true, busyState_ := "" } }

/-- A started master of shard 1 in replica 1 whose slot for shard 2 is `foreignSlot`. -/
def recoverMaster : MasterManagerBase :=
  { startedMaster 1 1 [1, 2] 0 false with
    replicaIdList_ := [1, 2]
    workerMap_ := [(2, foreignSlot)] }

/-- The concrete environment in async execution mode. -/
def kvEnvAsync : Env := { kvEnv with isAsyncEnabled := true }

/-! ## The routing tables in the words of the specification (section 4.4) -/

/-- The primary view: for each listed shard id, the current `workerMap_` entry if it is good,
marked local when its node id is the current node's id. -/
def primaryTableOfSpec (workers : WorkerMapT) (curNodeId : shardid_t)
    (shardidList : List shardid_t) : List WorkerServerInfo :=
  shardidList.filterMap (fun shardid =>
    (ShardMap.find workers shardid).bind (fun node =>
      if node.worker_.isGood_ then
        some { host := node.host_, port := node.worker_.port_, shardid := shardid,
               isLocal := decide (node.nodeId_ = curNodeId) }
      else none))

/-- The read-only view: for each listed shard id, every `(replica, node)` of
`readonly_workerMap_[shardId]` that is good. -/
def readOnlyTableOfSpec (ro : ROWorkerMapT) (shardidList : List shardid_t) :
    List WorkerServerInfo :=
  shardidList.flatMap (fun shardid =>
    ((ShardMap.find ro shardid).getD []).filterMap (fun nit =>
      if nit.2.worker_.isGood_ then
        some { host := nit.2.host_, port := nit.2.worker_.port_, shardid := shardid,
               isLocal := false }
      else none))

/-- The busy list: the `(host, port)` pairs of the nodes whose busy state is the collection
name. -/
def busyListOfSpec (ro : ROWorkerMapT) (coll : String) : List (String × port_t) :=
  (ro.flatMap Prod.snd).filterMap (fun nit =>
    if nit.2.worker_.busyState_ = coll then some (nit.2.host_, nit.2.worker_.port_) else none)

/-- An aggregator of the collection `coll` of the search service, before any rebind. -/
def searchAggregator : AggregatorBase :=
  { service := "search", collection := "coll", config := none, busyList := none }

/-- A worker node of the registry. -/
def workerNode (s : shardid_t) (r : replicaid_t) (host : String) (port : port_t) (good : Bool)
    (busy : String) : Sf1rNode :=
  { Sf1rNode.new with
    nodeId_ := s, replicaId_ := r, host_ := host, dataPort_ := 18121,
    worker_ := { port_ := port, isGood_ := good, busyState_ := busy } }

/-- A started master of shard 1 whose collection `coll` is spread over the shards 1, 2 and 3;
the worker of shard 1 is good, the one of shard 2 is not, shard 3 is unknown.  The read-only
registry knows two replicas of shard 1, one of them busy with indexing `coll`. -/
def aggregatorMaster : MasterManagerBase :=
  { startedMaster 1 1 [1, 2, 3] 0 false with
    sf1rTopology_ := { topologyOf 1 1 [1, 2, 3] with
      shardidLists := [(("search", "coll"), [1, 2, 3])] }
    workerMap_ := [(1, workerNode 1 1 "10.0.0.2" 18151 true ""),
                   (2, workerNode 2 1 "10.0.0.3" 18151 false "")]
    readonly_workerMap_ :=
      [(1, [(1, workerNode 1 1 "10.0.0.2" 18151 true ""),
            (2, workerNode 1 2 "10.0.0.4" 18151 true "coll")]),
       (2, [(1, workerNode 2 1 "10.0.0.3" 18151 false "")])] }

namespace MasterManagerBase

/-- `MasterManagerBase::disableNewWrite`. -/
def disableNewWrite (m : MasterManagerBase) : Bool × MasterManagerBase :=
  if m.write_prepared_ then (false, m) else (true, { m with new_write_disabled_ := true })

/-- `MasterManagerBase::enableNewWrite`. -/
def enableNewWrite (m : MasterManagerBase) : MasterManagerBase :=
  { m with new_write_disabled_ := false }

/-- `MasterManagerBase::endPreparedWrite`. -/
def endPreparedWrite (m : MasterManagerBase) : MasterManagerBase :=
  { m with write_prepared_ := false }

/-- The state between a successful `disableNewWrite` and the next `enableNewWrite`, on a
controller in distributed mode with a client behind `zookeeper_`. -/
def WriteBlocked (m : MasterManagerBase) : Prop :=
  m.isDistributeEnable_ = true ∧ m.new_write_disabled_ = true ∧ m.write_prepared_ = false ∧
  m.zookeeper_.isSome = true

end MasterManagerBase

namespace MasterManagerBase

/-- The loop of `pushWriteReqToShard` over `shardids`: one sequential create under the
request queue of each shard, stopping at the first create that fails. -/
def pushToShardLoop (payload : String) (include_self : Bool) :
    List shardid_t → MasterManagerBase → Store → Option (Bool × MasterManagerBase × Store)
  | [], m, st => some (true, m, st)
  | s :: rest, m, st =>
    if !include_self && decide (s = m.sf1rTopology_.curNode_.nodeId_) then
      pushToShardLoop payload include_self rest m st
    else
      match m.zkCreateZNode st (getWriteReqQueueNode s) payload
          ZNodeCreateType.ZNODE_SEQUENCE with
      | none => none
      | some (created, m1, st1) =>
        if created then pushToShardLoop payload include_self rest m1 st1
        else some (false, m1, st1)

/-- `MasterManagerBase::pushWriteReqToShard`.  The existence of the migration-prepare znode
is only asked for when `for_migrate` is false. -/
def pushWriteReqToShard (env : Env) (m : MasterManagerBase) (st : Store) (reqdata : String)
    (shardids : List shardid_t) (for_migrate include_self : Bool) :
    Option (Bool × MasterManagerBase × Store) :=
  if m.notConnected then some (false, m, st)
  else
    let znode : ZNode :=
      ZNode.setValue (ZNode.setValue [] ZNode.KEY_REQ_TYPE "api_from_shard")
        ZNode.KEY_REQ_DATA reqdata
    if for_migrate then pushToShardLoop (env.serialize znode) include_self shardids m st
    else do
      let (migrating, m1) ← m.zkIsZNodeExists st m.migrate_prepare_node_ WatchType.WATCH
      if migrating then some (false, m1, st)
      else pushToShardLoop (env.serialize znode) include_self shardids m1 st

/-- The shards that `pushWriteReqToShard` writes to: the elements of `shardids`, without the
current node's id when `include_self` is false. -/
def shardTargets (m : MasterManagerBase) (shardids : List shardid_t) (include_self : Bool) :
    List shardid_t :=
  shardids.filter (fun s => include_self || !decide (s = m.sf1rTopology_.curNode_.nodeId_))

end MasterManagerBase

/-- One sequential request znode per shard of the list, numbered from `n` on. -/
def shardRequestEntries (payload : String) : Nat → List shardid_t → List ZEntry
  | _, [] => []
  | n, s :: rest =>
    ZEntry.mk (ZPath.seq (getWriteReqQueueNode s) n) payload false ::
      shardRequestEntries payload (n + 1) rest

/-- No znode of the store carries a sequence number that the store has yet to hand out. -/
def Store.SeqFresh (st : Store) : Prop :=
  ∀ (p : ZPath) (n : Nat), st.nextSeq ≤ n → st.contains (ZPath.seq p n) = false

/-- A store in which a migration is in progress. -/
def migratingStore : Store :=
  { nodes := [{ path := ZPath.migratePrepare, data := "", ephemeral := true }],
    nextSeq := 0 }

/-- A master of shard 1 on which `stop()` has set `stopping_` and has not yet disconnected
the client. -/
def stoppingMaster : MasterManagerBase :=
  { startedMaster 1 1 [1, 2] 0 true with stopping_ := true }

/-- The master of shard 2, registered as server number 1, on which `stop()` has set
`stopping_` and has not yet disconnected the client. -/
def stoppingShardNode : MasterManagerBase :=
  { startedMaster 1 2 [1, 2, 3] 1 false with stopping_ := true }

/-- A master of shard 1 with a connected client on which distributed mode is off. -/
def localMaster : MasterManagerBase :=
  { startedMaster 1 1 [1, 2] 0 true with isDistributeEnable_ := false }

/-- What the read-only detection guarantees of the entry that it makes for shard `s` in
replica `r`: the znode of that node exists and offers a worker port; when that port passes
the strict parser the entry carries the parsed value, and when it does not the entry is
marked as not good. -/
def ROEntryOK (env : Env) (st : Store) (s : shardid_t) (r : replicaid_t) (node : Sf1rNode) :
    Prop :=
  ∃ e, st.find (getNodePath r s) = some e ∧
    ZNode.hasKey (env.loadKvString e.data) ZNode.KEY_WORKER_PORT = true ∧
    (∀ port, env.lexicalCastPort
        (ZNode.getStrValue (env.loadKvString e.data) ZNode.KEY_WORKER_PORT) = some port →
      node.worker_.port_ = port) ∧
    (env.lexicalCastPort
        (ZNode.getStrValue (env.loadKvString e.data) ZNode.KEY_WORKER_PORT) = none →
      node.worker_.isGood_ = false)

/-- Every entry `ro[s][r]` of a read-only worker map satisfies `ROEntryOK`. -/
def ROWorkersOK (env : Env) (st : Store) (ro : ROWorkerMapT) : Prop :=
  ∀ (s : shardid_t) (nodes : ShardMap Sf1rNode) (r : replicaid_t) (node : Sf1rNode),
    ShardMap.find ro s = some nodes → ShardMap.find nodes r = some node →
    ROEntryOK env st s r node

/-! ## Migration: the new sharding nodes and the service state -/

/-- Modelled from the spec: the key suffix of `<service>collection` (section 6). -/
def ZNode.KEY_COLLECTION : String := "collection"

/-- Modelled from the spec: the conversions between ids and their text that the controller
uses and that live outside `MasterManagerBase.cpp`: `getShardidStr`,
`boost::lexical_cast<uint32_t>` followed by the cast to `shardid_t`, and
`boost::lexical_cast<replicaid_t>` (with `none` for the thrown exception). -/
structure IdText where
  getShardidStr : shardid_t → String
  lexicalCastShardid : String → Option shardid_t
  lexicalCastReplicaid : String → Option replicaid_t

/-- Modelled from the spec: what `setServicesData` reads of the master part of the current
node and of the registered distributed services (`Sf1rTopology.h` and `SuperNodeManager.h` are
not among the sources): whether the master offers any service, the service names in the order
of `all_distributed_services_` with the collection names of each, the master port and the
master name. -/
structure MasterServices where
  hasAnyService : Bool
  services : List (String × List String)
  masterPort : port_t
  masterName : String

/-- The step `if (acc.empty()) acc = item; else acc += "," + item;` of the loops that
build a comma separated text. -/
def appendComma (acc item : String) : String :=
  if acc = "" then item else acc ++ "," ++ item

/-- The items that `while (getline(ss, item, delim))` reads from a text: the pieces between
the delimiters, with no item after a delimiter that ends the text. -/
def getlineItems (d : Char) : List Char → List (List Char)
  | [] => []
  | c :: cs =>
    if c = d then [] :: getlineItems d cs
    else
      match getlineItems d cs with
      | [] => [[c]]
      | w :: ws => (c :: w) :: ws

namespace MasterManagerBase

def zkSetZNodeData (m : MasterManagerBase) (st : Store) (p : ZPath) (data : String) :
    Option (Bool × MasterManagerBase × Store) :=
  match m.zookeeper_ with
  | none => none
  | some zk => some ((zk.setZNodeData st p data).1,
      { m with zookeeper_ := some (zk.setZNodeData st p data).2.1 },
      (zk.setZNodeData st p data).2.2)

/-- The `getline` loop of `isMineNewSharding` over the items of `new_shardids`; `none` is
the exception that `boost::lexical_cast` throws on an item that is not a number. -/
def newShardingLoop (txt : IdText) (cur : shardid_t) : List (List Char) → Option Bool
  | [] => some false
  | item :: rest =>
    if item = [] then newShardingLoop txt cur rest
    else
      match txt.lexicalCastShardid (String.mk item) with
      | none => none
      | some v => if cur = v then some true else newShardingLoop txt cur rest

/-- `MasterManagerBase::isMineNewSharding`; `none` is the exception of the cast, which the
function does not catch. -/
def isMineNewSharding (env : Env) (txt : IdText) (m : MasterManagerBase) (st : Store) :
    Option (Bool × MasterManagerBase) :=
  match m.zookeeper_ with
  | none => some (false, m)
  | some zk =>
    let r := zk.getZNodeData st m.migrate_prepare_node_ WatchType.WATCH
    let m1 := { m with zookeeper_ := some r.2 }
    match r.1 with
    | none => some (false, m1)
    | some olddata =>
      let new_shardids :=
        ZNode.getStrValue (env.loadKvString olddata) ZNode.KEY_NEW_SHARDING_NODEIDS
      if new_shardids = "" then some (false, m1)
      else
        (newShardingLoop txt m.sf1rTopology_.curNode_.nodeId_
          (getlineItems ',' new_shardids.toList)).map (fun found => (found, m1))

/-- The text `new_shardids` that `waitForNewShardingNodes` builds from the shard ids. -/
def newShardidsText (txt : IdText) (shardids : List shardid_t) : String :=
  (shardids.map txt.getShardidStr).foldl appendComma ""

/-- The payload that `waitForNewShardingNodes` writes when it read `olddata` (`none` when the
read failed) from the migration-prepare znode. -/
def newShardingPayload (env : Env) (txt : IdText) (olddata : Option String)
    (shardids : List shardid_t) : String :=
  let znode : ZNode :=
    match olddata with
    | some olddata => env.loadKvString olddata
    | none => []
  env.serialize (ZNode.setValue znode ZNode.KEY_NEW_SHARDING_NODEIDS
    (newShardidsText txt shardids))

/-- One round of the loop of `MasterManagerBase::waitForNewShardingNodes`, up to its
`sleep(30)`: the payload of the migration-prepare znode is read, extended by the list of the
new shard ids and written back.  The first component tells whether the write succeeded; the
function returns false without a round when `zookeeper_` is null, which is `none` here. -/
def waitForNewShardingNodesRound (env : Env) (txt : IdText) (m : MasterManagerBase)
    (st : Store) (shardids : List shardid_t) : Option (Bool × MasterManagerBase × Store) := do
  let (olddata, m1) ← m.zkGetZNodeData st m.migrate_prepare_node_ WatchType.WATCH
  m1.zkSetZNodeData st m1.migrate_prepare_node_ (newShardingPayload env txt olddata shardids)

/-- The loop of `setServicesData` over `all_distributed_services_`: the payload with the
collections of every service, and the text `services`. -/
def setServiceCollections : List (String × List String) → ZNode → String → ZNode × String
  | [], znode, services => (znode, services)
  | (name, colls) :: rest, znode, services =>
    setServiceCollections rest
      (ZNode.setValue znode (name ++ ZNode.KEY_COLLECTION) (colls.foldl appendComma ""))
      (appendComma services name)

/-- `MasterManagerBase::setServicesData`. -/
def setServicesData (env : Env) (txt : IdText) (svc : MasterServices)
    (m : MasterManagerBase) (st : Store) (znode : ZNode) :
    Option (ZNode × MasterManagerBase) := do
  let (mine, m1) ← m.isMineNewSharding env txt st
  let new_state := if mine then "BusyForSelf" else "ReadyForRead"
  let z1 := ZNode.setValue znode ZNode.KEY_REPLICA_ID
    (toString m1.sf1rTopology_.curNode_.replicaId_)
  let z2 := ZNode.setValue z1 ZNode.KEY_SERVICE_STATE new_state
  if svc.hasAnyService then
    let r := setServiceCollections svc.services z2 ""
    let z3 := ZNode.setValue r.1 ZNode.KEY_SERVICE_NAMES r.2
    let z4 := ZNode.setValue z3 ZNode.KEY_MASTER_PORT (toString svc.masterPort)
    some (ZNode.setValue z4 ZNode.KEY_MASTER_NAME svc.masterName, m1)
  else some (z2, m1)

/-- The loop of `updateServiceReadStateWithoutLock` over `workerMap_`: `none` when it ends
with `all_ready` still true, otherwise the state it chose before the `break`. -/
def serviceReadScan (env : Env) (st : Store) (cur : shardid_t) (include_self : Bool) :
    List (Nat × Sf1rNode) → MasterManagerBase → Option (Option String × MasterManagerBase)
  | [], m => some (none, m)
  | (_, node) :: rest, m =>
    if decide (node.nodeId_ = cur) && !include_self then
      serviceReadScan env st cur include_self rest m
    else
      match m.zkGetZNodeData st (getNodePath node.replicaId_ node.nodeId_) WatchType.WATCH with
      | none => none
      | some (some sdata, m1) =>
        let value := ZNode.getStrValue (env.loadKvString sdata) ZNode.KEY_SERVICE_STATE
        if value ≠ "ReadyForRead" ∧ value ≠ "BusyForShard" then
          some (some (if node.nodeId_ = cur then "BusyForSelf" else "BusyForShard"), m1)
        else serviceReadScan env st cur include_self rest m1
      | some (none, m1) =>
        if node.nodeId_ = cur then some (some "BusyForSelf", m1)
        else serviceReadScan env st cur include_self rest m1

/-- `MasterManagerBase::updateServiceReadStateWithoutLock`. -/
def updateServiceReadStateWithoutLock (env : Env) (txt : IdText) (svc : MasterServices)
    (m : MasterManagerBase) (st : Store) (my_state : String) (include_self : Bool) :
    Option (MasterManagerBase × Store) :=
  if m.masterState_ ≠ MasterStateType.MASTER_STATE_STARTED ∧
      m.masterState_ ≠ MasterStateType.MASTER_STATE_STARTING_WAIT_WORKERS then some (m, st)
  else if m.stopping_ then some (m, st)
  else do
    let (olddata, m1) ← m.zkGetZNodeData st m.serverRealPath_ WatchType.WATCH
    match olddata with
    | none => some (m1, st)
    | some olddata =>
      if olddata = "" then some (m1, st)
      else do
        let znode := env.loadKvString olddata
        let (mine, m2) ← m1.isMineNewSharding env txt st
        let new_state0 := if mine then "BusyForSelf" else my_state
        let old_state := ZNode.getStrValue znode ZNode.KEY_SERVICE_STATE
        let (new_state, m3) ←
          if new_state0 = "BusyForShard" ∨ new_state0 = "ReadyForRead" then
            (serviceReadScan env st m2.sf1rTopology_.curNode_.nodeId_ include_self
              m2.workerMap_ m2).map (fun r => (r.1.getD "ReadyForRead", r.2))
          else some (new_state0, m2)
        if old_state = new_state then some (m3, st)
        else do
          let z1 := ZNode.setValue znode ZNode.KEY_HOST m3.sf1rTopology_.curNode_.host_
          let z2 := ZNode.setValue z1 ZNode.KEY_BA_PORT
            (toString m3.sf1rTopology_.curNode_.baPort_)
          let (z3, m4) ← m3.setServicesData env txt svc st z2
          let z4 := ZNode.setValue z3 ZNode.KEY_SERVICE_STATE new_state
          let (_, m5, st5) ← m4.zkSetZNodeData st m4.serverRealPath_ (env.serialize z4)
          some (m5, st5)

/-- `MasterManagerBase::updateServiceReadState`: the same under `state_mutex_`. -/
def updateServiceReadState (env : Env) (txt : IdText) (svc : MasterServices)
    (m : MasterManagerBase) (st : Store) (my_state : String) (include_self : Bool) :
    Option (MasterManagerBase × Store) :=
  m.updateServiceReadStateWithoutLock env txt svc st my_state include_self

end MasterManagerBase

/-- A strict parser of shard ids: a non-empty run of decimal digits below `2 ^ 32`. -/
def parseShardid (s : String) : Option shardid_t :=
  match s.toList with
  | [] => none
  | cs => (digitsValue cs 0).bind (fun n => if n < 4294967296 then some n else none)

/-- Ids written and read in decimal. -/
def decimalText : IdText :=
  { getShardidStr := fun s => toString s, lexicalCastShardid := parseShardid,
    lexicalCastReplicaid := parseShardid }

/-- A master that offers the search service for two collections. -/
def searchServices : MasterServices :=
  { hasAnyService := true, services := [("search", ["b5mp", "b5mo"])], masterPort := 18131,
    masterName := "master" }

/-- A store in which a migration has begun (the migration-prepare znode carries an empty
payload) and in which the master of shard 2 is registered as server number 1, ready for
read. -/
def migrationStore : Store :=
  { nodes := [{ path := ZPath.migratePrepare, data := "", ephemeral := true },
              { path := ZPath.seq ZPath.server 1,
                data := kvSerialize [(ZNode.KEY_SERVICE_STATE, "ReadyForRead")],
                ephemeral := true }],
    nextSeq := 2 }

/-! ## Start of the controller -/

/-- Modelled from the spec: `connect` of the coordination client; the session is established
when the coordination service can be reached. -/
def ZooKeeper.connect (zk : ZooKeeper) (reachable : Bool) : ZooKeeper :=
  { zk with connected := reachable }

/-- The branch that `process` takes on a session event with state `CONNECTED`. -/
inductive ConnectedBranch where
  | ignored
  | started
  | autoReconnect
  deriving DecidableEq, Repr

namespace MasterManagerBase

/-- `MasterManagerBase::init`; `created` is what `createClient` hands out. -/
def init (m : MasterManagerBase) (created : Option ZooKeeper) : Bool × MasterManagerBase :=
  match created with
  | none => (false, { m with zookeeper_ := none })
  | some zk => (true, { m with zookeeper_ := some zk, stopping_ := false })

/-- `MasterManagerBase::checkZooKeeperService`. -/
def checkZooKeeperService (m : MasterManagerBase) (reachable : Bool) :
    Option (Bool × MasterManagerBase) :=
  match m.zookeeper_ with
  | none => none
  | some zk =>
    if !zk.isConnected then
      let zk1 := zk.connect reachable
      if !zk1.isConnected then some (false, { m with zookeeper_ := some zk1 })
      else some (true, { m with zookeeper_ := some zk1 })
    else some (true, m)

/-- The `try` block of `detectReplicaSet`: the replica id is appended to `replicaIdList_`
unless the cast throws. -/
def pushReplicaId (txt : IdText) (m : MasterManagerBase) (sreplicaId : String) :
    MasterManagerBase :=
  match txt.lexicalCastReplicaid sreplicaId with
  | some r => { m with replicaIdList_ := m.replicaIdList_ ++ [r] }
  | none => m

/-- The loop of `detectReplicaSet` over the children of the topology znode. -/
def detectReplicaLoop (txt : IdText) (st : Store) :
    List ZPath → MasterManagerBase → Option MasterManagerBase
  | [], m => some m
  | child :: rest, m => do
    let (data, m1) ← m.zkGetZNodeData st child WatchType.NOT_WATCH
    let m2 := pushReplicaId txt m1 (data.getD "")
    let (_, m3) ← m2.zkGetZNodeChildren st child WatchType.WATCH
    let (_, m4) ← m3.zkIsZNodeExists st child WatchType.WATCH
    detectReplicaLoop txt st rest m4

/-- The loop of `detectReplicaSet` over `workerMap_` that tries a failover for every node that
is not good: the worker map after it, the controller, and `need_reset_agg`. -/
def failoverNotGood (env : Env) (st : Store) :
    WorkerMapT → MasterManagerBase → Bool → Option (WorkerMapT × MasterManagerBase × Bool)
  | [], m, need_reset_agg => some ([], m, need_reset_agg)
  | (shard, sf1rNode) :: later, m, need_reset_agg =>
    if !sf1rNode.worker_.isGood_ then do
      let (covered, node1, m1) ← failoverNode env st m sf1rNode
      let m2 :=
        if covered then m1
        else { m1 with masterState_ := MasterStateType.MASTER_STATE_STARTING_WAIT_WORKERS }
      let (workers, m3, need) ← failoverNotGood env st later m2 true
      some ((shard, node1) :: workers, m3, need)
    else do
      let (workers, m3, need) ← failoverNotGood env st later m need_reset_agg
      some ((shard, sf1rNode) :: workers, m3, need)

/-- `MasterManagerBase::detectReplicaSet`. -/
def detectReplicaSet (env : Env) (txt : IdText) (st : Store) (m : MasterManagerBase) :
    Option MasterManagerBase := do
  let (childrenList, m1) ← m.zkGetZNodeChildren st m.topologyPath_ WatchType.WATCH
  let m2 ← detectReplicaLoop txt st childrenList { m1 with replicaIdList_ := [] }
  let m3 ←
    if m2.masterState_ = MasterStateType.MASTER_STATE_STARTING_WAIT_WORKERS then
      (m2.detectWorkers env st).map (fun r => r.2)
    else detectReadOnlyWorkers env st m2 (ZPath.other "") true
  let (workers, m4, need_reset_agg) ← failoverNotGood env st m3.workerMap_ m3 false
  let m5 := { m4 with workerMap_ := workers }
  if need_reset_agg then some (resetAggregatorConfig m5) else some m5

/-- The step `if (!isZNodeExists(path, watch)) createZNode(path);` of
`registerServiceServer`. -/
def ensureZNode (m : MasterManagerBase) (st : Store) (p : ZPath) (w : WatchType) :
    Option (MasterManagerBase × Store) := do
  let (found, m1) ← m.zkIsZNodeExists st p w
  if !found then do
    let (_, m2, st2) ← m1.zkCreateZNode st p "" ZNodeCreateType.ZNODE_NORMAL
    some (m2, st2)
  else some (m1, st)

/-- The assignment `serverRealPath_ = zookeeper_->getLastCreatedNodePath()`. -/
def setServerRealPath (m : MasterManagerBase) : MasterManagerBase :=
  match m.zookeeper_ with
  | some zk => { m with serverRealPath_ := zk.lastCreatedNodePath }
  | none => m

/-- `MasterManagerBase::registerServiceServer`; `initServices` is empty. -/
def registerServiceServer (env : Env) (txt : IdText) (svc : MasterServices)
    (m : MasterManagerBase) (st : Store) : Option (MasterManagerBase × Store) := do
  let (m1, st1) ← m.ensureZNode st m.serverParentPath_ WatchType.NOT_WATCH
  let z1 := ZNode.setValue [] ZNode.KEY_HOST m1.sf1rTopology_.curNode_.host_
  let z2 := ZNode.setValue z1 ZNode.KEY_BA_PORT (toString m1.sf1rTopology_.curNode_.baPort_)
  let (z3, m2) ← m1.setServicesData env txt svc st1 z2
  let (created, m3, st3) ← m2.zkCreateZNode st1 m2.serverPath_ (env.serialize z3)
    ZNodeCreateType.ZNODE_EPHEMERAL_SEQUENCE
  let m4 := if created then m3.setServerRealPath else m3
  let (m5, st5) ← m4.ensureZNode st3 m4.write_req_queue_root_parent_ WatchType.WATCH
  let (m6, st6) ← m5.ensureZNode st5 m5.write_req_queue_parent_ WatchType.WATCH
  let (m7, st7) ← m6.ensureZNode st6 m6.write_prepare_node_parent_ WatchType.WATCH
  let (_, m8) ← m7.zkGetZNodeChildren st7 m7.write_req_queue_parent_ WatchType.WATCH
  some (m8, st7)

/-- `MasterManagerBase::doStart`. -/
def doStart (env : Env) (txt : IdText) (svc : MasterServices) (m : MasterManagerBase)
    (st : Store) : Option (MasterManagerBase × Store) := do
  let m1 := { m with stopping_ := false }
  let m2 ← detectReplicaSet env txt st m1
  let (_, m3) ← m2.detectWorkers env st
  registerServiceServer env txt svc m3 st

/-- `MasterManagerBase::start`.  `created` is the client that `createClient` hands out and
`reachable` tells whether `connect` reaches the coordination service; `none` is the
`runtime_error` thrown when `init` fails (or an exception of a callee).  The calls of
`initMaster` on the registered services at the end do not touch the controller and are left
out. -/
def start (env : Env) (txt : IdText) (svc : MasterServices) (created : Option ZooKeeper)
    (reachable : Bool) (m : MasterManagerBase) (st : Store) :
    Option (MasterManagerBase × Store) :=
  if m.masterState_ = MasterStateType.MASTER_STATE_INIT then
    let r := m.init created
    if !r.1 then none
    else do
      let (up, m2) ← r.2.checkZooKeeperService reachable
      if !up then
        some ({ m2 with masterState_ := MasterStateType.MASTER_STATE_STARTING_WAIT_ZOOKEEPER }, st)
      else if m2.masterState_ ≠ MasterStateType.MASTER_STATE_INIT then some (m2, st)
      else doStart env txt svc { m2 with masterState_ := MasterStateType.MASTER_STATE_STARTING } st
  else some (m, st)

/-- `MasterManagerBase::process` for a session event with state `CONNECTED`.  The first
component names the branch taken.  The auto-reconnect branch (a controller that is neither in
`INIT`, in `STARTING` nor waiting for the coordination service) is named only: its body is
not part of this function and the state is returned as it was on entry to the branch. -/
def processSessionConnected (env : Env) (txt : IdText) (svc : MasterServices)
    (m : MasterManagerBase) (st : Store) :
    Option (ConnectedBranch × MasterManagerBase × Store) :=
  if m.stopping_ then some (ConnectedBranch.ignored, m, st)
  else if m.masterState_ = MasterStateType.MASTER_STATE_STARTING_WAIT_ZOOKEEPER then
    (doStart env txt svc { m with masterState_ := MasterStateType.MASTER_STATE_STARTING } st).map
      (fun r => (ConnectedBranch.started, r.1, r.2))
  else if m.masterState_ ≠ MasterStateType.MASTER_STATE_INIT ∧
      m.masterState_ ≠ MasterStateType.MASTER_STATE_STARTING then
    some (ConnectedBranch.autoReconnect, m, st)
  else some (ConnectedBranch.ignored, m, st)

end MasterManagerBase

/-- No payload in the store makes the cast of `isMineNewSharding` throw: every non-empty item
of every `new_sharding_nodeids` value is read by `lexical_cast`. -/
def CastsSucceed (env : Env) (txt : IdText) (st : Store) : Prop :=
  ∀ e ∈ st.nodes, ∀ item ∈ getlineItems ','
      (ZNode.getStrValue (env.loadKvString e.data) ZNode.KEY_NEW_SHARDING_NODEIDS).toList,
    item ≠ [] → (txt.lexicalCastShardid (String.mk item)).isSome = true

/-- A client that has been created and is not connected yet. -/
def clientDown : ZooKeeper := { clientUp with connected := false }

/-- A controller of shard 1 in replica 1 of a cluster with the shards 1 and 2, in distributed
mode, on which `start()` has not run yet. -/
def masterInit : MasterManagerBase :=
  { MasterManagerBase.initCfg (MasterManagerBase.create (topologyOf 1 1 [1, 2]))
      (topologyOf 1 1 [1, 2]) with
    isDistributeEnable_ := true }

/-- A store with one replica in which the workers of both shards are registered. -/
def clusterStore : Store :=
  { nodes := [{ path := ZPath.replica 1, data := "1", ephemeral := false },
              { path := getNodePath 1 1, data := workerPayload "10.0.0.2" "18151" "18121",
                ephemeral := true },
              { path := getNodePath 1 2, data := workerPayload "10.0.0.3" "18151" "18121",
                ephemeral := true }],
    nextSeq := 0 }

/-! ## Stop of the controller -/

/-- Modelled from the spec: `disconnect` of the coordination client; the session ends and
the pending watches are discarded. -/
def ZooKeeper.disconnect (zk : ZooKeeper) : ZooKeeper :=
  { zk with connected := false, watches := [] }

namespace MasterManagerBase

/-- The block of `stop()` that runs when the client is there and connected: the server znode
is deleted, the server parent too when it has no child left, and the client disconnects. -/
def stopConnected (zk : ZooKeeper) (m : MasterManagerBase) (st : Store) :
    MasterManagerBase × Store :=
  let r1 := zk.deleteZNode st m.serverRealPath_
  let r2 := r1.2.1.getZNodeChildren r1.2.2 m.serverParentPath_ WatchType.NOT_WATCH
  let r3 :=
    if r2.1.length = 0 then r2.2.deleteZNode r1.2.2 m.serverParentPath_
    else (false, r2.2, r1.2.2)
  let r4 := r3.2.1.isZNodeExists r3.2.2 m.write_req_queue_parent_ WatchType.NOT_WATCH
  let r5 := r4.2.isZNodeExists r3.2.2 m.write_req_queue_root_parent_ WatchType.NOT_WATCH
  ({ m with zookeeper_ := some r5.2.disconnect }, r3.2.2)

/-- `MasterManagerBase::stop`. -/
def stop (m : MasterManagerBase) (st : Store) : MasterManagerBase × Store :=
  let m1 := { m with stopping_ := true }
  let r :=
    match m1.zookeeper_ with
    | some zk => if zk.isConnected then stopConnected zk m1 st else (m1, st)
    | none => (m1, st)
  ({ r.1 with masterState_ := MasterStateType.MASTER_STATE_INIT, waiting_request_num_ := 0 },
    r.2)

end MasterManagerBase

/-- A store in which the master registered as server number 0 is the only server. -/
def serverStore : Store :=
  { nodes := [{ path := ZPath.serverParent, data := "", ephemeral := false },
              { path := ZPath.seq ZPath.server 0, data := "host=10.0.0.1", ephemeral := true }],
    nextSeq := 1 }

/-! ## The write check -/

/-- Modelled from the spec: the injected handler `on_new_req_available_` (its code lives
outside `MasterManagerBase.cpp`).  It reaches the controller and the store through the public
methods of the controller: it is a function on both that returns the flag of the handler. -/
abbrev NewReqHandler := MasterManagerBase → Store → Bool × MasterManagerBase × Store

namespace MasterManagerBase

/-- `MasterManagerBase::checkForNewWriteReq`; `handler` is `on_new_req_available_`, `none`
when it is not set.  A call of the handler is recorded in `calls` before it runs. -/
def checkForNewWriteReq (env : Env) (handler : Option NewReqHandler) (m : MasterManagerBase)
    (st : Store) : Option (MasterManagerBase × Store) :=
  if m.masterState_ ≠ MasterStateType.MASTER_STATE_STARTED ∧
      m.masterState_ ≠ MasterStateType.MASTER_STATE_STARTING_WAIT_WORKERS then some (m, st)
  else if m.write_prepared_ then some (m, st)
  else if !m.is_ready_for_new_write_ then some (m, st)
  else do
    let (ended, m1, st1) ← m.endWriteReq env st
    if !ended then do
      let (_, m2) ← m1.zkIsZNodeExists st1 m1.write_prepare_node_ WatchType.WATCH
      some (m2, st1)
    else do
      let (refilled, m2) ←
        if m1.cached_write_reqlist_.isEmpty then cacheNewWriteFromZNode env m1 st1
        else some (true, m1)
      if !refilled then some (m2, st1)
      else if !m2.cached_write_reqlist_.isEmpty then
        match handler with
        | some h =>
          let r := h { m2 with calls := Call.onNewReqAvailable :: m2.calls } st1
          if !r.1 then do
            let (_, m5, st5) ← endWriteReq env { r.2.1 with write_prepared_ := false } r.2.2
            let (_, m6) ← m5.zkIsZNodeExists st5 m5.write_req_queue_parent_ WatchType.WATCH
            some (m6, st5)
          else some (r.2.1, r.2.2)
        | none => some (m2, st1)
      else some (m2, st1)

/-- `MasterManagerBase::checkForWriteReq`. -/
def checkForWriteReq (env : Env) (handler : Option NewReqHandler) (m : MasterManagerBase)
    (st : Store) : Option (MasterManagerBase × Store) :=
  if !m.isDistributeEnable_ then some (m, st)
  else if !m.isMinePrimary then
    if m.notConnected then some (m, st)
    else do
      let m1 := if !m.cached_write_reqlist_.isEmpty then { m with cached_write_reqlist_ := [] }
        else m
      let (_, m2) ← m1.zkIsZNodeExists st m1.write_prepare_node_ WatchType.NOT_WATCH
      let (_, m3) ← m2.zkIsZNodeExists st m2.write_req_queue_parent_ WatchType.NOT_WATCH
      some (m3, st)
  else
    match m.masterState_ with
    | MasterStateType.MASTER_STATE_STARTED => checkForNewWriteReq env handler m st
    | MasterStateType.MASTER_STATE_STARTING_WAIT_WORKERS => checkForNewWriteReq env handler m st
    | _ => some (m, st)

/-- `MasterManagerBase::notifyChangedPrimary`. -/
def notifyChangedPrimary (env : Env) (m : MasterManagerBase) (st : Store)
    (is_new_primary : Bool) : Option (MasterManagerBase × Store) := do
  let (m1, st1) ←
    if !is_new_primary then (m.endWriteReq env st).map (fun r => (r.2.1, r.2.2))
    else some (m, st)
  let m2 := { m1 with is_mine_primary_ := is_new_primary }
  if is_new_primary then
    if m2.masterState_ = MasterStateType.MASTER_STATE_STARTED ∨
        m2.masterState_ = MasterStateType.MASTER_STATE_STARTING_WAIT_WORKERS then
      if m2.stopping_ then some (m2, st1)
      else do
        let (_, m3) ← m2.detectWorkers env st1
        let (_, m4) ← m3.zkIsZNodeExists st1 m3.write_prepare_node_ WatchType.WATCH
        if m4.cached_write_reqlist_.isEmpty then
          (cacheNewWriteFromZNode env m4 st1).map (fun r => (r.2, st1))
        else some (m4, st1)
    else some (m2, st1)
  else some (m2, st1)

/-- `MasterManagerBase::getShardReceiver`: the returned flag and the values left in `host`
and `recvPort` (`none` when the method does not assign them). -/
def getShardReceiver (m : MasterManagerBase) (shardid : shardid_t) :
    Bool × Option String × Option port_t :=
  match ShardMap.find m.workerMap_ shardid with
  | some node => (true, some node.host_, some node.dataPort_)
  | none => (false, none, none)

end MasterManagerBase

/-- A master of shard 1 that is not the primary of its shard, with a connected client that
holds no watch. -/
def nonPrimaryMaster : MasterManagerBase := startedMaster 1 1 [1] 0 false

/-- A primary master of shard 1 that is ready for a new write. -/
def readyMaster : MasterManagerBase :=
  { startedMaster 1 1 [1] 0 true with is_ready_for_new_write_ := true }

/-- A handler that accepts every request and leaves controller and store as they are. -/
def acceptHandler : NewReqHandler := fun m st => (true, m, st)

/-- The conditions under which `checkForWriteReq` goes on to the request queue: the master
is primary, it is started or waits for workers, no write is prepared, it is ready for a new
write, and `endWriteReq` returns true. -/
def WriteCheckReady (env : Env) (m : MasterManagerBase) (st : Store) : Prop :=
  m.isMinePrimary = true ∧
  (m.masterState_ = MasterStateType.MASTER_STATE_STARTED ∨
    m.masterState_ = MasterStateType.MASTER_STATE_STARTING_WAIT_WORKERS) ∧
  m.write_prepared_ = false ∧ m.is_ready_for_new_write_ = true ∧
  ∃ m1 st1, m.endWriteReq env st = some (true, m1, st1)

/-- A store in which the request queue of shard 3 already holds the znode with sequence
number 1, the number that the second sequential create of a call will be handed. -/
def collidingStore : Store :=
  { nodes := [{ path := ZPath.seq (getWriteReqQueueNode 3) 1, data := "", ephemeral := false }],
    nextSeq := 0 }

/-- A store in which the worker of shard 2 is registered in replica 2 only, with a data port
that differs from the one the slot of `failoverMaster` carries. -/
def otherDataPortStore : Store :=
  { nodes := [{ path := getNodePath 2 2, data := workerPayload "10.0.0.7" "18152" "19999",
                ephemeral := true }],
    nextSeq := 0 }

/-- What worker detection and the plain client calls leave alone on the side of the write
requests: the request cache, the counter of waiting requests and the trace of calls. -/
def MasterManagerBase.RequestSideKept (m m' : MasterManagerBase) : Prop :=
  m'.cached_write_reqlist_ = m.cached_write_reqlist_ ∧
  m'.waiting_request_num_ = m.waiting_request_num_ ∧ m'.calls = m.calls

/-- The injected handler leaves at most 1000 requests in the cache when it is handed a
controller with at most 1000. -/
def HandlerKeepsBound (handler : Option NewReqHandler) : Prop :=
  ∀ h, handler = some h → ∀ (m : MasterManagerBase) (st : Store),
    m.cached_write_reqlist_.length ≤ 1000 → (h m st).2.1.cached_write_reqlist_.length ≤ 1000

/-- The controller states reachable from an empty request cache through
`cacheNewWriteFromZNode`, `popWriteReq`, `checkForWriteReq` and `notifyChangedPrimary`, each
run on an arbitrary store, and through steps that leave the cache as it is. -/
inductive CacheReachable (env : Env) (handler : Option NewReqHandler) :
    MasterManagerBase → Prop where
  | start (m : MasterManagerBase) : m.cached_write_reqlist_ = [] → CacheReachable env handler m
  | cache (m : MasterManagerBase) (st : Store) (b : Bool) (m' : MasterManagerBase) :
    CacheReachable env handler m → m.cacheNewWriteFromZNode env st = some (b, m') →
    CacheReachable env handler m'
  | pop (m : MasterManagerBase) (st : Store) (b : Bool) (reqdata type : Option String)
      (m' : MasterManagerBase) (st' : Store) :
    CacheReachable env handler m → m.popWriteReq env st = some (b, reqdata, type, m', st') →
    CacheReachable env handler m'
  | check (m : MasterManagerBase) (st : Store) (m' : MasterManagerBase) (st' : Store) :
    CacheReachable env handler m → m.checkForWriteReq env handler st = some (m', st') →
    CacheReachable env handler m'
  | notify (m : MasterManagerBase) (st : Store) (is_new_primary : Bool)
      (m' : MasterManagerBase) (st' : Store) :
    CacheReachable env handler m →
    m.notifyChangedPrimary env st is_new_primary = some (m', st') →
    CacheReachable env handler m'
  | other (m m' : MasterManagerBase) :
    CacheReachable env handler m → m'.cached_write_reqlist_ = m.cached_write_reqlist_ →
    CacheReachable env handler m'

/-- The order that `std::map` keeps its entries in: strictly increasing keys. -/
def ShardMap.Ordered {V : Type} (wm : ShardMap V) : Prop :=
  wm.Pairwise (fun a b => a.1 < b.1)

/-- The order of `ROWorkerMapT`: the shards and, under each shard, the replicas are in
strictly increasing key order. -/
def ROOrdered (ro : ROWorkerMapT) : Prop :=
  ShardMap.Ordered ro ∧ ∀ e ∈ ro, ShardMap.Ordered e.2

/-- Equality of two nodes in the words of the specification: equal in `nodeId`, `replicaId`,
`host`, `workerPort` and `isGood`. -/
def sameNodeOfSpec (a b : Sf1rNode) : Prop :=
  a.nodeId_ = b.nodeId_ ∧ a.replicaId_ = b.replicaId_ ∧ a.host_ = b.host_ ∧
  a.worker_.port_ = b.worker_.port_ ∧ a.worker_.isGood_ = b.worker_.isGood_

/-- Structural equality of two maps in the words of the specification: the same keys, and
under every key values that are equal under `same`. -/
def sameMapsOfSpec {V : Type} (same : V → V → Prop) (old new : ShardMap V) : Prop :=
  (∀ k, (ShardMap.find old k).isSome = (ShardMap.find new k).isSome) ∧
  ∀ k a b, ShardMap.find old k = some a → ShardMap.find new k = some b → same a b

/-- Structural equality of two worker maps in the words of the specification. -/
def sameWorkerMapsOfSpec (old new : WorkerMapT) : Prop :=
  sameMapsOfSpec sameNodeOfSpec old new

/-- Structural equality of two read-only worker maps in the words of the specification: the
same shard keys, under each shard the same replica keys, and nodes pairwise equal. -/
def sameROWorkerMapsOfSpec (old new : ROWorkerMapT) : Prop :=
  sameMapsOfSpec (sameMapsOfSpec sameNodeOfSpec) old new

/-- The store `goodStore` after the worker of shard 1 moved its data port: host and worker
port are as before. -/
def movedDataPortStore : Store :=
  { nodes := [{ path := getNodePath 1 1, data := workerPayload "10.0.0.2" "18151" "19999",
                ephemeral := true }],
    nextSeq := 0 }

/-- The store `goodStore` after the worker of shard 1 moved to another host. -/
def movedHostStore : Store :=
  { nodes := [{ path := getNodePath 1 1, data := workerPayload "10.0.0.8" "18151" "19999",
                ephemeral := true }],
    nextSeq := 0 }

/-- Whether the node of shard `s` in replica `r` is the primary worker of its shard, as
`isPrimaryWorker` decides it on a connected client: the primary path that the node registered
for itself is the first child of the shard's primary parent. -/
def registeredAsPrimary (env : Env) (st : Store) (r : replicaid_t) (s : shardid_t) : Bool :=
  match st.find (getNodePath r s) with
  | none => false
  | some e =>
    match st.childrenOf (getPrimaryNodeParentPath s) with
    | [] => false
    | first :: _ =>
      decide (ZNode.getStrValue (env.loadKvString e.data) ZNode.KEY_SELF_REG_PRIMARY_PATH =
        first.toStr)

/-- A node that a detection pass adopts: its znode exists and carries a worker port, and it is
the shard's primary worker when the master is primary. -/
def adoptableNode (env : Env) (st : Store) (mine_primary : Bool) (r : replicaid_t)
    (s : shardid_t) : Bool :=
  match st.find (getNodePath r s) with
  | none => false
  | some e =>
    ZNode.hasKey (env.loadKvString e.data) ZNode.KEY_WORKER_PORT &&
      (!mine_primary || registeredAsPrimary env st r s)

/-- A usable node in the words of the claim: its znode exists and carries a worker port and a
data port that both parse, and it is the shard's primary worker when the master is primary. -/
def usableNode (env : Env) (st : Store) (mine_primary : Bool) (r : replicaid_t)
    (s : shardid_t) : Bool :=
  match st.find (getNodePath r s) with
  | none => false
  | some e =>
    ZNode.hasKey (env.loadKvString e.data) ZNode.KEY_WORKER_PORT &&
      (env.lexicalCastPort
        (ZNode.getStrValue (env.loadKvString e.data) ZNode.KEY_WORKER_PORT)).isSome &&
      (env.lexicalCastPort
        (ZNode.getStrValue (env.loadKvString e.data) ZNode.KEY_DATA_PORT)).isSome &&
      (!mine_primary || registeredAsPrimary env st r s)

/-- The slot `node` of shard `s` is good and bound to replica `r` with the host and the ports
of that replica's znode. -/
def BoundTo (env : Env) (st : Store) (r : replicaid_t) (s : shardid_t) (node : Sf1rNode) :
    Prop :=
  ∃ e, st.find (getNodePath r s) = some e ∧ node.nodeId_ = s ∧ node.replicaId_ = r ∧
    node.host_ = ZNode.getStrValue (env.loadKvString e.data) ZNode.KEY_HOST ∧
    env.lexicalCastPort (ZNode.getStrValue (env.loadKvString e.data) ZNode.KEY_WORKER_PORT) =
      some node.worker_.port_ ∧
    env.lexicalCastPort (ZNode.getStrValue (env.loadKvString e.data) ZNode.KEY_DATA_PORT) =
      some node.dataPort_ ∧
    node.worker_.isGood_ = true

/-- The slot `node` was filled from the znode of shard `s` in replica `r`: it is good exactly
when both ports of the znode parse, and it carries the ports that parse. -/
def AdoptedFrom (env : Env) (st : Store) (r : replicaid_t) (s : shardid_t) (node : Sf1rNode) :
    Prop :=
  ∃ e, st.find (getNodePath r s) = some e ∧ node.nodeId_ = s ∧ node.replicaId_ = r ∧
    node.host_ = ZNode.getStrValue (env.loadKvString e.data) ZNode.KEY_HOST ∧
    node.worker_.isGood_ =
      ((env.lexicalCastPort
        (ZNode.getStrValue (env.loadKvString e.data) ZNode.KEY_WORKER_PORT)).isSome &&
      (env.lexicalCastPort
        (ZNode.getStrValue (env.loadKvString e.data) ZNode.KEY_DATA_PORT)).isSome) ∧
    (∀ p, env.lexicalCastPort
        (ZNode.getStrValue (env.loadKvString e.data) ZNode.KEY_WORKER_PORT) = some p →
      node.worker_.port_ = p) ∧
    (∀ p, env.lexicalCastPort
        (ZNode.getStrValue (env.loadKvString e.data) ZNode.KEY_DATA_PORT) = some p →
      node.dataPort_ = p)

/-- What a detection step leaves alone next to the worker map and the master state: the
topology, the replica list, the mode, the primary flag and the connection of the client. -/
def MasterManagerBase.DetectKept (m m' : MasterManagerBase) : Prop :=
  m'.sf1rTopology_ = m.sf1rTopology_ ∧ m'.replicaIdList_ = m.replicaIdList_ ∧
  m'.isDistributeEnable_ = m.isDistributeEnable_ ∧
  m'.is_mine_primary_ = m.is_mine_primary_ ∧
  ∀ zk, m.zookeeper_ = some zk → ∃ zk', m'.zookeeper_ = some zk' ∧
    zk'.connected = zk.connected

/-- A master of shard 1 in replica 1 of a cluster with the single shard 1 and the replicas
1 and 2. -/
def oneShardMaster : MasterManagerBase :=
  { startedMaster 1 1 [1] 0 false with replicaIdList_ := [1, 2] }

/-- The invariant of a detection pass on a connected client in which every port parses:
the topology lists `shards`, the master is primary as `mine_primary` says, and the worker map
has one good entry per detected shard. -/
def ScanInv (shards : List shardid_t) (mine_primary : Bool)
    (d : MasterManagerBase.DetectState) : Prop :=
  (∃ zk, d.m.zookeeper_ = some zk ∧ zk.connected = true) ∧
  d.m.sf1rTopology_.all_shard_nodes_ = shards ∧ d.m.isMinePrimary = mine_primary ∧
  DetectInv shards d

end Sf1r

/-! # Properties -/

namespace Sf1r

open MasterManagerBase

/-! ## The store -/

theorem Store.contains_eq_false_iff (st : Store) (p : ZPath) :
    st.contains p = false ↔ ∀ e ∈ st.nodes, e.path ≠ p := by
  simp [Store.contains]

theorem Store.contains_eq_true_iff (st : Store) (p : ZPath) :
    st.contains p = true ↔ ∃ e ∈ st.nodes, e.path = p := by
  simp [Store.contains]

theorem Store.contains_erase_self (st : Store) (p : ZPath) : (st.erase p).contains p = false := by
  simp [Store.contains, Store.erase]

theorem Store.find_isSome (st : Store) (p : ZPath) : (st.find p).isSome = st.contains p := by
  simp only [Store.find, Store.contains]
  induction st.nodes with
  | nil => rfl
  | cons e rest ih =>
    by_cases h : e.path = p <;> simp [List.find?, h, ih]

theorem Store.find_path (st : Store) (p : ZPath) (e : ZEntry) (h : st.find p = some e) :
    e.path = p := by
  have := List.find?_some h
  simpa using this

/-! ## The write lock -/

theorem prepareWriteReq_free (env : Env) (m : MasterManagerBase) (st : Store) (zk : ZooKeeper)
    (hsync : env.isAsyncEnabled = false)
    (hd : m.isDistributeEnable_ = true) (hs : m.stopping_ = false)
    (hz : m.zookeeper_ = some zk) (hc : zk.connected = true)
    (hp : m.is_mine_primary_ = true) (hn : m.new_write_disabled_ = false)
    (hfree : st.contains m.write_prepare_node_ = false) :
    ∃ m', m.prepareWriteReq env st = some (true, m',
      { nodes := st.nodes ++ [{ path := m.write_prepare_node_, data := preparePayload env m,
                                ephemeral := true }],
        nextSeq := st.nextSeq }) ∧ m'.write_prepared_ = true := by
  simp [prepareWriteReq, isMinePrimary, notConnected, zkCreateZNode, zkIsZNodeExists,
    ZooKeeper.createZNode, ZooKeeper.isConnected, hsync, hd, hs, hz, hc, hp, hn, hfree,
    preparePayload]

theorem prepareWriteReq_held (env : Env) (m : MasterManagerBase) (st : Store) (zk : ZooKeeper)
    (hsync : env.isAsyncEnabled = false)
    (hd : m.isDistributeEnable_ = true) (hs : m.stopping_ = false)
    (hz : m.zookeeper_ = some zk) (hc : zk.connected = true)
    (hp : m.is_mine_primary_ = true) (hn : m.new_write_disabled_ = false)
    (hheld : st.contains m.write_prepare_node_ = true) :
    ∃ m', m.prepareWriteReq env st = some (false, m', st) ∧
      m'.write_prepared_ = m.write_prepared_ := by
  simp [prepareWriteReq, isMinePrimary, notConnected, zkCreateZNode, zkIsZNodeExists,
    ZooKeeper.createZNode, ZooKeeper.isConnected, hsync, hd, hs, hz, hc, hp, hn, hheld]

/-- C1: on a store without a write-prepare znode for shard `s`, when two running primary
masters `A` and `B` of shard `s` (synchronous mode, new writes enabled) call
`prepareWriteReq` one after the other, the call of `A` returns true, the call of `B` returns
false, and the store then holds exactly one prepare znode for `s`; its payload is the one
written by `A` and its `master_server_real_path` is the server real path of `A`. -/
theorem prepareWriteReq_exactly_one_winner (env : Env) (A B : MasterManagerBase) (st : Store)
    (s : shardid_t) (zkA zkB : ZooKeeper)
    (hsync : env.isAsyncEnabled = false)
    (hAd : A.isDistributeEnable_ = true) (hAs : A.stopping_ = false)
    (hAz : A.zookeeper_ = some zkA) (hAc : zkA.connected = true)
    (hAp : A.is_mine_primary_ = true) (hAn : A.new_write_disabled_ = false)
    (hAw : A.write_prepare_node_ = getWriteReqPrepareNode s)
    (hBd : B.isDistributeEnable_ = true) (hBs : B.stopping_ = false)
    (hBz : B.zookeeper_ = some zkB) (hBc : zkB.connected = true)
    (hBp : B.is_mine_primary_ = true) (hBn : B.new_write_disabled_ = false)
    (hBw : B.write_prepare_node_ = getWriteReqPrepareNode s)
    (hfree : st.contains (getWriteReqPrepareNode s) = false)
    (hcodec : ZNode.getStrValue (env.loadKvString (preparePayload env A))
      ZNode.KEY_MASTER_SERVER_REAL_PATH = A.serverRealPath_.toStr) :
    ∃ A' B' st1 e,
      A.prepareWriteReq env st = some (true, A', st1) ∧
      B.prepareWriteReq env st1 = some (false, B', st1) ∧
      st1.nodes.filter (fun x => decide (x.path = getWriteReqPrepareNode s)) = [e] ∧
      e.data = preparePayload env A ∧
      ZNode.getStrValue (env.loadKvString e.data) ZNode.KEY_MASTER_SERVER_REAL_PATH =
        A.serverRealPath_.toStr := by
  obtain ⟨A', hA, -⟩ := prepareWriteReq_free env A st zkA hsync hAd hAs hAz hAc hAp hAn
    (by rw [hAw]; exact hfree)
  have hheld : Store.contains
      { nodes := st.nodes ++ [{ path := A.write_prepare_node_, data := preparePayload env A,
                                ephemeral := true }],
        nextSeq := st.nextSeq } B.write_prepare_node_ = true := by
    simp [Store.contains, hAw, hBw]
  obtain ⟨B', hB, -⟩ := prepareWriteReq_held env B _ zkB hsync hBd hBs hBz hBc hBp hBn hheld
  refine ⟨A', B', _, ZEntry.mk A.write_prepare_node_ (preparePayload env A) true,
    hA, hB, ?_, rfl, hcodec⟩
  have hnone : st.nodes.filter (fun x => decide (x.path = getWriteReqPrepareNode s)) = [] := by
    rw [List.filter_eq_nil_iff]
    intro e he
    simpa using (Store.contains_eq_false_iff st _).1 hfree e he
  simp [List.filter_append, hnone, hAw]

theorem prepareWriteReq_exactly_one_winner_witness :
    ∃ A' B' st1 e,
      (startedMaster 1 1 [1] 0 true).prepareWriteReq kvEnv emptyStore = some (true, A', st1) ∧
      (startedMaster 2 1 [1] 1 true).prepareWriteReq kvEnv st1 = some (false, B', st1) ∧
      st1.nodes.filter (fun x => decide (x.path = getWriteReqPrepareNode 1)) = [e] ∧
      e.data = preparePayload kvEnv (startedMaster 1 1 [1] 0 true) ∧
      ZNode.getStrValue (kvEnv.loadKvString e.data) ZNode.KEY_MASTER_SERVER_REAL_PATH =
        (startedMaster 1 1 [1] 0 true).serverRealPath_.toStr :=
  prepareWriteReq_exactly_one_winner kvEnv (startedMaster 1 1 [1] 0 true)
    (startedMaster 2 1 [1] 1 true) emptyStore 1 clientUp clientUp rfl rfl rfl rfl rfl rfl rfl
    rfl rfl rfl rfl rfl rfl rfl rfl (by decide) (by decide)

/-- C2, as stated, fails for a master whose client is not connected: the prepare znode of
shard 1 exists and names this master, the master is in synchronous mode and not stopping, and
`endWriteReq` returns without removing the znode. -/
theorem endWriteReq_disconnected_keeps_znode :
    kvEnv.isAsyncEnabled = false ∧ disconnectedMaster.stopping_ = false ∧
    (∃ e, lockedStore.find disconnectedMaster.write_prepare_node_ = some e ∧
      ZNode.getStrValue (kvEnv.loadKvString e.data) ZNode.KEY_MASTER_SERVER_REAL_PATH =
        disconnectedMaster.serverRealPath_.toStr) ∧
    disconnectedMaster.endWriteReq kvEnv lockedStore =
      some (true, disconnectedMaster, lockedStore) ∧
    lockedStore.contains disconnectedMaster.write_prepare_node_ = true := by
  refine ⟨rfl, rfl, ⟨_, rfl, by decide⟩, by decide, by decide⟩

/-- C2 (amended): for every store and every master in synchronous mode that is not stopping
and whose coordination client is present and connected, `endWriteReq` removes the
write-prepare znode when the znode exists and its payload's `master_server_real_path` equals
this master's server real path, and leaves the store unchanged in every other case (absent
znode, payload naming another master). -/
theorem endWriteReq_removes_iff_owner (env : Env) (m : MasterManagerBase) (st : Store)
    (zk : ZooKeeper) (hsync : env.isAsyncEnabled = false) (hs : m.stopping_ = false)
    (hz : m.zookeeper_ = some zk) (hc : zk.connected = true) :
    (∀ e, st.find m.write_prepare_node_ = some e →
      ZNode.getStrValue (env.loadKvString e.data) ZNode.KEY_MASTER_SERVER_REAL_PATH =
        m.serverRealPath_.toStr →
      (∃ m', m.endWriteReq env st = some (true, m', st.erase m.write_prepare_node_)) ∧
        (st.erase m.write_prepare_node_).contains m.write_prepare_node_ = false) ∧
    ((∀ e, st.find m.write_prepare_node_ = some e →
      ZNode.getStrValue (env.loadKvString e.data) ZNode.KEY_MASTER_SERVER_REAL_PATH ≠
        m.serverRealPath_.toStr) →
      ∃ r m', m.endWriteReq env st = some (r, m', st)) := by
  constructor
  · intro e hfind hown
    have hcont : st.contains m.write_prepare_node_ = true := by
      rw [← Store.find_isSome, hfind]; rfl
    refine ⟨?_, Store.contains_erase_self _ _⟩
    simp [endWriteReq, hsync, hs, hz, hc, zkIsZNodeExists, zkGetZNodeData, zkDeleteZNode,
      ZooKeeper.isZNodeExists, ZooKeeper.getZNodeData, ZooKeeper.deleteZNode,
      ZooKeeper.addWatch, hcont, hfind, hown]
  · intro hother
    cases hfind : st.find m.write_prepare_node_ with
    | none =>
      have hcont : st.contains m.write_prepare_node_ = false := by
        rw [← Store.find_isSome, hfind]; rfl
      simp [endWriteReq, hsync, hs, hz, hc, zkIsZNodeExists, ZooKeeper.isZNodeExists,
        ZooKeeper.addWatch, hcont]
    | some e =>
      have hcont : st.contains m.write_prepare_node_ = true := by
        rw [← Store.find_isSome, hfind]; rfl
      have hne := hother e hfind
      simp [endWriteReq, hsync, hs, hz, hc, zkIsZNodeExists, zkGetZNodeData,
        ZooKeeper.isZNodeExists, ZooKeeper.getZNodeData, ZooKeeper.addWatch, hcont, hfind, hne]

theorem endWriteReq_removes_iff_owner_witness :
    (∀ e, lockedStore.find (startedMaster 1 1 [1] 0 true).write_prepare_node_ = some e →
      ZNode.getStrValue (kvEnv.loadKvString e.data) ZNode.KEY_MASTER_SERVER_REAL_PATH =
        (startedMaster 1 1 [1] 0 true).serverRealPath_.toStr →
      (∃ m', (startedMaster 1 1 [1] 0 true).endWriteReq kvEnv lockedStore =
        some (true, m', lockedStore.erase (startedMaster 1 1 [1] 0 true).write_prepare_node_)) ∧
        (lockedStore.erase (startedMaster 1 1 [1] 0 true).write_prepare_node_).contains
          (startedMaster 1 1 [1] 0 true).write_prepare_node_ = false) ∧
    ((∀ e, lockedStore.find (startedMaster 1 1 [1] 0 true).write_prepare_node_ = some e →
      ZNode.getStrValue (kvEnv.loadKvString e.data) ZNode.KEY_MASTER_SERVER_REAL_PATH ≠
        (startedMaster 1 1 [1] 0 true).serverRealPath_.toStr) →
      ∃ r m', (startedMaster 1 1 [1] 0 true).endWriteReq kvEnv lockedStore =
        some (r, m', lockedStore)) :=
  endWriteReq_removes_iff_owner kvEnv (startedMaster 1 1 [1] 0 true) lockedStore clientUp
    rfl rfl rfl rfl

/-- With a client behind `zookeeper_`, a non-primary master in distributed mode gets false
from `prepareWriteReq`; neither the store nor `write_prepared_` changes. -/
theorem prepareWriteReq_not_primary (env : Env) (m : MasterManagerBase) (st : Store)
    (zk : ZooKeeper) (hd : m.isDistributeEnable_ = true) (hz : m.zookeeper_ = some zk)
    (hp : m.isMinePrimary = false) :
    ∃ m', m.prepareWriteReq env st = some (false, m', st) ∧
      m'.write_prepared_ = m.write_prepared_ := by
  unfold prepareWriteReq
  simp [hd, hp, zkIsZNodeExists, hz]
  split <;> simp

/-- C9 fails on a master whose `zookeeper_` pointer is null: in distributed mode, not
stopping, `isMinePrimary` is false, and `prepareWriteReq` calls `isZNodeExists` through the
null pointer instead of returning false. -/
theorem prepareWriteReq_null_client :
    masterBeforeStart.isDistributeEnable_ = true ∧ masterBeforeStart.stopping_ = false ∧
    masterBeforeStart.zookeeper_ = none ∧ masterBeforeStart.isMinePrimary = false ∧
    masterBeforeStart.prepareWriteReq kvEnv emptyStore = none := by
  refine ⟨rfl, rfl, rfl, by decide, by decide⟩

/-! ## The request queue -/

/-- C8: `pushWriteReq(d, t)` returns false and leaves the store as it is whenever distributed
mode is off, the master is stopping, the client is absent or not connected, or the
migration-prepare znode exists.  When none of these holds it makes one sequential create
under this shard's request queue with a payload that carries `req_type = t` and
`req_data = d`: if the create succeeds the store gains exactly that child and the result is
true, otherwise the store is unchanged and the result is false. -/
theorem pushWriteReq_refuses_or_enqueues (env : Env) (m : MasterManagerBase) (st : Store)
    (d t : String) :
    ((m.isDistributeEnable_ = false ∨ m.stopping_ = true ∨ m.notConnected = true ∨
        st.contains m.migrate_prepare_node_ = true) →
      ∃ m', m.pushWriteReq env st d t = some (false, m', st)) ∧
    (m.isDistributeEnable_ = true → m.stopping_ = false → m.notConnected = false →
      st.contains m.migrate_prepare_node_ = false →
      (∃ z, requestPayload env d t = env.serialize z ∧
        ZNode.getStrValue z ZNode.KEY_REQ_TYPE = t ∧
        ZNode.getStrValue z ZNode.KEY_REQ_DATA = d) ∧
      (st.contains (ZPath.seq m.write_req_queue_ st.nextSeq) = true →
        ∃ m', m.pushWriteReq env st d t = some (false, m', st)) ∧
      (st.contains (ZPath.seq m.write_req_queue_ st.nextSeq) = false →
        ∃ m', m.pushWriteReq env st d t = some (true, m',
          { nodes := st.nodes ++ [ZEntry.mk (ZPath.seq m.write_req_queue_ st.nextSeq)
              (requestPayload env d t) false],
            nextSeq := st.nextSeq + 1 }))) := by
  constructor
  · intro h
    by_cases hd : m.isDistributeEnable_ = true
    swap
    · simp [pushWriteReq, hd]
    by_cases hs : m.stopping_ = true
    · simp [pushWriteReq, hd, hs]
    by_cases hn : m.notConnected = true
    · simp [pushWriteReq, hd, hs, hn]
    have hmig : st.contains m.migrate_prepare_node_ = true := by
      rcases h with h | h | h | h
      · simp [h] at hd
      · exact absurd h hs
      · exact absurd h hn
      · exact h
    cases hz : m.zookeeper_ with
    | none => simp [notConnected, hz] at hn
    | some zk =>
      have hc : zk.connected = true := by
        simpa [notConnected, hz, ZooKeeper.isConnected] using hn
      simp [pushWriteReq, hd, hs, hn, zkIsZNodeExists, hz, ZooKeeper.isZNodeExists, hc, hmig]
  · intro hd hs hn hmig
    refine ⟨⟨_, rfl, ?_, ?_⟩, ?_, ?_⟩
    · simp [ZNode.setValue, ZNode.getStrValue, ZNode.KEY_REQ_TYPE, ZNode.KEY_REQ_DATA]
    · simp [ZNode.setValue, ZNode.getStrValue, ZNode.KEY_REQ_TYPE, ZNode.KEY_REQ_DATA]
    all_goals
      intro hseq
      cases hz : m.zookeeper_ with
      | none => simp [notConnected, hz] at hn
      | some zk =>
        have hc : zk.connected = true := by
          simpa [notConnected, hz, ZooKeeper.isConnected] using hn
        simp [pushWriteReq, hd, hs, hn, zkIsZNodeExists, zkCreateZNode, hz,
          ZooKeeper.isZNodeExists, ZooKeeper.createZNode, ZooKeeper.addWatch, hc, hmig, hseq,
          requestPayload]

theorem pushWriteReq_refuses_or_enqueues_witness :
    (∃ m', masterBeforeStart.pushWriteReq kvEnv emptyStore "doc" "index" =
      some (false, m', emptyStore)) ∧
    (∃ m', (startedMaster 1 1 [1] 0 true).pushWriteReq kvEnv emptyStore "doc" "index" =
      some (true, m',
        { nodes := emptyStore.nodes ++
            [ZEntry.mk (ZPath.seq (startedMaster 1 1 [1] 0 true).write_req_queue_
              emptyStore.nextSeq) (requestPayload kvEnv "doc" "index") false],
          nextSeq := emptyStore.nextSeq + 1 })) :=
  ⟨(pushWriteReq_refuses_or_enqueues kvEnv masterBeforeStart emptyStore "doc" "index").1
      (Or.inr (Or.inr (Or.inl rfl))),
    ((pushWriteReq_refuses_or_enqueues kvEnv (startedMaster 1 1 [1] 0 true) emptyStore
      "doc" "index").2 rfl rfl rfl rfl).2.2 (by decide)⟩

theorem Store.erase_of_not_contains (st : Store) (p : ZPath) (h : st.contains p = false) :
    st.erase p = st := by
  have h' := (Store.contains_eq_false_iff st p).1 h
  cases st with
  | mk nodes n =>
    simp only [Store.erase, Store.mk.injEq, and_true]
    rw [List.filter_eq_self]
    intro e he
    simpa using h' e he

theorem master_eta_zookeeper (m : MasterManagerBase) (zk : ZooKeeper)
    (hz : m.zookeeper_ = some zk) : { m with zookeeper_ := some zk } = m := by
  cases m
  simp at hz
  subst hz
  rfl

theorem cacheLoop_eq (env : Env) (st : Store) (zk : ZooKeeper) (hc : zk.connected = true)
    (cs : List ZPath) :
    ∀ m : MasterManagerBase, m.zookeeper_ = some zk →
      cacheLoop env st cs m = some { m with
        cached_write_reqlist_ := m.cached_write_reqlist_ ++ cs.map (cacheEntry env st) } := by
  induction cs with
  | nil => intro m _; simp [cacheLoop]
  | cons c rest ih =>
    intro m hz
    have hm := master_eta_zookeeper m zk hz
    simp only [cacheLoop, zkGetZNodeData, hz, ZooKeeper.getZNodeData, ZooKeeper.addWatch, hc,
      if_true, Option.bind_eq_bind, Option.some_bind, hm]
    rw [ih _ rfl]
    simp [cacheEntry, hz]

theorem take_popNum {α : Type} (xs : List α) :
    xs.take (if xs.length > 1000 then 1000 else xs.length) = xs.take 1000 := by
  split
  · rfl
  · rw [List.take_length, List.take_of_length_le (by omega)]

/-- A refill of the empty cache from a queue with children: the cache holds the entries of
the first 1000 children in the order of `getZNodeChildren`. -/
theorem cacheNewWriteFromZNode_refill (env : Env) (m : MasterManagerBase) (st : Store)
    (zk : ZooKeeper) (hz : m.zookeeper_ = some zk) (hc : zk.connected = true)
    (hcache : m.cached_write_reqlist_ = [])
    (hne : st.childrenOf m.write_req_queue_parent_ ≠ []) :
    m.cacheNewWriteFromZNode env st = some (true, { m with
      waiting_request_num_ := (st.childrenOf m.write_req_queue_parent_).length
      cached_write_reqlist_ :=
        ((st.childrenOf m.write_req_queue_parent_).take 1000).map (cacheEntry env st) }) := by
  have hm := master_eta_zookeeper m zk hz
  have hne' : (st.childrenOf m.write_req_queue_parent_).isEmpty = false := by
    cases h : st.childrenOf m.write_req_queue_parent_ with
    | nil => exact absurd h hne
    | cons _ _ => rfl
  simp only [cacheNewWriteFromZNode, hcache, List.isEmpty_nil, Bool.not_true, zkGetZNodeChildren,
    hz, ZooKeeper.getZNodeChildren, ZooKeeper.addWatch, hc, if_true, Option.bind_eq_bind,
    Option.some_bind, hm, hne', take_popNum]
  simp only [Bool.false_eq_true, if_false]
  rw [cacheLoop_eq env st zk hc _ _ rfl]
  simp [hz]

/-- A pop from a non-empty cache on a connected master returns the head of the cache. -/
theorem popWriteReq_front (env : Env) (m : MasterManagerBase) (st : Store) (zk : ZooKeeper)
    (hd : m.isDistributeEnable_ = true) (hz : m.zookeeper_ = some zk)
    (hc : zk.connected = true) (front : ZPath × String × String)
    (rest : List (ZPath × String × String))
    (hcache : m.cached_write_reqlist_ = front :: rest) :
    m.popWriteReq env st = some (true, some front.2.1, some front.2.2,
      { m with cached_write_reqlist_ := rest }, st.erase front.1) := by
  have hm := master_eta_zookeeper m zk hz
  by_cases hcont : st.contains front.1 = true
  · simp [popWriteReq, hd, hcache, zkDeleteZNode, zkIsConnected, hz, ZooKeeper.deleteZNode,
      ZooKeeper.isConnected, hc, hcont, hm]
  · have hcont' : st.contains front.1 = false := by simpa using hcont
    simp [popWriteReq, hd, hcache, zkDeleteZNode, zkIsConnected, hz, ZooKeeper.deleteZNode,
      ZooKeeper.isConnected, hc, hcont', hm, Store.erase_of_not_contains]

theorem popWriteReqs_take (env : Env) (zk : ZooKeeper) (hc : zk.connected = true) (k : Nat) :
    ∀ (m : MasterManagerBase) (st : Store), m.isDistributeEnable_ = true →
      m.zookeeper_ = some zk → k ≤ m.cached_write_reqlist_.length →
      ∃ m' st', popWriteReqs env k m st = some
        ((m.cached_write_reqlist_.take k).map (fun e => (some e.2.1, some e.2.2)), m', st') := by
  induction k with
  | zero => intro m st _ _ _; exact ⟨m, st, by simp [popWriteReqs]⟩
  | succ k ih =>
    intro m st hd hz hk
    cases hcache : m.cached_write_reqlist_ with
    | nil => simp [hcache] at hk
    | cons front rest =>
      have hpop := popWriteReq_front env m st zk hd hz hc front rest hcache
      have hk' : k ≤ ({ m with cached_write_reqlist_ := rest } :
          MasterManagerBase).cached_write_reqlist_.length := by
        simp [hcache] at hk
        simpa using hk
      obtain ⟨m', st', h⟩ := ih { m with cached_write_reqlist_ := rest } (st.erase front.1)
        hd hz hk'
      refine ⟨m', st', ?_⟩
      simp only [popWriteReqs, hpop, h]
      simp

theorem Store.childrenOf_sorted (st : Store) (p : ZPath) :
    List.Sorted ZPath.seqLe (st.childrenOf p) :=
  List.sorted_insertionSort _ _

theorem Store.childrenOf_perm (st : Store) (p : ZPath) :
    (st.childrenOf p).Perm
      ((st.nodes.filter (fun e => decide (e.path.parent = some p))).map ZEntry.path) :=
  List.perm_insertionSort _ _

/-- C4: a refill of the empty cache observes the children of the request queue in increasing
order of their sequence numbers, and for every `k` up to the number of cached entries the
first `k` successful pops after the refill return, in this order, the `(data, type)` of the
`k` children with the smallest sequence numbers, as read from the store at the refill. -/
theorem popWriteReq_fifo_over_sequence (env : Env) (m : MasterManagerBase) (st : Store)
    (zk : ZooKeeper) (hd : m.isDistributeEnable_ = true) (hz : m.zookeeper_ = some zk)
    (hc : zk.connected = true) (hcache : m.cached_write_reqlist_ = [])
    (hne : st.childrenOf m.write_req_queue_parent_ ≠ []) :
    List.Sorted ZPath.seqLe (st.childrenOf m.write_req_queue_parent_) ∧
    (st.childrenOf m.write_req_queue_parent_).Perm
      ((st.nodes.filter
        (fun e => decide (e.path.parent = some m.write_req_queue_parent_))).map ZEntry.path) ∧
    ∃ m1, m.cacheNewWriteFromZNode env st = some (true, m1) ∧
      m1.cached_write_reqlist_.length =
        min (st.childrenOf m.write_req_queue_parent_).length 1000 ∧
      ∀ k, k ≤ m1.cached_write_reqlist_.length → ∃ m2 st2,
        popWriteReqs env k m1 st = some
          (((st.childrenOf m.write_req_queue_parent_).take k).map
            (fun c => (some (cacheEntry env st c).2.1, some (cacheEntry env st c).2.2)),
            m2, st2) := by
  refine ⟨Store.childrenOf_sorted _ _, Store.childrenOf_perm _ _, _,
    cacheNewWriteFromZNode_refill env m st zk hz hc hcache hne, ?_, ?_⟩
  · simp [List.length_take, Nat.min_comm]
  · intro k hk
    have hk1000 : k ≤ 1000 := by
      simp [List.length_take] at hk
      omega
    obtain ⟨m2, st2, h⟩ := popWriteReqs_take env zk hc k _ st
      (show ({ m with
        waiting_request_num_ := (st.childrenOf m.write_req_queue_parent_).length
        cached_write_reqlist_ := ((st.childrenOf m.write_req_queue_parent_).take 1000).map
          (cacheEntry env st) } : MasterManagerBase).isDistributeEnable_ = true from hd)
      hz hk
    refine ⟨m2, st2, ?_⟩
    rw [h]
    simp [← List.map_take, List.take_take, Nat.min_eq_left hk1000]

theorem popWriteReq_fifo_over_sequence_witness :
    List.Sorted ZPath.seqLe
      (queuedStore.childrenOf (startedMaster 1 1 [1] 0 true).write_req_queue_parent_) ∧
    (queuedStore.childrenOf (startedMaster 1 1 [1] 0 true).write_req_queue_parent_).Perm
      ((queuedStore.nodes.filter (fun e => decide
        (e.path.parent = some (startedMaster 1 1 [1] 0 true).write_req_queue_parent_))).map
          ZEntry.path) ∧
    ∃ m1, (startedMaster 1 1 [1] 0 true).cacheNewWriteFromZNode kvEnv queuedStore =
        some (true, m1) ∧
      m1.cached_write_reqlist_.length =
        min (queuedStore.childrenOf
          (startedMaster 1 1 [1] 0 true).write_req_queue_parent_).length 1000 ∧
      ∀ k, k ≤ m1.cached_write_reqlist_.length → ∃ m2 st2,
        popWriteReqs kvEnv k m1 queuedStore = some
          (((queuedStore.childrenOf
              (startedMaster 1 1 [1] 0 true).write_req_queue_parent_).take k).map
            (fun c => (some (cacheEntry kvEnv queuedStore c).2.1,
              some (cacheEntry kvEnv queuedStore c).2.2)),
            m2, st2) :=
  popWriteReq_fifo_over_sequence kvEnv (startedMaster 1 1 [1] 0 true) queuedStore clientUp
    rfl rfl rfl rfl (by decide)

/-- The two requests of `queuedStore` are cached in the order of their sequence numbers. -/
theorem queuedStore_children :
    (queuedStore.childrenOf (getCurrWriteReqQueueParent 1)).map (cacheEntry kvEnv queuedStore) =
      [(ZPath.seq (getWriteReqQueueNode 1) 0, "first", "index"),
       (ZPath.seq (getWriteReqQueueNode 1) 1, "second", "index")] := by
  decide

theorem allShardNodeOKLoop_iff (m : MasterManagerBase) (shardids : List shardid_t) :
    m.allShardNodeOKLoop shardids = true ↔
      ∀ s ∈ shardids, s ≠ m.sf1rTopology_.curNode_.nodeId_ →
        ∀ node, ShardMap.find m.workerMap_ s = some node → node.worker_.isGood_ = true := by
  induction shardids with
  | nil => simp [allShardNodeOKLoop]
  | cons s rest ih =>
    simp only [allShardNodeOKLoop, List.mem_cons, forall_eq_or_imp]
    by_cases hs : s = m.sf1rTopology_.curNode_.nodeId_
    · simp [hs, ih]
    · cases hf : ShardMap.find m.workerMap_ s with
      | none => simp [hs, ih]
      | some node =>
        cases hg : node.worker_.isGood_ <;> simp [hs, hg, ih]

theorem writeQueueEmptyLoop_spec (st : Store) (own : ZPath) (shardids : List shardid_t) :
    ∀ zk : ZooKeeper, zk.connected = true →
      (writeQueueEmptyLoop st own shardids zk).2.connected = true ∧
      ((writeQueueEmptyLoop st own shardids zk).1 = true ↔
        ∀ s ∈ shardids, st.childrenOf (getCurrWriteReqQueueParent s) = []) := by
  induction shardids with
  | nil => intro zk hc; simp [writeQueueEmptyLoop, hc]
  | cons s rest ih =>
    intro zk hc
    simp only [writeQueueEmptyLoop, ZooKeeper.getZNodeChildren, hc, if_true,
      ZooKeeper.addWatch, List.mem_cons, forall_eq_or_imp]
    cases hch : st.childrenOf (getCurrWriteReqQueueParent s) with
    | nil =>
      simp only [List.isEmpty_nil, if_true, true_and]
      split
      · exact ih _ rfl
      · exact ih _ hc
    | cons c cs => simp [hc]

/-- C10, as stated, fails for a shard that the master does not know: with an empty
`workerMap_`, `notifyAllShardingBeginMigrate([4])` on a connected primary master and an empty
store returns true and creates the migration-prepare znode. -/
theorem notifyAllShardingBeginMigrate_unknown_shard :
    ShardMap.find (startedMaster 1 1 [1] 0 true).workerMap_ 4 = none ∧
    ((startedMaster 1 1 [1] 0 true).notifyAllShardingBeginMigrate kvEnv emptyStore [4]).map
      (fun r => (r.1, r.2.2.contains ZPath.migratePrepare)) = some (true, true) := by
  refine ⟨rfl, by decide⟩

/-- C10 (amended): `notifyAllShardingBeginMigrate(shardIds)` returns true, having created
the migration-prepare znode, exactly when all of the following held at the call: this master
is primary and connected, every shard in `shardIds` other than this node's own id that has a
`workerMap_` entry is good, no write is prepared and no write-prepare znode exists, the
request queue of every shard in `shardIds` is empty, and no migration-prepare znode existed;
in every other case it returns false and leaves the znodes of the store as they were. -/
theorem notifyAllShardingBeginMigrate_iff (env : Env) (m : MasterManagerBase) (st : Store)
    (shardids : List shardid_t) :
    ∃ r m' st', m.notifyAllShardingBeginMigrate env st shardids = some (r, m', st') ∧
      (r = true ↔
        (m.isMinePrimary = true ∧ m.notConnected = false ∧
          (∀ s ∈ shardids, s ≠ m.sf1rTopology_.curNode_.nodeId_ →
            ∀ node, ShardMap.find m.workerMap_ s = some node → node.worker_.isGood_ = true) ∧
          m.write_prepared_ = false ∧ st.contains m.write_prepare_node_ = false ∧
          (∀ s ∈ shardids, st.childrenOf (getCurrWriteReqQueueParent s) = []) ∧
          st.contains m.migrate_prepare_node_ = false)) ∧
      (r = true → st' =
        { nodes := st.nodes ++ [ZEntry.mk m.migrate_prepare_node_ (env.serialize []) true],
          nextSeq := st.nextSeq }) ∧
      (r = false → st' = st) := by
  by_cases hp : m.isMinePrimary = true
  swap
  · exact ⟨false, m, st, by simp [notifyAllShardingBeginMigrate, hp], by simp [hp], by simp,
      fun _ => rfl⟩
  by_cases hn : m.notConnected = true
  · exact ⟨false, m, st, by simp [notifyAllShardingBeginMigrate, hp, isAllShardNodeOK, hn],
      by simp [hn], by simp, fun _ => rfl⟩
  have hn' : m.notConnected = false := by simpa using hn
  by_cases hok : m.allShardNodeOKLoop shardids = true
  swap
  · refine ⟨false, m, st,
      by simp [notifyAllShardingBeginMigrate, hp, isAllShardNodeOK, hn', hok], ?_, by simp,
      fun _ => rfl⟩
    rw [← allShardNodeOKLoop_iff]
    simp [hok]
  have hok' := (allShardNodeOKLoop_iff m shardids).1 hok
  by_cases hw : m.write_prepared_ = true
  · exact ⟨false, m, st,
      by simp [notifyAllShardingBeginMigrate, hp, isAllShardNodeOK, hn', hok, hw],
      by simp [hw], by simp, fun _ => rfl⟩
  have hw' : m.write_prepared_ = false := by simpa using hw
  cases hz : m.zookeeper_ with
  | none => simp [notConnected, hz] at hn'
  | some zk =>
    have hc : zk.connected = true := by
      simpa [notConnected, hz, ZooKeeper.isConnected] using hn'
    by_cases hprep : st.contains m.write_prepare_node_ = true
    · have hres : ∃ m', m.notifyAllShardingBeginMigrate env st shardids =
          some (false, m', st) := by
        simp [notifyAllShardingBeginMigrate, hp, isAllShardNodeOK, hn', hok, hw',
          zkIsZNodeExists, hz, ZooKeeper.isZNodeExists, hc, hprep]
      obtain ⟨m', hres⟩ := hres
      exact ⟨false, m', st, hres, by simp [hprep], by simp, fun _ => rfl⟩
    have hprep' : st.contains m.write_prepare_node_ = false := by simpa using hprep
    obtain ⟨hqc, hqiff⟩ := writeQueueEmptyLoop_spec st m.write_req_queue_parent_ shardids
      (zk.addWatch WatchType.WATCH m.write_prepare_node_)
      (by simp [ZooKeeper.addWatch, hc])
    by_cases hq : (writeQueueEmptyLoop st m.write_req_queue_parent_ shardids
        (zk.addWatch WatchType.WATCH m.write_prepare_node_)).1 = true
    swap
    · have hres : ∃ m', m.notifyAllShardingBeginMigrate env st shardids =
          some (false, m', st) := by
        simp [notifyAllShardingBeginMigrate, hp, isAllShardNodeOK, hn', hok, hw',
          zkIsZNodeExists, hz, ZooKeeper.isZNodeExists, hc, hprep', isWriteQueueEmpty, hq]
      obtain ⟨m', hres⟩ := hres
      refine ⟨false, m', st, hres, ?_, by simp, fun _ => rfl⟩
      rw [← hqiff]
      simp [hq]
    have hq' := hqiff.1 hq
    by_cases hmig : st.contains m.migrate_prepare_node_ = true
    · have hres : ∃ m', m.notifyAllShardingBeginMigrate env st shardids =
          some (false, m', st) := by
        simp [notifyAllShardingBeginMigrate, hp, isAllShardNodeOK, hn', hok, hw',
          zkIsZNodeExists, zkCreateZNode, hz, ZooKeeper.isZNodeExists,
          ZooKeeper.createZNode, hc, hprep', isWriteQueueEmpty, hq, hqc, hmig]
      obtain ⟨m', hres⟩ := hres
      exact ⟨false, m', st, hres, by simp [hmig], by simp, fun _ => rfl⟩
    have hmig' : st.contains m.migrate_prepare_node_ = false := by simpa using hmig
    have hres : ∃ m', m.notifyAllShardingBeginMigrate env st shardids = some (true, m',
        { nodes := st.nodes ++ [ZEntry.mk m.migrate_prepare_node_ (env.serialize []) true],
          nextSeq := st.nextSeq }) := by
      simp [notifyAllShardingBeginMigrate, hp, isAllShardNodeOK, hn', hok, hw',
        zkIsZNodeExists, zkCreateZNode, hz, ZooKeeper.isZNodeExists,
        ZooKeeper.createZNode, hc, hprep', isWriteQueueEmpty, hq, hqc, hmig']
    obtain ⟨m', hres⟩ := hres
    exact ⟨true, m', _, hres, by simp [hp, hn', hw', hprep', hmig']; exact ⟨hok', hq'⟩,
      fun _ => rfl, by simp⟩

/-! ## The worker registry -/

theorem ShardMap.find_eq_none_iff {V : Type} (wm : ShardMap V) (k : Nat) :
    ShardMap.find wm k = none ↔ k ∉ wm.map Prod.fst := by
  induction wm with
  | nil => simp [ShardMap.find]
  | cons e rest ih =>
    obtain ⟨k', v⟩ := e
    by_cases h : k' = k
    · simp [ShardMap.find, h]
    · simp only [ShardMap.find, h, if_false, ih, List.map_cons, List.mem_cons, not_or]
      constructor
      · intro h1; exact ⟨fun h2 => h h2.symm, h1⟩
      · intro h1; exact h1.2

theorem ShardMap.mem_of_find {V : Type} (wm : ShardMap V) (k : Nat) (v : V)
    (h : ShardMap.find wm k = some v) : (k, v) ∈ wm := by
  induction wm with
  | nil => simp [ShardMap.find] at h
  | cons e rest ih =>
    obtain ⟨k', v'⟩ := e
    by_cases hk : k' = k
    · simp [ShardMap.find, hk] at h
      simp [hk, h]
    · simp only [ShardMap.find, hk, if_false] at h
      exact List.mem_cons_of_mem _ (ih h)

theorem ShardMap.find_of_mem {V : Type} (wm : ShardMap V) (k : Nat) (v : V)
    (hnd : (wm.map Prod.fst).Nodup) (h : (k, v) ∈ wm) : ShardMap.find wm k = some v := by
  induction wm with
  | nil => simp at h
  | cons e rest ih =>
    obtain ⟨k', v'⟩ := e
    simp only [List.map_cons, List.nodup_cons] at hnd
    rcases List.mem_cons.1 h with heq | hmem
    · simp only [Prod.mk.injEq] at heq
      simp [ShardMap.find, heq.1, heq.2]
    · have hne : k' ≠ k := by
        intro hk
        exact hnd.1 (hk ▸ List.mem_map_of_mem Prod.fst hmem)
      simp only [ShardMap.find, hne, if_false]
      exact ih hnd.2 hmem

theorem ShardMap.insert_perm {V : Type} (wm : ShardMap V) (k : Nat) (v : V)
    (h : k ∉ wm.map Prod.fst) : (ShardMap.insert wm k v).Perm ((k, v) :: wm) := by
  induction wm with
  | nil => simp [ShardMap.insert]
  | cons e rest ih =>
    obtain ⟨k', v'⟩ := e
    simp only [List.map_cons, List.mem_cons, not_or] at h
    by_cases hlt : k < k'
    · simp [ShardMap.insert, hlt]
    · have hne : ¬ k' = k := fun hk => h.1 hk.symm
      simp only [ShardMap.insert, hlt, hne, if_false]
      exact ((ih h.2).cons _).trans (List.Perm.swap _ _ _)

theorem updateWorkerNode_isGood (env : Env) (m : MasterManagerBase) (n : Sf1rNode) (z : ZNode) :
    (updateWorkerNode env m n z).worker_.isGood_ =
      (n.worker_.isGood_ &&
        (env.lexicalCastPort (ZNode.getStrValue z ZNode.KEY_WORKER_PORT)).isSome &&
        (env.lexicalCastPort (ZNode.getStrValue z ZNode.KEY_DATA_PORT)).isSome) := by
  simp only [updateWorkerNode]
  cases env.lexicalCastPort (ZNode.getStrValue z ZNode.KEY_WORKER_PORT) <;>
    cases env.lexicalCastPort (ZNode.getStrValue z ZNode.KEY_DATA_PORT) <;> simp

theorem MasterManagerBase.PrimarySideKept.refl (m : MasterManagerBase) : m.PrimarySideKept m :=
  ⟨rfl, rfl, rfl, rfl, rfl, rfl, rfl, rfl, id, fun zk h => ⟨zk, h, rfl⟩⟩

theorem MasterManagerBase.PrimarySideKept.trans {a b c : MasterManagerBase} (hab : a.PrimarySideKept b)
    (hbc : b.PrimarySideKept c) : a.PrimarySideKept c := by
  obtain ⟨h1, h2, h3, h4, h5, h6, h7, h8, h9, h10⟩ := hab
  obtain ⟨g1, g2, g3, g4, g5, g6, g7, g8, g9, g10⟩ := hbc
  refine ⟨g1.trans h1, g2.trans h2, g3.trans h3, g4.trans h4, g5.trans h5, g6.trans h6,
    g7.trans h7, g8.trans h8, fun h => g9 (h9 h), ?_⟩
  intro zk hz
  obtain ⟨zk1, hz1, hc1⟩ := h10 zk hz
  obtain ⟨zk2, hz2, hc2⟩ := g10 zk1 hz1
  exact ⟨zk2, hz2, hc2.trans hc1⟩

theorem addWatch_connected (zk : ZooKeeper) (w : WatchType) (p : ZPath) :
    (zk.addWatch w p).connected = zk.connected := by
  cases w
  · rfl
  · simp only [ZooKeeper.addWatch]
    split <;> rfl

theorem zkGetZNodeData_kept (m : MasterManagerBase) (st : Store) (p : ZPath) (w : WatchType)
    (zk : ZooKeeper) (hz : m.zookeeper_ = some zk) :
    ∃ m', m.zkGetZNodeData st p w =
        some (if zk.connected then (st.find p).map ZEntry.data else none, m') ∧
      m.PrimarySideKept m' ∧ m'.readonly_workerMap_ = m.readonly_workerMap_ := by
  refine ⟨{ m with zookeeper_ := some (zk.addWatch w p) },
    by simp [zkGetZNodeData, hz, ZooKeeper.getZNodeData], ?_, rfl⟩
  refine ⟨rfl, rfl, rfl, rfl, rfl, rfl, rfl, rfl, fun _ => rfl, ?_⟩
  intro zk0 hz0
  rw [hz] at hz0
  cases hz0
  exact ⟨_, rfl, addWatch_connected _ _ _⟩

theorem zkIsZNodeExists_kept (m : MasterManagerBase) (st : Store) (p : ZPath) (w : WatchType)
    (zk : ZooKeeper) (hz : m.zookeeper_ = some zk) :
    ∃ m', m.zkIsZNodeExists st p w = some (zk.connected && st.contains p, m') ∧
      m.PrimarySideKept m' ∧ m'.readonly_workerMap_ = m.readonly_workerMap_ := by
  refine ⟨{ m with zookeeper_ := some (zk.addWatch w p) },
    by simp [zkIsZNodeExists, hz, ZooKeeper.isZNodeExists], ?_, rfl⟩
  refine ⟨rfl, rfl, rfl, rfl, rfl, rfl, rfl, rfl, fun _ => rfl, ?_⟩
  intro zk0 hz0
  rw [hz] at hz0
  cases hz0
  exact ⟨_, rfl, addWatch_connected _ _ _⟩

theorem isPrimaryWorker_kept (env : Env) (m : MasterManagerBase) (st : Store)
    (r : replicaid_t) (s : shardid_t) :
    m.PrimarySideKept (isPrimaryWorker env m st r s).2 ∧
      (isPrimaryWorker env m st r s).2.readonly_workerMap_ = m.readonly_workerMap_ := by
  unfold isPrimaryWorker
  cases hz : m.zookeeper_ with
  | none => exact ⟨MasterManagerBase.PrimarySideKept.refl m, rfl⟩
  | some zk =>
    simp only
    have hconn : ∀ zk' : ZooKeeper, zk'.connected = zk.connected →
        m.PrimarySideKept { m with zookeeper_ := some zk' } := by
      intro zk' hc
      refine ⟨rfl, rfl, rfl, rfl, rfl, rfl, rfl, rfl, fun _ => rfl, ?_⟩
      intro zk0 hz0
      rw [hz] at hz0
      cases hz0
      exact ⟨_, rfl, hc⟩
    split
    · split
      · exact ⟨hconn _ (by simp [ZooKeeper.getZNodeChildren, ZooKeeper.getZNodeData,
          addWatch_connected]), rfl⟩
      · exact ⟨hconn _ (by simp [ZooKeeper.getZNodeChildren, ZooKeeper.getZNodeData,
          addWatch_connected]), rfl⟩
    · exact ⟨hconn _ (by simp [ZooKeeper.getZNodeData, addWatch_connected]), rfl⟩

theorem resetReadOnlyAggregatorConfig_kept (m : MasterManagerBase) :
    m.PrimarySideKept (resetReadOnlyAggregatorConfig m) :=
  ⟨rfl, rfl, rfl, rfl, rfl, by simp [resetReadOnlyAggregatorConfig], rfl, rfl, id,
    fun zk h => ⟨zk, h, rfl⟩⟩

theorem resetAggregatorBusyState_kept (m : MasterManagerBase) :
    m.PrimarySideKept (resetAggregatorBusyState m) :=
  ⟨rfl, rfl, rfl, rfl, rfl, by simp [resetAggregatorBusyState], rfl, rfl, id,
    fun zk h => ⟨zk, h, rfl⟩⟩

theorem setReadOnlyWorkerMap_kept (m : MasterManagerBase) (ro : ROWorkerMapT) :
    m.PrimarySideKept { m with readonly_workerMap_ := ro } :=
  ⟨rfl, rfl, rfl, rfl, rfl, rfl, rfl, rfl, id, fun zk h => ⟨zk, h, rfl⟩⟩

theorem zkGetZNodeData_some (m : MasterManagerBase) (st : Store) (p : ZPath) (w : WatchType)
    (zk : ZooKeeper) (hz : m.zookeeper_ = some zk) :
    ∃ data m' zk', m.zkGetZNodeData st p w = some (data, m') ∧
      data = (if zk.connected then (st.find p).map ZEntry.data else none) ∧
      m.PrimarySideKept m' ∧ m'.readonly_workerMap_ = m.readonly_workerMap_ ∧
      m'.zookeeper_ = some zk' ∧ zk'.connected = zk.connected := by
  obtain ⟨m', h, k, hro⟩ := zkGetZNodeData_kept m st p w zk hz
  obtain ⟨zk', hz', hc'⟩ := k.2.2.2.2.2.2.2.2.2 zk hz
  exact ⟨_, m', zk', h, rfl, k, hro, hz', hc'⟩

theorem zkIsZNodeExists_some (m : MasterManagerBase) (st : Store) (p : ZPath) (w : WatchType)
    (zk : ZooKeeper) (hz : m.zookeeper_ = some zk) :
    ∃ found m' zk', m.zkIsZNodeExists st p w = some (found, m') ∧
      m.PrimarySideKept m' ∧ m'.readonly_workerMap_ = m.readonly_workerMap_ ∧
      m'.zookeeper_ = some zk' ∧ zk'.connected = zk.connected := by
  obtain ⟨m', h, k, hro⟩ := zkIsZNodeExists_kept m st p w zk hz
  obtain ⟨zk', hz', hc'⟩ := k.2.2.2.2.2.2.2.2.2 zk hz
  exact ⟨_, m', zk', h, k, hro, hz', hc'⟩

theorem detectReadOnlyLoop_kept (env : Env) (st : Store) (r : replicaid_t)
    (shards : List shardid_t) :
    ∀ (m : MasterManagerBase) (zk : ZooKeeper), m.zookeeper_ = some zk →
      ∃ m', detectReadOnlyLoop env st r shards m = some m' ∧ m.PrimarySideKept m' := by
  induction shards with
  | nil => intro m zk _; exact ⟨m, rfl, MasterManagerBase.PrimarySideKept.refl m⟩
  | cons s rest ih =>
    intro m zk hz
    obtain ⟨data, m1, zk1, h1, -, k1, -, hz1, -⟩ :=
      zkGetZNodeData_some m st (getNodePath r s) WatchType.WATCH zk hz
    simp only [detectReadOnlyLoop, h1, Option.bind_eq_bind, Option.some_bind]
    cases data with
    | some sdata =>
      simp only
      by_cases hk : ZNode.hasKey (env.loadKvString sdata) ZNode.KEY_WORKER_PORT = true
      · rw [if_pos hk]
        obtain ⟨m', h', k'⟩ := ih _ zk1
          (show (MasterManagerBase.mk _ _ _ _ _ _ _ _ _ _ _ _ _ _ _ _ _ _ _ _ _
            (roInsert m1.readonly_workerMap_ s r
              (readOnlyNode env m1 r s (env.loadKvString sdata))) _ _ _ _ _).zookeeper_ =
            some zk1 from hz1)
        exact ⟨m', h', k1.trans ((setReadOnlyWorkerMap_kept m1 _).trans k')⟩
      · rw [if_neg hk]
        obtain ⟨m', h', k'⟩ := ih m1 zk1 hz1
        exact ⟨m', h', k1.trans k'⟩
    | none =>
      obtain ⟨found, m2, zk2, h2, k2, -, hz2, -⟩ :=
        zkIsZNodeExists_some m1 st (getNodePath r s) WatchType.WATCH zk1 hz1
      simp only [h2, Option.bind_eq_bind, Option.some_bind]
      obtain ⟨m', h', k'⟩ := ih m2 zk2 hz2
      exact ⟨m', h', k1.trans (k2.trans k')⟩

theorem detectReadOnlyReplicas_kept (env : Env) (st : Store) (replicas : List replicaid_t) :
    ∀ (m : MasterManagerBase) (zk : ZooKeeper), m.zookeeper_ = some zk →
      ∃ m', detectReadOnlyReplicas env st replicas m = some m' ∧ m.PrimarySideKept m' := by
  induction replicas with
  | nil => intro m zk _; exact ⟨m, rfl, MasterManagerBase.PrimarySideKept.refl m⟩
  | cons r rest ih =>
    intro m zk hz
    obtain ⟨m1, h1, k1⟩ := detectReadOnlyLoop_kept env st r m.sf1rTopology_.all_shard_nodes_
      m zk hz
    obtain ⟨zk1, hz1, -⟩ := k1.2.2.2.2.2.2.2.2.2 zk hz
    obtain ⟨m', h', k'⟩ := ih m1 zk1 hz1
    refine ⟨m', ?_, k1.trans k'⟩
    simp only [detectReadOnlyReplicas, detectReadOnlyWorkersInReplica, h1, Option.bind_eq_bind,
      Option.some_bind, h']

/-- `detectReadOnlyWorkers` returns and leaves the primary side of the controller alone. -/
theorem detectReadOnlyWorkers_kept (env : Env) (st : Store) (m : MasterManagerBase)
    (nodepath : ZPath) (is_created_node : Bool) (zk : ZooKeeper)
    (hz : m.zookeeper_ = some zk) :
    ∃ m', detectReadOnlyWorkers env st m nodepath is_created_node = some m' ∧
      m.PrimarySideKept m' := by
  unfold detectReadOnlyWorkers
  split
  · simp only
    split
    · exact ⟨m, rfl, MasterManagerBase.PrimarySideKept.refl m⟩
    · split
      · split
        · exact ⟨m, rfl, MasterManagerBase.PrimarySideKept.refl m⟩
        · exact ⟨_, rfl, (setReadOnlyWorkerMap_kept m _).trans
            (resetReadOnlyAggregatorConfig_kept _)⟩
      · obtain ⟨data, m1, zk1, h1, -, k1, -, hz1, -⟩ :=
          zkGetZNodeData_some m st nodepath WatchType.WATCH zk hz
        simp only [h1, Option.bind_eq_bind, Option.some_bind]
        cases data with
        | none => exact ⟨m1, rfl, k1⟩
        | some sdata =>
          simp only
          split
          · exact ⟨m1, rfl, k1⟩
          · exact ⟨_, rfl, k1.trans ((setReadOnlyWorkerMap_kept m1 _).trans
              (resetReadOnlyAggregatorConfig_kept _))⟩
  · obtain ⟨m1, h1, k1⟩ := detectReadOnlyReplicas_kept env st m.replicaIdList_
      { m with readonly_workerMap_ := [] } zk hz
    simp only [h1, Option.bind_eq_bind, Option.some_bind]
    split
    · exact ⟨_, rfl, (setReadOnlyWorkerMap_kept m []).trans
        (k1.trans (resetReadOnlyAggregatorConfig_kept _))⟩
    · exact ⟨_, rfl, (setReadOnlyWorkerMap_kept m []).trans
        (k1.trans (resetAggregatorBusyState_kept _))⟩

theorem detectWorkerStep_inv (env : Env) (st : Store) (r : replicaid_t) (mp : Bool)
    (shards : List shardid_t) (d : DetectState) (s : shardid_t) (zk : ZooKeeper)
    (hz : d.m.zookeeper_ = some zk) (hs : s ∈ shards) (hparse : PortsParse env st)
    (hinv : DetectInv shards d) :
    ∃ d' zk', detectWorkerStep env st r mp d s = some d' ∧ DetectInv shards d' ∧
      d'.m.zookeeper_ = some zk' ∧ d'.m.sf1rTopology_ = d.m.sf1rTopology_ ∧
      d'.m.replicaIdList_ = d.m.replicaIdList_ := by
  obtain ⟨hnd, hgood, hdet⟩ := hinv
  obtain ⟨data, m1, zk1, h1, hdata, k1, -, hz1, -⟩ :=
    zkGetZNodeData_some d.m st (getNodePath r s) WatchType.WATCH zk hz
  simp only [detectWorkerStep, h1, Option.bind_eq_bind, Option.some_bind]
  cases data with
  | none =>
    obtain ⟨found, m2, zk2, h2, k2, -, hz2, -⟩ :=
      zkIsZNodeExists_some m1 st (getNodePath r s) WatchType.WATCH zk1 hz1
    simp only [h2, Option.bind_eq_bind, Option.some_bind]
    have k := k1.trans k2
    refine ⟨_, zk2, rfl, ⟨?_, ?_, ?_⟩, hz2, k.2.2.1, k.2.2.2.1⟩
    · simpa [k.1] using hnd
    · simpa [k.1] using hgood
    · simpa [k.1] using hdet
  | some sdata =>
    simp only
    by_cases hk : ZNode.hasKey (env.loadKvString sdata) ZNode.KEY_WORKER_PORT = true
    swap
    · rw [if_neg hk]
      refine ⟨_, zk1, rfl, ⟨?_, ?_, ?_⟩, hz1, k1.2.2.1, k1.2.2.2.1⟩
      · simpa [k1.1] using hnd
      · simpa [k1.1] using hgood
      · simpa [k1.1] using hdet
    rw [if_pos hk]
    have hkept : m1.PrimarySideKept
        (if mp = true then isPrimaryWorker env m1 st r s else (true, m1)).2 := by
      split
      · exact (isPrimaryWorker_kept env m1 st r s).1
      · exact MasterManagerBase.PrimarySideKept.refl m1
    generalize (if mp = true then isPrimaryWorker env m1 st r s else (true, m1)) = pr at hkept ⊢
    have k := k1.trans hkept
    obtain ⟨zk2, hz2, -⟩ := k.2.2.2.2.2.2.2.2.2 zk hz
    cases hpr : pr.1 with
    | false =>
      simp only [Bool.not_false, if_true]
      refine ⟨_, zk2, rfl, ⟨?_, ?_, ?_⟩, hz2, k.2.2.1, k.2.2.2.1⟩
      · simpa [k.1] using hnd
      · simpa [k.1] using hgood
      · simpa [k.1] using hdet
    | true =>
      simp only [Bool.not_true, Bool.false_eq_true, if_false]
      cases hf : ShardMap.find pr.2.workerMap_ s with
      | some existing =>
        have hmem : (s, existing) ∈ d.m.workerMap_ := by
          rw [k.1] at hf
          exact ShardMap.mem_of_find _ _ _ hf
        have hg : existing.worker_.isGood_ = true := (hgood _ hmem).1
        simp only [hg, if_true]
        refine ⟨_, zk2, rfl, ⟨?_, ?_, ?_⟩, hz2, k.2.2.1, k.2.2.2.1⟩
        · simpa [k.1] using hnd
        · simpa [k.1] using hgood
        · simpa [k.1] using hdet
      | none =>
        simp only
        have hnotin : s ∉ d.m.workerMap_.map Prod.fst := by
          rw [k.1] at hf
          exact (ShardMap.find_eq_none_iff _ _).1 hf
        obtain ⟨e, hfind, hedata⟩ : ∃ e, st.find (getNodePath r s) = some e ∧
            e.data = sdata := by
          cases hconn : zk.connected with
          | false => simp [hconn] at hdata
          | true =>
            simp only [hconn, if_true] at hdata
            cases hfe : st.find (getNodePath r s) with
            | none => simp [hfe] at hdata
            | some e =>
              simp [hfe] at hdata
              exact ⟨e, rfl, hdata.symm⟩
        have hp := hparse r s e hfind (by rw [hedata]; exact hk)
        rw [hedata] at hp
        have hperm := ShardMap.insert_perm d.m.workerMap_ s
          ({ updateWorkerNode env pr.2
              { { Sf1rNode.new with
                  worker_ := { Sf1rNode.new.worker_ with isGood_ := true } } with
                nodeId_ := s } (env.loadKvString sdata) with replicaId_ := r }) hnotin
        have hgoodnew : ({ updateWorkerNode env pr.2
              { { Sf1rNode.new with
                  worker_ := { Sf1rNode.new.worker_ with isGood_ := true } } with
                nodeId_ := s } (env.loadKvString sdata) with
              replicaId_ := r } : Sf1rNode).worker_.isGood_ = true := by
          show (updateWorkerNode env pr.2 _ (env.loadKvString sdata)).worker_.isGood_ = true
          rw [updateWorkerNode_isGood, hp.1, hp.2]
          rfl
        refine ⟨_, zk2, rfl, ⟨?_, ?_, ?_⟩, hz2, k.2.2.1, k.2.2.2.1⟩
        · simp only [k.1]
          have := (hperm.map Prod.fst).nodup_iff.2
            (List.nodup_cons.2 ⟨hnotin, hnd⟩)
          exact this
        · simp only [k.1]
          intro e' he'
          rcases List.mem_cons.1 (hperm.subset he') with heq | hold
          · subst heq
            exact ⟨hgoodnew, hs⟩
          · exact hgood e' hold
        · simp only [k.1, hperm.length_eq, List.length_cons]
          omega

theorem detectWorkerLoop_inv (env : Env) (st : Store) (r : replicaid_t) (mp : Bool)
    (shards : List shardid_t) (hparse : PortsParse env st) (l : List shardid_t) :
    ∀ (d : DetectState) (zk : ZooKeeper), d.m.zookeeper_ = some zk → (∀ s ∈ l, s ∈ shards) →
      DetectInv shards d →
      ∃ d' zk', detectWorkerLoop env st r mp l d = some d' ∧ DetectInv shards d' ∧
        d'.m.zookeeper_ = some zk' ∧ d'.m.sf1rTopology_ = d.m.sf1rTopology_ ∧
        d'.m.replicaIdList_ = d.m.replicaIdList_ := by
  induction l with
  | nil => intro d zk hz _ hinv; exact ⟨d, zk, rfl, hinv, hz, rfl, rfl⟩
  | cons s rest ih =>
    intro d zk hz hsub hinv
    obtain ⟨d1, zk1, h1, hinv1, hz1, ht1, hr1⟩ := detectWorkerStep_inv env st r mp shards d s zk
      hz (hsub s (List.mem_cons_self _ _)) hparse hinv
    obtain ⟨d2, zk2, h2, hinv2, hz2, ht2, hr2⟩ := ih d1 zk1 hz1
      (fun x hx => hsub x (List.mem_cons_of_mem _ hx)) hinv1
    refine ⟨d2, zk2, ?_, hinv2, hz2, ht2.trans ht1, hr2.trans hr1⟩
    simp only [detectWorkerLoop, h1, Option.bind_eq_bind, Option.some_bind, h2]

theorem detectWorkersInReplica_inv (env : Env) (st : Store) (r : replicaid_t)
    (hparse : PortsParse env st) (d : DetectState) (zk : ZooKeeper)
    (hz : d.m.zookeeper_ = some zk)
    (hinv : DetectInv d.m.sf1rTopology_.all_shard_nodes_ d) :
    ∃ d' zk', detectWorkersInReplica env st r d = some d' ∧
      DetectInv d.m.sf1rTopology_.all_shard_nodes_ d' ∧
      d'.m.zookeeper_ = some zk' ∧ d'.m.sf1rTopology_ = d.m.sf1rTopology_ ∧
      d'.m.replicaIdList_ = d.m.replicaIdList_ ∧
      (d'.m.masterState_ = MasterStateType.MASTER_STATE_STARTED →
        d.m.sf1rTopology_.all_shard_nodes_.length ≤ d'.detected) := by
  obtain ⟨d1, zk1, h1, hinv1, hz1, ht1, hr1⟩ := detectWorkerLoop_inv env st r d.m.isMinePrimary
    d.m.sf1rTopology_.all_shard_nodes_ hparse d.m.sf1rTopology_.all_shard_nodes_ d zk hz
    (fun _ h => h) hinv
  simp only [detectWorkersInReplica, h1, Option.bind_eq_bind, Option.some_bind]
  split
  · next hge => exact ⟨_, zk1, rfl, hinv1, hz1, ht1, hr1, fun _ => ht1 ▸ hge⟩
  · exact ⟨_, zk1, rfl, hinv1, hz1, ht1, hr1, fun h => by simp at h⟩

theorem detectOtherReplicas_inv (env : Env) (st : Store) (cur : replicaid_t)
    (shards : List shardid_t) (hparse : PortsParse env st) (replicas : List replicaid_t) :
    ∀ (d : DetectState) (zk : ZooKeeper), d.m.zookeeper_ = some zk →
      d.m.sf1rTopology_.all_shard_nodes_ = shards → DetectInv shards d →
      (d.m.masterState_ = MasterStateType.MASTER_STATE_STARTED → shards.length ≤ d.detected) →
      ∃ d' zk', detectOtherReplicas env st cur replicas d = some d' ∧ DetectInv shards d' ∧
        d'.m.zookeeper_ = some zk' ∧ d'.m.sf1rTopology_ = d.m.sf1rTopology_ ∧
        (d'.m.masterState_ = MasterStateType.MASTER_STATE_STARTED →
          shards.length ≤ d'.detected) := by
  induction replicas with
  | nil => intro d zk hz _ hinv hq; exact ⟨d, zk, rfl, hinv, hz, rfl, hq⟩
  | cons r rest ih =>
    intro d zk hz hsh hinv hq
    simp only [detectOtherReplicas]
    split
    · exact ⟨d, zk, rfl, hinv, hz, rfl, hq⟩
    · split
      · exact ih d zk hz hsh hinv hq
      · subst hsh
        obtain ⟨d1, zk1, h1, hinv1, hz1, ht1, -, hq1⟩ :=
          detectWorkersInReplica_inv env st r hparse d zk hz hinv
        obtain ⟨d2, zk2, h2, hinv2, hz2, ht2, hq2⟩ := ih d1 zk1 hz1 (by rw [ht1]) hinv1 hq1
        refine ⟨d2, zk2, ?_, hinv2, hz2, ht2.trans ht1, hq2⟩
        simp only [h1, Option.bind_eq_bind, Option.some_bind, h2]

theorem resetAggregatorConfig_fields (m : MasterManagerBase) :
    (resetAggregatorConfig m).workerMap_ = m.workerMap_ ∧
    (resetAggregatorConfig m).masterState_ = m.masterState_ ∧
    (resetAggregatorConfig m).zookeeper_ = m.zookeeper_ ∧
    (resetAggregatorConfig m).sf1rTopology_ = m.sf1rTopology_ :=
  ⟨rfl, rfl, rfl, rfl⟩

/-- C5 fails on the code in two ways.  In the first store the only shard advertises a worker
port that does not parse: the pass counts it as detected and ends in `STARTED` although the
entry is not good.  In the second store shard 1 is first detected with an unparsable port in
replica 1 and then again in replica 2, so it is counted twice and the pass ends in `STARTED`
although shard 2 has no entry at all. -/
theorem detectWorkers_started_without_good_worker :
    ((startedMaster 1 1 [1] 0 false).detectWorkers kvEnv badPortStore).map
      (fun r => (r.2.masterState_,
        (ShardMap.find r.2.workerMap_ 1).map (fun n => n.worker_.isGood_))) =
      some (MasterStateType.MASTER_STATE_STARTED, some false) ∧
    (twoReplicaMaster.detectWorkers kvEnv countedTwiceStore).map
      (fun r => (r.2.masterState_,
        (ShardMap.find r.2.workerMap_ 1).map (fun n => n.worker_.isGood_),
        (ShardMap.find r.2.workerMap_ 2).map (fun n => n.worker_.isGood_))) =
      some (MasterStateType.MASTER_STATE_STARTED, some true, none) := by
  constructor <;> decide

/-- C5 (amended): provided every node znode that offers a worker port carries a worker port
and a data port that parse, whenever `masterState_` is `STARTED` after `detectWorkers`, every
shard of `all_shard_nodes_` has an entry in `workerMap_` and that entry is good; the pass
itself always returns. -/
theorem detectWorkers_started_all_good (env : Env) (st : Store) (m : MasterManagerBase)
    (zk : ZooKeeper) (hz : m.zookeeper_ = some zk) (hparse : PortsParse env st) :
    ∃ good m', m.detectWorkers env st = some (good, m') ∧
      (m'.masterState_ = MasterStateType.MASTER_STATE_STARTED →
        ∀ s ∈ m.sf1rTopology_.all_shard_nodes_, ∃ node,
          ShardMap.find m'.workerMap_ s = some node ∧ node.worker_.isGood_ = true) := by
  have hinv0 : DetectInv m.sf1rTopology_.all_shard_nodes_
      { m := { m with workerMap_ := [] }, detected := 0, good := 0 } :=
    ⟨by simp, by simp, by simp⟩
  obtain ⟨d1, zk1, h1, hinv1, hz1, ht1, -, hq1⟩ := detectWorkersInReplica_inv env st
    m.sf1rTopology_.curNode_.replicaId_ hparse
    { m := { m with workerMap_ := [] }, detected := 0, good := 0 } zk hz hinv0
  obtain ⟨d2, zk2, h2, hinv2, hz2, ht2, hq2⟩ := detectOtherReplicas_inv env st
    m.sf1rTopology_.curNode_.replicaId_ m.sf1rTopology_.all_shard_nodes_ hparse
    d1.m.replicaIdList_ d1 zk1 hz1 (by rw [ht1]) hinv1 hq1
  have hm3 : ∃ m3 zk3, m3.zookeeper_ = some zk3 ∧ m3.workerMap_ = d2.m.workerMap_ ∧
      m3.masterState_ = d2.m.masterState_ ∧
      m3 = (if comparedSize m.workerMap_ d2.m.workerMap_ ≠ m.workerMap_.length ∨
          comparedSize m.workerMap_ d2.m.workerMap_ ≠ d2.m.workerMap_.length then
        resetAggregatorConfig d2.m else d2.m) := by
    by_cases hcmp : comparedSize m.workerMap_ d2.m.workerMap_ ≠ m.workerMap_.length ∨
        comparedSize m.workerMap_ d2.m.workerMap_ ≠ d2.m.workerMap_.length
    · exact ⟨resetAggregatorConfig d2.m, zk2, hz2, rfl, rfl, by rw [if_pos hcmp]⟩
    · exact ⟨d2.m, zk2, hz2, rfl, rfl, by rw [if_neg hcmp]⟩
  obtain ⟨m3, zk3, hz3, hw3, hs3, hm3⟩ := hm3
  obtain ⟨m4, h4, k4⟩ := detectReadOnlyWorkers_kept env st m3 (ZPath.other "") true zk3 hz3
  refine ⟨d2.good, m4, ?_, ?_⟩
  · simp only [detectWorkers, h1, Option.bind_eq_bind, Option.some_bind, h2, ← hm3, h4]
  · intro hstarted s hs
    rw [k4.2.1, hs3] at hstarted
    have hlen := hq2 hstarted
    obtain ⟨hnd, hgood, hdet⟩ := hinv2
    have hsubperm : (d2.m.workerMap_.map Prod.fst).Subperm m.sf1rTopology_.all_shard_nodes_ :=
      List.subperm_of_subset hnd (by
        intro k hk
        obtain ⟨e, he, rfl⟩ := List.mem_map.1 hk
        exact (hgood e he).2)
    have hperm := hsubperm.perm_of_length_le (by
      rw [List.length_map]
      exact hlen.trans hdet)
    have hmem : s ∈ d2.m.workerMap_.map Prod.fst := hperm.symm.subset hs
    obtain ⟨e, he, rfl⟩ := List.mem_map.1 hmem
    refine ⟨e.2, ?_, (hgood e he).1⟩
    rw [k4.1, hw3]
    exact ShardMap.find_of_mem _ _ _ hnd he

theorem goodStore_portsParse : PortsParse kvEnv goodStore := by
  intro r s e hfind _
  have he : e = { path := getNodePath 1 1, data := workerPayload "10.0.0.2" "18151" "18121",
                  ephemeral := true } := by
    simp only [Store.find, goodStore, List.find?] at hfind
    split at hfind
    · exact (Option.some.inj hfind).symm
    · exact absurd hfind (by simp)
  subst he
  decide

theorem detectWorkers_started_all_good_witness :
    ∃ good m', (startedMaster 1 1 [1] 0 false).detectWorkers kvEnv goodStore =
        some (good, m') ∧
      (m'.masterState_ = MasterStateType.MASTER_STATE_STARTED →
        ∀ s ∈ (startedMaster 1 1 [1] 0 false).sf1rTopology_.all_shard_nodes_, ∃ node,
          ShardMap.find m'.workerMap_ s = some node ∧ node.worker_.isGood_ = true) :=
  detectWorkers_started_all_good kvEnv goodStore (startedMaster 1 1 [1] 0 false) clientUp rfl
    goodStore_portsParse

/-- On `goodStore` the pass ends in `STARTED` with a good worker for shard 1. -/
theorem detectWorkers_goodStore :
    ((startedMaster 1 1 [1] 0 false).detectWorkers kvEnv goodStore).map
      (fun r => (r.2.masterState_,
        (ShardMap.find r.2.workerMap_ 1).map (fun n => (n.worker_.isGood_, n.worker_.port_)))) =
      some (MasterStateType.MASTER_STATE_STARTED, some (true, 18151)) := by
  decide

theorem notifyAllShardingBeginMigrate_iff_witness :
    ∃ m' st', (startedMaster 1 1 [1] 0 true).notifyAllShardingBeginMigrate kvEnv emptyStore
      [1] = some (true, m', st') := by
  obtain ⟨r, m', st', h, hiff, -, -⟩ :=
    notifyAllShardingBeginMigrate_iff kvEnv (startedMaster 1 1 [1] 0 true) emptyStore [1]
  have hr : r = true := hiff.2 ⟨by decide, by decide, by
    intro s hs hne
    simp at hs
    subst hs
    exact absurd rfl hne, rfl, by decide, by decide, by decide⟩
  subst hr
  exact ⟨m', st', h⟩

/-! ## Failover and recovery -/

/-- C6 fails on the code when a replica with an unparsable worker port precedes, in
`replicaIdList_`, the replica the slot was bound to: the loop has already moved the slot's
`replicaId_` to the failing replica, so it goes on to try the original replica.  Here the only
other replica (2) has no worker port that parses, yet `failover` leaves the slot good and
bound to replica 1, and `masterState_` stays `STARTED`. -/
theorem failover_retries_original_replica :
    failoverMaster.replicaIdList_ = [2, 1] ∧
    (ShardMap.find failoverMaster.workerMap_ 2).map (fun n => n.replicaId_) = some 1 ∧
    kvEnv.lexicalCastPort (ZNode.getStrValue (kvEnv.loadKvString
      (workerPayload "10.0.0.7" "abc" "18121")) ZNode.KEY_WORKER_PORT) = none ∧
    (failoverMaster.failover kvEnv failoverStore (getNodePath 1 2)).map
      (fun m' => (m'.masterState_, (ShardMap.find m'.workerMap_ 2).map
        (fun n => (n.replicaId_, n.host_, n.worker_.port_, n.worker_.isGood_)))) =
      some (MasterStateType.MASTER_STATE_STARTED, some (1, "10.0.0.9", 18152, true)) := by
  refine ⟨rfl, rfl, by decide, by decide⟩

theorem recoverLoop_no_match (env : Env) (st : Store) (cur : replicaid_t) (s : shardid_t)
    (mp : Bool) (l : WorkerMapT) :
    ∀ m : MasterManagerBase, m.sf1rTopology_.curNode_.replicaId_ = cur →
      (∀ e ∈ l, e.2.nodeId_ ≠ s) →
      recoverLoop env st (getNodePath cur s) mp l m =
        some { workers := l, need_reset_agg := false, m := m } := by
  induction l with
  | nil => intro m _ _; rfl
  | cons e rest ih =>
    intro m hcur hne
    obtain ⟨k, n⟩ := e
    have hn : s ≠ n.nodeId_ := fun h => hne (k, n) (List.mem_cons_self _ _) h.symm
    have hpath : ¬ getNodePath cur s = getNodePath cur n.nodeId_ := by
      simp [getNodePath, hn]
    simp only [recoverLoop, hcur, hpath, if_false,
      ih m hcur (fun e he => hne e (List.mem_cons_of_mem _ he)), Option.bind_eq_bind,
      Option.some_bind]

theorem recoverLoop_skip (env : Env) (st : Store) (cur : replicaid_t) (s : shardid_t)
    (mp : Bool) (rest : WorkerMapT) (m : MasterManagerBase)
    (hcur : m.sf1rTopology_.curNode_.replicaId_ = cur) (pre : WorkerMapT) :
    (∀ e ∈ pre, e.2.nodeId_ ≠ s) →
      recoverLoop env st (getNodePath cur s) mp (pre ++ rest) m =
        (recoverLoop env st (getNodePath cur s) mp rest m).map
          (fun r => { r with workers := pre ++ r.workers }) := by
  induction pre with
  | nil =>
    intro _
    rw [List.nil_append]
    cases recoverLoop env st (getNodePath cur s) mp rest m <;> rfl
  | cons e pre ih =>
    intro hne
    obtain ⟨k, n⟩ := e
    have hn : s ≠ n.nodeId_ := fun h => hne (k, n) (List.mem_cons_self _ _) h.symm
    have hpath : ¬ getNodePath cur s = getNodePath cur n.nodeId_ := by
      simp [getNodePath, hn]
    have hstep : recoverLoop env st (getNodePath cur s) mp ((k, n) :: (pre ++ rest)) m =
        (recoverLoop env st (getNodePath cur s) mp (pre ++ rest) m).bind
          (fun r => some { r with workers := (k, n) :: r.workers }) := by
      simp only [recoverLoop, hcur, hpath, if_false, Option.bind_eq_bind]
    rw [List.cons_append, hstep, ih (fun e he => hne e (List.mem_cons_of_mem _ he))]
    cases recoverLoop env st (getNodePath cur s) mp rest m <;> rfl

/-- The round of the loop of `recover` on the slot of the recovered path. -/
theorem recoverLoop_head (env : Env) (st : Store) (s : shardid_t) (mp : Bool)
    (slot : Sf1rNode) (post : WorkerMapT) (m : MasterManagerBase) (zk : ZooKeeper)
    (hz : m.zookeeper_ = some zk) (hid : slot.nodeId_ = s)
    (hpost : ∀ e ∈ post, e.2.nodeId_ ≠ s)
    (hforeign : ¬ (slot.replicaId_ = m.sf1rTopology_.curNode_.replicaId_ ∧
      slot.worker_.isGood_ = true)) :
    ∃ r, recoverLoop env st (getNodePath m.sf1rTopology_.curNode_.replicaId_ s) mp
        ((s, slot) :: post) m = some r ∧ m.PrimarySideKept r.m ∧
      (∀ e port, zk.connected = true →
        st.find (getNodePath m.sf1rTopology_.curNode_.replicaId_ s) = some e →
        ZNode.hasKey (env.loadKvString e.data) ZNode.KEY_WORKER_PORT = true →
        env.lexicalCastPort
          (ZNode.getStrValue (env.loadKvString e.data) ZNode.KEY_WORKER_PORT) = some port →
        (mp = true → (isPrimaryWorker env m st m.sf1rTopology_.curNode_.replicaId_ s).1 = true) →
        r.workers = (s, recoveredSlot env m.sf1rTopology_.curNode_.replicaId_ slot e.data port)
          :: post ∧ r.need_reset_agg = true) ∧
      ((zk.connected = false ∨
          st.find (getNodePath m.sf1rTopology_.curNode_.replicaId_ s) = none ∨
          ∃ e, st.find (getNodePath m.sf1rTopology_.curNode_.replicaId_ s) = some e ∧
            (ZNode.hasKey (env.loadKvString e.data) ZNode.KEY_WORKER_PORT = false ∨
              env.lexicalCastPort (ZNode.getStrValue (env.loadKvString e.data)
                ZNode.KEY_WORKER_PORT) = none)) →
        r.workers = (s, slot) :: post ∧ r.need_reset_agg = false) := by
  have hkept : m.PrimarySideKept
      (if mp = true then isPrimaryWorker env m st m.sf1rTopology_.curNode_.replicaId_ s
        else (true, m)).2 := by
    split
    · exact (isPrimaryWorker_kept env m st _ s).1
    · exact MasterManagerBase.PrimarySideKept.refl m
  have hprim : (if mp = true then isPrimaryWorker env m st m.sf1rTopology_.curNode_.replicaId_ s
        else (true, m)).1 = false →
      mp = true ∧ (isPrimaryWorker env m st m.sf1rTopology_.curNode_.replicaId_ s).1 = false := by
    intro h
    cases mp with
    | false => simp at h
    | true => exact ⟨rfl, by simpa using h⟩
  simp only [recoverLoop, hid, if_true]
  generalize (if mp = true then isPrimaryWorker env m st m.sf1rTopology_.curNode_.replicaId_ s
    else (true, m)) = pr at hkept hprim ⊢
  obtain ⟨zk2, hz2, hc2⟩ := hkept.2.2.2.2.2.2.2.2.2 zk hz
  have hcur2 : pr.2.sf1rTopology_.curNode_.replicaId_ = m.sf1rTopology_.curNode_.replicaId_ := by
    rw [hkept.2.2.1]
  cases hpr : pr.1 with
  | false =>
    obtain ⟨hmp, hnp⟩ := hprim hpr
    simp only [Bool.not_false, if_true,
      recoverLoop_no_match env st _ s mp post pr.2 hcur2 hpost, Option.bind_eq_bind,
      Option.some_bind]
    refine ⟨_, rfl, hkept, ?_, fun _ => ⟨rfl, rfl⟩⟩
    intro e port _ _ _ _ hnot
    rw [hnot hmp] at hnp
    exact absurd hnp (by simp)
  | true =>
    simp only [Bool.not_true, Bool.false_eq_true, if_false, hforeign]
    obtain ⟨data, m2, zk3, h2, hdata, k2, -, -, -⟩ := zkGetZNodeData_some pr.2 st
      (getNodePath m.sf1rTopology_.curNode_.replicaId_ s) WatchType.WATCH zk2 hz2
    have hcur3 : m2.sf1rTopology_.curNode_.replicaId_ = m.sf1rTopology_.curNode_.replicaId_ := by
      rw [k2.2.2.1, hcur2]
    simp only [h2, Option.bind_eq_bind, Option.some_bind,
      recoverLoop_no_match env st _ s mp post m2 hcur3 hpost, Option.map_some']
    rw [hc2] at hdata
    cases hconn : zk.connected with
    | false =>
      simp only [hconn, Bool.false_eq_true, if_false] at hdata
      subst hdata
      refine ⟨_, rfl, hkept.trans k2, ?_, fun _ => ⟨rfl, rfl⟩⟩
      intro e port hc
      simp at hc
    | true =>
      simp only [hconn, if_true] at hdata
      cases hfind : st.find (getNodePath m.sf1rTopology_.curNode_.replicaId_ s) with
      | none =>
        simp only [hfind, Option.map_none'] at hdata
        subst hdata
        refine ⟨_, rfl, hkept.trans k2, ?_, fun _ => ⟨rfl, rfl⟩⟩
        intro e port _ he
        simp at he
      | some e0 =>
        simp only [hfind, Option.map_some'] at hdata
        subst hdata
        simp only
        cases hk : ZNode.hasKey (env.loadKvString e0.data) ZNode.KEY_WORKER_PORT with
        | false =>
          simp only [Bool.not_false, if_true]
          refine ⟨_, rfl, hkept.trans k2, ?_, fun _ => ⟨rfl, rfl⟩⟩
          intro e port _ he hke
          cases Option.some.inj he
          rw [hk] at hke
          exact absurd hke (by simp)
        | true =>
          simp only [Bool.not_true, Bool.false_eq_true, if_false]
          cases hport : env.lexicalCastPort
              (ZNode.getStrValue (env.loadKvString e0.data) ZNode.KEY_WORKER_PORT) with
          | none =>
            simp only
            refine ⟨_, rfl, hkept.trans k2, ?_, fun _ => ⟨rfl, rfl⟩⟩
            intro e port _ he _ hpe
            cases Option.some.inj he
            rw [hport] at hpe
            exact absurd hpe (by simp)
          | some port0 =>
            simp only
            refine ⟨_, rfl, hkept.trans k2, ?_, ?_⟩
            · intro e port _ he _ hpe _
              cases Option.some.inj he
              rw [hport] at hpe
              cases Option.some.inj hpe
              exact ⟨by simp [recoveredSlot, hid], rfl⟩
            · intro hneg
              rcases hneg with h | h | ⟨e, he, h⟩
              · simp at h
              · simp at h
              · cases Option.some.inj he
                rcases h with h | h
                · rw [hk] at h
                  exact absurd h (by simp)
                · rw [hport] at h
                  exact absurd h (by simp)

theorem resetAggregatorConfigFor_primary_congr (m1 m2 : MasterManagerBase)
    (a : AggregatorBase) (ht : m1.sf1rTopology_ = m2.sf1rTopology_)
    (hw : m1.workerMap_ = m2.workerMap_) :
    m1.resetAggregatorConfigFor a false = m2.resetAggregatorConfigFor a false := by
  simp [resetAggregatorConfigFor, ht, hw]

/-- C7: `recover(path)` for the current replica's znode path of a shard `s` whose slot in
`workerMap_` is bound to a foreign replica or is not good.  If the znode is readable and
carries a `worker_port` that parses (and, when this master is primary, is the shard's primary
worker), the slot is rebound to the current replica with the znode's host and worker port and
marked good, and the primary aggregators are rebound from the new worker map.  If the znode is
unreadable, has no `worker_port`, or the port does not parse, the slot (and the whole worker
map) is left as it was and no primary aggregator rebind happens.  The call returns in every
case. -/
theorem recover_rebinds_or_keeps (env : Env) (st : Store) (m : MasterManagerBase)
    (zk : ZooKeeper) (s : shardid_t) (slot : Sf1rNode)
    (hz : m.zookeeper_ = some zk)
    (hnd : (m.workerMap_.map Prod.fst).Nodup)
    (hid : ∀ e ∈ m.workerMap_, e.2.nodeId_ = e.1)
    (hslot : ShardMap.find m.workerMap_ s = some slot)
    (hforeign : ¬ (slot.replicaId_ = m.sf1rTopology_.curNode_.replicaId_ ∧
      slot.worker_.isGood_ = true)) :
    ∃ m', m.recover env st (getNodePath m.sf1rTopology_.curNode_.replicaId_ s) = some m' ∧
      (∀ e port, zk.connected = true →
        st.find (getNodePath m.sf1rTopology_.curNode_.replicaId_ s) = some e →
        ZNode.hasKey (env.loadKvString e.data) ZNode.KEY_WORKER_PORT = true →
        env.lexicalCastPort
          (ZNode.getStrValue (env.loadKvString e.data) ZNode.KEY_WORKER_PORT) = some port →
        (m.isMinePrimary = true →
          (isPrimaryWorker env m st m.sf1rTopology_.curNode_.replicaId_ s).1 = true) →
        ShardMap.find m'.workerMap_ s =
          some (recoveredSlot env m.sf1rTopology_.curNode_.replicaId_ slot e.data port) ∧
        m'.calls.count Call.resetAggregatorConfig =
          m.calls.count Call.resetAggregatorConfig + 1 ∧
        m'.aggregatorList_ = m.aggregatorList_.map (fun a =>
          resetAggregatorConfigFor { m with workerMap_ := m'.workerMap_ } a false)) ∧
      ((zk.connected = false ∨
          st.find (getNodePath m.sf1rTopology_.curNode_.replicaId_ s) = none ∨
          ∃ e, st.find (getNodePath m.sf1rTopology_.curNode_.replicaId_ s) = some e ∧
            (ZNode.hasKey (env.loadKvString e.data) ZNode.KEY_WORKER_PORT = false ∨
              env.lexicalCastPort (ZNode.getStrValue (env.loadKvString e.data)
                ZNode.KEY_WORKER_PORT) = none)) →
        ShardMap.find m'.workerMap_ s = some slot ∧ m'.workerMap_ = m.workerMap_ ∧
        m'.calls.count Call.resetAggregatorConfig =
          m.calls.count Call.resetAggregatorConfig ∧
        m'.aggregatorList_ = m.aggregatorList_) := by
  have hmem := ShardMap.mem_of_find _ _ _ hslot
  obtain ⟨pre, post, hsplit⟩ := List.append_of_mem hmem
  have hnd' := hnd
  rw [hsplit, List.map_append, List.map_cons, List.nodup_append] at hnd'
  obtain ⟨-, hndpost, hdisj⟩ := hnd'
  have hspre : s ∉ pre.map Prod.fst := fun h =>
    hdisj h (List.mem_cons_self _ _)
  have hspost : s ∉ post.map Prod.fst := (List.nodup_cons.1 hndpost).1
  have hpre : ∀ e ∈ pre, e.2.nodeId_ ≠ s := by
    intro e he h
    rw [hid e (by rw [hsplit]; exact List.mem_append_left _ he)] at h
    exact hspre (h ▸ List.mem_map_of_mem Prod.fst he)
  have hpost : ∀ e ∈ post, e.2.nodeId_ ≠ s := by
    intro e he h
    rw [hid e (by rw [hsplit]; exact List.mem_append_right _ (List.mem_cons_of_mem _ he))] at h
    exact hspost (h ▸ List.mem_map_of_mem Prod.fst he)
  have hsid : slot.nodeId_ = s := hid (s, slot) hmem
  obtain ⟨r, hr, kr, hpos, hneg⟩ := recoverLoop_head env st s m.isMinePrimary slot post m zk hz
    hsid hpost hforeign
  have hloop : recoverLoop env st (getNodePath m.sf1rTopology_.curNode_.replicaId_ s)
      m.isMinePrimary m.workerMap_ m =
      some { r with workers := pre ++ r.workers } := by
    rw [hsplit, recoverLoop_skip env st _ s m.isMinePrimary _ m rfl pre hpre, hr]
    rfl
  obtain ⟨zk2, hz2, -⟩ := kr.2.2.2.2.2.2.2.2.2 zk hz
  obtain ⟨m2, hm2, hz2', hw2, hc2, ha2⟩ : ∃ m2 : MasterManagerBase,
      m2 = (if r.need_reset_agg = true then
        resetAggregatorConfig { r.m with workerMap_ := pre ++ r.workers }
        else { r.m with workerMap_ := pre ++ r.workers }) ∧
      m2.zookeeper_ = some zk2 ∧ m2.workerMap_ = pre ++ r.workers ∧
      m2.calls.count Call.resetAggregatorConfig =
        m.calls.count Call.resetAggregatorConfig + (if r.need_reset_agg = true then 1 else 0) ∧
      m2.aggregatorList_ = (if r.need_reset_agg = true then
        m.aggregatorList_.map (fun a =>
          resetAggregatorConfigFor { m with workerMap_ := pre ++ r.workers } a false)
        else m.aggregatorList_) := by
    refine ⟨_, rfl, ?_, ?_, ?_, ?_⟩
    · split <;> exact hz2
    · split <;> rfl
    · split
      · simp [resetAggregatorConfig, kr.2.2.2.2.2.1]
      · simpa using kr.2.2.2.2.2.1
    · split
      · simp only [resetAggregatorConfig, kr.2.2.2.2.1]
        apply List.map_congr_left
        intro a _
        exact resetAggregatorConfigFor_primary_congr _ _ a kr.2.2.1 rfl
      · exact kr.2.2.2.2.1
  obtain ⟨m', hm', k'⟩ := detectReadOnlyWorkers_kept env st m2
    (getNodePath m.sf1rTopology_.curNode_.replicaId_ s) true zk2 hz2'
  refine ⟨m', ?_, ?_, ?_⟩
  · simp only [recover, hloop, Option.bind_eq_bind, Option.some_bind, ← hm2, hm']
  · intro e port hc hfind hk hport hprim
    obtain ⟨hw, hreset⟩ := hpos e port hc hfind hk hport hprim
    rw [hreset] at hc2 ha2
    rw [hw] at hw2 ha2
    refine ⟨?_, ?_, ?_⟩
    · rw [k'.1, hw2]
      apply ShardMap.find_of_mem
      · simpa [hsplit] using hnd
      · simp
    · rw [k'.2.2.2.2.2.1, hc2]
      simp
    · rw [k'.2.2.2.2.1, ha2, k'.1, hw2]
      simp
  · intro hcase
    obtain ⟨hw, hreset⟩ := hneg hcase
    rw [hreset] at hc2 ha2
    rw [hw, ← hsplit] at hw2
    refine ⟨?_, ?_, ?_, ?_⟩
    · rw [k'.1, hw2]
      exact hslot
    · rw [k'.1, hw2]
    · rw [k'.2.2.2.2.2.1, hc2]
      simp
    · rw [k'.2.2.2.2.1, ha2]
      simp

theorem recover_rebinds_or_keeps_witness :
    ∃ m', recoverMaster.recover kvEnv failoverStore (getNodePath 1 2) = some m' ∧
      ShardMap.find m'.workerMap_ 2 = some (recoveredSlot kvEnv 1 foreignSlot
        (workerPayload "10.0.0.9" "18152" "18121") 18152) ∧
      m'.calls.count Call.resetAggregatorConfig =
        recoverMaster.calls.count Call.resetAggregatorConfig + 1 := by
  obtain ⟨m', h, hpos, -⟩ := recover_rebinds_or_keeps kvEnv failoverStore recoverMaster
    clientUp 2 foreignSlot rfl (by decide) (by decide) rfl (by decide)
  have hp := hpos ⟨getNodePath 1 2, workerPayload "10.0.0.9" "18152" "18121", true⟩ 18152 rfl
    (by decide) (by decide) (by decide) (by decide)
  exact ⟨m', h, hp.1, hp.2.1⟩

/-! ## The result of `endWriteReq` -/

theorem endWriteReq_absent (env : Env) (m : MasterManagerBase) (st : Store)
    (habsent : st.contains m.write_prepare_node_ = false) :
    ∃ m', m.endWriteReq env st = some (true, m', st) := by
  by_cases ha : env.isAsyncEnabled = true
  · simp [endWriteReq, ha]
  by_cases hs : m.stopping_ = true
  · simp [endWriteReq, ha, hs]
  cases hz : m.zookeeper_ with
  | none => simp [endWriteReq, ha, hs, hz]
  | some zk =>
    simp [endWriteReq, ha, hs, hz, zkIsZNodeExists, ZooKeeper.isZNodeExists, habsent]

theorem endWriteReq_owner (env : Env) (m : MasterManagerBase) (st : Store) (zk : ZooKeeper)
    (e : ZEntry) (hsync : env.isAsyncEnabled = false) (hs : m.stopping_ = false)
    (hz : m.zookeeper_ = some zk) (hc : zk.connected = true)
    (hfind : st.find m.write_prepare_node_ = some e)
    (hown : ZNode.getStrValue (env.loadKvString e.data) ZNode.KEY_MASTER_SERVER_REAL_PATH =
      m.serverRealPath_.toStr) :
    ∃ m', m.endWriteReq env st = some (true, m', st.erase m.write_prepare_node_) := by
  have hcont : st.contains m.write_prepare_node_ = true := by
    rw [← Store.find_isSome, hfind]; rfl
  simp [endWriteReq, hsync, hs, hz, hc, zkIsZNodeExists, zkGetZNodeData, zkDeleteZNode,
    ZooKeeper.isZNodeExists, ZooKeeper.getZNodeData, ZooKeeper.deleteZNode,
    ZooKeeper.addWatch, hcont, hfind, hown]

theorem endWriteReq_mismatch (env : Env) (m : MasterManagerBase) (st : Store) (zk : ZooKeeper)
    (e : ZEntry) (hsync : env.isAsyncEnabled = false) (hs : m.stopping_ = false)
    (hz : m.zookeeper_ = some zk) (hc : zk.connected = true)
    (hfind : st.find m.write_prepare_node_ = some e)
    (hother : ZNode.getStrValue (env.loadKvString e.data) ZNode.KEY_MASTER_SERVER_REAL_PATH ≠
      m.serverRealPath_.toStr) :
    ∃ m', m.endWriteReq env st = some (false, m', st) := by
  have hcont : st.contains m.write_prepare_node_ = true := by
    rw [← Store.find_isSome, hfind]; rfl
  simp [endWriteReq, hsync, hs, hz, hc, zkIsZNodeExists, zkGetZNodeData,
    ZooKeeper.isZNodeExists, ZooKeeper.getZNodeData, ZooKeeper.addWatch, hcont, hfind, hother]

/-- C11, as stated, fails in async execution mode: the write-prepare znode of shard 1 names
the master registered as server number 0, and `endWriteReq` on the master registered as server
number 1 returns true. -/
theorem endWriteReq_async_ignores_owner :
    (∃ e, lockedStore.find (startedMaster 2 1 [1] 1 true).write_prepare_node_ = some e ∧
      ZNode.getStrValue (kvEnvAsync.loadKvString e.data) ZNode.KEY_MASTER_SERVER_REAL_PATH ≠
        (startedMaster 2 1 [1] 1 true).serverRealPath_.toStr) ∧
    (startedMaster 2 1 [1] 1 true).endWriteReq kvEnvAsync lockedStore =
      some (true, startedMaster 2 1 [1] 1 true, lockedStore) := by
  refine ⟨⟨_, rfl, by decide⟩, by decide⟩

/-- C11 (amended): `endWriteReq` returns true when the write-prepare znode is absent; on a
master in synchronous mode that is not stopping and whose client is connected it returns true
when it deleted the znode (the payload names this master) and returns false, leaving the
znode in place, when the payload names a different master. -/
theorem endWriteReq_result (env : Env) (m : MasterManagerBase) (st : Store) :
    (st.contains m.write_prepare_node_ = false →
      ∃ m', m.endWriteReq env st = some (true, m', st)) ∧
    (∀ zk e, env.isAsyncEnabled = false → m.stopping_ = false → m.zookeeper_ = some zk →
      zk.connected = true → st.find m.write_prepare_node_ = some e →
      (ZNode.getStrValue (env.loadKvString e.data) ZNode.KEY_MASTER_SERVER_REAL_PATH =
          m.serverRealPath_.toStr →
        ∃ m', m.endWriteReq env st = some (true, m', st.erase m.write_prepare_node_)) ∧
      (ZNode.getStrValue (env.loadKvString e.data) ZNode.KEY_MASTER_SERVER_REAL_PATH ≠
          m.serverRealPath_.toStr →
        ∃ m', m.endWriteReq env st = some (false, m', st))) :=
  ⟨endWriteReq_absent env m st, fun zk e hsync hs hz hc hfind =>
    ⟨endWriteReq_owner env m st zk e hsync hs hz hc hfind,
      endWriteReq_mismatch env m st zk e hsync hs hz hc hfind⟩⟩

theorem endWriteReq_result_witness :
    (∃ m', (startedMaster 1 1 [1] 0 true).endWriteReq kvEnv emptyStore =
      some (true, m', emptyStore)) ∧
    (∃ m', (startedMaster 1 1 [1] 0 true).endWriteReq kvEnv lockedStore =
      some (true, m', lockedStore.erase (startedMaster 1 1 [1] 0 true).write_prepare_node_)) ∧
    (∃ m', (startedMaster 2 1 [1] 1 true).endWriteReq kvEnv lockedStore =
      some (false, m', lockedStore)) :=
  ⟨(endWriteReq_result kvEnv (startedMaster 1 1 [1] 0 true) emptyStore).1 (by decide),
    ((endWriteReq_result kvEnv (startedMaster 1 1 [1] 0 true) lockedStore).2 clientUp
      ⟨getWriteReqPrepareNode 1, preparePayload kvEnv (startedMaster 1 1 [1] 0 true), true⟩
      rfl rfl rfl rfl rfl).1 (by decide),
    ((endWriteReq_result kvEnv (startedMaster 2 1 [1] 1 true) lockedStore).2 clientUp
      ⟨getWriteReqPrepareNode 1, preparePayload kvEnv (startedMaster 1 1 [1] 0 true), true⟩
      rfl rfl rfl rfl rfl).2 (by decide)⟩

/-! ## The aggregator binder -/

theorem primaryWorkersFor_eq_spec (workers : WorkerMapT) (cur : shardid_t)
    (shardidList : List shardid_t) :
    primaryWorkersFor workers cur shardidList = primaryTableOfSpec workers cur shardidList := by
  induction shardidList with
  | nil => rfl
  | cons s rest ih =>
    simp only [primaryWorkersFor, primaryTableOfSpec, List.flatMap_cons, List.filterMap_cons]
      at ih ⊢
    cases hf : ShardMap.find workers s with
    | none => simpa using ih
    | some node =>
      cases hg : node.worker_.isGood_ <;> simpa [hg] using ih

theorem readOnlyWorkersFor_eq_spec (ro : ROWorkerMapT) (shardidList : List shardid_t) :
    readOnlyWorkersFor ro shardidList = readOnlyTableOfSpec ro shardidList := by
  simp only [readOnlyWorkersFor, readOnlyTableOfSpec]
  congr 1
  funext s
  cases ShardMap.find ro s with
  | none => rfl
  | some nodes =>
    simp only [Option.getD_some]
    induction nodes with
    | nil => rfl
    | cons nit rest ih =>
      cases hg : nit.2.worker_.isGood_ <;> simp [List.filter_cons, List.filterMap_cons, hg, ih]

theorem busyListFor_eq_spec (ro : ROWorkerMapT) (coll : String) :
    busyListFor ro coll = busyListOfSpec ro coll := by
  simp only [busyListFor, busyListOfSpec]
  induction ro with
  | nil => rfl
  | cons it rest ih =>
    simp only [List.flatMap_cons, List.filterMap_append, ih]
    congr 1
    induction it.2 with
    | nil => rfl
    | cons nit nodes ih2 =>
      by_cases hb : nit.2.worker_.busyState_ = coll <;>
        simp [List.filter_cons, List.filterMap_cons, hb, ih2]

theorem primaryTableOfSpec_shardids_sublist (workers : WorkerMapT) (cur : shardid_t)
    (shardidList : List shardid_t) :
    List.Sublist ((primaryTableOfSpec workers cur shardidList).map WorkerServerInfo.shardid)
      shardidList := by
  induction shardidList with
  | nil => simp [primaryTableOfSpec]
  | cons s rest ih =>
    simp only [primaryTableOfSpec, List.filterMap_cons] at ih ⊢
    cases hf : ShardMap.find workers s with
    | none => simpa using ih.cons s
    | some node =>
      cases hg : node.worker_.isGood_ with
      | false => simpa [hg] using ih.cons s
      | true => simpa [hg] using ih.cons₂ s

/-- C12: for an aggregator with a configured shard list, the table handed over by
`resetAggregatorConfig(aggregator, false)` is the primary view of the specification: in
shard-list order, one entry `(host, workerPort, shardId, local)` for each listed shard whose
`workerMap_` entry exists and is good and none for the others, `local` being true iff the
entry's node id is the current node's id.  Two controllers that agree on `workerMap_`, on the
shard list and on the current node id hand over the same table. -/
theorem resetAggregatorConfig_primary_table (m : MasterManagerBase) (a : AggregatorBase)
    (shardidList : List shardid_t)
    (hlist : m.sf1rTopology_.getShardidList a.service a.collection = some shardidList) :
    (m.resetAggregatorConfigFor a false).config = some
      { readonly := false,
        workers := primaryTableOfSpec m.workerMap_ m.sf1rTopology_.curNode_.nodeId_
          shardidList } ∧
    (∀ w, w ∈ primaryTableOfSpec m.workerMap_ m.sf1rTopology_.curNode_.nodeId_ shardidList ↔
      ∃ s ∈ shardidList, ∃ node, ShardMap.find m.workerMap_ s = some node ∧
        node.worker_.isGood_ = true ∧
        w = { host := node.host_, port := node.worker_.port_, shardid := s,
              isLocal := decide (node.nodeId_ = m.sf1rTopology_.curNode_.nodeId_) }) ∧
    List.Sublist
      ((primaryTableOfSpec m.workerMap_ m.sf1rTopology_.curNode_.nodeId_ shardidList).map
        WorkerServerInfo.shardid) shardidList ∧
    (∀ m2 : MasterManagerBase, m2.workerMap_ = m.workerMap_ →
      m2.sf1rTopology_.curNode_.nodeId_ = m.sf1rTopology_.curNode_.nodeId_ →
      m2.sf1rTopology_.getShardidList a.service a.collection = some shardidList →
      (m2.resetAggregatorConfigFor a false).config =
        (m.resetAggregatorConfigFor a false).config) := by
  have hcfg : ∀ m2 : MasterManagerBase,
      m2.sf1rTopology_.getShardidList a.service a.collection = some shardidList →
      (m2.resetAggregatorConfigFor a false).config = some
        { readonly := false,
          workers := primaryTableOfSpec m2.workerMap_ m2.sf1rTopology_.curNode_.nodeId_
            shardidList } := by
    intro m2 h2
    simp [resetAggregatorConfigFor, h2, primaryWorkersFor_eq_spec]
  refine ⟨hcfg m hlist, ?_, ?_, ?_⟩
  · intro w
    simp only [primaryTableOfSpec, List.mem_filterMap]
    constructor
    · rintro ⟨s, hs, hw⟩
      cases hf : ShardMap.find m.workerMap_ s with
      | none => simp [hf] at hw
      | some node =>
        cases hg : node.worker_.isGood_ with
        | false => simp [hf, hg] at hw
        | true =>
          simp [hf, hg] at hw
          exact ⟨s, hs, node, hf, hg, hw.symm⟩
    · rintro ⟨s, hs, node, hf, hg, rfl⟩
      exact ⟨s, hs, by simp [hf, hg]⟩
  · exact primaryTableOfSpec_shardids_sublist _ _ _
  · intro m2 hw hc hl
    rw [hcfg m2 hl, hcfg m hlist, hw, hc]

theorem resetAggregatorConfig_primary_table_witness :
    (aggregatorMaster.resetAggregatorConfigFor searchAggregator false).config = some
      { readonly := false,
        workers := [{ host := "10.0.0.2", port := 18151, shardid := 1, isLocal := true }] } :=
  (resetAggregatorConfig_primary_table aggregatorMaster searchAggregator [1, 2, 3] rfl).1.trans
    (by decide)

/-- C13: for a read-only aggregator with a non-empty collection name and a configured shard
list, `resetAggregatorConfig(aggregator, true)` hands over the read-only view of the
specification, one entry `(host, workerPort, shardId)` for every good `(replica, node)` of
`readonly_workerMap_[shardId]` of each listed shard and nothing else, and a busy list that is
exactly the `(host, workerPort)` pairs of the nodes of `readonly_workerMap_` whose busy state
is the aggregator's collection name. -/
theorem resetAggregatorConfig_readonly_table (m : MasterManagerBase) (a : AggregatorBase)
    (shardidList : List shardid_t) (hcoll : a.collection ≠ "")
    (hlist : m.sf1rTopology_.getShardidList a.service a.collection = some shardidList) :
    (m.resetAggregatorConfigFor a true).config = some
      { readonly := true,
        workers := readOnlyTableOfSpec m.readonly_workerMap_ shardidList } ∧
    (m.resetAggregatorConfigFor a true).busyList =
      some (busyListOfSpec m.readonly_workerMap_ a.collection) ∧
    (∀ w, w ∈ readOnlyTableOfSpec m.readonly_workerMap_ shardidList ↔
      ∃ s ∈ shardidList, ∃ nodes, ShardMap.find m.readonly_workerMap_ s = some nodes ∧
        ∃ nit ∈ nodes, nit.2.worker_.isGood_ = true ∧
          w = { host := nit.2.host_, port := nit.2.worker_.port_, shardid := s,
                isLocal := false }) ∧
    (∀ b, b ∈ busyListOfSpec m.readonly_workerMap_ a.collection ↔
      ∃ it ∈ m.readonly_workerMap_, ∃ nit ∈ it.2,
        nit.2.worker_.busyState_ = a.collection ∧ b = (nit.2.host_, nit.2.worker_.port_)) := by
  refine ⟨?_, ?_, ?_, ?_⟩
  · simp [resetAggregatorConfigFor, hlist, readOnlyWorkersFor_eq_spec]
  · simp [resetAggregatorConfigFor, hlist, hcoll, busyListFor_eq_spec]
  · intro w
    simp only [readOnlyTableOfSpec, List.mem_flatMap, List.mem_filterMap]
    constructor
    · rintro ⟨s, hs, nit, hnit, hw⟩
      cases hf : ShardMap.find m.readonly_workerMap_ s with
      | none => simp [hf] at hnit
      | some nodes =>
        simp only [hf, Option.getD_some] at hnit
        cases hg : nit.2.worker_.isGood_ with
        | false => simp [hg] at hw
        | true =>
          simp only [hg, if_true, Option.some.injEq] at hw
          exact ⟨s, hs, nodes, hf, nit, hnit, hg, hw.symm⟩
    · rintro ⟨s, hs, nodes, hf, nit, hnit, hg, rfl⟩
      exact ⟨s, hs, nit, by simpa [hf] using hnit, by simp [hg]⟩
  · intro b
    simp only [busyListOfSpec, List.mem_filterMap, List.mem_flatMap]
    constructor
    · rintro ⟨nit, ⟨it, hit, hnit⟩, hb⟩
      by_cases hbusy : nit.2.worker_.busyState_ = a.collection
      · simp only [hbusy, if_true, Option.some.injEq] at hb
        exact ⟨it, hit, nit, hnit, hbusy, hb.symm⟩
      · simp [hbusy] at hb
    · rintro ⟨it, hit, nit, hnit, hbusy, rfl⟩
      exact ⟨nit, ⟨it, hit, hnit⟩, by simp [hbusy]⟩

theorem resetAggregatorConfig_readonly_table_witness :
    (aggregatorMaster.resetAggregatorConfigFor searchAggregator true).config = some
      { readonly := true,
        workers := [{ host := "10.0.0.2", port := 18151, shardid := 1, isLocal := false },
                    { host := "10.0.0.4", port := 18151, shardid := 1, isLocal := false }] } ∧
    (aggregatorMaster.resetAggregatorConfigFor searchAggregator true).busyList =
      some [("10.0.0.4", 18151)] :=
  ⟨(resetAggregatorConfig_readonly_table aggregatorMaster searchAggregator [1, 2, 3]
      (by decide) rfl).1.trans (by decide),
    (resetAggregatorConfig_readonly_table aggregatorMaster searchAggregator [1, 2, 3]
      (by decide) rfl).2.1.trans (by decide)⟩

/-! ## Blocking new writes, and the async mode -/

theorem prepareWriteReq_blocked (env : Env) (m : MasterManagerBase) (st : Store)
    (hb : m.WriteBlocked) :
    ∃ m', m.prepareWriteReq env st = some (false, m', st) ∧ m'.WriteBlocked := by
  obtain ⟨hd, hn, hw, hz⟩ := hb
  cases hzk : m.zookeeper_ with
  | none => simp [hzk] at hz
  | some zk =>
    by_cases hs : m.stopping_ = true
    · exact ⟨m, by simp [prepareWriteReq, hd, hs], hd, hn, hw, hz⟩
    by_cases hp : m.isMinePrimary = true
    · exact ⟨m, by simp [prepareWriteReq, hd, hs, hp, hn], hd, hn, hw, hz⟩
    · refine ⟨{ m with zookeeper_ := some zk }, ?_, hd, hn, hw, rfl⟩
      simp [prepareWriteReq, hd, hs, hp, zkIsZNodeExists, hzk, ZooKeeper.isZNodeExists,
        ZooKeeper.addWatch]

/-- C16: in distributed mode, on a controller with a client, `disableNewWrite` returns false
and changes nothing when a write is prepared; when no write is prepared it returns true and
leaves the controller write-blocked.  On a write-blocked controller every `prepareWriteReq`
returns false, leaves the store as it is (no write-prepare znode is created), leaves
`write_prepared_` false and leaves the controller write-blocked, so this holds for every
later call as well.  `enableNewWrite` clears `new_write_disabled_`, after which a running
primary master in synchronous mode can prepare a write again. -/
theorem disableNewWrite_blocks_prepareWriteReq (env : Env) (m : MasterManagerBase)
    (zk : ZooKeeper) (hd : m.isDistributeEnable_ = true) (hz : m.zookeeper_ = some zk) :
    (m.write_prepared_ = true → m.disableNewWrite = (false, m)) ∧
    (m.write_prepared_ = false →
      m.disableNewWrite.1 = true ∧ m.disableNewWrite.2.WriteBlocked) ∧
    (∀ (m1 : MasterManagerBase) (st : Store), m1.WriteBlocked →
      ∃ m2, m1.prepareWriteReq env st = some (false, m2, st) ∧ m2.write_prepared_ = false ∧
        m2.WriteBlocked) ∧
    (∀ m1 : MasterManagerBase, m1.enableNewWrite.new_write_disabled_ = false) ∧
    (∀ (m1 : MasterManagerBase) (st : Store) (zk1 : ZooKeeper), m1.WriteBlocked →
      env.isAsyncEnabled = false → m1.stopping_ = false → m1.zookeeper_ = some zk1 →
      zk1.connected = true → m1.is_mine_primary_ = true →
      st.contains m1.write_prepare_node_ = false →
      ∃ m2 st2, m1.enableNewWrite.prepareWriteReq env st = some (true, m2, st2) ∧
        m2.write_prepared_ = true) := by
  refine ⟨?_, ?_, ?_, fun _ => rfl, ?_⟩
  · intro hw
    simp [disableNewWrite, hw]
  · intro hw
    simp [disableNewWrite, hw, WriteBlocked, hd, hz]
  · intro m1 st hb
    obtain ⟨m2, h, hb2⟩ := prepareWriteReq_blocked env m1 st hb
    exact ⟨m2, h, hb2.2.2.1, hb2⟩
  · intro m1 st zk1 hb hsync hs hz1 hc hp hfree
    obtain ⟨m2, h, hw2⟩ := prepareWriteReq_free env m1.enableNewWrite st zk1 hsync hb.1 hs hz1
      hc hp rfl hfree
    exact ⟨m2, _, h, hw2⟩

theorem disableNewWrite_blocks_prepareWriteReq_witness :
    ((startedMaster 1 1 [1] 0 true).disableNewWrite.1 = true ∧
      (startedMaster 1 1 [1] 0 true).disableNewWrite.2.WriteBlocked) ∧
    (∃ m2, (startedMaster 1 1 [1] 0 true).disableNewWrite.2.prepareWriteReq kvEnv emptyStore =
      some (false, m2, emptyStore) ∧ m2.write_prepared_ = false ∧ m2.WriteBlocked) := by
  have h := disableNewWrite_blocks_prepareWriteReq kvEnv (startedMaster 1 1 [1] 0 true)
    clientUp rfl rfl
  exact ⟨h.2.1 rfl, h.2.2.1 _ emptyStore (h.2.1 rfl).2⟩

/-- C17: in async execution mode, for every store, `prepareWriteReq` on a running primary
master in distributed mode with new writes enabled returns true and sets `write_prepared_`
while leaving the store unchanged, and `endWriteReq` returns true and leaves both the
controller and the store unchanged. -/
theorem async_lock_leaves_store (env : Env) (m : MasterManagerBase) (st : Store)
    (zk : ZooKeeper) (hasync : env.isAsyncEnabled = true)
    (hd : m.isDistributeEnable_ = true) (hs : m.stopping_ = false)
    (hz : m.zookeeper_ = some zk) (hc : zk.connected = true)
    (hp : m.is_mine_primary_ = true) (hn : m.new_write_disabled_ = false) :
    m.prepareWriteReq env st = some (true, { m with write_prepared_ := true }, st) ∧
    (∀ (m1 : MasterManagerBase) (st1 : Store), m1.endWriteReq env st1 = some (true, m1, st1)) := by
  constructor
  · simp [prepareWriteReq, isMinePrimary, notConnected, ZooKeeper.isConnected, hasync, hd, hs,
      hz, hc, hp, hn]
  · intro m1 st1
    simp [endWriteReq, hasync]

theorem async_lock_leaves_store_witness :
    (startedMaster 1 1 [1] 0 true).prepareWriteReq kvEnvAsync lockedStore =
      some (true, { startedMaster 1 1 [1] 0 true with write_prepared_ := true }, lockedStore) ∧
    (∀ (m1 : MasterManagerBase) (st1 : Store),
      m1.endWriteReq kvEnvAsync st1 = some (true, m1, st1)) :=
  async_lock_leaves_store kvEnvAsync (startedMaster 1 1 [1] 0 true) lockedStore clientUp
    rfl rfl rfl rfl rfl rfl rfl

/-! ## Requests pushed to the queues of other shards -/

theorem zkCreateZNode_sequence (m : MasterManagerBase) (st : Store) (zk : ZooKeeper)
    (p : ZPath) (data : String) (hz : m.zookeeper_ = some zk) (hc : zk.connected = true)
    (hfree : st.contains (ZPath.seq p st.nextSeq) = false) :
    ∃ m1 zk1, m1.zookeeper_ = some zk1 ∧ zk1.connected = true ∧
      m1.sf1rTopology_ = m.sf1rTopology_ ∧
      m.zkCreateZNode st p data ZNodeCreateType.ZNODE_SEQUENCE = some (true, m1,
        { nodes := st.nodes ++ [ZEntry.mk (ZPath.seq p st.nextSeq) data false],
          nextSeq := st.nextSeq + 1 }) := by
  refine ⟨{ m with zookeeper_ := some (ZooKeeper.mk true zk.watches ZkError.ZERR_OK
    (ZPath.seq p st.nextSeq)) }, _, rfl, rfl, rfl, ?_⟩
  simp [zkCreateZNode, hz, ZooKeeper.createZNode, hc, hfree]

theorem zkCreateZNode_sequence_true (m m1 : MasterManagerBase) (st st1 : Store) (p : ZPath)
    (data : String)
    (h : m.zkCreateZNode st p data ZNodeCreateType.ZNODE_SEQUENCE = some (true, m1, st1)) :
    m1.sf1rTopology_ = m.sf1rTopology_ ∧
    st1 = { nodes := st.nodes ++ [ZEntry.mk (ZPath.seq p st.nextSeq) data false],
            nextSeq := st.nextSeq + 1 } := by
  cases hz : m.zookeeper_ with
  | none => simp [zkCreateZNode, hz] at h
  | some zk =>
    by_cases hc : zk.connected = true
    swap
    · simp [zkCreateZNode, hz, ZooKeeper.createZNode, hc] at h
    by_cases hfree : st.contains (ZPath.seq p st.nextSeq) = true
    · simp [zkCreateZNode, hz, ZooKeeper.createZNode, hc, hfree] at h
    · simp [zkCreateZNode, hz, ZooKeeper.createZNode, hc, hfree] at h
      obtain ⟨hm, hst⟩ := h
      subst hm
      exact ⟨rfl, hst.symm⟩

theorem Store.seqFresh_append (st : Store) (p : ZPath) (data : String) (e : Bool)
    (h : st.SeqFresh) :
    Store.SeqFresh { nodes := st.nodes ++ [ZEntry.mk (ZPath.seq p st.nextSeq) data e],
                     nextSeq := st.nextSeq + 1 } := by
  intro q n hn
  have hold := h q n (by simp at hn; omega)
  simp only [Store.contains, List.any_append, hold, Bool.false_or] at hold ⊢
  simp at hn
  simp
  refine ⟨by simpa using hold, fun _ hn2 => ?_⟩
  omega

theorem pushToShardLoop_true (payload : String) (inc : Bool) (shardids : List shardid_t) :
    ∀ (m m' : MasterManagerBase) (st st' : Store),
      pushToShardLoop payload inc shardids m st = some (true, m', st') →
      st'.nodes = st.nodes ++ shardRequestEntries payload st.nextSeq
        (m.shardTargets shardids inc) ∧
      st'.nextSeq = st.nextSeq + (m.shardTargets shardids inc).length := by
  induction shardids with
  | nil =>
    intro m m' st st' h
    simp [pushToShardLoop] at h
    simp [shardTargets, shardRequestEntries, h.2]
  | cons s rest ih =>
    intro m m' st st' h
    by_cases hskip : (!inc && decide (s = m.sf1rTopology_.curNode_.nodeId_)) = true
    · have ht : m.shardTargets (s :: rest) inc = m.shardTargets rest inc := by
        simp only [shardTargets]
        rw [List.filter_cons_of_neg]
        simp at hskip
        simp [hskip.1, hskip.2]
      rw [pushToShardLoop, if_pos hskip] at h
      rw [ht]
      exact ih m m' st st' h
    · have ht : m.shardTargets (s :: rest) inc = s :: m.shardTargets rest inc := by
        simp only [shardTargets]
        rw [List.filter_cons_of_pos]
        cases inc <;> simp at hskip ⊢
        exact hskip
      rw [pushToShardLoop, if_neg hskip] at h
      cases hcr : m.zkCreateZNode st (getWriteReqQueueNode s) payload
          ZNodeCreateType.ZNODE_SEQUENCE with
      | none => simp [hcr] at h
      | some r =>
        obtain ⟨created, m1, st1⟩ := r
        cases created with
        | false => simp [hcr] at h
        | true =>
          obtain ⟨htop, hst1⟩ := zkCreateZNode_sequence_true m m1 st st1 _ payload hcr
          simp only [hcr, if_true] at h
          have h2 := ih m1 m' st1 st' h
          have ht1 : m1.shardTargets rest inc = m.shardTargets rest inc := by
            simp only [shardTargets, htop]
          rw [ht1] at h2
          rw [ht, h2.1, h2.2, hst1]
          simp [shardRequestEntries]
          omega

theorem pushToShardLoop_fresh (payload : String) (inc : Bool) (shardids : List shardid_t) :
    ∀ (m : MasterManagerBase) (st : Store) (zk : ZooKeeper), m.zookeeper_ = some zk →
      zk.connected = true → st.SeqFresh →
      ∃ m' st', pushToShardLoop payload inc shardids m st = some (true, m', st') := by
  induction shardids with
  | nil =>
    intro m st zk _ _ _
    exact ⟨m, st, rfl⟩
  | cons s rest ih =>
    intro m st zk hz hc hfresh
    by_cases hskip : (!inc && decide (s = m.sf1rTopology_.curNode_.nodeId_)) = true
    · rw [pushToShardLoop, if_pos hskip]
      exact ih m st zk hz hc hfresh
    · rw [pushToShardLoop, if_neg hskip]
      obtain ⟨m1, zk1, hz1, hc1, _, hcr⟩ := zkCreateZNode_sequence m st zk
        (getWriteReqQueueNode s) payload hz hc (hfresh _ _ (Nat.le_refl _))
      simp only [hcr, if_true]
      exact ih m1 _ zk1 hz1 hc1 (Store.seqFresh_append st _ payload false hfresh)

theorem migratingStore_seqFresh : migratingStore.SeqFresh := by
  intro p n _
  simp [Store.contains, migratingStore]

/-- C14: on a master whose client is connected, `pushWriteReqToShard` with `for_migrate`
false returns false and leaves the store as it is when the migration-prepare znode exists.
With `for_migrate` true, or with no migration-prepare znode, it returns true on every store
whose sequence numbers are fresh, whether or not the migration-prepare znode exists.
Whenever it returns true, the store has gained exactly one sequential request znode under
the queue of each element of `shardids`, in order (without the elements equal to the current
node's id when `include_self` is false), and nothing else; each of these znodes carries the
same payload, whose `req_data` is `data`. -/
theorem pushWriteReqToShard_contract (env : Env) (m : MasterManagerBase) (st : Store)
    (zk : ZooKeeper) (data : String) (shardids : List shardid_t) (include_self : Bool)
    (hz : m.zookeeper_ = some zk) (hc : zk.connected = true) :
    (st.contains m.migrate_prepare_node_ = true →
      ∃ m', m.pushWriteReqToShard env st data shardids false include_self =
        some (false, m', st)) ∧
    (∀ for_migrate : Bool,
      (for_migrate = true ∨ st.contains m.migrate_prepare_node_ = false) → st.SeqFresh →
      ∃ m' st', m.pushWriteReqToShard env st data shardids for_migrate include_self =
        some (true, m', st')) ∧
    (∀ (for_migrate : Bool) (m' : MasterManagerBase) (st' : Store),
      m.pushWriteReqToShard env st data shardids for_migrate include_self =
        some (true, m', st') →
      st'.nodes = st.nodes ++ shardRequestEntries (requestPayload env data "api_from_shard")
        st.nextSeq (m.shardTargets shardids include_self)) ∧
    (∃ z, requestPayload env data "api_from_shard" = env.serialize z ∧
      ZNode.getStrValue z ZNode.KEY_REQ_DATA = data) := by
  have hn : m.notConnected = false := by
    simp [notConnected, hz, ZooKeeper.isConnected, hc]
  refine ⟨?_, ?_, ?_, ⟨_, rfl, ?_⟩⟩
  · intro hmig
    simp [pushWriteReqToShard, hn, zkIsZNodeExists, hz, ZooKeeper.isZNodeExists, hc, hmig]
  · intro for_migrate hfm hfresh
    cases for_migrate with
    | true =>
      simp only [pushWriteReqToShard, hn, if_true, Bool.false_eq_true, if_false]
      exact pushToShardLoop_fresh _ include_self shardids m st zk hz hc hfresh
    | false =>
      have hmig : st.contains m.migrate_prepare_node_ = false := by
        rcases hfm with h | h
        · simp at h
        · exact h
      obtain ⟨m1, hm1, hz1⟩ : ∃ m1, m.zkIsZNodeExists st m.migrate_prepare_node_
          WatchType.WATCH = some (false, m1) ∧
          m1.zookeeper_ = some (zk.addWatch WatchType.WATCH m.migrate_prepare_node_) :=
        ⟨{ m with zookeeper_ := some (zk.addWatch WatchType.WATCH m.migrate_prepare_node_) },
          by simp [zkIsZNodeExists, hz, ZooKeeper.isZNodeExists, hc, hmig], rfl⟩
      obtain ⟨m', st', h⟩ := pushToShardLoop_fresh
        (requestPayload env data "api_from_shard") include_self shardids m1 st _ hz1
        (by rw [addWatch_connected]; exact hc) hfresh
      refine ⟨m', st', ?_⟩
      simp only [pushWriteReqToShard, hn, Bool.false_eq_true, if_false, hm1, Option.bind_eq_bind,
        Option.some_bind]
      exact h
  · intro for_migrate m' st' h
    cases for_migrate with
    | true =>
      simp only [pushWriteReqToShard, hn, if_true, Bool.false_eq_true, if_false] at h
      exact (pushToShardLoop_true _ include_self shardids m m' st st' h).1
    | false =>
      by_cases hmig : st.contains m.migrate_prepare_node_ = true
      · simp [pushWriteReqToShard, hn, zkIsZNodeExists, hz, ZooKeeper.isZNodeExists, hc,
          hmig] at h
      · obtain ⟨m1, hm1, ht1⟩ : ∃ m1, m.zkIsZNodeExists st m.migrate_prepare_node_
            WatchType.WATCH = some (false, m1) ∧ m1.sf1rTopology_ = m.sf1rTopology_ :=
          ⟨{ m with zookeeper_ := some (zk.addWatch WatchType.WATCH m.migrate_prepare_node_) },
            by simp [zkIsZNodeExists, hz, ZooKeeper.isZNodeExists, hc, hmig], rfl⟩
        simp only [pushWriteReqToShard, hn, Bool.false_eq_true, if_false, hm1,
          Option.bind_eq_bind, Option.some_bind] at h
        have h2 := (pushToShardLoop_true _ include_self shardids m1 m' st st' h).1
        have ht : m1.shardTargets shardids include_self =
            m.shardTargets shardids include_self := by
          simp only [shardTargets, ht1]
        rw [ht] at h2
        exact h2
  · simp [ZNode.setValue, ZNode.getStrValue, ZNode.KEY_REQ_TYPE, ZNode.KEY_REQ_DATA]

theorem pushWriteReqToShard_contract_witness :
    (∃ m', (startedMaster 1 1 [1, 2, 3] 0 true).pushWriteReqToShard kvEnv migratingStore "doc"
      [1, 2, 3] false false = some (false, m', migratingStore)) ∧
    (∃ m' st', (startedMaster 1 1 [1, 2, 3] 0 true).pushWriteReqToShard kvEnv migratingStore
      "doc" [1, 2, 3] true false = some (true, m', st')) :=
  ⟨(pushWriteReqToShard_contract kvEnv (startedMaster 1 1 [1, 2, 3] 0 true) migratingStore
      clientUp "doc" [1, 2, 3] false rfl rfl).1 (by decide),
    (pushWriteReqToShard_contract kvEnv (startedMaster 1 1 [1, 2, 3] 0 true) migratingStore
      clientUp "doc" [1, 2, 3] false rfl rfl).2.1 true (Or.inl rfl) migratingStore_seqFresh⟩

/-- C15: `pushWriteReqToShard` does not apply the refusals of `pushWriteReq` for a stopping
master and for a master with distributed mode off: on such a master with a connected client
it returns true and creates a request znode in the queue of shard 2, where `pushWriteReq`
returns false and leaves the store empty. -/
theorem pushWriteReqToShard_ignores_stopping :
    (stoppingMaster.pushWriteReqToShard kvEnv emptyStore "doc" [2] false false).map
        (fun r => (r.1, r.2.2.nodes.map ZEntry.path)) =
      some (true, [ZPath.seq (getWriteReqQueueNode 2) 0]) ∧
    (localMaster.pushWriteReqToShard kvEnv emptyStore "doc" [2] false false).map
        (fun r => (r.1, r.2.2.nodes.map ZEntry.path)) =
      some (true, [ZPath.seq (getWriteReqQueueNode 2) 0]) ∧
    (stoppingMaster.pushWriteReq kvEnv emptyStore "doc" "api_from_shard").map
        (fun r => (r.1, r.2.2.nodes.map ZEntry.path)) = some (false, []) ∧
    (localMaster.pushWriteReq kvEnv emptyStore "doc" "api_from_shard").map
        (fun r => (r.1, r.2.2.nodes.map ZEntry.path)) = some (false, []) := by
  decide

/-! ## The read-only worker map -/

theorem ShardMap.find_insert_self {V : Type} (wm : ShardMap V) (k : Nat) (v : V) :
    ShardMap.find (ShardMap.insert wm k v) k = some v := by
  induction wm with
  | nil => simp [ShardMap.insert, ShardMap.find]
  | cons e rest ih =>
    obtain ⟨k', v'⟩ := e
    by_cases hlt : k < k'
    · simp [ShardMap.insert, ShardMap.find, hlt]
    · by_cases heq : k' = k
      · simp [ShardMap.insert, ShardMap.find, heq]
      · simp only [ShardMap.insert, hlt, heq, if_false, ShardMap.find]
        exact ih

theorem ShardMap.find_insert_ne {V : Type} (wm : ShardMap V) (k k2 : Nat) (v : V)
    (h : k ≠ k2) : ShardMap.find (ShardMap.insert wm k v) k2 = ShardMap.find wm k2 := by
  induction wm with
  | nil => simp [ShardMap.insert, ShardMap.find, h]
  | cons e rest ih =>
    obtain ⟨k', v'⟩ := e
    by_cases hlt : k < k'
    · simp [ShardMap.insert, ShardMap.find, hlt, h]
    · by_cases heq : k' = k
      · subst heq
        simp [ShardMap.insert, ShardMap.find, h]
      · simp only [ShardMap.insert, hlt, heq, if_false, ShardMap.find]
        rw [ih]

theorem roInsert_find (ro : ROWorkerMapT) (s : shardid_t) (r : replicaid_t) (node : Sf1rNode) :
    (ShardMap.find (roInsert ro s r node) s).bind (fun nodes => ShardMap.find nodes r) =
      some node := by
  simp [roInsert, ShardMap.find_insert_self]

theorem roInsert_ok (env : Env) (st : Store) (ro : ROWorkerMapT) (s : shardid_t)
    (r : replicaid_t) (node : Sf1rNode) (hro : ROWorkersOK env st ro)
    (hn : ROEntryOK env st s r node) : ROWorkersOK env st (roInsert ro s r node) := by
  intro s2 nodes2 r2 node2 h1 h2
  by_cases hs : s = s2
  · subst hs
    rw [roInsert, ShardMap.find_insert_self] at h1
    cases h1
    by_cases hr : r = r2
    · subst hr
      rw [ShardMap.find_insert_self] at h2
      cases h2
      exact hn
    · rw [ShardMap.find_insert_ne _ _ _ _ hr] at h2
      cases hf : ShardMap.find ro s with
      | none => simp [hf, ShardMap.find] at h2
      | some old =>
        rw [hf] at h2
        exact hro s old r2 node2 hf h2
  · rw [roInsert, ShardMap.find_insert_ne _ _ _ _ hs] at h1
    exact hro s2 nodes2 r2 node2 h1 h2

theorem readOnlyNode_port (env : Env) (m : MasterManagerBase) (r : replicaid_t)
    (s : shardid_t) (z : ZNode) :
    (∀ port, env.lexicalCastPort (ZNode.getStrValue z ZNode.KEY_WORKER_PORT) = some port →
      (readOnlyNode env m r s z).worker_.port_ = port) ∧
    (env.lexicalCastPort (ZNode.getStrValue z ZNode.KEY_WORKER_PORT) = none →
      (readOnlyNode env m r s z).worker_.isGood_ = false) := by
  simp only [readOnlyNode, updateWorkerNode]
  cases env.lexicalCastPort (ZNode.getStrValue z ZNode.KEY_WORKER_PORT) <;>
    cases env.lexicalCastPort (ZNode.getStrValue z ZNode.KEY_DATA_PORT) <;> simp

theorem readOnlyNode_ok (env : Env) (st : Store) (m : MasterManagerBase) (zk : ZooKeeper)
    (r : replicaid_t) (s : shardid_t) (sdata : String)
    (hd : some sdata = (if zk.connected then (st.find (getNodePath r s)).map ZEntry.data
      else none))
    (hk : ZNode.hasKey (env.loadKvString sdata) ZNode.KEY_WORKER_PORT = true) :
    ROEntryOK env st s r (readOnlyNode env m r s (env.loadKvString sdata)) := by
  cases hf : st.find (getNodePath r s) with
  | none =>
    rw [hf] at hd
    cases hc : zk.connected <;> simp [hc] at hd
  | some e =>
    rw [hf] at hd
    have he : e.data = sdata := by
      cases hc : zk.connected <;> simp [hc] at hd
      exact hd.symm
    refine ⟨e, hf, ?_, ?_⟩
    · rw [he]; exact hk
    · rw [he]; exact readOnlyNode_port env m r s _

theorem detectReadOnlyLoop_ok (env : Env) (st : Store) (r : replicaid_t)
    (shards : List shardid_t) :
    ∀ (m : MasterManagerBase) (zk : ZooKeeper), m.zookeeper_ = some zk →
      ROWorkersOK env st m.readonly_workerMap_ →
      ∃ m' zk', detectReadOnlyLoop env st r shards m = some m' ∧ m'.zookeeper_ = some zk' ∧
        ROWorkersOK env st m'.readonly_workerMap_ := by
  induction shards with
  | nil => intro m zk hz hro; exact ⟨m, zk, rfl, hz, hro⟩
  | cons s rest ih =>
    intro m zk hz hro
    obtain ⟨data, m1, zk1, h1, hdata, -, hro1, hz1, -⟩ :=
      zkGetZNodeData_some m st (getNodePath r s) WatchType.WATCH zk hz
    simp only [detectReadOnlyLoop, h1, Option.bind_eq_bind, Option.some_bind]
    rw [← hro1] at hro
    cases data with
    | some sdata =>
      simp only
      by_cases hk : ZNode.hasKey (env.loadKvString sdata) ZNode.KEY_WORKER_PORT = true
      · rw [if_pos hk]
        exact ih _ zk1
          (show (MasterManagerBase.mk _ _ _ _ _ _ _ _ _ _ _ _ _ _ _ _ _ _ _ _ _
            (roInsert m1.readonly_workerMap_ s r
              (readOnlyNode env m1 r s (env.loadKvString sdata))) _ _ _ _ _).zookeeper_ =
            some zk1 from hz1)
          (roInsert_ok env st _ s r _ hro (readOnlyNode_ok env st m1 zk r s sdata hdata hk))
      · rw [if_neg hk]
        exact ih m1 zk1 hz1 hro
    | none =>
      obtain ⟨found, m2, zk2, h2, -, hro2, hz2, -⟩ :=
        zkIsZNodeExists_some m1 st (getNodePath r s) WatchType.WATCH zk1 hz1
      simp only [h2, Option.bind_eq_bind, Option.some_bind]
      rw [← hro2] at hro
      exact ih m2 zk2 hz2 hro

theorem detectReadOnlyReplicas_ok (env : Env) (st : Store) (replicas : List replicaid_t) :
    ∀ (m : MasterManagerBase) (zk : ZooKeeper), m.zookeeper_ = some zk →
      ROWorkersOK env st m.readonly_workerMap_ →
      ∃ m', detectReadOnlyReplicas env st replicas m = some m' ∧
        ROWorkersOK env st m'.readonly_workerMap_ := by
  induction replicas with
  | nil => intro m zk _ hro; exact ⟨m, rfl, hro⟩
  | cons r rest ih =>
    intro m zk hz hro
    obtain ⟨m1, zk1, h1, hz1, hro1⟩ := detectReadOnlyLoop_ok env st r
      m.sf1rTopology_.all_shard_nodes_ m zk hz hro
    obtain ⟨m', h', hro'⟩ := ih m1 zk1 hz1 hro1
    refine ⟨m', ?_, hro'⟩
    simp only [detectReadOnlyReplicas, detectReadOnlyWorkersInReplica, h1, Option.bind_eq_bind,
      Option.some_bind, h']

theorem findCaredNode_path (replicas : List replicaid_t) (nodepath : ZPath)
    (shards : List shardid_t) :
    ∀ acc : shardid_t × replicaid_t,
      findCaredNode replicas nodepath shards acc = acc ∨
      getNodePath (findCaredNode replicas nodepath shards acc).2
        (findCaredNode replicas nodepath shards acc).1 = nodepath := by
  induction shards with
  | nil => intro acc; exact Or.inl rfl
  | cons s rest ih =>
    intro acc
    cases hf : replicas.find? (fun r => decide (getNodePath r s = nodepath)) with
    | none =>
      simp only [findCaredNode, hf]
      exact ih acc
    | some r =>
      simp only [findCaredNode, hf]
      rcases ih (s, r) with h | h
      · right
        rw [h]
        have := List.find?_some hf
        simpa using this
      · exact Or.inr h

/-- C18 (as claimed, refuted): a node whose `worker_port` does not pass the parser is entered
into the read-only worker map all the same, marked as not good and with the port of a fresh
node, by the pass over every replica and by the detection for a created node. -/
theorem detectReadOnlyWorkers_enters_unparsed_port :
    (kvEnv.lexicalCastPort (ZNode.getStrValue
      (kvEnv.loadKvString (workerPayload "10.0.0.2" "abc" "18121"))
      ZNode.KEY_WORKER_PORT)).isSome = false ∧
    (detectReadOnlyWorkers kvEnv badPortStore twoReplicaMaster (ZPath.other "") false).map
      (fun m => m.readonly_workerMap_.map (fun e =>
        (e.1, e.2.map (fun n => (n.1, n.2.worker_.port_, n.2.worker_.isGood_))))) =
      some [(1, [(1, 0, false)])] ∧
    (detectReadOnlyWorkers kvEnv badPortStore twoReplicaMaster (getNodePath 1 1) true).map
      (fun m => m.readonly_workerMap_.map (fun e =>
        (e.1, e.2.map (fun n => (n.1, n.2.worker_.port_, n.2.worker_.isGood_))))) =
      some [(1, [(1, 0, false)])] :=
  ⟨by decide, by decide, by decide⟩

/-- C18 (amended): on a controller with a client, the read-only detection returns, and every
entry `roWorkerMap[s][r]` that it makes belongs to a node whose znode exists and offers a
`worker_port`; when that string parses as a valid port the entry's `workerPort` is the parsed
value, and when it does not parse the entry is marked as not good.  This holds of every entry
of the map after the pass over every replica, is kept by `detectReadOnlyWorkersInReplica`,
and holds of the entry that the detection for a created node writes. -/
theorem detectReadOnlyWorkers_entries (env : Env) (st : Store) (m : MasterManagerBase)
    (zk : ZooKeeper) (hz : m.zookeeper_ = some zk) :
    (∀ b : Bool, ∃ m', detectReadOnlyWorkers env st m (ZPath.other "") b = some m' ∧
      ROWorkersOK env st m'.readonly_workerMap_) ∧
    (∀ r : replicaid_t, ROWorkersOK env st m.readonly_workerMap_ →
      ∃ m', detectReadOnlyWorkersInReplica env st r m = some m' ∧
        ROWorkersOK env st m'.readonly_workerMap_) ∧
    (∀ nodepath : ZPath, nodepath ≠ ZPath.other "" →
      ∃ m', detectReadOnlyWorkers env st m nodepath true = some m' ∧
        (m'.readonly_workerMap_ = m.readonly_workerMap_ ∨
          ∃ (s : shardid_t) (r : replicaid_t) (node : Sf1rNode),
            getNodePath r s = nodepath ∧
            m'.readonly_workerMap_ = roInsert m.readonly_workerMap_ s r node ∧
            (ShardMap.find m'.readonly_workerMap_ s).bind
              (fun nodes => ShardMap.find nodes r) = some node ∧
            ROEntryOK env st s r node)) := by
  refine ⟨?_, ?_, ?_⟩
  · intro b
    have hempty : ROWorkersOK env st [] := by
      intro s nodes r node h
      simp [ShardMap.find] at h
    obtain ⟨m1, h1, hro1⟩ := detectReadOnlyReplicas_ok env st m.replicaIdList_
      { m with readonly_workerMap_ := [] } zk hz hempty
    simp only [detectReadOnlyWorkers, ne_eq, not_true_eq_false, if_false, h1,
      Option.bind_eq_bind, Option.some_bind]
    split
    · exact ⟨_, rfl, hro1⟩
    · exact ⟨_, rfl, hro1⟩
  · intro r hro
    obtain ⟨m', _, h, _, hro'⟩ := detectReadOnlyLoop_ok env st r
      m.sf1rTopology_.all_shard_nodes_ m zk hz hro
    exact ⟨m', h, hro'⟩
  · intro nodepath hne
    have hfound := findCaredNode_path m.replicaIdList_ nodepath
      m.sf1rTopology_.all_shard_nodes_ (0, 0)
    simp only [detectReadOnlyWorkers, hne, ne_eq, not_false_eq_true, if_true]
    generalize findCaredNode m.replicaIdList_ nodepath
      m.sf1rTopology_.all_shard_nodes_ (0, 0) = found at hfound ⊢
    by_cases h0 : found.1 = 0
    · rw [if_pos h0]
      exact ⟨m, rfl, Or.inl rfl⟩
    · rw [if_neg h0]
      have hpath : getNodePath found.2 found.1 = nodepath := by
        rcases hfound with h | h
        · rw [h] at h0
          exact absurd rfl h0
        · exact h
      obtain ⟨data, m1, zk1, h1, hdata, -, hro1, -, -⟩ :=
        zkGetZNodeData_some m st nodepath WatchType.WATCH zk hz
      simp only [Bool.not_true, Bool.false_eq_true, if_false, h1, Option.bind_eq_bind,
        Option.some_bind]
      cases data with
      | none => exact ⟨m1, rfl, Or.inl hro1⟩
      | some sdata =>
        simp only
        by_cases hk : ZNode.hasKey (env.loadKvString sdata) ZNode.KEY_WORKER_PORT = true
        · simp only [hk, Bool.not_true, Bool.false_eq_true, if_false]
          refine ⟨_, rfl, Or.inr ⟨found.1, found.2,
            readOnlyNode env m1 found.2 found.1 (env.loadKvString sdata), hpath, ?_, ?_, ?_⟩⟩
          · simp only [resetReadOnlyAggregatorConfig, hro1]
          · simp only [resetReadOnlyAggregatorConfig]
            exact roInsert_find _ _ _ _
          · rw [← hpath] at hdata
            exact readOnlyNode_ok env st m1 zk _ _ sdata hdata hk
        · simp only [hk, Bool.not_false, if_true]
          exact ⟨m1, rfl, Or.inl hro1⟩

theorem detectReadOnlyWorkers_entries_witness :
    (∃ m', detectReadOnlyWorkers kvEnv badPortStore twoReplicaMaster (ZPath.other "") false =
        some m' ∧ ROWorkersOK kvEnv badPortStore m'.readonly_workerMap_) ∧
    (∃ m', detectReadOnlyWorkers kvEnv goodStore twoReplicaMaster (ZPath.other "") false =
        some m' ∧ ROWorkersOK kvEnv goodStore m'.readonly_workerMap_) :=
  ⟨(detectReadOnlyWorkers_entries kvEnv badPortStore twoReplicaMaster clientUp rfl).1 false,
    (detectReadOnlyWorkers_entries kvEnv goodStore twoReplicaMaster clientUp rfl).1 false⟩

/-! ## Migration: the new sharding nodes and the service state -/

theorem getlineItems_single (d : Char) (a : List Char) (hne : a ≠ [])
    (ha : ∀ c ∈ a, c ≠ d) : getlineItems d a = [a] := by
  induction a with
  | nil => exact absurd rfl hne
  | cons c rest ih =>
    have hc : c ≠ d := ha c (List.mem_cons_self _ _)
    cases rest with
    | nil => simp [getlineItems, hc]
    | cons c2 rest2 =>
      have h2 := ih (by simp) (fun x hx => ha x (List.mem_cons_of_mem _ hx))
      simp only [getlineItems, hc, if_false] at h2 ⊢
      rw [h2]

theorem getlineItems_append (d : Char) (a b : List Char) (ha : ∀ c ∈ a, c ≠ d) :
    getlineItems d (a ++ d :: b) = a :: getlineItems d b := by
  induction a with
  | nil => simp [getlineItems]
  | cons c rest ih =>
    have hc : c ≠ d := ha c (List.mem_cons_self _ _)
    have h2 := ih (fun x hx => ha x (List.mem_cons_of_mem _ hx))
    rw [List.cons_append, getlineItems, if_neg hc, h2]

theorem appendComma_toList (acc item : String) (h : acc ≠ "") :
    (appendComma acc item).toList = acc.toList ++ ',' :: item.toList := by
  simp [appendComma, h, String.toList]

theorem appendComma_ne (acc item : String) (h : acc ≠ "") : appendComma acc item ≠ "" := by
  intro h2
  have h3 := congrArg String.toList h2
  rw [appendComma_toList acc item h] at h3
  simp at h3

theorem foldl_appendComma_toList (items : List String) :
    ∀ acc : String, acc ≠ "" →
      (items.foldl appendComma acc).toList =
        acc.toList ++ items.flatMap (fun t => ',' :: t.toList) := by
  induction items with
  | nil => intro acc _; simp
  | cons t rest ih =>
    intro acc hacc
    rw [List.foldl_cons, ih _ (appendComma_ne acc t hacc), appendComma_toList acc t hacc]
    simp

theorem getlineItems_joined (items : List String)
    (hitems : ∀ t ∈ items, t ≠ "" ∧ ',' ∉ t.toList) :
    ∀ a : List Char, a ≠ [] → (∀ c ∈ a, c ≠ ',') →
      getlineItems ',' (a ++ items.flatMap (fun t => ',' :: t.toList)) =
        a :: items.map String.toList := by
  induction items with
  | nil =>
    intro a hne ha
    simp [getlineItems_single ',' a hne ha]
  | cons t rest ih =>
    intro a hne ha
    have ht := hitems t (List.mem_cons_self _ _)
    have hrest := ih (fun x hx => hitems x (List.mem_cons_of_mem _ hx)) t.toList
      (by
        intro h
        apply ht.1
        exact String.ext h)
      (fun c hc hcd => ht.2 (hcd ▸ hc))
    simp only [List.flatMap_cons, List.cons_append, List.map_cons]
    rw [getlineItems_append ',' a _ ha, hrest]

theorem newShardingLoop_mem (txt : IdText) (cur : shardid_t) (L : List shardid_t)
    (hL : ∀ s ∈ L, txt.getShardidStr s ≠ "" ∧
      txt.lexicalCastShardid (txt.getShardidStr s) = some s) :
    newShardingLoop txt cur (L.map (fun s => (txt.getShardidStr s).toList)) =
      some (decide (cur ∈ L)) := by
  induction L with
  | nil => simp [newShardingLoop]
  | cons s rest ih =>
    have hs := hL s (List.mem_cons_self _ _)
    have hrest := ih (fun x hx => hL x (List.mem_cons_of_mem _ hx))
    have hne : (txt.getShardidStr s).toList ≠ [] := fun h => hs.1 (String.ext h)
    have hmk : String.mk (txt.getShardidStr s).toList = txt.getShardidStr s := rfl
    rw [List.map_cons, newShardingLoop, if_neg hne, hmk, hs.2]
    by_cases hcur : cur = s
    · simp [hcur]
    · simp only [hcur, if_false, hrest, List.mem_cons, false_or]

theorem newShardidsText_items (txt : IdText) (L : List shardid_t) (hne : L ≠ [])
    (hL : ∀ s ∈ L, txt.getShardidStr s ≠ "" ∧ ',' ∉ (txt.getShardidStr s).toList) :
    newShardidsText txt L ≠ "" ∧
    getlineItems ',' (newShardidsText txt L).toList =
      L.map (fun s => (txt.getShardidStr s).toList) := by
  cases L with
  | nil => exact absurd rfl hne
  | cons s rest =>
    have hs := hL s (List.mem_cons_self _ _)
    have hfold : (newShardidsText txt (s :: rest)).toList =
        (txt.getShardidStr s).toList ++
          (rest.map txt.getShardidStr).flatMap (fun t => ',' :: t.toList) := by
      simp only [newShardidsText, List.map_cons, List.foldl_cons]
      have h0 : appendComma "" (txt.getShardidStr s) = txt.getShardidStr s := by
        simp [appendComma]
      rw [h0]
      exact foldl_appendComma_toList _ _ hs.1
    have hsne : (txt.getShardidStr s).toList ≠ [] := fun h => hs.1 (String.ext h)
    constructor
    · intro h
      have h2 := congrArg String.toList h
      rw [hfold] at h2
      cases hd : (txt.getShardidStr s).toList with
      | nil => exact hsne hd
      | cons c cs => rw [hd] at h2; simp at h2
    · rw [hfold, getlineItems_joined (rest.map txt.getShardidStr) ?_ _ hsne
        (fun c hc hcd => hs.2 (hcd ▸ hc))]
      · simp [List.map_map, Function.comp]
      · intro t ht
        obtain ⟨x, hx, rfl⟩ := List.mem_map.1 ht
        exact hL x (List.mem_cons_of_mem _ hx)

theorem isMineNewSharding_of_payload (env : Env) (txt : IdText) (n : MasterManagerBase)
    (st : Store) (nz : ZooKeeper) (L : List shardid_t) (e : ZEntry)
    (hz : n.zookeeper_ = some nz) (hc : nz.connected = true)
    (hfind : st.find n.migrate_prepare_node_ = some e)
    (hval : ZNode.getStrValue (env.loadKvString e.data) ZNode.KEY_NEW_SHARDING_NODEIDS =
      newShardidsText txt L)
    (hL : ∀ s ∈ L, txt.getShardidStr s ≠ "" ∧ ',' ∉ (txt.getShardidStr s).toList ∧
      txt.lexicalCastShardid (txt.getShardidStr s) = some s) :
    n.isMineNewSharding env txt st =
      some (decide (n.sf1rTopology_.curNode_.nodeId_ ∈ L),
        { n with zookeeper_ := some (nz.addWatch WatchType.WATCH n.migrate_prepare_node_) }) := by
  by_cases hne : L = []
  · subst hne
    have htxt : newShardidsText txt [] = "" := rfl
    simp [isMineNewSharding, hz, ZooKeeper.getZNodeData, hc, hfind, hval, htxt]
  · obtain ⟨hne2, hitems⟩ := newShardidsText_items txt L hne
      (fun s hs => ⟨(hL s hs).1, (hL s hs).2.1⟩)
    have hloop := newShardingLoop_mem txt n.sf1rTopology_.curNode_.nodeId_ L
      (fun s hs => ⟨(hL s hs).1, (hL s hs).2.2⟩)
    simp only [isMineNewSharding, hz, ZooKeeper.getZNodeData, hc, if_true, hfind, Option.map_some',
      hval, hne2, if_false, hitems, hloop]

theorem ZNode.getStrValue_setValue (z : ZNode) (k v : String) :
    ZNode.getStrValue (ZNode.setValue z k v) k = v := by
  induction z with
  | nil => simp [ZNode.setValue, ZNode.getStrValue]
  | cons kv rest ih =>
    obtain ⟨k', v'⟩ := kv
    by_cases h : k' = k
    · simp [ZNode.setValue, ZNode.getStrValue, h]
    · simp [ZNode.setValue, ZNode.getStrValue, h, ih]

theorem zkGetZNodeData_found (m : MasterManagerBase) (st : Store) (p : ZPath) (w : WatchType)
    (zk : ZooKeeper) (e : ZEntry) (hz : m.zookeeper_ = some zk) (hc : zk.connected = true)
    (hf : st.find p = some e) :
    m.zkGetZNodeData st p w =
      some (some e.data, { m with zookeeper_ := some (zk.addWatch w p) }) := by
  simp [zkGetZNodeData, hz, ZooKeeper.getZNodeData, hc, hf]

theorem find_map_rewrite (nodes : List ZEntry) (p : ZPath) (data : String) (e : ZEntry)
    (h : nodes.find? (fun x => decide (x.path = p)) = some e) :
    (nodes.map (fun x => if x.path = p then { x with data := data } else x)).find?
      (fun x => decide (x.path = p)) = some { e with data := data } := by
  induction nodes with
  | nil => simp at h
  | cons x rest ih =>
    by_cases hx : x.path = p
    · simp only [List.find?, hx, decide_True] at h
      cases h
      simp [List.find?, hx]
    · have h2 : rest.find? (fun x => decide (x.path = p)) = some e := by
        simpa [List.find?, hx] using h
      simp only [List.map_cons, hx, if_false, List.find?, decide_False]
      exact ih h2

theorem zkSetZNodeData_found (m : MasterManagerBase) (st : Store) (p : ZPath) (data : String)
    (zk : ZooKeeper) (e : ZEntry) (hz : m.zookeeper_ = some zk) (hc : zk.connected = true)
    (hf : st.find p = some e) :
    ∃ m' st', m.zkSetZNodeData st p data = some (true, m', st') ∧
      st'.find p = some { e with data := data } := by
  have hcont : st.contains p = true := by
    rw [Store.contains_eq_true_iff]
    exact ⟨e, List.mem_of_find?_eq_some hf, by simpa using List.find?_some hf⟩
  refine ⟨{ m with zookeeper_ := some zk },
    Store.mk (st.nodes.map (fun x : ZEntry => if x.path = p then { x with data := data } else x))
      st.nextSeq, ?_, find_map_rewrite st.nodes p data e hf⟩
  simp [zkSetZNodeData, hz, ZooKeeper.setZNodeData, hc, hcont]

theorem setServicesData_some (env : Env) (txt : IdText) (svc : MasterServices)
    (m m1 : MasterManagerBase) (st : Store) (z : ZNode) (mine : Bool)
    (h : m.isMineNewSharding env txt st = some (mine, m1)) :
    ∃ z', m.setServicesData env txt svc st z = some (z', m1) := by
  simp only [setServicesData, h, Option.bind_eq_bind, Option.some_bind]
  split
  · exact ⟨_, rfl⟩
  · exact ⟨_, rfl⟩

theorem isMineNewSharding_member (env : Env) (txt : IdText) (n : MasterManagerBase)
    (st : Store) (nz : ZooKeeper) (L : List shardid_t) (e : ZEntry)
    (hz : n.zookeeper_ = some nz) (hc : nz.connected = true)
    (hfind : st.find n.migrate_prepare_node_ = some e)
    (hval : ZNode.getStrValue (env.loadKvString e.data) ZNode.KEY_NEW_SHARDING_NODEIDS =
      newShardidsText txt L)
    (hL : ∀ s ∈ L, txt.getShardidStr s ≠ "" ∧ ',' ∉ (txt.getShardidStr s).toList ∧
      txt.lexicalCastShardid (txt.getShardidStr s) = some s)
    (hmem : n.sf1rTopology_.curNode_.nodeId_ ∈ L) :
    ∃ n' nz', n.isMineNewSharding env txt st = some (true, n') ∧
      n'.zookeeper_ = some nz' ∧ nz'.connected = true ∧
      n'.migrate_prepare_node_ = n.migrate_prepare_node_ ∧
      n'.sf1rTopology_ = n.sf1rTopology_ ∧ n'.serverRealPath_ = n.serverRealPath_ := by
  have h := isMineNewSharding_of_payload env txt n st nz L e hz hc hfind hval hL
  rw [decide_eq_true hmem] at h
  exact ⟨_, _, h, rfl, by rw [addWatch_connected]; exact hc, rfl, rfl, rfl⟩

theorem updateServiceReadState_busyForSelf (env : Env) (txt : IdText)
    (svc : MasterServices) (n : MasterManagerBase) (st : Store) (nz : ZooKeeper)
    (L : List shardid_t) (e e2 : ZEntry) (my_state : String) (include_self : Bool)
    (hz : n.zookeeper_ = some nz) (hc : nz.connected = true)
    (hfind : st.find n.migrate_prepare_node_ = some e)
    (hval : ZNode.getStrValue (env.loadKvString e.data) ZNode.KEY_NEW_SHARDING_NODEIDS =
      newShardidsText txt L)
    (hL : ∀ s ∈ L, txt.getShardidStr s ≠ "" ∧ ',' ∉ (txt.getShardidStr s).toList ∧
      txt.lexicalCastShardid (txt.getShardidStr s) = some s)
    (hmem : n.sf1rTopology_.curNode_.nodeId_ ∈ L)
    (hstate : n.masterState_ = MasterStateType.MASTER_STATE_STARTED ∨
      n.masterState_ = MasterStateType.MASTER_STATE_STARTING_WAIT_WORKERS)
    (hs : n.stopping_ = false)
    (hserver : st.find n.serverRealPath_ = some e2) (hdata : e2.data ≠ "") :
    ∃ n' st', n.updateServiceReadState env txt svc st my_state include_self = some (n', st') ∧
      ∃ e3, st'.find n.serverRealPath_ = some e3 ∧
        ((st' = st ∧ ZNode.getStrValue (env.loadKvString e3.data) ZNode.KEY_SERVICE_STATE =
            "BusyForSelf") ∨
          ∃ z, e3.data = env.serialize z ∧
            ZNode.getStrValue z ZNode.KEY_SERVICE_STATE = "BusyForSelf") := by
  have hguard : ¬ (n.masterState_ ≠ MasterStateType.MASTER_STATE_STARTED ∧
      n.masterState_ ≠ MasterStateType.MASTER_STATE_STARTING_WAIT_WORKERS) := by
    rcases hstate with h | h <;> simp [h]
  obtain ⟨m1, hm1, hz1, hmig1, hid1, hpath1⟩ : ∃ m1,
      n.zkGetZNodeData st n.serverRealPath_ WatchType.WATCH = some (some e2.data, m1) ∧
      m1.zookeeper_ = some (nz.addWatch WatchType.WATCH n.serverRealPath_) ∧
      m1.migrate_prepare_node_ = n.migrate_prepare_node_ ∧
      m1.sf1rTopology_ = n.sf1rTopology_ ∧ m1.serverRealPath_ = n.serverRealPath_ :=
    ⟨_, zkGetZNodeData_found n st _ _ nz e2 hz hc hserver, rfl, rfl, rfl, rfl⟩
  have hc1 : (nz.addWatch WatchType.WATCH n.serverRealPath_).connected = true := by
    rw [addWatch_connected]; exact hc
  obtain ⟨m2, nz2, hm2, hz2, hc2, hmig2, hid2, hpath2⟩ :=
    isMineNewSharding_member env txt m1 st _ L e hz1 hc1 (by rw [hmig1]; exact hfind) hval hL
      (by rw [hid1]; exact hmem)
  obtain ⟨m3, nz3, hm3, hz3, hc3, -, -, hpath3⟩ :=
    isMineNewSharding_member env txt m2 st _ L e hz2 hc2
      (by rw [hmig2, hmig1]; exact hfind) hval hL (by rw [hid2, hid1]; exact hmem)
  simp only [updateServiceReadState, updateServiceReadStateWithoutLock, hguard, if_false, hs,
    Bool.false_eq_true, hm1, Option.bind_eq_bind, Option.some_bind, hdata, hm2, if_true]
  have hno : ¬ ("BusyForSelf" = "BusyForShard" ∨ "BusyForSelf" = "ReadyForRead") := by decide
  rw [if_neg hno]
  by_cases hold : ZNode.getStrValue (env.loadKvString e2.data) ZNode.KEY_SERVICE_STATE =
      "BusyForSelf"
  · rw [if_pos hold]
    exact ⟨m2, st, rfl, e2, hserver, Or.inl ⟨rfl, hold⟩⟩
  · rw [if_neg hold]
    obtain ⟨z3, hz3'⟩ := setServicesData_some env txt svc m2 m3 st
      (ZNode.setValue (ZNode.setValue (env.loadKvString e2.data) ZNode.KEY_HOST
        m2.sf1rTopology_.curNode_.host_) ZNode.KEY_BA_PORT
        (toString m2.sf1rTopology_.curNode_.baPort_)) true hm3
    rw [hz3']
    simp only [Option.some_bind]
    obtain ⟨m5, st5, hset, hfind5⟩ := zkSetZNodeData_found m3 st m3.serverRealPath_
      (env.serialize (ZNode.setValue z3 ZNode.KEY_SERVICE_STATE "BusyForSelf")) nz3 e2 hz3 hc3
      (by rw [hpath3, hpath2, hpath1]; exact hserver)
    rw [hset]
    simp only [Option.some_bind]
    rw [hpath3, hpath2, hpath1] at hfind5
    exact ⟨m5, st5, rfl, _, hfind5, Or.inr ⟨_, rfl, ZNode.getStrValue_setValue _ _ _⟩⟩

/-- C19, as stated for every node, fails on a node that is stopping: after the list `[2, 3]`
was written, `isMineNewSharding` on the stopping node of shard 2 returns true, yet
`updateServiceReadState` returns at its test of `stopping_` with the store as it was, and the
server znode of the node still carries `service_state = ReadyForRead`. -/
theorem stopping_node_publishes_nothing :
    (((startedMaster 1 1 [1, 2, 3] 0 true).waitForNewShardingNodesRound kvEnv decimalText
        migrationStore [2, 3]).bind (fun r =>
      (stoppingShardNode.isMineNewSharding kvEnv decimalText r.2.2).bind (fun r1 =>
        (stoppingShardNode.updateServiceReadState kvEnv decimalText searchServices r.2.2
          "ReadyForRead" false).map (fun r2 =>
            (r1.1, decide (r2.2 = r.2.2), (r2.2.find (ZPath.seq ZPath.server 1)).map (fun e =>
              ZNode.getStrValue (kvLoad e.data) ZNode.KEY_SERVICE_STATE)))))) =
      some (true, true, some "ReadyForRead") := by
  decide

/-- C19 (amended): let a connected master write the list `L` of new shard ids into the
payload of the existing migration-prepare znode (one round of `waitForNewShardingNodes`),
with shard ids whose text is non-empty, free of commas and read back by the cast, and a codec
that reads `new_sharding_nodeids` back from the written payload.  The write succeeds, and on
the resulting store `isMineNewSharding` on every node with a connected client returns true if
and only if the node's id is an element of `L` (so false for the empty list).  On such a
node with an id in `L` that is started (or waits for workers), is not stopping and has a
non-empty server znode, `updateServiceReadState(my_state, include_self)` returns for every
`my_state` and `include_self`, and afterwards the server znode carries
`service_state = BusyForSelf`: it either carried it already and the store is unchanged, or it
was rewritten with a payload whose `service_state` is `BusyForSelf`. -/
theorem newShardingNodes_publish_BusyForSelf (env : Env) (txt : IdText)
    (svc : MasterServices) (w : MasterManagerBase) (st : Store) (wz : ZooKeeper)
    (L : List shardid_t) (e0 : ZEntry)
    (hw : w.zookeeper_ = some wz) (hwc : wz.connected = true)
    (hmig : st.find w.migrate_prepare_node_ = some e0)
    (hL : ∀ s ∈ L, txt.getShardidStr s ≠ "" ∧ ',' ∉ (txt.getShardidStr s).toList ∧
      txt.lexicalCastShardid (txt.getShardidStr s) = some s)
    (hcodec : ZNode.getStrValue
        (env.loadKvString (newShardingPayload env txt (some e0.data) L))
        ZNode.KEY_NEW_SHARDING_NODEIDS = newShardidsText txt L) :
    ∃ w' st', w.waitForNewShardingNodesRound env txt st L = some (true, w', st') ∧
      (∃ e, st'.find w.migrate_prepare_node_ = some e ∧
        e.data = newShardingPayload env txt (some e0.data) L) ∧
      ∀ (n : MasterManagerBase) (nz : ZooKeeper), n.zookeeper_ = some nz →
        nz.connected = true → n.migrate_prepare_node_ = w.migrate_prepare_node_ →
        (∃ n', n.isMineNewSharding env txt st' =
          some (decide (n.sf1rTopology_.curNode_.nodeId_ ∈ L), n')) ∧
        (n.sf1rTopology_.curNode_.nodeId_ ∈ L →
          (n.masterState_ = MasterStateType.MASTER_STATE_STARTED ∨
            n.masterState_ = MasterStateType.MASTER_STATE_STARTING_WAIT_WORKERS) →
          n.stopping_ = false →
          ∀ e2 : ZEntry, st'.find n.serverRealPath_ = some e2 → e2.data ≠ "" →
          ∀ (my_state : String) (include_self : Bool),
            ∃ n'' st'', n.updateServiceReadState env txt svc st' my_state include_self =
                some (n'', st'') ∧
              ∃ e3, st''.find n.serverRealPath_ = some e3 ∧
                ((st'' = st' ∧ ZNode.getStrValue (env.loadKvString e3.data)
                    ZNode.KEY_SERVICE_STATE = "BusyForSelf") ∨
                  ∃ z, e3.data = env.serialize z ∧
                    ZNode.getStrValue z ZNode.KEY_SERVICE_STATE = "BusyForSelf")) := by
  obtain ⟨m1, hm1, hz1, hmig1⟩ : ∃ m1,
      w.zkGetZNodeData st w.migrate_prepare_node_ WatchType.WATCH = some (some e0.data, m1) ∧
      m1.zookeeper_ = some (wz.addWatch WatchType.WATCH w.migrate_prepare_node_) ∧
      m1.migrate_prepare_node_ = w.migrate_prepare_node_ :=
    ⟨_, zkGetZNodeData_found w st _ _ wz e0 hw hwc hmig, rfl, rfl⟩
  obtain ⟨w', st', hset, hfind'⟩ := zkSetZNodeData_found m1 st m1.migrate_prepare_node_
    (newShardingPayload env txt (some e0.data) L) _ e0 hz1
    (by rw [addWatch_connected]; exact hwc) (by rw [hmig1]; exact hmig)
  rw [hmig1] at hfind'
  refine ⟨w', st', ?_, ⟨_, hfind', rfl⟩, ?_⟩
  · simp only [waitForNewShardingNodesRound, hm1, Option.bind_eq_bind, Option.some_bind, hset]
  · intro n nz hz hc hsame
    rw [← hsame] at hfind'
    refine ⟨⟨_, isMineNewSharding_of_payload env txt n st' nz L _ hz hc hfind' hcodec hL⟩, ?_⟩
    intro hmem hstate hs e2 hserver hdata my_state include_self
    exact updateServiceReadState_busyForSelf env txt svc n st' nz L _ e2 my_state include_self
      hz hc hfind' hcodec hL hmem hstate hs hserver hdata

theorem newShardingNodes_publish_BusyForSelf_witness :
    (∃ w' st', (startedMaster 1 1 [1, 2, 3] 0 true).waitForNewShardingNodesRound kvEnv
        decimalText migrationStore [2, 3] = some (true, w', st') ∧
      (∃ e, st'.find (startedMaster 1 1 [1, 2, 3] 0 true).migrate_prepare_node_ = some e ∧
        e.data = newShardingPayload kvEnv decimalText (some "") [2, 3]) ∧
      ∃ n', (startedMaster 1 2 [1, 2, 3] 1 false).isMineNewSharding kvEnv decimalText st' =
        some (true, n')) ∧
    (((startedMaster 1 1 [1, 2, 3] 0 true).waitForNewShardingNodesRound kvEnv decimalText
        migrationStore [2, 3]).bind (fun r =>
      ((startedMaster 1 2 [1, 2, 3] 1 false).updateServiceReadState kvEnv decimalText
        searchServices r.2.2 "ReadyForRead" false).map (fun r2 =>
          (r2.2.find (ZPath.seq ZPath.server 1)).map (fun e =>
            ZNode.getStrValue (kvLoad e.data) ZNode.KEY_SERVICE_STATE)))) =
      some (some "BusyForSelf") := by
  constructor
  · obtain ⟨w', st', h1, h2, h3⟩ := newShardingNodes_publish_BusyForSelf kvEnv decimalText
      searchServices (startedMaster 1 1 [1, 2, 3] 0 true) migrationStore clientUp [2, 3]
      (ZEntry.mk ZPath.migratePrepare "" true) rfl rfl (by decide) (by decide) (by decide)
    exact ⟨w', st', h1, h2, (h3 (startedMaster 1 2 [1, 2, 3] 1 false) clientUp rfl rfl rfl).1⟩
  · decide

/-! ## Start of the controller -/

theorem kept_client {m m' : MasterManagerBase} (k : m.PrimarySideKept m') (zk : ZooKeeper)
    (hz : m.zookeeper_ = some zk) :
    (∃ zk', m'.zookeeper_ = some zk') ∧ m'.masterState_ = m.masterState_ := by
  obtain ⟨zk', hz', -⟩ := k.2.2.2.2.2.2.2.2.2 zk hz
  exact ⟨⟨zk', hz'⟩, k.2.1⟩

theorem zkGetZNodeChildren_client (m : MasterManagerBase) (st : Store) (p : ZPath)
    (w : WatchType) (zk : ZooKeeper) (hz : m.zookeeper_ = some zk) :
    ∃ l m' zk', m.zkGetZNodeChildren st p w = some (l, m') ∧ m'.zookeeper_ = some zk' ∧
      m'.masterState_ = m.masterState_ :=
  ⟨(zk.getZNodeChildren st p w).1, { m with zookeeper_ := some (zk.getZNodeChildren st p w).2 },
    (zk.getZNodeChildren st p w).2, by simp [zkGetZNodeChildren, hz], rfl, rfl⟩

theorem zkCreateZNode_client (m : MasterManagerBase) (st : Store) (p : ZPath) (data : String)
    (flags : ZNodeCreateType) (zk : ZooKeeper) (hz : m.zookeeper_ = some zk) :
    ∃ r m' st' zk', m.zkCreateZNode st p data flags = some (r, m', st') ∧
      m'.zookeeper_ = some zk' ∧ m'.masterState_ = m.masterState_ ∧
      (st' = st ∨ ∃ e, e.data = data ∧ st'.nodes = st.nodes ++ [e]) := by
  refine ⟨(zk.createZNode st p data flags).1,
    { m with zookeeper_ := some (zk.createZNode st p data flags).2.1 },
    (zk.createZNode st p data flags).2.2, (zk.createZNode st p data flags).2.1,
    by simp [zkCreateZNode, hz], rfl, rfl, ?_⟩
  simp only [ZooKeeper.createZNode]
  split_ifs <;> first | exact Or.inl rfl | exact Or.inr ⟨_, rfl, rfl⟩

theorem pushReplicaId_client (txt : IdText) (m : MasterManagerBase) (s : String) :
    (pushReplicaId txt m s).zookeeper_ = m.zookeeper_ ∧
    (pushReplicaId txt m s).masterState_ = m.masterState_ := by
  unfold pushReplicaId
  cases txt.lexicalCastReplicaid s <;> exact ⟨rfl, rfl⟩

theorem detectReplicaLoop_client (txt : IdText) (st : Store) (children : List ZPath) :
    ∀ (m : MasterManagerBase) (zk : ZooKeeper), m.zookeeper_ = some zk →
      ∃ m' zk', detectReplicaLoop txt st children m = some m' ∧ m'.zookeeper_ = some zk' ∧
        m'.masterState_ = m.masterState_ := by
  induction children with
  | nil => intro m zk hz; exact ⟨m, zk, rfl, hz, rfl⟩
  | cons child rest ih =>
    intro m zk hz
    obtain ⟨data, m1, zk1, h1, -, k1, -, hz1, -⟩ :=
      zkGetZNodeData_some m st child WatchType.NOT_WATCH zk hz
    obtain ⟨hz2, hs2⟩ := pushReplicaId_client txt m1 (data.getD "")
    obtain ⟨l, m3, zk3, h3, hz3, hs3⟩ := zkGetZNodeChildren_client
      (pushReplicaId txt m1 (data.getD "")) st child WatchType.WATCH zk1 (hz2.trans hz1)
    obtain ⟨found, m4, zk4, h4, k4, -, hz4, -⟩ :=
      zkIsZNodeExists_some m3 st child WatchType.WATCH zk3 hz3
    obtain ⟨m', zk', h', hz', hs'⟩ := ih m4 zk4 hz4
    refine ⟨m', zk', ?_, hz', ?_⟩
    · simp only [detectReplicaLoop, h1, Option.bind_eq_bind, Option.some_bind, h3, h4, h']
    · rw [hs', k4.2.1, hs3, hs2, k1.2.1]

theorem detectWorkerStep_client (env : Env) (st : Store) (r : replicaid_t) (mp : Bool)
    (d : DetectState) (s : shardid_t) (zk : ZooKeeper) (hz : d.m.zookeeper_ = some zk) :
    ∃ d' zk', detectWorkerStep env st r mp d s = some d' ∧ d'.m.zookeeper_ = some zk' ∧
      d'.m.sf1rTopology_ = d.m.sf1rTopology_ ∧ d'.m.replicaIdList_ = d.m.replicaIdList_ := by
  obtain ⟨data, m1, zk1, h1, -, k1, -, hz1, -⟩ :=
    zkGetZNodeData_some d.m st (getNodePath r s) WatchType.WATCH zk hz
  simp only [detectWorkerStep, h1, Option.bind_eq_bind, Option.some_bind]
  cases data with
  | none =>
    obtain ⟨found, m2, zk2, h2, k2, -, hz2, -⟩ :=
      zkIsZNodeExists_some m1 st (getNodePath r s) WatchType.WATCH zk1 hz1
    simp only [h2, Option.bind_eq_bind, Option.some_bind]
    have k := k1.trans k2
    exact ⟨_, zk2, rfl, hz2, k.2.2.1, k.2.2.2.1⟩
  | some sdata =>
    simp only
    by_cases hk : ZNode.hasKey (env.loadKvString sdata) ZNode.KEY_WORKER_PORT = true
    swap
    · rw [if_neg hk]
      exact ⟨_, zk1, rfl, hz1, k1.2.2.1, k1.2.2.2.1⟩
    rw [if_pos hk]
    have hkept : m1.PrimarySideKept
        (if mp = true then isPrimaryWorker env m1 st r s else (true, m1)).2 := by
      split
      · exact (isPrimaryWorker_kept env m1 st r s).1
      · exact MasterManagerBase.PrimarySideKept.refl m1
    generalize (if mp = true then isPrimaryWorker env m1 st r s else (true, m1)) = pr at hkept ⊢
    have k := k1.trans hkept
    obtain ⟨zk2, hz2, -⟩ := k.2.2.2.2.2.2.2.2.2 zk hz
    cases hpr : pr.1 with
    | false =>
      simp only [Bool.not_false, if_true]
      exact ⟨_, zk2, rfl, hz2, k.2.2.1, k.2.2.2.1⟩
    | true =>
      simp only [Bool.not_true, Bool.false_eq_true, if_false]
      cases hf : ShardMap.find pr.2.workerMap_ s with
      | some existing =>
        simp only
        by_cases hg : existing.worker_.isGood_ = true
        · rw [if_pos hg]
          exact ⟨_, zk2, rfl, hz2, k.2.2.1, k.2.2.2.1⟩
        · rw [if_neg hg]
          exact ⟨_, zk2, rfl, hz2, k.2.2.1, k.2.2.2.1⟩
      | none =>
        simp only
        exact ⟨_, zk2, rfl, hz2, k.2.2.1, k.2.2.2.1⟩

theorem detectWorkerLoop_client (env : Env) (st : Store) (r : replicaid_t) (mp : Bool)
    (l : List shardid_t) :
    ∀ (d : DetectState) (zk : ZooKeeper), d.m.zookeeper_ = some zk →
      ∃ d' zk', detectWorkerLoop env st r mp l d = some d' ∧ d'.m.zookeeper_ = some zk' ∧
        d'.m.sf1rTopology_ = d.m.sf1rTopology_ ∧ d'.m.replicaIdList_ = d.m.replicaIdList_ := by
  induction l with
  | nil => intro d zk hz; exact ⟨d, zk, rfl, hz, rfl, rfl⟩
  | cons s rest ih =>
    intro d zk hz
    obtain ⟨d1, zk1, h1, hz1, ht1, hr1⟩ := detectWorkerStep_client env st r mp d s zk hz
    obtain ⟨d2, zk2, h2, hz2, ht2, hr2⟩ := ih d1 zk1 hz1
    exact ⟨d2, zk2, by simp only [detectWorkerLoop, h1, Option.bind_eq_bind,
      Option.some_bind, h2], hz2, ht2.trans ht1, hr2.trans hr1⟩

/-- The two states in which a detection pass leaves the controller. -/
theorem detectWorkersInReplica_client (env : Env) (st : Store) (r : replicaid_t)
    (d : DetectState) (zk : ZooKeeper) (hz : d.m.zookeeper_ = some zk) :
    ∃ d' zk', detectWorkersInReplica env st r d = some d' ∧ d'.m.zookeeper_ = some zk' ∧
      d'.m.replicaIdList_ = d.m.replicaIdList_ ∧
      (d'.m.masterState_ = MasterStateType.MASTER_STATE_STARTED ∨
        d'.m.masterState_ = MasterStateType.MASTER_STATE_STARTING_WAIT_WORKERS) := by
  obtain ⟨d1, zk1, h1, hz1, -, hr1⟩ := detectWorkerLoop_client env st r d.m.isMinePrimary
    d.m.sf1rTopology_.all_shard_nodes_ d zk hz
  simp only [detectWorkersInReplica, h1, Option.bind_eq_bind, Option.some_bind]
  split
  · exact ⟨_, zk1, rfl, hz1, hr1, Or.inl rfl⟩
  · exact ⟨_, zk1, rfl, hz1, hr1, Or.inr rfl⟩

theorem detectOtherReplicas_client (env : Env) (st : Store) (cur : replicaid_t)
    (replicas : List replicaid_t) :
    ∀ (d : DetectState) (zk : ZooKeeper), d.m.zookeeper_ = some zk →
      (d.m.masterState_ = MasterStateType.MASTER_STATE_STARTED ∨
        d.m.masterState_ = MasterStateType.MASTER_STATE_STARTING_WAIT_WORKERS) →
      ∃ d' zk', detectOtherReplicas env st cur replicas d = some d' ∧
        d'.m.zookeeper_ = some zk' ∧
        (d'.m.masterState_ = MasterStateType.MASTER_STATE_STARTED ∨
          d'.m.masterState_ = MasterStateType.MASTER_STATE_STARTING_WAIT_WORKERS) := by
  induction replicas with
  | nil => intro d zk hz hs; exact ⟨d, zk, rfl, hz, hs⟩
  | cons r rest ih =>
    intro d zk hz hs
    simp only [detectOtherReplicas]
    split
    · exact ⟨d, zk, rfl, hz, hs⟩
    · split
      · exact ih d zk hz hs
      · obtain ⟨d1, zk1, h1, hz1, -, hs1⟩ := detectWorkersInReplica_client env st r d zk hz
        simp only [h1, Option.bind_eq_bind, Option.some_bind]
        exact ih d1 zk1 hz1 hs1

theorem detectWorkers_client (env : Env) (st : Store) (m : MasterManagerBase)
    (zk : ZooKeeper) (hz : m.zookeeper_ = some zk) :
    ∃ good m' zk', m.detectWorkers env st = some (good, m') ∧ m'.zookeeper_ = some zk' ∧
      (m'.masterState_ = MasterStateType.MASTER_STATE_STARTED ∨
        m'.masterState_ = MasterStateType.MASTER_STATE_STARTING_WAIT_WORKERS) := by
  obtain ⟨d1, zk1, h1, hz1, -, hs1⟩ := detectWorkersInReplica_client env st
    m.sf1rTopology_.curNode_.replicaId_
    { m := { m with workerMap_ := [] }, detected := 0, good := 0 } zk hz
  obtain ⟨d2, zk2, h2, hz2, hs2⟩ := detectOtherReplicas_client env st
    m.sf1rTopology_.curNode_.replicaId_ d1.m.replicaIdList_ d1 zk1 hz1 hs1
  simp only [detectWorkers, h1, Option.bind_eq_bind, Option.some_bind, h2]
  split
  · obtain ⟨m4, h4, k4⟩ := detectReadOnlyWorkers_kept env st (resetAggregatorConfig d2.m)
      (ZPath.other "") true zk2 hz2
    obtain ⟨⟨zk4, hz4⟩, hs4⟩ := kept_client k4 zk2 hz2
    simp only [h4, Option.some_bind]
    exact ⟨_, m4, zk4, rfl, hz4, by rw [hs4]; exact hs2⟩
  · obtain ⟨m4, h4, k4⟩ := detectReadOnlyWorkers_kept env st d2.m (ZPath.other "") true zk2 hz2
    obtain ⟨⟨zk4, hz4⟩, hs4⟩ := kept_client k4 zk2 hz2
    simp only [h4, Option.some_bind]
    exact ⟨_, m4, zk4, rfl, hz4, by rw [hs4]; exact hs2⟩

theorem failoverLoop_client (env : Env) (st : Store) (mp : Bool) (replicas : List replicaid_t) :
    ∀ (node : Sf1rNode) (m : MasterManagerBase) (zk : ZooKeeper), m.zookeeper_ = some zk →
      ∃ node' m' zk', failoverLoop env st mp replicas node m = some (node', m') ∧
        m'.zookeeper_ = some zk' := by
  induction replicas with
  | nil => intro node m zk hz; exact ⟨node, m, zk, rfl, hz⟩
  | cons r rest ih =>
    intro node m zk hz
    by_cases hr : r ≠ node.replicaId_
    swap
    · rw [failoverLoop, if_neg hr]
      exact ih node m zk hz
    rw [failoverLoop, if_pos hr]
    obtain ⟨sdata, m1, zk1, h1, -, k1, -, hz1, -⟩ :=
      zkGetZNodeData_some m st (getNodePath r node.nodeId_) WatchType.WATCH zk hz
    simp only [h1, Option.bind_eq_bind, Option.some_bind]
    cases sdata with
    | none => exact ih node m1 zk1 hz1
    | some sdata =>
      simp only
      have hkept : m1.PrimarySideKept
          (if mp = true then isPrimaryWorker env m1 st r node.nodeId_ else (true, m1)).2 := by
        split
        · exact (isPrimaryWorker_kept env m1 st r node.nodeId_).1
        · exact MasterManagerBase.PrimarySideKept.refl m1
      generalize (if mp = true then isPrimaryWorker env m1 st r node.nodeId_
        else (true, m1)) = pr at hkept ⊢
      obtain ⟨zk2, hz2, -⟩ := hkept.2.2.2.2.2.2.2.2.2 zk1 hz1
      cases hpr : pr.1 with
      | false =>
        simp only [Bool.not_false, if_true]
        exact ih node pr.2 zk2 hz2
      | true =>
        simp only [Bool.not_true, Bool.false_eq_true, if_false]
        by_cases hk : ZNode.hasKey (env.loadKvString sdata) ZNode.KEY_WORKER_PORT = true
        swap
        · rw [if_neg hk]
          exact ih node pr.2 zk2 hz2
        rw [if_pos hk]
        cases env.lexicalCastPort
            (ZNode.getStrValue (env.loadKvString sdata) ZNode.KEY_WORKER_PORT) with
        | none => exact ih _ pr.2 zk2 hz2
        | some port => exact ⟨_, pr.2, zk2, rfl, hz2⟩

theorem failoverNode_client (env : Env) (st : Store) (m : MasterManagerBase)
    (node : Sf1rNode) (zk : ZooKeeper) (hz : m.zookeeper_ = some zk) :
    ∃ covered node' m' zk', failoverNode env st m node = some (covered, node', m') ∧
      m'.zookeeper_ = some zk' := by
  obtain ⟨node1, m1, zk1, h1, hz1⟩ := failoverLoop_client env st m.isMinePrimary
    m.replicaIdList_ { node with worker_ := { node.worker_ with isGood_ := false } } m zk hz
  obtain ⟨found, m2, zk2, h2, -, -, hz2, -⟩ := zkIsZNodeExists_some m1 st
    (getNodePath m1.sf1rTopology_.curNode_.replicaId_ node1.nodeId_) WatchType.WATCH zk1 hz1
  exact ⟨node1.worker_.isGood_, node1, m2, zk2, by
    simp only [failoverNode, h1, Option.bind_eq_bind, Option.some_bind, h2], hz2⟩

theorem failoverNotGood_client (env : Env) (st : Store) (workers : WorkerMapT) :
    ∀ (m : MasterManagerBase) (need : Bool) (zk : ZooKeeper), m.zookeeper_ = some zk →
      ∃ ws m' need' zk', failoverNotGood env st workers m need = some (ws, m', need') ∧
        m'.zookeeper_ = some zk' := by
  induction workers with
  | nil => intro m need zk hz; exact ⟨[], m, need, zk, rfl, hz⟩
  | cons e later ih =>
    intro m need zk hz
    obtain ⟨shard, node⟩ := e
    by_cases hg : (!node.worker_.isGood_) = true
    · rw [failoverNotGood, if_pos hg]
      obtain ⟨covered, node1, m1, zk1, h1, hz1⟩ := failoverNode_client env st m node zk hz
      simp only [h1, Option.bind_eq_bind, Option.some_bind]
      cases covered with
      | true =>
        obtain ⟨ws, m3, need3, zk3, h3, hz3⟩ := ih m1 true zk1 hz1
        simp only [if_true, h3, Option.some_bind]
        exact ⟨_, m3, need3, zk3, rfl, hz3⟩
      | false =>
        obtain ⟨ws, m3, need3, zk3, h3, hz3⟩ := ih
          { m1 with masterState_ := MasterStateType.MASTER_STATE_STARTING_WAIT_WORKERS }
          true zk1 hz1
        simp only [Bool.false_eq_true, if_false, h3, Option.some_bind]
        exact ⟨_, m3, need3, zk3, rfl, hz3⟩
    · rw [failoverNotGood, if_neg hg]
      obtain ⟨ws, m3, need3, zk3, h3, hz3⟩ := ih m need zk hz
      simp only [h3, Option.bind_eq_bind, Option.some_bind]
      exact ⟨_, m3, need3, zk3, rfl, hz3⟩

theorem detectReplicaSet_client (env : Env) (txt : IdText) (st : Store)
    (m : MasterManagerBase) (zk : ZooKeeper) (hz : m.zookeeper_ = some zk) :
    ∃ m' zk', detectReplicaSet env txt st m = some m' ∧ m'.zookeeper_ = some zk' := by
  obtain ⟨children, m1, zk1, h1, hz1, -⟩ :=
    zkGetZNodeChildren_client m st m.topologyPath_ WatchType.WATCH zk hz
  obtain ⟨m2, zk2, h2, hz2, -⟩ := detectReplicaLoop_client txt st children
    { m1 with replicaIdList_ := [] } zk1 hz1
  by_cases hw : m2.masterState_ = MasterStateType.MASTER_STATE_STARTING_WAIT_WORKERS
  · obtain ⟨good, m3, zk3, h3, hz3, -⟩ := detectWorkers_client env st m2 zk2 hz2
    obtain ⟨ws, m4, need, zk4, h4, hz4⟩ := failoverNotGood_client env st m3.workerMap_ m3
      false zk3 hz3
    simp only [detectReplicaSet, h1, Option.bind_eq_bind, Option.some_bind, h2, hw, if_true,
      h3, Option.map_some', h4]
    cases need with
    | true => exact ⟨_, zk4, rfl, hz4⟩
    | false => exact ⟨_, zk4, rfl, hz4⟩
  · obtain ⟨m3, h3, k3⟩ := detectReadOnlyWorkers_kept env st m2 (ZPath.other "") true zk2 hz2
    obtain ⟨⟨zk3, hz3⟩, -⟩ := kept_client k3 zk2 hz2
    obtain ⟨ws, m4, need, zk4, h4, hz4⟩ := failoverNotGood_client env st m3.workerMap_ m3
      false zk3 hz3
    simp only [detectReplicaSet, h1, Option.bind_eq_bind, Option.some_bind, h2, hw, if_false,
      h3, h4]
    cases need with
    | true => exact ⟨_, zk4, rfl, hz4⟩
    | false => exact ⟨_, zk4, rfl, hz4⟩

theorem newShardingLoop_some (txt : IdText) (cur : shardid_t) (items : List (List Char))
    (h : ∀ item ∈ items, item ≠ [] → (txt.lexicalCastShardid (String.mk item)).isSome = true) :
    ∃ b, newShardingLoop txt cur items = some b := by
  induction items with
  | nil => exact ⟨false, rfl⟩
  | cons item rest ih =>
    have hrest := ih (fun x hx => h x (List.mem_cons_of_mem _ hx))
    by_cases hi : item = []
    · rw [newShardingLoop, if_pos hi]
      exact hrest
    · rw [newShardingLoop, if_neg hi]
      have hc := h item (List.mem_cons_self _ _) hi
      cases hv : txt.lexicalCastShardid (String.mk item) with
      | none => rw [hv] at hc; simp at hc
      | some v =>
        simp only
        split
        · exact ⟨true, rfl⟩
        · exact hrest

theorem isMineNewSharding_returns (env : Env) (txt : IdText) (m : MasterManagerBase)
    (st : Store) (zk : ZooKeeper) (hz : m.zookeeper_ = some zk)
    (hcast : CastsSucceed env txt st) :
    ∃ b m' zk', m.isMineNewSharding env txt st = some (b, m') ∧ m'.zookeeper_ = some zk' ∧
      m'.masterState_ = m.masterState_ := by
  simp only [isMineNewSharding, hz]
  cases hr : (zk.getZNodeData st m.migrate_prepare_node_ WatchType.WATCH).1 with
  | none => exact ⟨false, _, _, rfl, rfl, rfl⟩
  | some olddata =>
    simp only
    by_cases hempty : ZNode.getStrValue (env.loadKvString olddata)
        ZNode.KEY_NEW_SHARDING_NODEIDS = ""
    · rw [if_pos hempty]
      exact ⟨false, _, _, rfl, rfl, rfl⟩
    · rw [if_neg hempty]
      have hmem : ∃ e ∈ st.nodes, e.data = olddata := by
        simp only [ZooKeeper.getZNodeData] at hr
        cases hc : zk.connected with
        | false => simp [hc] at hr
        | true =>
          simp only [hc, if_true] at hr
          cases hf : st.find m.migrate_prepare_node_ with
          | none => simp [hf] at hr
          | some e =>
            simp [hf] at hr
            exact ⟨e, List.mem_of_find?_eq_some hf, hr⟩
      obtain ⟨e, he, hd⟩ := hmem
      obtain ⟨b, hb⟩ := newShardingLoop_some txt m.sf1rTopology_.curNode_.nodeId_
        (getlineItems ',' (ZNode.getStrValue (env.loadKvString olddata)
          ZNode.KEY_NEW_SHARDING_NODEIDS).toList) (by rw [← hd]; exact hcast e he)
      rw [hb]
      exact ⟨b, _, _, rfl, rfl, rfl⟩

theorem ensureZNode_client (m : MasterManagerBase) (st : Store) (p : ZPath) (w : WatchType)
    (zk : ZooKeeper) (hz : m.zookeeper_ = some zk) :
    ∃ m' st' zk', m.ensureZNode st p w = some (m', st') ∧ m'.zookeeper_ = some zk' ∧
      m'.masterState_ = m.masterState_ ∧
      (st' = st ∨ ∃ e, e.data = "" ∧ st'.nodes = st.nodes ++ [e]) := by
  obtain ⟨found, m1, zk1, h1, k1, -, hz1, -⟩ := zkIsZNodeExists_some m st p w zk hz
  simp only [ensureZNode, h1, Option.bind_eq_bind, Option.some_bind]
  cases found with
  | true => exact ⟨m1, st, zk1, rfl, hz1, k1.2.1, Or.inl rfl⟩
  | false =>
    obtain ⟨r, m2, st2, zk2, h2, hz2, hs2, hst2⟩ :=
      zkCreateZNode_client m1 st p "" ZNodeCreateType.ZNODE_NORMAL zk1 hz1
    simp only [Bool.not_false, if_true, h2, Option.some_bind]
    exact ⟨m2, st2, zk2, rfl, hz2, hs2.trans k1.2.1, hst2⟩

theorem castsSucceed_step (env : Env) (txt : IdText) (st st' : Store)
    (hcast : CastsSucceed env txt st)
    (hempty : ZNode.getStrValue (env.loadKvString "") ZNode.KEY_NEW_SHARDING_NODEIDS = "")
    (hst : st' = st ∨ ∃ e, e.data = "" ∧ st'.nodes = st.nodes ++ [e]) :
    CastsSucceed env txt st' := by
  rcases hst with h | ⟨e, hd, hn⟩
  · rw [h]; exact hcast
  · intro x hx item hitem
    rw [hn] at hx
    rcases List.mem_append.1 hx with hx | hx
    · exact hcast x hx item hitem
    · have hxe : x = e := by simpa using hx
      rw [hxe, hd, hempty] at hitem
      simp [getlineItems] at hitem

theorem setServerRealPath_client (m : MasterManagerBase) :
    m.setServerRealPath.zookeeper_ = m.zookeeper_ ∧
    m.setServerRealPath.masterState_ = m.masterState_ := by
  unfold setServerRealPath
  split <;> exact ⟨rfl, rfl⟩

theorem registerServiceServer_returns (env : Env) (txt : IdText) (svc : MasterServices)
    (m : MasterManagerBase) (st : Store) (zk : ZooKeeper) (hz : m.zookeeper_ = some zk)
    (hcast : CastsSucceed env txt st)
    (hempty : ZNode.getStrValue (env.loadKvString "") ZNode.KEY_NEW_SHARDING_NODEIDS = "") :
    ∃ m' st', registerServiceServer env txt svc m st = some (m', st') ∧
      m'.masterState_ = m.masterState_ := by
  obtain ⟨m1, st1, zk1, h1, hz1, hs1, hst1⟩ :=
    ensureZNode_client m st m.serverParentPath_ WatchType.NOT_WATCH zk hz
  have hcast1 := castsSucceed_step env txt st st1 hcast hempty hst1
  obtain ⟨mine, m2, zk2, hmine, hz2, hs2⟩ := isMineNewSharding_returns env txt m1 st1 zk1 hz1
    hcast1
  obtain ⟨z3, hsd⟩ := setServicesData_some env txt svc m1 m2 st1
    (ZNode.setValue (ZNode.setValue [] ZNode.KEY_HOST m1.sf1rTopology_.curNode_.host_)
      ZNode.KEY_BA_PORT (toString m1.sf1rTopology_.curNode_.baPort_)) mine hmine
  obtain ⟨r, m3, st3, zk3, h3, hz3, hs3, -⟩ := zkCreateZNode_client m2 st1 m2.serverPath_
    (env.serialize z3) ZNodeCreateType.ZNODE_EPHEMERAL_SEQUENCE zk2 hz2
  obtain ⟨m4, hm4, hz4, hs4⟩ : ∃ m4,
      (if r = true then m3.setServerRealPath else m3) = m4 ∧ m4.zookeeper_ = some zk3 ∧
      m4.masterState_ = m3.masterState_ := by
    cases r with
    | false => exact ⟨m3, by simp, hz3, rfl⟩
    | true =>
      exact ⟨m3.setServerRealPath, by simp, (setServerRealPath_client m3).1.trans hz3,
        (setServerRealPath_client m3).2⟩
  obtain ⟨m5, st5, zk5, h5, hz5, hs5, -⟩ :=
    ensureZNode_client m4 st3 m4.write_req_queue_root_parent_ WatchType.WATCH zk3 hz4
  obtain ⟨m6, st6, zk6, h6, hz6, hs6, -⟩ :=
    ensureZNode_client m5 st5 m5.write_req_queue_parent_ WatchType.WATCH zk5 hz5
  obtain ⟨m7, st7, zk7, h7, hz7, hs7, -⟩ :=
    ensureZNode_client m6 st6 m6.write_prepare_node_parent_ WatchType.WATCH zk6 hz6
  obtain ⟨l, m8, zk8, h8, -, hs8⟩ :=
    zkGetZNodeChildren_client m7 st7 m7.write_req_queue_parent_ WatchType.WATCH zk7 hz7
  refine ⟨m8, st7, ?_, ?_⟩
  · simp only [registerServiceServer, h1, Option.bind_eq_bind, Option.some_bind, hsd, h3, hm4,
      h5, h6, h7, h8]
  · rw [hs8, hs7, hs6, hs5, hs4, hs3, hs2, hs1]

theorem doStart_returns (env : Env) (txt : IdText) (svc : MasterServices)
    (m : MasterManagerBase) (st : Store) (zk : ZooKeeper) (hz : m.zookeeper_ = some zk)
    (hcast : CastsSucceed env txt st)
    (hempty : ZNode.getStrValue (env.loadKvString "") ZNode.KEY_NEW_SHARDING_NODEIDS = "") :
    ∃ m' st', doStart env txt svc m st = some (m', st') ∧
      (m'.masterState_ = MasterStateType.MASTER_STATE_STARTED ∨
        m'.masterState_ = MasterStateType.MASTER_STATE_STARTING_WAIT_WORKERS) := by
  obtain ⟨m2, zk2, h2, hz2⟩ := detectReplicaSet_client env txt st { m with stopping_ := false }
    zk hz
  obtain ⟨good, m3, zk3, h3, hz3, hs3⟩ := detectWorkers_client env st m2 zk2 hz2
  obtain ⟨m', st', h', hs'⟩ := registerServiceServer_returns env txt svc m3 st zk3 hz3 hcast
    hempty
  refine ⟨m', st', ?_, by rw [hs']; exact hs3⟩
  simp only [doStart, h2, Option.bind_eq_bind, Option.some_bind, h3, h']

theorem clusterStore_castsSucceed : CastsSucceed kvEnv decimalText clusterStore := by
  intro e he item hitem
  simp only [clusterStore, List.mem_cons, List.mem_singleton, List.not_mem_nil, or_false] at he
  rcases he with rfl | rfl | rfl
  · have h : getlineItems ',' (ZNode.getStrValue (kvEnv.loadKvString "1")
        ZNode.KEY_NEW_SHARDING_NODEIDS).toList = [] := by decide
    rw [h] at hitem
    simp at hitem
  · have h : getlineItems ',' (ZNode.getStrValue
        (kvEnv.loadKvString (workerPayload "10.0.0.2" "18151" "18121"))
        ZNode.KEY_NEW_SHARDING_NODEIDS).toList = [] := by decide
    rw [h] at hitem
    simp at hitem
  · have h : getlineItems ',' (ZNode.getStrValue
        (kvEnv.loadKvString (workerPayload "10.0.0.3" "18151" "18121"))
        ZNode.KEY_NEW_SHARDING_NODEIDS).toList = [] := by decide
    rw [h] at hitem
    simp at hitem

/-- C20: `start()` on a controller in state `INIT` whose client is created (`zk0`).  If the
client is not connected and the coordination service cannot be reached, `start()` returns with
`masterState_ = MASTER_STATE_STARTING_WAIT_ZOOKEEPER`, and no detection has run: the store,
the worker maps, the replica list and the recorded calls are as before.  If the service can
be reached, `start()` is `doStart` (replica detection, worker detection, registration) run on
a controller in state `STARTING`, and, when no payload in the store makes the cast of
`isMineNewSharding` throw, it returns with `masterState_` equal to `STARTED` or to
`STARTING_WAIT_WORKERS`.  A session `CONNECTED` event on a controller that waits for the
coordination service and is not stopping runs the same `doStart` on the controller in state
`STARTING`, with the same result. -/
theorem start_transitions (env : Env) (txt : IdText) (svc : MasterServices)
    (m : MasterManagerBase) (st : Store) (zk0 : ZooKeeper)
    (hinit : m.masterState_ = MasterStateType.MASTER_STATE_INIT) :
    (zk0.connected = false →
      ∃ m', m.start env txt svc (some zk0) false st = some (m', st) ∧
        m'.masterState_ = MasterStateType.MASTER_STATE_STARTING_WAIT_ZOOKEEPER ∧
        m'.workerMap_ = m.workerMap_ ∧ m'.readonly_workerMap_ = m.readonly_workerMap_ ∧
        m'.replicaIdList_ = m.replicaIdList_ ∧ m'.calls = m.calls ∧
        m'.zookeeper_ = some zk0) ∧
    (∀ reachable : Bool, (zk0.connected = true ∨ reachable = true) →
      ∃ m0 zk1, m0.masterState_ = MasterStateType.MASTER_STATE_STARTING ∧
        m0.zookeeper_ = some zk1 ∧ zk1.connected = true ∧
        m.start env txt svc (some zk0) reachable st = doStart env txt svc m0 st ∧
        (CastsSucceed env txt st →
          ZNode.getStrValue (env.loadKvString "") ZNode.KEY_NEW_SHARDING_NODEIDS = "" →
          ∃ m' st', m.start env txt svc (some zk0) reachable st = some (m', st') ∧
            (m'.masterState_ = MasterStateType.MASTER_STATE_STARTED ∨
              m'.masterState_ = MasterStateType.MASTER_STATE_STARTING_WAIT_WORKERS))) ∧
    (∀ (mw : MasterManagerBase) (zk : ZooKeeper),
      mw.masterState_ = MasterStateType.MASTER_STATE_STARTING_WAIT_ZOOKEEPER →
      mw.stopping_ = false → mw.zookeeper_ = some zk →
      mw.processSessionConnected env txt svc st =
        (doStart env txt svc
          { mw with masterState_ := MasterStateType.MASTER_STATE_STARTING } st).map
          (fun r => (ConnectedBranch.started, r.1, r.2)) ∧
      (CastsSucceed env txt st →
        ZNode.getStrValue (env.loadKvString "") ZNode.KEY_NEW_SHARDING_NODEIDS = "" →
        ∃ m' st', mw.processSessionConnected env txt svc st =
            some (ConnectedBranch.started, m', st') ∧
          (m'.masterState_ = MasterStateType.MASTER_STATE_STARTED ∨
            m'.masterState_ = MasterStateType.MASTER_STATE_STARTING_WAIT_WORKERS))) := by
  refine ⟨?_, ?_, ?_⟩
  · intro hdown
    have hzk : zk0.connect false = zk0 := by
      cases zk0 with
      | mk c w e l =>
        simp only [ZooKeeper.connect]
        simp at hdown
        rw [hdown]
    refine ⟨{ (m.init (some zk0)).2 with
      masterState_ := MasterStateType.MASTER_STATE_STARTING_WAIT_ZOOKEEPER },
      ?_, rfl, rfl, rfl, rfl, rfl, rfl⟩
    simp [start, hinit, init, checkZooKeeperService, ZooKeeper.isConnected, hdown, hzk]
  · intro reachable hreach
    obtain ⟨m2, zk1, hm2, hz2, hc2, hs2⟩ : ∃ m2 zk1,
        (m.init (some zk0)).2.checkZooKeeperService reachable = some (true, m2) ∧
        m2.zookeeper_ = some zk1 ∧ zk1.connected = true ∧
        m2.masterState_ = MasterStateType.MASTER_STATE_INIT := by
      by_cases hc : zk0.connected = true
      · exact ⟨(m.init (some zk0)).2, zk0, by
          simp [init, checkZooKeeperService, ZooKeeper.isConnected, hc], rfl, hc, hinit⟩
      · have hr : reachable = true := by
          rcases hreach with h | h
          · exact absurd h hc
          · exact h
        exact ⟨{ (m.init (some zk0)).2 with zookeeper_ := some (zk0.connect true) },
          zk0.connect true, by
            simp [init, checkZooKeeperService, ZooKeeper.isConnected, hc, hr,
              ZooKeeper.connect], rfl, rfl, hinit⟩
    have hstart : m.start env txt svc (some zk0) reachable st =
        doStart env txt svc
          { m2 with masterState_ := MasterStateType.MASTER_STATE_STARTING } st := by
      have hi : (m.init (some zk0)).1 = true := rfl
      simp only [start, hinit, if_true, hi, Bool.not_true, Bool.false_eq_true, if_false, hm2,
        Option.bind_eq_bind, Option.some_bind, hs2, ne_eq, not_true_eq_false]
    refine ⟨{ m2 with masterState_ := MasterStateType.MASTER_STATE_STARTING }, zk1, rfl, hz2,
      hc2, hstart, ?_⟩
    intro hcast hempty
    rw [hstart]
    exact doStart_returns env txt svc _ st zk1 hz2 hcast hempty
  · intro mw zk hw hs hz
    have hproc : mw.processSessionConnected env txt svc st =
        (doStart env txt svc
          { mw with masterState_ := MasterStateType.MASTER_STATE_STARTING } st).map
          (fun r => (ConnectedBranch.started, r.1, r.2)) := by
      simp only [processSessionConnected, hs, Bool.false_eq_true, if_false, hw, if_true]
    refine ⟨hproc, ?_⟩
    intro hcast hempty
    obtain ⟨m', st', h', hs'⟩ := doStart_returns env txt svc
      { mw with masterState_ := MasterStateType.MASTER_STATE_STARTING } st zk hz hcast hempty
    exact ⟨m', st', by rw [hproc, h']; rfl, hs'⟩

theorem start_transitions_witness :
    (∃ m', masterInit.start kvEnv decimalText searchServices (some clientDown) false
        clusterStore = some (m', clusterStore) ∧
      m'.masterState_ = MasterStateType.MASTER_STATE_STARTING_WAIT_ZOOKEEPER ∧
      m'.workerMap_ = masterInit.workerMap_ ∧
      m'.readonly_workerMap_ = masterInit.readonly_workerMap_ ∧
      m'.replicaIdList_ = masterInit.replicaIdList_ ∧ m'.calls = masterInit.calls ∧
      m'.zookeeper_ = some clientDown) ∧
    (∃ m' st', masterInit.start kvEnv decimalText searchServices (some clientDown) true
        clusterStore = some (m', st') ∧
      (m'.masterState_ = MasterStateType.MASTER_STATE_STARTED ∨
        m'.masterState_ = MasterStateType.MASTER_STATE_STARTING_WAIT_WORKERS)) ∧
    (masterInit.start kvEnv decimalText searchServices (some clientDown) true clusterStore).map
      (fun r => (r.1.masterState_, r.1.replicaIdList_, r.1.serverRealPath_,
        r.1.workerMap_.map (fun e => (e.1, e.2.worker_.isGood_)))) =
      some (MasterStateType.MASTER_STATE_STARTED, [1], ZPath.seq ZPath.server 0,
        [(1, true), (2, true)]) := by
  have h := start_transitions kvEnv decimalText searchServices masterInit clusterStore
    clientDown rfl
  refine ⟨h.1 rfl, ?_, by decide⟩
  obtain ⟨m0, zk1, -, -, -, -, hret⟩ := h.2.1 true (Or.inr rfl)
  exact hret clusterStore_castsSucceed (by decide)

/-! ## Stop of the controller, and the write block once more -/

theorem Store.contains_erase_of_not (st : Store) (p q : ZPath) (h : st.contains p = false) :
    (st.erase q).contains p = false := by
  rw [Store.contains_eq_false_iff] at h ⊢
  intro e he
  simp only [Store.erase, List.mem_filter] at he
  exact h e he.1

theorem deleteZNode_removes (zk : ZooKeeper) (st : Store) (p : ZPath)
    (hc : zk.connected = true) : (zk.deleteZNode st p).2.2.contains p = false := by
  by_cases h : st.contains p = true
  · simp [ZooKeeper.deleteZNode, hc, h, Store.contains_erase_self]
  · simp only [Bool.not_eq_true] at h
    simp [ZooKeeper.deleteZNode, hc, h]

theorem deleteZNode_keeps_absent (zk : ZooKeeper) (st : Store) (p q : ZPath)
    (h : st.contains p = false) : (zk.deleteZNode st q).2.2.contains p = false := by
  simp only [ZooKeeper.deleteZNode]
  split
  · exact Store.contains_erase_of_not _ _ _ h
  · exact h

/-- C21: from every controller state and every store, `stop()` ends with
`masterState_ = MASTER_STATE_INIT`, `stopping_ = true` and `waiting_request_num_ = 0`; when
the coordination client was there and connected, the server znode of this master is not in
the store afterwards and the client is disconnected; otherwise the store is left as it
was. -/
theorem stop_resets (m : MasterManagerBase) (st : Store) :
    (m.stop st).1.masterState_ = MasterStateType.MASTER_STATE_INIT ∧
    (m.stop st).1.stopping_ = true ∧
    (m.stop st).1.waiting_request_num_ = 0 ∧
    (∀ zk, m.zookeeper_ = some zk → zk.connected = true →
      (m.stop st).2.contains m.serverRealPath_ = false ∧
      ∃ zk', (m.stop st).1.zookeeper_ = some zk' ∧ zk'.connected = false) ∧
    (m.notConnected = true → (m.stop st).2 = st) := by
  refine ⟨rfl, ?_, rfl, ?_, ?_⟩
  · simp only [stop]
    cases hz : m.zookeeper_ with
    | none => rfl
    | some zk =>
      simp only
      split
      · rfl
      · rfl
  · intro zk hz hc
    have hdel := deleteZNode_removes zk st m.serverRealPath_ hc
    simp only [stop, hz, ZooKeeper.isConnected, hc, if_true, stopConnected]
    refine ⟨?_, _, rfl, rfl⟩
    generalize zk.deleteZNode st m.serverRealPath_ = r1 at hdel ⊢
    split
    · exact deleteZNode_keeps_absent _ _ _ _ hdel
    · exact hdel
  · intro hn
    cases hz : m.zookeeper_ with
    | none => simp [stop, hz]
    | some zk =>
      have hc : zk.connected = false := by
        simpa [notConnected, hz, ZooKeeper.isConnected] using hn
      simp [stop, hz, ZooKeeper.isConnected, hc]

/-- On `serverStore` the stop of the only server removes its znode and then the empty server
parent, and leaves the controller in `INIT` with a disconnected client. -/
theorem stop_serverStore :
    ((startedMaster 1 1 [1] 0 true).stop serverStore).2.nodes = [] ∧
    ((startedMaster 1 1 [1] 0 true).stop serverStore).1.masterState_ =
      MasterStateType.MASTER_STATE_INIT ∧
    ((startedMaster 1 1 [1] 0 true).stop serverStore).1.zookeeper_ =
      some { clientUp with connected := false } :=
  ⟨by decide, by decide, by decide⟩

/-- C22: for every controller state, `enableNewWrite` called twice leaves the state that one
call leaves; for every controller state in which no write is prepared, `disableNewWrite`
called twice returns what one call returns and leaves the state that one call leaves. -/
theorem newWrite_block_idempotent (m : MasterManagerBase) :
    m.enableNewWrite.enableNewWrite = m.enableNewWrite ∧
    (m.write_prepared_ = false →
      m.disableNewWrite.2.disableNewWrite = m.disableNewWrite) := by
  refine ⟨rfl, ?_⟩
  intro hw
  simp [disableNewWrite, hw]

theorem newWrite_block_idempotent_witness :
    (startedMaster 1 1 [1] 0 true).enableNewWrite.enableNewWrite =
      (startedMaster 1 1 [1] 0 true).enableNewWrite ∧
    (startedMaster 1 1 [1] 0 true).disableNewWrite.2.disableNewWrite =
      (startedMaster 1 1 [1] 0 true).disableNewWrite ∧
    (startedMaster 1 1 [1] 0 true).disableNewWrite.1 = true :=
  ⟨(newWrite_block_idempotent (startedMaster 1 1 [1] 0 true)).1,
    (newWrite_block_idempotent (startedMaster 1 1 [1] 0 true)).2 rfl, rfl⟩

/-! ## The request cache -/

/-- C24 (as claimed, refuted): after the refill of the empty cache from a queue with two
children, both of which are fetched, `waiting_request_num_` is 2 and not
`2 - min 2 1000 = 0`. -/
theorem cacheNewWriteFromZNode_counts_all_children :
    (queuedStore.childrenOf (startedMaster 1 1 [1] 0 true).write_req_queue_parent_).length = 2 ∧
    ((startedMaster 1 1 [1] 0 true).cacheNewWriteFromZNode kvEnv queuedStore).map
      (fun r => (r.1, r.2.cached_write_reqlist_.length, r.2.waiting_request_num_)) =
      some (true, 2, 2) :=
  ⟨by decide, by decide⟩

/-- C24 (amended): when `cacheNewWriteFromZNode` refills the empty cache of a connected master
from a request queue that holds `n > 0` children, it returns true, the cache afterwards holds
exactly the first `min n 1000` children in the order of their sequence numbers, each with its
path, `req_data` and `req_type`, and `waiting_request_num_` is `n`, the number of all children
of the queue. -/
theorem cacheNewWriteFromZNode_refills (env : Env) (m : MasterManagerBase) (st : Store)
    (zk : ZooKeeper) (hz : m.zookeeper_ = some zk) (hc : zk.connected = true)
    (hcache : m.cached_write_reqlist_ = [])
    (hn : 0 < (st.childrenOf m.write_req_queue_parent_).length) :
    ∃ m', m.cacheNewWriteFromZNode env st = some (true, m') ∧
      m'.cached_write_reqlist_ =
        ((st.childrenOf m.write_req_queue_parent_).take
          (min (st.childrenOf m.write_req_queue_parent_).length 1000)).map
          (cacheEntry env st) ∧
      m'.cached_write_reqlist_.length =
        min (st.childrenOf m.write_req_queue_parent_).length 1000 ∧
      (st.childrenOf m.write_req_queue_parent_).Sorted ZPath.seqLe ∧
      m'.waiting_request_num_ = (st.childrenOf m.write_req_queue_parent_).length := by
  have hne : st.childrenOf m.write_req_queue_parent_ ≠ [] := by
    intro h
    rw [h] at hn
    simp at hn
  have htake : (st.childrenOf m.write_req_queue_parent_).take
      (min (st.childrenOf m.write_req_queue_parent_).length 1000) =
      (st.childrenOf m.write_req_queue_parent_).take 1000 := by
    rcases Nat.le_total (st.childrenOf m.write_req_queue_parent_).length 1000 with h | h
    · rw [Nat.min_eq_left h, List.take_length, List.take_of_length_le h]
    · rw [Nat.min_eq_right h]
  refine ⟨_, cacheNewWriteFromZNode_refill env m st zk hz hc hcache hne, ?_, ?_, ?_, rfl⟩
  · rw [htake]
  · simp [List.length_take, Nat.min_comm]
  · exact Store.childrenOf_sorted st _

theorem cacheNewWriteFromZNode_refills_witness :
    ∃ m', (startedMaster 1 1 [1] 0 true).cacheNewWriteFromZNode kvEnv queuedStore =
        some (true, m') ∧
      m'.cached_write_reqlist_ =
        ((queuedStore.childrenOf (startedMaster 1 1 [1] 0 true).write_req_queue_parent_).take
          (min (queuedStore.childrenOf
            (startedMaster 1 1 [1] 0 true).write_req_queue_parent_).length 1000)).map
          (cacheEntry kvEnv queuedStore) ∧
      m'.waiting_request_num_ = 2 := by
  obtain ⟨m', h, hcache, -, -, hw⟩ := cacheNewWriteFromZNode_refills kvEnv
    (startedMaster 1 1 [1] 0 true) queuedStore clientUp rfl rfl rfl (by decide)
  exact ⟨m', h, hcache, by rw [hw]; decide⟩

/-! ## The write check -/

/-- C23 (as claimed, refuted): on a connected master in distributed mode that is not primary
and whose client holds no watch, the client holds no watch after `checkForWriteReq` and none
after `prepareWriteReq` either: neither call registers a watch on the write-prepare znode or
on the parent of the request queue. -/
theorem nonPrimary_check_arms_no_watch :
    nonPrimaryMaster.isDistributeEnable_ = true ∧ nonPrimaryMaster.isMinePrimary = false ∧
    nonPrimaryMaster.notConnected = false ∧
    (nonPrimaryMaster.checkForWriteReq kvEnv none emptyStore).map
      (fun r => r.1.zookeeper_.map ZooKeeper.watches) = some (some []) ∧
    (nonPrimaryMaster.prepareWriteReq kvEnv emptyStore).map
      (fun r => (r.1, r.2.1.zookeeper_.map ZooKeeper.watches)) = some (false, some []) :=
  ⟨rfl, by decide, by decide, by decide, by decide⟩

/-- C23 (amended): a connected master in distributed mode that is not primary drops a write
check and a prepare without touching its watches: `checkForWriteReq` returns with the store
as it was, an empty request cache and the client as it was (the two `isZNodeExists` calls on
the write-prepare znode and on the parent of the request queue are made with `NOT_WATCH`),
and `prepareWriteReq`, when the master is not stopping, returns false with the store and the
client as they were. -/
theorem nonPrimary_drops_without_watch (env : Env) (handler : Option NewReqHandler)
    (m : MasterManagerBase) (st : Store) (zk : ZooKeeper)
    (hd : m.isDistributeEnable_ = true) (hz : m.zookeeper_ = some zk)
    (hc : zk.connected = true) (hp : m.is_mine_primary_ = false) :
    (∃ m', m.checkForWriteReq env handler st = some (m', st) ∧ m'.zookeeper_ = some zk ∧
      m'.cached_write_reqlist_ = [] ∧ m'.calls = m.calls) ∧
    (m.stopping_ = false →
      ∃ m', m.prepareWriteReq env st = some (false, m', st) ∧ m'.zookeeper_ = some zk ∧
        m'.write_prepared_ = m.write_prepared_) := by
  have hprim : m.isMinePrimary = false := by
    simp [isMinePrimary, hd, notConnected, hz, ZooKeeper.isConnected, hc, hp]
  have hn : m.notConnected = false := by
    simp [notConnected, hz, ZooKeeper.isConnected, hc]
  constructor
  · by_cases hcache : m.cached_write_reqlist_.isEmpty = true
    · refine ⟨{ m with zookeeper_ := some zk }, ?_, rfl, ?_, rfl⟩
      · simp [checkForWriteReq, hd, hprim, hn, hcache, zkIsZNodeExists, hz,
          ZooKeeper.isZNodeExists, ZooKeeper.addWatch]
      · simpa using hcache
    · refine ⟨{ m with zookeeper_ := some zk, cached_write_reqlist_ := [] }, ?_, rfl, rfl,
        rfl⟩
      simp [checkForWriteReq, hd, hprim, hn, hcache, zkIsZNodeExists, hz,
        ZooKeeper.isZNodeExists, ZooKeeper.addWatch]
  · intro hs
    refine ⟨{ m with zookeeper_ := some zk }, ?_, rfl, rfl⟩
    simp [prepareWriteReq, hd, hs, hprim, zkIsZNodeExists, hz, ZooKeeper.isZNodeExists,
      ZooKeeper.addWatch]

theorem nonPrimary_drops_without_watch_witness :
    (∃ m', nonPrimaryMaster.checkForWriteReq kvEnv (some acceptHandler) queuedStore =
        some (m', queuedStore) ∧ m'.zookeeper_ = some clientUp ∧
      m'.cached_write_reqlist_ = [] ∧ m'.calls = nonPrimaryMaster.calls) ∧
    (∃ m', nonPrimaryMaster.prepareWriteReq kvEnv queuedStore = some (false, m', queuedStore) ∧
      m'.zookeeper_ = some clientUp ∧
      m'.write_prepared_ = nonPrimaryMaster.write_prepared_) :=
  ⟨(nonPrimary_drops_without_watch kvEnv (some acceptHandler) nonPrimaryMaster queuedStore
      clientUp rfl rfl rfl rfl).1,
    (nonPrimary_drops_without_watch kvEnv (some acceptHandler) nonPrimaryMaster queuedStore
      clientUp rfl rfl rfl rfl).2 rfl⟩

theorem zkIsZNodeExists_frame (m : MasterManagerBase) (st : Store) (p : ZPath) (w : WatchType)
    (zk : ZooKeeper) (hz : m.zookeeper_ = some zk) :
    ∃ r zk', m.zkIsZNodeExists st p w = some (r, { m with zookeeper_ := some zk' }) ∧
      zk'.connected = zk.connected :=
  ⟨(zk.isZNodeExists st p w).1, (zk.isZNodeExists st p w).2,
    by simp [zkIsZNodeExists, hz], addWatch_connected _ _ _⟩

theorem zkGetZNodeData_frame (m : MasterManagerBase) (st : Store) (p : ZPath) (w : WatchType)
    (zk : ZooKeeper) (hz : m.zookeeper_ = some zk) :
    ∃ r zk', m.zkGetZNodeData st p w = some (r, { m with zookeeper_ := some zk' }) ∧
      zk'.connected = zk.connected :=
  ⟨(zk.getZNodeData st p w).1, (zk.getZNodeData st p w).2,
    by simp [zkGetZNodeData, hz], addWatch_connected _ _ _⟩

theorem zkDeleteZNode_frame (m : MasterManagerBase) (st : Store) (p : ZPath)
    (zk : ZooKeeper) (hz : m.zookeeper_ = some zk) :
    ∃ r st', m.zkDeleteZNode st p = some (r, { m with zookeeper_ := some zk }, st') := by
  refine ⟨(zk.deleteZNode st p).1, (zk.deleteZNode st p).2.2, ?_⟩
  simp only [zkDeleteZNode, hz, ZooKeeper.deleteZNode]
  split <;> rfl

/-- `endWriteReq` returns from every state; it touches only the client among the fields of
the controller, and it leaves the store alone when it returns false. -/
theorem endWriteReq_frame (env : Env) (m : MasterManagerBase) (st : Store) :
    ∃ b m1 st1, m.endWriteReq env st = some (b, m1, st1) ∧ (b = false → st1 = st) ∧
      m1.calls = m.calls ∧ m1.cached_write_reqlist_ = m.cached_write_reqlist_ ∧
      m1.waiting_request_num_ = m.waiting_request_num_ ∧
      m1.write_req_queue_parent_ = m.write_req_queue_parent_ ∧
      m1.write_prepare_node_ = m.write_prepare_node_ ∧
      (∀ zk, m.zookeeper_ = some zk → ∃ zk', m1.zookeeper_ = some zk' ∧
        zk'.connected = zk.connected) := by
  by_cases ha : env.isAsyncEnabled = true
  · exact ⟨true, m, st, by simp [endWriteReq, ha], by simp, rfl, rfl, rfl, rfl, rfl,
      fun zk h => ⟨zk, h, rfl⟩⟩
  by_cases hs : m.stopping_ = true
  · exact ⟨true, m, st, by simp [endWriteReq, ha, hs], by simp, rfl, rfl, rfl, rfl, rfl,
      fun zk h => ⟨zk, h, rfl⟩⟩
  rcases Option.eq_none_or_eq_some m.zookeeper_ with hz | ⟨zk, hz⟩
  · exact ⟨true, m, st, by simp [endWriteReq, ha, hs, hz], by simp, rfl, rfl, rfl, rfl, rfl,
      fun zk h => by rw [hz] at h; simp at h⟩
  have hkeep : ∀ zk1 : ZooKeeper, zk1.connected = zk.connected →
      ∀ zk0, m.zookeeper_ = some zk0 →
        ∃ zk', some zk1 = some zk' ∧ zk'.connected = zk0.connected := by
    intro zk1 h1 zk0 h0
    rw [hz] at h0
    cases h0
    exact ⟨zk1, rfl, h1⟩
  obtain ⟨found, zk1, h1, hc1⟩ := zkIsZNodeExists_frame m st m.write_prepare_node_
    WatchType.NOT_WATCH zk hz
  obtain ⟨sdata, zk2, h2, hc2⟩ := zkGetZNodeData_frame { m with zookeeper_ := some zk1 } st
    m.write_prepare_node_ WatchType.NOT_WATCH zk1 rfl
  obtain ⟨r3, st3, h3⟩ := zkDeleteZNode_frame
    { { m with zookeeper_ := some zk1 } with zookeeper_ := some zk2 } st
    m.write_prepare_node_ zk2 rfl
  generalize hr : m.endWriteReq env st = res
  have ha' : env.isAsyncEnabled = false := by simpa using ha
  have hs' : m.stopping_ = false := by simpa using hs
  rw [endWriteReq, ha', hs', hz] at hr
  simp only [Bool.false_eq_true, if_false, h1, Option.bind_eq_bind, Option.some_bind] at hr
  cases found with
  | false =>
    simp only [Bool.not_false, if_true] at hr
    subst hr
    exact ⟨_, _, _, rfl, by simp, rfl, rfl, rfl, rfl, rfl, hkeep zk1 hc1⟩
  | true =>
    simp only [Bool.not_true, Bool.false_eq_true, if_false, h2, Option.some_bind] at hr
    cases sdata with
    | none =>
      simp only at hr
      subst hr
      exact ⟨_, _, _, rfl, fun _ => rfl, rfl, rfl, rfl, rfl, rfl, hkeep zk2 (hc2.trans hc1)⟩
    | some sdata =>
      simp only at hr
      split at hr
      · subst hr
        exact ⟨_, _, _, rfl, fun _ => rfl, rfl, rfl, rfl, rfl, rfl,
          hkeep zk2 (hc2.trans hc1)⟩
      · rw [h3] at hr
        subst hr
        exact ⟨_, _, _, rfl, by simp, rfl, rfl, rfl, rfl, rfl, hkeep zk2 (hc2.trans hc1)⟩

theorem checkForNewWriteReq_guard (env : Env) (handler : Option NewReqHandler)
    (m : MasterManagerBase) (st : Store) (zk : ZooKeeper) (hz : m.zookeeper_ = some zk)
    (hnot : ¬ ((m.masterState_ = MasterStateType.MASTER_STATE_STARTED ∨
        m.masterState_ = MasterStateType.MASTER_STATE_STARTING_WAIT_WORKERS) ∧
      m.write_prepared_ = false ∧ m.is_ready_for_new_write_ = true ∧
      ∃ m1 st1, m.endWriteReq env st = some (true, m1, st1))) :
    ∃ m', m.checkForNewWriteReq env handler st = some (m', st) ∧ m'.calls = m.calls ∧
      m'.cached_write_reqlist_ = m.cached_write_reqlist_ ∧
      m'.waiting_request_num_ = m.waiting_request_num_ := by
  by_cases hstate : m.masterState_ ≠ MasterStateType.MASTER_STATE_STARTED ∧
      m.masterState_ ≠ MasterStateType.MASTER_STATE_STARTING_WAIT_WORKERS
  · exact ⟨m, by rw [checkForNewWriteReq, if_pos hstate], rfl, rfl, rfl⟩
  have hstate' : m.masterState_ = MasterStateType.MASTER_STATE_STARTED ∨
      m.masterState_ = MasterStateType.MASTER_STATE_STARTING_WAIT_WORKERS := by
    by_contra h
    exact hstate ⟨fun h1 => h (Or.inl h1), fun h2 => h (Or.inr h2)⟩
  by_cases hprep : m.write_prepared_ = true
  · exact ⟨m, by rw [checkForNewWriteReq, if_neg hstate, if_pos hprep], rfl, rfl, rfl⟩
  by_cases hready : (!m.is_ready_for_new_write_) = true
  · exact ⟨m, by rw [checkForNewWriteReq, if_neg hstate, if_neg hprep, if_pos hready],
      rfl, rfl, rfl⟩
  obtain ⟨b, m1, st1, hend, hst, hcalls, hcache, hwait, -, -, hcl⟩ := endWriteReq_frame env m st
  cases b with
  | true =>
    exfalso
    exact hnot ⟨hstate', by simpa using hprep, by simpa using hready, m1, st1, hend⟩
  | false =>
    have hst1 : st1 = st := hst rfl
    subst hst1
    obtain ⟨zk1, hz1, -⟩ := hcl zk hz
    obtain ⟨r, zk2, h2, -⟩ := zkIsZNodeExists_frame m1 st1 m1.write_prepare_node_
      WatchType.WATCH zk1 hz1
    refine ⟨{ m1 with zookeeper_ := some zk2 }, ?_, hcalls, hcache, hwait⟩
    rw [checkForNewWriteReq, if_neg hstate, if_neg hprep, if_neg hready]
    simp only [hend, Option.bind_eq_bind, Option.some_bind, Bool.not_false, if_true, h2]

theorem checkForWriteReq_nonPrimary (env : Env) (handler : Option NewReqHandler)
    (m : MasterManagerBase) (st : Store) (hd : m.isDistributeEnable_ = true)
    (hp : m.isMinePrimary = false) :
    ∃ m', m.checkForWriteReq env handler st = some (m', st) ∧ m'.calls = m.calls ∧
      (m'.cached_write_reqlist_ = m.cached_write_reqlist_ ∨ m'.cached_write_reqlist_ = []) ∧
      m'.waiting_request_num_ = m.waiting_request_num_ := by
  by_cases hn : m.notConnected = true
  · exact ⟨m, by simp [checkForWriteReq, hd, hp, hn], rfl, Or.inl rfl, rfl⟩
  rcases Option.eq_none_or_eq_some m.zookeeper_ with hz | ⟨zk, hz⟩
  · simp [notConnected, hz] at hn
  by_cases hcache : m.cached_write_reqlist_.isEmpty = true
  · refine ⟨{ m with zookeeper_ := some zk }, ?_, rfl, Or.inl rfl, rfl⟩
    simp [checkForWriteReq, hd, hp, hn, hcache, zkIsZNodeExists, hz, ZooKeeper.isZNodeExists,
      ZooKeeper.addWatch]
  · refine ⟨{ m with zookeeper_ := some zk, cached_write_reqlist_ := [] }, ?_, rfl, Or.inr rfl,
      rfl⟩
    simp [checkForWriteReq, hd, hp, hn, hcache, zkIsZNodeExists, hz, ZooKeeper.isZNodeExists,
      ZooKeeper.addWatch]

theorem checkForWriteReq_guard (env : Env) (handler : Option NewReqHandler)
    (m : MasterManagerBase) (st : Store) (hd : m.isDistributeEnable_ = true)
    (hnot : ¬ WriteCheckReady env m st) :
    ∃ m', m.checkForWriteReq env handler st = some (m', st) ∧ m'.calls = m.calls ∧
      (m'.cached_write_reqlist_ = m.cached_write_reqlist_ ∨ m'.cached_write_reqlist_ = []) ∧
      m'.waiting_request_num_ = m.waiting_request_num_ := by
  by_cases hp : m.isMinePrimary = true
  swap
  · exact checkForWriteReq_nonPrimary env handler m st hd (by simpa using hp)
  have hzk : ∃ zk, m.zookeeper_ = some zk := by
    rcases Option.eq_none_or_eq_some m.zookeeper_ with hz | ⟨zk, hz⟩
    · simp [isMinePrimary, hd, notConnected, hz] at hp
    · exact ⟨zk, hz⟩
  obtain ⟨zk, hz⟩ := hzk
  have hnot' : ¬ ((m.masterState_ = MasterStateType.MASTER_STATE_STARTED ∨
        m.masterState_ = MasterStateType.MASTER_STATE_STARTING_WAIT_WORKERS) ∧
      m.write_prepared_ = false ∧ m.is_ready_for_new_write_ = true ∧
      ∃ m1 st1, m.endWriteReq env st = some (true, m1, st1)) := fun h => hnot ⟨hp, h⟩
  obtain ⟨m', h', hc', hcache', hw'⟩ := checkForNewWriteReq_guard env handler m st zk hz hnot'
  have hcheck : m.checkForWriteReq env handler st = some (m', st) ∨
      m.checkForWriteReq env handler st = some (m, st) := by
    cases hs : m.masterState_ with
    | MASTER_STATE_STARTED =>
      left
      rw [← h']
      simp [checkForWriteReq, hd, hp, hs]
    | MASTER_STATE_STARTING_WAIT_WORKERS =>
      left
      rw [← h']
      simp [checkForWriteReq, hd, hp, hs]
    | MASTER_STATE_INIT => right; simp [checkForWriteReq, hd, hp, hs]
    | MASTER_STATE_STARTING => right; simp [checkForWriteReq, hd, hp, hs]
    | MASTER_STATE_STARTING_WAIT_ZOOKEEPER => right; simp [checkForWriteReq, hd, hp, hs]
  rcases hcheck with h | h
  · exact ⟨m', h, hc', Or.inl hcache', hw'⟩
  · exact ⟨m, h, rfl, Or.inl rfl, rfl⟩

/-- C25: in distributed mode, a run of `checkForWriteReq` that records a call of the handler
`on_new_req_available_` started from a state in which the master is primary, `masterState_`
is `STARTED` or `STARTING_WAIT_WORKERS`, no write is prepared, `is_ready_for_new_write_` is
set and `endWriteReq` returns true.  If any of these fails, `checkForWriteReq` returns with
the store as it was and without a call of the handler, the request cache is not refilled (it
is as it was, or emptied on a master that is not primary) and `waiting_request_num_` is as it
was. -/
theorem checkForWriteReq_handler_only_when_ready (env : Env) (handler : Option NewReqHandler)
    (m : MasterManagerBase) (st : Store) (hd : m.isDistributeEnable_ = true) :
    (∀ m' st', m.checkForWriteReq env handler st = some (m', st') → m'.calls ≠ m.calls →
      WriteCheckReady env m st) ∧
    (¬ WriteCheckReady env m st →
      ∃ m', m.checkForWriteReq env handler st = some (m', st) ∧ m'.calls = m.calls ∧
        (m'.cached_write_reqlist_ = m.cached_write_reqlist_ ∨
          m'.cached_write_reqlist_ = []) ∧
        m'.waiting_request_num_ = m.waiting_request_num_) := by
  refine ⟨?_, checkForWriteReq_guard env handler m st hd⟩
  intro m' st' h hcalls
  by_contra hnot
  obtain ⟨m'', h'', hc'', -, -⟩ := checkForWriteReq_guard env handler m st hd hnot
  rw [h] at h''
  cases h''
  exact hcalls hc''

theorem checkForWriteReq_handler_only_when_ready_witness :
    WriteCheckReady kvEnv readyMaster queuedStore ∧
    (readyMaster.checkForWriteReq kvEnv (some acceptHandler) queuedStore).map
      (fun r => (r.1.calls, r.1.cached_write_reqlist_.length)) =
      some ([Call.onNewReqAvailable], 2) ∧
    (∃ m', (startedMaster 1 1 [1] 0 true).checkForWriteReq kvEnv (some acceptHandler)
        queuedStore = some (m', queuedStore) ∧
      m'.calls = (startedMaster 1 1 [1] 0 true).calls) := by
  have hrun : (readyMaster.checkForWriteReq kvEnv (some acceptHandler) queuedStore).map
      (fun r => (r.1.calls, r.1.cached_write_reqlist_.length)) =
      some ([Call.onNewReqAvailable], 2) := by decide
  refine ⟨?_, hrun, ?_⟩
  · cases h : readyMaster.checkForWriteReq kvEnv (some acceptHandler) queuedStore with
    | none => rw [h] at hrun; simp at hrun
    | some r =>
      refine (checkForWriteReq_handler_only_when_ready kvEnv (some acceptHandler) readyMaster
        queuedStore rfl).1 r.1 r.2 h ?_
      intro hc
      rw [h] at hrun
      simp only [Option.map_some', Option.some.injEq, Prod.mk.injEq] at hrun
      rw [hc] at hrun
      exact absurd hrun.1 (by decide)
  · obtain ⟨m', h, hc, -, -⟩ := (checkForWriteReq_handler_only_when_ready kvEnv
      (some acceptHandler) (startedMaster 1 1 [1] 0 true) queuedStore rfl).2
      (fun hr => by
        have h4 := hr.2.2.2.1
        exact absurd h4 (by decide))
    exact ⟨m', h, hc⟩

/-! ## Requests pushed to several shards -/

theorem zkCreateZNode_sequence_exists (m : MasterManagerBase) (st : Store) (zk : ZooKeeper)
    (p : ZPath) (data : String) (hz : m.zookeeper_ = some zk) (hc : zk.connected = true)
    (hex : st.contains (ZPath.seq p st.nextSeq) = true) :
    ∃ m1 zk1, m1.zookeeper_ = some zk1 ∧ zk1.connected = true ∧
      m1.sf1rTopology_ = m.sf1rTopology_ ∧
      m.zkCreateZNode st p data ZNodeCreateType.ZNODE_SEQUENCE = some (false, m1, st) := by
  refine ⟨{ m with zookeeper_ := some (ZooKeeper.mk true zk.watches ZkError.ZERR_ZNODEEXISTS
    zk.lastCreatedNodePath) }, _, rfl, rfl, rfl, ?_⟩
  simp [zkCreateZNode, hz, ZooKeeper.createZNode, hc, hex]

theorem pushToShardLoop_prefix (payload : String) (inc : Bool) (shardids : List shardid_t) :
    ∀ (m : MasterManagerBase) (st : Store) (zk : ZooKeeper), m.zookeeper_ = some zk →
      zk.connected = true →
      ∃ b m' st' k, pushToShardLoop payload inc shardids m st = some (b, m', st') ∧
        k ≤ (m.shardTargets shardids inc).length ∧
        st'.nodes = st.nodes ++ shardRequestEntries payload st.nextSeq
          ((m.shardTargets shardids inc).take k) ∧
        st'.nextSeq = st.nextSeq + k ∧
        (b = true → k = (m.shardTargets shardids inc).length) ∧
        (b = false → ∃ t, (m.shardTargets shardids inc).get? k = some t ∧
          st'.contains (ZPath.seq (getWriteReqQueueNode t) st'.nextSeq) = true) := by
  induction shardids with
  | nil =>
    intro m st zk _ _
    exact ⟨true, m, st, 0, rfl, by simp, by simp [shardTargets, shardRequestEntries], rfl,
      by simp [shardTargets], by simp⟩
  | cons s rest ih =>
    intro m st zk hz hc
    by_cases hskip : (!inc && decide (s = m.sf1rTopology_.curNode_.nodeId_)) = true
    · have ht : m.shardTargets (s :: rest) inc = m.shardTargets rest inc := by
        simp only [shardTargets]
        rw [List.filter_cons_of_neg]
        simp at hskip
        simp [hskip.1, hskip.2]
      rw [pushToShardLoop, if_pos hskip, ht]
      exact ih m st zk hz hc
    · have ht : m.shardTargets (s :: rest) inc = s :: m.shardTargets rest inc := by
        simp only [shardTargets]
        rw [List.filter_cons_of_pos]
        cases inc <;> simp at hskip ⊢
        exact hskip
      rw [pushToShardLoop, if_neg hskip, ht]
      by_cases hex : st.contains (ZPath.seq (getWriteReqQueueNode s) st.nextSeq) = true
      · obtain ⟨m1, zk1, -, -, -, hcr⟩ := zkCreateZNode_sequence_exists m st zk
          (getWriteReqQueueNode s) payload hz hc hex
        refine ⟨false, m1, st, 0, ?_, by simp, by simp [shardRequestEntries], rfl, by simp,
          fun _ => ⟨s, rfl, hex⟩⟩
        simp only [hcr, Bool.false_eq_true, if_false]
      · obtain ⟨m1, zk1, hz1, hc1, htop, hcr⟩ := zkCreateZNode_sequence m st zk
          (getWriteReqQueueNode s) payload hz hc (by simpa using hex)
        obtain ⟨b, m', st', k, h, hk, hnodes, hseq, hb, hf⟩ := ih m1 _ zk1 hz1 hc1
        have ht1 : m1.shardTargets rest inc = m.shardTargets rest inc := by
          simp only [shardTargets, htop]
        rw [ht1] at hk hnodes hb hf
        refine ⟨b, m', st', k + 1, ?_, by simpa using hk, ?_, ?_, ?_, ?_⟩
        · simp only [hcr, if_true]
          exact h
        · rw [hnodes]
          simp [shardRequestEntries]
        · rw [hseq]
          simp only
          omega
        · intro hbt
          rw [List.length_cons, hb hbt]
        · intro hbf
          obtain ⟨t, hget, hcont⟩ := hf hbf
          exact ⟨t, by simpa using hget, hcont⟩

/-- C30: `pushWriteReqToShard` on a connected master returns, and when it returns it has
written the requests of the first `k` target shards and nothing else: with the result true
`k` is the number of all targets, and with the result false either the call was refused
before the loop (`k = 0`, a migration is running and `for_migrate` is false) or the create
for the target number `k` failed (its sequence path exists), in which case the requests of
the `k` earlier targets remain in the store and no later target has one. -/
theorem pushWriteReqToShard_stops_at_failure (env : Env) (m : MasterManagerBase) (st : Store)
    (zk : ZooKeeper) (data : String) (shardids : List shardid_t)
    (for_migrate include_self : Bool)
    (hz : m.zookeeper_ = some zk) (hc : zk.connected = true) :
    ∃ b m' st' k, m.pushWriteReqToShard env st data shardids for_migrate include_self =
        some (b, m', st') ∧
      k ≤ (m.shardTargets shardids include_self).length ∧
      st'.nodes = st.nodes ++ shardRequestEntries (requestPayload env data "api_from_shard")
        st.nextSeq ((m.shardTargets shardids include_self).take k) ∧
      (b = true → k = (m.shardTargets shardids include_self).length) ∧
      (b = false →
        (k = 0 ∧ for_migrate = false ∧ st.contains m.migrate_prepare_node_ = true) ∨
        ∃ t, (m.shardTargets shardids include_self).get? k = some t ∧
          st'.contains (ZPath.seq (getWriteReqQueueNode t) (st.nextSeq + k)) = true) := by
  have hn : m.notConnected = false := by
    simp [notConnected, hz, ZooKeeper.isConnected, hc]
  have hloop : ∀ (m0 : MasterManagerBase) (zk0 : ZooKeeper), m0.zookeeper_ = some zk0 →
      zk0.connected = true → m0.sf1rTopology_ = m.sf1rTopology_ →
      ∃ b m' st' k, pushToShardLoop (requestPayload env data "api_from_shard") include_self
          shardids m0 st = some (b, m', st') ∧
        k ≤ (m.shardTargets shardids include_self).length ∧
        st'.nodes = st.nodes ++ shardRequestEntries (requestPayload env data "api_from_shard")
          st.nextSeq ((m.shardTargets shardids include_self).take k) ∧
        (b = true → k = (m.shardTargets shardids include_self).length) ∧
        (b = false → ∃ t, (m.shardTargets shardids include_self).get? k = some t ∧
          st'.contains (ZPath.seq (getWriteReqQueueNode t) (st.nextSeq + k)) = true) := by
    intro m0 zk0 hz0 hc0 htop
    obtain ⟨b, m', st', k, h, hk, hnodes, hseq, hb, hf⟩ := pushToShardLoop_prefix
      (requestPayload env data "api_from_shard") include_self shardids m0 st zk0 hz0 hc0
    have ht : m0.shardTargets shardids include_self = m.shardTargets shardids include_self := by
      simp only [shardTargets, htop]
    rw [ht] at hk hnodes hb hf
    refine ⟨b, m', st', k, h, hk, hnodes, hb, ?_⟩
    intro hbf
    obtain ⟨t, hget, hcont⟩ := hf hbf
    rw [hseq] at hcont
    exact ⟨t, hget, hcont⟩
  cases for_migrate with
  | true =>
    obtain ⟨b, m', st', k, h, hk, hnodes, hb, hf⟩ := hloop m zk hz hc rfl
    refine ⟨b, m', st', k, ?_, hk, hnodes, hb, fun hbf => Or.inr (hf hbf)⟩
    simp only [pushWriteReqToShard, hn, if_true, Bool.false_eq_true, if_false]
    exact h
  | false =>
    by_cases hmig : st.contains m.migrate_prepare_node_ = true
    · refine ⟨false,
        { m with zookeeper_ := some (zk.addWatch WatchType.WATCH m.migrate_prepare_node_) },
        st, 0, ?_, by simp, by simp [shardRequestEntries], by simp,
        fun _ => Or.inl ⟨rfl, rfl, hmig⟩⟩
      simp [pushWriteReqToShard, hn, zkIsZNodeExists, hz, ZooKeeper.isZNodeExists, hc, hmig]
    · obtain ⟨m1, hm1, hz1⟩ : ∃ m1, m.zkIsZNodeExists st m.migrate_prepare_node_
          WatchType.WATCH = some (false, m1) ∧
          m1.zookeeper_ = some (zk.addWatch WatchType.WATCH m.migrate_prepare_node_) ∧
          m1.sf1rTopology_ = m.sf1rTopology_ :=
        ⟨{ m with zookeeper_ := some (zk.addWatch WatchType.WATCH m.migrate_prepare_node_) },
          by simp [zkIsZNodeExists, hz, ZooKeeper.isZNodeExists, hc, hmig], rfl, rfl⟩
      obtain ⟨b, m', st', k, h, hk, hnodes, hb, hf⟩ := hloop m1 _ hz1.1
        (by rw [addWatch_connected]; exact hc) hz1.2
      refine ⟨b, m', st', k, ?_, hk, hnodes, hb, fun hbf => Or.inr (hf hbf)⟩
      simp only [pushWriteReqToShard, hn, Bool.false_eq_true, if_false, hm1,
        Option.bind_eq_bind, Option.some_bind]
      exact h

theorem pushWriteReqToShard_stops_at_failure_witness :
    (∃ b m' st' k, (startedMaster 1 1 [1, 2, 3, 4] 0 true).pushWriteReqToShard kvEnv
        collidingStore "doc" [2, 3, 4] false false = some (b, m', st') ∧
      k ≤ ((startedMaster 1 1 [1, 2, 3, 4] 0 true).shardTargets [2, 3, 4] false).length ∧
      st'.nodes = collidingStore.nodes ++
        shardRequestEntries (requestPayload kvEnv "doc" "api_from_shard") collidingStore.nextSeq
          (((startedMaster 1 1 [1, 2, 3, 4] 0 true).shardTargets [2, 3, 4] false).take k)) ∧
    ((startedMaster 1 1 [1, 2, 3, 4] 0 true).pushWriteReqToShard kvEnv collidingStore "doc"
        [2, 3, 4] false false).map (fun r => (r.1, r.2.2.nodes.map ZEntry.path)) =
      some (false, [ZPath.seq (getWriteReqQueueNode 3) 1,
        ZPath.seq (getWriteReqQueueNode 2) 0]) := by
  constructor
  · obtain ⟨b, m', st', k, h, hk, hnodes, -, -⟩ := pushWriteReqToShard_stops_at_failure kvEnv
      (startedMaster 1 1 [1, 2, 3, 4] 0 true) collidingStore clientUp "doc" [2, 3, 4] false
      false rfl rfl
    exact ⟨b, m', st', k, h, hk, hnodes⟩
  · decide

/-! ## The data port of a slot -/

theorem failoverLoop_dataPort (env : Env) (st : Store) (mp : Bool)
    (replicas : List replicaid_t) :
    ∀ (node : Sf1rNode) (m : MasterManagerBase) (zk : ZooKeeper), m.zookeeper_ = some zk →
      ∃ node' m' zk', failoverLoop env st mp replicas node m = some (node', m') ∧
        m'.zookeeper_ = some zk' ∧ m.PrimarySideKept m' ∧
        node'.dataPort_ = node.dataPort_ ∧ node'.nodeId_ = node.nodeId_ := by
  induction replicas with
  | nil =>
    intro node m zk hz
    exact ⟨node, m, zk, rfl, hz, MasterManagerBase.PrimarySideKept.refl m, rfl, rfl⟩
  | cons r rest ih =>
    intro node m zk hz
    by_cases hr : r ≠ node.replicaId_
    swap
    · rw [failoverLoop, if_neg hr]
      exact ih node m zk hz
    rw [failoverLoop, if_pos hr]
    obtain ⟨sdata, m1, zk1, h1, -, k1, -, hz1, -⟩ :=
      zkGetZNodeData_some m st (getNodePath r node.nodeId_) WatchType.WATCH zk hz
    simp only [h1, Option.bind_eq_bind, Option.some_bind]
    cases sdata with
    | none =>
      obtain ⟨node', m', zk', h', hz', k', hd', hn'⟩ := ih node m1 zk1 hz1
      exact ⟨node', m', zk', h', hz', k1.trans k', hd', hn'⟩
    | some sdata =>
      simp only
      have hkept : m1.PrimarySideKept
          (if mp = true then isPrimaryWorker env m1 st r node.nodeId_ else (true, m1)).2 := by
        split
        · exact (isPrimaryWorker_kept env m1 st r node.nodeId_).1
        · exact MasterManagerBase.PrimarySideKept.refl m1
      generalize (if mp = true then isPrimaryWorker env m1 st r node.nodeId_
        else (true, m1)) = pr at hkept ⊢
      obtain ⟨zk2, hz2, -⟩ := hkept.2.2.2.2.2.2.2.2.2 zk1 hz1
      have k2 := k1.trans hkept
      cases hpr : pr.1 with
      | false =>
        simp only [Bool.not_false, if_true]
        obtain ⟨node', m', zk', h', hz', k', hd', hn'⟩ := ih node pr.2 zk2 hz2
        exact ⟨node', m', zk', h', hz', k2.trans k', hd', hn'⟩
      | true =>
        simp only [Bool.not_true, Bool.false_eq_true, if_false]
        by_cases hk : ZNode.hasKey (env.loadKvString sdata) ZNode.KEY_WORKER_PORT = true
        swap
        · rw [if_neg hk]
          obtain ⟨node', m', zk', h', hz', k', hd', hn'⟩ := ih node pr.2 zk2 hz2
          exact ⟨node', m', zk', h', hz', k2.trans k', hd', hn'⟩
        rw [if_pos hk]
        cases env.lexicalCastPort
            (ZNode.getStrValue (env.loadKvString sdata) ZNode.KEY_WORKER_PORT) with
        | none =>
          obtain ⟨node', m', zk', h', hz', k', hd', hn'⟩ := ih
            { node with replicaId_ := r,
                        host_ := ZNode.getStrValue (env.loadKvString sdata) ZNode.KEY_HOST }
            pr.2 zk2 hz2
          exact ⟨node', m', zk', h', hz', k2.trans k', hd', hn'⟩
        | some port => exact ⟨_, pr.2, zk2, rfl, hz2, k2, rfl, rfl⟩

theorem failoverNode_dataPort (env : Env) (st : Store) (m : MasterManagerBase)
    (node : Sf1rNode) (zk : ZooKeeper) (hz : m.zookeeper_ = some zk) :
    ∃ covered node' m' zk', failoverNode env st m node = some (covered, node', m') ∧
      m'.zookeeper_ = some zk' ∧ m.PrimarySideKept m' ∧
      node'.dataPort_ = node.dataPort_ ∧ node'.nodeId_ = node.nodeId_ := by
  obtain ⟨node1, m1, zk1, h1, hz1, k1, hd1, hn1⟩ := failoverLoop_dataPort env st m.isMinePrimary
    m.replicaIdList_ { node with worker_ := { node.worker_ with isGood_ := false } } m zk hz
  obtain ⟨found, m2, zk2, h2, k2, -, hz2, -⟩ := zkIsZNodeExists_some m1 st
    (getNodePath m1.sf1rTopology_.curNode_.replicaId_ node1.nodeId_) WatchType.WATCH zk1 hz1
  exact ⟨node1.worker_.isGood_, node1, m2, zk2, by
    simp only [failoverNode, h1, Option.bind_eq_bind, Option.some_bind, h2], hz2,
    k1.trans k2, hd1, hn1⟩

theorem span_append {α : Type} (p : α → Bool) (l : List α) :
    (l.span p).1 ++ (l.span p).2 = l := by
  rw [List.span_eq_take_drop, List.takeWhile_append_dropWhile]

theorem find_map_dataPort (l l' : WorkerMapT)
    (h : l'.map (fun e => (e.1, e.2.dataPort_)) = l.map (fun e => (e.1, e.2.dataPort_)))
    (s : shardid_t) :
    (ShardMap.find l' s).map Sf1rNode.dataPort_ = (ShardMap.find l s).map Sf1rNode.dataPort_ := by
  induction l generalizing l' with
  | nil =>
    cases l' with
    | nil => rfl
    | cons _ _ => simp at h
  | cons e rest ih =>
    cases l' with
    | nil => simp at h
    | cons e' rest' =>
      simp only [List.map_cons, List.cons.injEq, Prod.mk.injEq] at h
      obtain ⟨⟨hk, hd⟩, hrest⟩ := h
      obtain ⟨k, v⟩ := e
      obtain ⟨k', v'⟩ := e'
      simp only at hk hd
      subst hk
      by_cases hks : k' = s
      · simp [ShardMap.find, hks, hd]
      · simp only [ShardMap.find, hks, if_false]
        exact ih rest' hrest

theorem getShardReceiver_of_dataPort (m m' : MasterManagerBase)
    (h : m'.workerMap_.map (fun e => (e.1, e.2.dataPort_)) =
      m.workerMap_.map (fun e => (e.1, e.2.dataPort_))) (s : shardid_t) :
    (m'.getShardReceiver s).1 = (m.getShardReceiver s).1 ∧
    (m'.getShardReceiver s).2.2 = (m.getShardReceiver s).2.2 ∧
    (m'.getShardReceiver s).2.1 = (ShardMap.find m'.workerMap_ s).map Sf1rNode.host_ := by
  have hf := find_map_dataPort m.workerMap_ m'.workerMap_ h s
  simp only [getShardReceiver]
  cases h1 : ShardMap.find m'.workerMap_ s with
  | none =>
    cases h2 : ShardMap.find m.workerMap_ s with
    | none => simp
    | some b => rw [h1, h2] at hf; simp at hf
  | some a =>
    cases h2 : ShardMap.find m.workerMap_ s with
    | none => rw [h1, h2] at hf; simp at hf
    | some b =>
      rw [h1, h2] at hf
      simp at hf
      simp [hf]

theorem recoverLoop_dataPort (env : Env) (st : Store) (zpath : ZPath) (mp : Bool)
    (l : WorkerMapT) :
    ∀ (m : MasterManagerBase) (zk : ZooKeeper), m.zookeeper_ = some zk →
      ∃ r zk', recoverLoop env st zpath mp l m = some r ∧ r.m.zookeeper_ = some zk' ∧
        r.workers.map (fun e => (e.1, e.2.dataPort_)) =
          l.map (fun e => (e.1, e.2.dataPort_)) := by
  induction l with
  | nil => intro m zk hz; exact ⟨_, zk, rfl, hz, rfl⟩
  | cons e later ih =>
    intro m zk hz
    obtain ⟨shard, node⟩ := e
    have hnext : ∀ (m0 : MasterManagerBase) (zk0 : ZooKeeper), m0.zookeeper_ = some zk0 →
        ∃ r zk', (recoverLoop env st zpath mp later m0).map
            (fun r => { r with workers := (shard, node) :: r.workers }) = some r ∧
          r.m.zookeeper_ = some zk' ∧
          r.workers.map (fun e => (e.1, e.2.dataPort_)) =
            ((shard, node) :: later).map (fun e => (e.1, e.2.dataPort_)) := by
      intro m0 zk0 hz0
      obtain ⟨r, zk', h, hz', hw⟩ := ih m0 zk0 hz0
      exact ⟨{ r with workers := (shard, node) :: r.workers }, zk', by rw [h]; rfl, hz',
        by simp [hw]⟩
    have hbind : ∀ (m0 : MasterManagerBase) (zk0 : ZooKeeper), m0.zookeeper_ = some zk0 →
        ∃ r zk', ((recoverLoop env st zpath mp later m0).bind
            (fun r => some { r with workers := (shard, node) :: r.workers })) = some r ∧
          r.m.zookeeper_ = some zk' ∧
          r.workers.map (fun e => (e.1, e.2.dataPort_)) =
            ((shard, node) :: later).map (fun e => (e.1, e.2.dataPort_)) := by
      intro m0 zk0 hz0
      obtain ⟨r, zk', h, hz', hw⟩ := ih m0 zk0 hz0
      exact ⟨{ r with workers := (shard, node) :: r.workers }, zk', by rw [h]; rfl, hz',
        by simp [hw]⟩
    by_cases hpath : zpath = getNodePath m.sf1rTopology_.curNode_.replicaId_ node.nodeId_
    swap
    · simp only [recoverLoop, hpath, if_false, Option.bind_eq_bind]
      exact hbind m zk hz
    simp only [recoverLoop, ← hpath, if_true]
    have hkept : m.PrimarySideKept
        (if mp = true then isPrimaryWorker env m st m.sf1rTopology_.curNode_.replicaId_
          node.nodeId_ else (true, m)).2 := by
      split
      · exact (isPrimaryWorker_kept env m st _ node.nodeId_).1
      · exact MasterManagerBase.PrimarySideKept.refl m
    generalize (if mp = true then isPrimaryWorker env m st m.sf1rTopology_.curNode_.replicaId_
      node.nodeId_ else (true, m)) = pr at hkept ⊢
    obtain ⟨zk2, hz2, -⟩ := hkept.2.2.2.2.2.2.2.2.2 zk hz
    cases hpr : pr.1 with
    | false =>
      simp only [Bool.not_false, if_true, Option.bind_eq_bind]
      exact hbind pr.2 zk2 hz2
    | true =>
      simp only [Bool.not_true, Bool.false_eq_true, if_false]
      split
      · exact ⟨_, zk2, rfl, hz2, rfl⟩
      · obtain ⟨sdata, m2, zk3, h3, -, -, -, hz3, -⟩ :=
          zkGetZNodeData_some pr.2 st zpath WatchType.WATCH zk2 hz2
        simp only [h3, Option.bind_eq_bind, Option.some_bind]
        cases sdata with
        | none => exact hnext m2 zk3 hz3
        | some sdata =>
          simp only
          split
          · exact hnext m2 zk3 hz3
          · split
            · exact hnext m2 zk3 hz3
            · exact ⟨_, zk3, rfl, hz3, rfl⟩

theorem failover_dataPort (env : Env) (st : Store) (m : MasterManagerBase) (zpath : ZPath)
    (zk : ZooKeeper) (hz : m.zookeeper_ = some zk) :
    ∃ m', failover env st m zpath = some m' ∧
      m'.workerMap_.map (fun e => (e.1, e.2.dataPort_)) =
        m.workerMap_.map (fun e => (e.1, e.2.dataPort_)) := by
  obtain ⟨m1, h1, k1⟩ := detectReadOnlyWorkers_kept env st m zpath false zk hz
  obtain ⟨zk1, hz1, -⟩ := k1.2.2.2.2.2.2.2.2.2 zk hz
  have happ := span_append
    (fun it : shardid_t × Sf1rNode => !decide (zpath = getNodePath it.2.replicaId_ it.2.nodeId_))
    m1.workerMap_
  simp only [failover, h1, Option.bind_eq_bind, Option.some_bind]
  generalize m1.workerMap_.span
    (fun it => !decide (zpath = getNodePath it.2.replicaId_ it.2.nodeId_)) = scan at happ ⊢
  cases hsc : scan.2 with
  | nil => exact ⟨m1, rfl, by rw [k1.1]⟩
  | cons e later =>
    obtain ⟨shard, node⟩ := e
    obtain ⟨covered, node1, m2, zk2, h2, -, -, hd, -⟩ :=
      failoverNode_dataPort env st m1 node zk1 hz1
    simp only [h2, Option.some_bind]
    refine ⟨_, rfl, ?_⟩
    rw [← k1.1, ← happ, hsc]
    cases covered <;> simp [resetAggregatorConfig, hd]

theorem recover_dataPort (env : Env) (st : Store) (m : MasterManagerBase) (zpath : ZPath)
    (zk : ZooKeeper) (hz : m.zookeeper_ = some zk) :
    ∃ m', recover env st m zpath = some m' ∧
      m'.workerMap_.map (fun e => (e.1, e.2.dataPort_)) =
        m.workerMap_.map (fun e => (e.1, e.2.dataPort_)) := by
  obtain ⟨r, zk1, h1, hz1, hw⟩ :=
    recoverLoop_dataPort env st zpath m.isMinePrimary m.workerMap_ m zk hz
  simp only [recover, h1, Option.bind_eq_bind, Option.some_bind]
  cases hneed : r.need_reset_agg with
  | false =>
    simp only [Bool.false_eq_true, if_false]
    obtain ⟨m', h', k'⟩ := detectReadOnlyWorkers_kept env st
      { r.m with workerMap_ := r.workers } zpath true zk1 hz1
    exact ⟨m', h', by rw [k'.1]; exact hw⟩
  | true =>
    simp only [if_true]
    obtain ⟨m', h', k'⟩ := detectReadOnlyWorkers_kept env st
      (resetAggregatorConfig { r.m with workerMap_ := r.workers }) zpath true zk1 hz1
    exact ⟨m', h', by rw [k'.1]; exact hw⟩

/-- C29: `failover` and `recover` never change a slot's data port. With a client, for every
store: `failover(node)` returns the node with the data port it came with; `failover(path)`
and `recover(path)` return a controller whose worker map has the same shard keys in the same
order, each slot with the data port it had before the call; so `getShardReceiver` finds a
shard exactly when it did before, with the old data port, and with the host the slot has
after the call. -/
theorem failover_recover_keep_dataPort (env : Env) (st : Store) (m : MasterManagerBase)
    (zpath : ZPath) (zk : ZooKeeper) (hz : m.zookeeper_ = some zk) :
    (∀ node : Sf1rNode, ∃ covered node' m', failoverNode env st m node =
        some (covered, node', m') ∧ node'.dataPort_ = node.dataPort_ ∧
        m'.workerMap_ = m.workerMap_) ∧
    (∃ m', failover env st m zpath = some m' ∧
      m'.workerMap_.map (fun e => (e.1, e.2.dataPort_)) =
        m.workerMap_.map (fun e => (e.1, e.2.dataPort_)) ∧
      ∀ s, (m'.getShardReceiver s).1 = (m.getShardReceiver s).1 ∧
        (m'.getShardReceiver s).2.2 = (m.getShardReceiver s).2.2 ∧
        (m'.getShardReceiver s).2.1 = (ShardMap.find m'.workerMap_ s).map Sf1rNode.host_) ∧
    (∃ m', recover env st m zpath = some m' ∧
      m'.workerMap_.map (fun e => (e.1, e.2.dataPort_)) =
        m.workerMap_.map (fun e => (e.1, e.2.dataPort_)) ∧
      ∀ s, (m'.getShardReceiver s).1 = (m.getShardReceiver s).1 ∧
        (m'.getShardReceiver s).2.2 = (m.getShardReceiver s).2.2 ∧
        (m'.getShardReceiver s).2.1 = (ShardMap.find m'.workerMap_ s).map Sf1rNode.host_) := by
  refine ⟨?_, ?_, ?_⟩
  · intro node
    obtain ⟨covered, node', m', zk', h, -, k, hd, -⟩ :=
      failoverNode_dataPort env st m node zk hz
    exact ⟨covered, node', m', h, hd, k.1⟩
  · obtain ⟨m', h, hw⟩ := failover_dataPort env st m zpath zk hz
    exact ⟨m', h, hw, getShardReceiver_of_dataPort m m' hw⟩
  · obtain ⟨m', h, hw⟩ := recover_dataPort env st m zpath zk hz
    exact ⟨m', h, hw, getShardReceiver_of_dataPort m m' hw⟩

/-- The slot of shard 2 fails over to the worker of replica 2, whose znode advertises data
port 19999: the receiver of shard 2 is then the new host with the old data port 18121. -/
theorem failover_rebinds_host_keeps_dataPort :
    failoverMaster.getShardReceiver 2 = (true, some "10.0.0.2", some 18121) ∧
    (failover kvEnv otherDataPortStore failoverMaster (getNodePath 1 2)).map
        (fun m => (m.getShardReceiver 2,
          (ShardMap.find m.workerMap_ 2).map (fun n => (n.replicaId_, n.worker_.port_)))) =
      some ((true, some "10.0.0.7", some 18121), some (2, 18152)) := by
  exact ⟨by decide, by decide⟩

theorem failover_recover_keep_dataPort_witness :
    failoverMaster.zookeeper_ = some clientUp ∧
    ((∀ node : Sf1rNode, ∃ covered node' m', failoverNode kvEnv otherDataPortStore
        failoverMaster node = some (covered, node', m') ∧ node'.dataPort_ = node.dataPort_ ∧
        m'.workerMap_ = failoverMaster.workerMap_) ∧
    (∃ m', failover kvEnv otherDataPortStore failoverMaster (getNodePath 1 2) = some m' ∧
      m'.workerMap_.map (fun e => (e.1, e.2.dataPort_)) =
        failoverMaster.workerMap_.map (fun e => (e.1, e.2.dataPort_)) ∧
      ∀ s, (m'.getShardReceiver s).1 = (failoverMaster.getShardReceiver s).1 ∧
        (m'.getShardReceiver s).2.2 = (failoverMaster.getShardReceiver s).2.2 ∧
        (m'.getShardReceiver s).2.1 = (ShardMap.find m'.workerMap_ s).map Sf1rNode.host_) ∧
    (∃ m', recover kvEnv otherDataPortStore failoverMaster (getNodePath 1 2) = some m' ∧
      m'.workerMap_.map (fun e => (e.1, e.2.dataPort_)) =
        failoverMaster.workerMap_.map (fun e => (e.1, e.2.dataPort_)) ∧
      ∀ s, (m'.getShardReceiver s).1 = (failoverMaster.getShardReceiver s).1 ∧
        (m'.getShardReceiver s).2.2 = (failoverMaster.getShardReceiver s).2.2 ∧
        (m'.getShardReceiver s).2.1 = (ShardMap.find m'.workerMap_ s).map Sf1rNode.host_)) :=
  ⟨by decide, failover_recover_keep_dataPort kvEnv otherDataPortStore failoverMaster
    (getNodePath 1 2) clientUp (by decide)⟩

/-! ## The request side under worker detection -/

theorem requestSideKept_refl (m : MasterManagerBase) :
    m.RequestSideKept m := ⟨rfl, rfl, rfl⟩

theorem requestSideKept_trans {a b c : MasterManagerBase}
    (h1 : a.RequestSideKept b) (h2 : b.RequestSideKept c) : a.RequestSideKept c :=
  ⟨h2.1.trans h1.1, h2.2.1.trans h1.2.1, h2.2.2.trans h1.2.2⟩

theorem zkGetZNodeData_requestSide (m : MasterManagerBase) (st : Store) (p : ZPath)
    (w : WatchType) (r : Option String) (m' : MasterManagerBase)
    (h : m.zkGetZNodeData st p w = some (r, m')) : m.RequestSideKept m' := by
  unfold zkGetZNodeData at h
  split at h
  · cases h
  · cases h; exact ⟨rfl, rfl, rfl⟩

theorem zkIsZNodeExists_requestSide (m : MasterManagerBase) (st : Store) (p : ZPath)
    (w : WatchType) (r : Bool) (m' : MasterManagerBase)
    (h : m.zkIsZNodeExists st p w = some (r, m')) : m.RequestSideKept m' := by
  unfold zkIsZNodeExists at h
  split at h
  · cases h
  · cases h; exact ⟨rfl, rfl, rfl⟩

theorem zkGetZNodeChildren_requestSide (m : MasterManagerBase) (st : Store) (p : ZPath)
    (w : WatchType) (r : List ZPath) (m' : MasterManagerBase)
    (h : m.zkGetZNodeChildren st p w = some (r, m')) : m.RequestSideKept m' := by
  unfold zkGetZNodeChildren at h
  split at h
  · cases h
  · cases h; exact ⟨rfl, rfl, rfl⟩

theorem zkDeleteZNode_requestSide (m : MasterManagerBase) (st : Store) (p : ZPath)
    (r : Bool) (m' : MasterManagerBase) (st' : Store)
    (h : m.zkDeleteZNode st p = some (r, m', st')) : m.RequestSideKept m' := by
  unfold zkDeleteZNode at h
  split at h
  · cases h
  · cases h; exact ⟨rfl, rfl, rfl⟩

theorem isPrimaryWorker_requestSide (env : Env) (m : MasterManagerBase) (st : Store)
    (r : replicaid_t) (s : shardid_t) :
    m.RequestSideKept (isPrimaryWorker env m st r s).2 := by
  unfold isPrimaryWorker
  split
  · exact ⟨rfl, rfl, rfl⟩
  · simp only
    split
    · split <;> exact ⟨rfl, rfl, rfl⟩
    · exact ⟨rfl, rfl, rfl⟩

theorem detectWorkerStep_requestSide (env : Env) (st : Store) (r : replicaid_t) (mp : Bool)
    (d : DetectState) (s : shardid_t) (d' : DetectState)
    (h : detectWorkerStep env st r mp d s = some d') : d.m.RequestSideKept d'.m := by
  simp only [detectWorkerStep, Option.bind_eq_bind] at h
  obtain ⟨⟨data, m1⟩, h1, h⟩ := Option.bind_eq_some.1 h
  have k1 := zkGetZNodeData_requestSide _ _ _ _ _ _ h1
  cases data with
  | none =>
    simp only [Option.bind_eq_bind] at h
    obtain ⟨⟨f, m2⟩, h2, h⟩ := Option.bind_eq_some.1 h
    cases h
    exact requestSideKept_trans k1 (zkIsZNodeExists_requestSide _ _ _ _ _ _ h2)
  | some data =>
    simp only at h
    have kp : m1.RequestSideKept
        (if mp = true then isPrimaryWorker env m1 st r s else (true, m1)).2 := by
      split
      · exact isPrimaryWorker_requestSide env m1 st r s
      · exact requestSideKept_refl m1
    generalize (if mp = true then isPrimaryWorker env m1 st r s else (true, m1)) = pr at h kp
    have k2 := requestSideKept_trans k1 kp
    split at h
    · split at h
      · cases h; exact k2
      · split at h
        · split at h
          · cases h; exact k2
          · cases h; exact k2
        · cases h; exact k2
    · cases h; exact k1

theorem detectWorkerLoop_requestSide (env : Env) (st : Store) (r : replicaid_t) (mp : Bool)
    (l : List shardid_t) :
    ∀ d d' : DetectState, detectWorkerLoop env st r mp l d = some d' →
      d.m.RequestSideKept d'.m := by
  induction l with
  | nil => intro d d' h; cases h; exact requestSideKept_refl _
  | cons s rest ih =>
    intro d d' h
    simp only [detectWorkerLoop, Option.bind_eq_bind] at h
    obtain ⟨d1, h1, h⟩ := Option.bind_eq_some.1 h
    exact requestSideKept_trans (detectWorkerStep_requestSide env st r mp d s d1 h1) (ih d1 d' h)

theorem detectWorkersInReplica_requestSide (env : Env) (st : Store) (r : replicaid_t)
    (d d' : DetectState) (h : detectWorkersInReplica env st r d = some d') :
    d.m.RequestSideKept d'.m := by
  simp only [detectWorkersInReplica, Option.bind_eq_bind] at h
  obtain ⟨d1, h1, h⟩ := Option.bind_eq_some.1 h
  have k1 := detectWorkerLoop_requestSide env st r _ _ d d1 h1
  split at h <;> (cases h; exact k1)

theorem detectOtherReplicas_requestSide (env : Env) (st : Store) (cur : replicaid_t)
    (l : List replicaid_t) :
    ∀ d d' : DetectState, detectOtherReplicas env st cur l d = some d' →
      d.m.RequestSideKept d'.m := by
  induction l with
  | nil => intro d d' h; cases h; exact requestSideKept_refl _
  | cons r rest ih =>
    intro d d' h
    simp only [detectOtherReplicas, Option.bind_eq_bind] at h
    split at h
    · cases h; exact requestSideKept_refl _
    · split at h
      · exact ih d d' h
      · obtain ⟨d1, h1, h⟩ := Option.bind_eq_some.1 h
        exact requestSideKept_trans (detectWorkersInReplica_requestSide env st r d d1 h1)
          (ih d1 d' h)

theorem detectReadOnlyLoop_requestSide (env : Env) (st : Store) (r : replicaid_t)
    (l : List shardid_t) :
    ∀ m m' : MasterManagerBase, detectReadOnlyLoop env st r l m = some m' →
      m.RequestSideKept m' := by
  induction l with
  | nil => intro m m' h; cases h; exact requestSideKept_refl _
  | cons s rest ih =>
    intro m m' h
    simp only [detectReadOnlyLoop, Option.bind_eq_bind] at h
    obtain ⟨⟨data, m1⟩, h1, h⟩ := Option.bind_eq_some.1 h
    have k1 := zkGetZNodeData_requestSide _ _ _ _ _ _ h1
    cases data with
    | none =>
      simp only [Option.bind_eq_bind] at h
      obtain ⟨⟨f, m2⟩, h2, h⟩ := Option.bind_eq_some.1 h
      exact requestSideKept_trans
        (requestSideKept_trans k1 (zkIsZNodeExists_requestSide _ _ _ _ _ _ h2)) (ih m2 m' h)
    | some data =>
      simp only at h
      split at h
      · have k2 := ih _ m' h
        exact requestSideKept_trans k1 k2
      · exact requestSideKept_trans k1 (ih m1 m' h)

theorem detectReadOnlyReplicas_requestSide (env : Env) (st : Store) (l : List replicaid_t) :
    ∀ m m' : MasterManagerBase, detectReadOnlyReplicas env st l m = some m' →
      m.RequestSideKept m' := by
  induction l with
  | nil => intro m m' h; cases h; exact requestSideKept_refl _
  | cons r rest ih =>
    intro m m' h
    simp only [detectReadOnlyReplicas, Option.bind_eq_bind] at h
    obtain ⟨m1, h1, h⟩ := Option.bind_eq_some.1 h
    exact requestSideKept_trans (detectReadOnlyLoop_requestSide env st r _ m m1 h1) (ih m1 m' h)

theorem detectReadOnlyWorkers_cache (env : Env) (st : Store) (m : MasterManagerBase)
    (nodepath : ZPath) (is_created_node : Bool) (m' : MasterManagerBase)
    (h : detectReadOnlyWorkers env st m nodepath is_created_node = some m') :
    m'.cached_write_reqlist_ = m.cached_write_reqlist_ ∧
      m'.waiting_request_num_ = m.waiting_request_num_ := by
  unfold detectReadOnlyWorkers at h
  split at h
  · simp only at h
    split at h
    · cases h; exact ⟨rfl, rfl⟩
    · split at h
      · split at h
        · cases h; exact ⟨rfl, rfl⟩
        · cases h; exact ⟨rfl, rfl⟩
      · simp only [Option.bind_eq_bind] at h
        obtain ⟨⟨data, m1⟩, h1, h⟩ := Option.bind_eq_some.1 h
        have k1 := zkGetZNodeData_requestSide _ _ _ _ _ _ h1
        cases data with
        | none => cases h; exact ⟨k1.1, k1.2.1⟩
        | some data =>
          simp only at h
          split at h
          · cases h; exact ⟨k1.1, k1.2.1⟩
          · cases h; exact ⟨k1.1, k1.2.1⟩
  · simp only [Option.bind_eq_bind] at h
    obtain ⟨m1, h1, h⟩ := Option.bind_eq_some.1 h
    have k1 := detectReadOnlyReplicas_requestSide env st _ _ m1 h1
    split at h
    · cases h; exact ⟨k1.1, k1.2.1⟩
    · cases h; exact ⟨k1.1, k1.2.1⟩

theorem detectWorkers_cache (env : Env) (st : Store) (m : MasterManagerBase) (good : Nat)
    (m' : MasterManagerBase) (h : m.detectWorkers env st = some (good, m')) :
    m'.cached_write_reqlist_ = m.cached_write_reqlist_ ∧
      m'.waiting_request_num_ = m.waiting_request_num_ := by
  simp only [detectWorkers, Option.bind_eq_bind] at h
  obtain ⟨d1, h1, h⟩ := Option.bind_eq_some.1 h
  obtain ⟨d2, h2, h⟩ := Option.bind_eq_some.1 h
  obtain ⟨m4, h4, h⟩ := Option.bind_eq_some.1 h
  cases h
  have k1 := detectWorkersInReplica_requestSide env st _ _ d1 h1
  have k2 := detectOtherReplicas_requestSide env st _ _ d1 d2 h2
  have k := requestSideKept_trans k1 k2
  have k4 := detectReadOnlyWorkers_cache env st _ _ _ _ h4
  split at k4
  · exact ⟨k4.1.trans k.1, k4.2.trans k.2.1⟩
  · exact ⟨k4.1.trans k.1, k4.2.trans k.2.1⟩

/-! ## The bound of the request cache -/

theorem cacheLoop_length (env : Env) (st : Store) (cs : List ZPath) :
    ∀ m m' : MasterManagerBase, cacheLoop env st cs m = some m' →
      m'.cached_write_reqlist_.length = m.cached_write_reqlist_.length + cs.length := by
  induction cs with
  | nil => intro m m' h; cases h; rfl
  | cons c rest ih =>
    intro m m' h
    simp only [cacheLoop] at h
    obtain ⟨⟨sdata, m1⟩, h1, h⟩ := Option.bind_eq_some.1 h
    have k1 := zkGetZNodeData_requestSide _ _ _ _ _ _ h1
    have h2 := ih _ m' h
    rw [h2]
    simp only [List.length_append, List.length_cons, List.length_nil, k1.1]
    omega

/-- What `cacheNewWriteFromZNode` does to the cache: nothing, unless the cache was empty and
the call returns true, and then it holds at most 1000 requests. -/
theorem cacheNewWriteFromZNode_cache (env : Env) (m : MasterManagerBase) (st : Store)
    (b : Bool) (m' : MasterManagerBase) (h : m.cacheNewWriteFromZNode env st = some (b, m')) :
    (m'.cached_write_reqlist_ = m.cached_write_reqlist_ ∧
      m'.waiting_request_num_ = m.waiting_request_num_ ∧ (m.cached_write_reqlist_ = [] →
        b = false)) ∨
    (m.cached_write_reqlist_ = [] ∧ b = true ∧ 0 < m'.cached_write_reqlist_.length ∧
      m'.cached_write_reqlist_.length ≤ 1000) := by
  unfold cacheNewWriteFromZNode at h
  split at h
  · rename_i hne
    cases h
    refine Or.inl ⟨rfl, rfl, fun he => ?_⟩
    simp [he] at hne
  · rename_i hempty
    have hnil : m.cached_write_reqlist_ = [] := by
      cases hc : m.cached_write_reqlist_ with
      | nil => rfl
      | cons _ _ => rw [hc] at hempty; simp at hempty
    obtain ⟨⟨reqchild, m1⟩, h1, h⟩ := Option.bind_eq_some.1 h
    have k1 := zkGetZNodeChildren_requestSide _ _ _ _ _ _ h1
    simp only at h
    split at h
    · obtain ⟨⟨l2, m2⟩, h2, h⟩ := Option.bind_eq_some.1 h
      have k2 := zkGetZNodeChildren_requestSide _ _ _ _ _ _ h2
      cases h
      exact Or.inl ⟨k2.1.trans k1.1, k2.2.1.trans k1.2.1, fun _ => rfl⟩
    · rename_i hchild
      obtain ⟨m3, h3, h⟩ := Option.bind_eq_some.1 h
      cases h
      have hlen := cacheLoop_length env st _ _ _ h3
      simp only [k1.1, hnil, List.length_nil, Nat.zero_add, List.length_take] at hlen
      have hpos : 0 < reqchild.length := by
        cases reqchild with
        | nil => simp at hchild
        | cons _ _ => simp
      refine Or.inr ⟨hnil, rfl, ?_, ?_⟩
      · rw [hlen]; split <;> omega
      · rw [hlen]; split <;> omega

theorem cacheNewWriteFromZNode_bound (env : Env) (m : MasterManagerBase) (st : Store)
    (b : Bool) (m' : MasterManagerBase) (h : m.cacheNewWriteFromZNode env st = some (b, m'))
    (hb : m.cached_write_reqlist_.length ≤ 1000) : m'.cached_write_reqlist_.length ≤ 1000 := by
  rcases cacheNewWriteFromZNode_cache env m st b m' h with ⟨hc, -, -⟩ | ⟨-, -, -, hl⟩
  · rw [hc]; exact hb
  · exact hl

theorem bind_ite_eq_some {α β : Type} (c : Prop) [Decidable c] (A B : Option α)
    (f : α → Option β) (r : β) (h : (if c then A >>= f else B >>= f) = some r) :
    ∃ y, (if c then A else B) = some y ∧ f y = some r := by
  split at h
  · rename_i hc
    obtain ⟨y, hy, hf⟩ := Option.bind_eq_some.1 h
    exact ⟨y, by rw [if_pos hc]; exact hy, hf⟩
  · rename_i hc
    obtain ⟨y, hy, hf⟩ := Option.bind_eq_some.1 h
    exact ⟨y, by rw [if_neg hc]; exact hy, hf⟩

theorem popWriteReq_bound (env : Env) (m : MasterManagerBase) (st : Store) (b : Bool)
    (reqdata type : Option String) (m' : MasterManagerBase) (st' : Store)
    (h : m.popWriteReq env st = some (b, reqdata, type, m', st'))
    (hb : m.cached_write_reqlist_.length ≤ 1000) : m'.cached_write_reqlist_.length ≤ 1000 := by
  by_cases hd : (!m.isDistributeEnable_) = true
  · rw [popWriteReq, if_pos hd] at h; cases h; exact hb
  rw [popWriteReq, if_neg hd] at h
  obtain ⟨⟨refilled, m1⟩, h1, hj⟩ := bind_ite_eq_some _ _ _ _ _ h
  have hb1 : m1.cached_write_reqlist_.length ≤ 1000 := by
    split at h1
    · exact cacheNewWriteFromZNode_bound env m st refilled m1 h1 hb
    · cases h1; exact hb
  simp only at hj
  split at hj
  · cases hj; exact hb1
  · split at hj
    · cases hj
    · rename_i front rest hfront
      obtain ⟨⟨deleted, m2, st2⟩, h2, hj⟩ := Option.bind_eq_some.1 hj
      have k2 := zkDeleteZNode_requestSide _ _ _ _ _ _ h2
      obtain ⟨connected, -, hj⟩ := Option.bind_eq_some.1 hj
      rw [hfront] at hb1
      split at hj
      · cases hj
        rw [k2.1, hfront]; exact hb1
      · cases hj
        simp only [List.length_cons] at hb1 ⊢
        omega

theorem endWriteReq_cache (env : Env) (m : MasterManagerBase) (st : Store) (b : Bool)
    (m' : MasterManagerBase) (st' : Store) (h : m.endWriteReq env st = some (b, m', st')) :
    m'.cached_write_reqlist_ = m.cached_write_reqlist_ := by
  obtain ⟨b1, m1, st1, h1, -, -, hc, -⟩ := endWriteReq_frame env m st
  rw [h] at h1
  cases h1
  exact hc

theorem checkForNewWriteReq_bound (env : Env) (handler : Option NewReqHandler)
    (hh : HandlerKeepsBound handler) (m : MasterManagerBase) (st : Store)
    (m' : MasterManagerBase) (st' : Store)
    (h : m.checkForNewWriteReq env handler st = some (m', st'))
    (hb : m.cached_write_reqlist_.length ≤ 1000) : m'.cached_write_reqlist_.length ≤ 1000 := by
  unfold checkForNewWriteReq at h
  split at h
  · cases h; exact hb
  split at h
  · cases h; exact hb
  split at h
  · cases h; exact hb
  obtain ⟨⟨ended, m1, st1⟩, h1, h⟩ := Option.bind_eq_some.1 h
  have hb1 : m1.cached_write_reqlist_.length ≤ 1000 := by
    rw [endWriteReq_cache env m st ended m1 st1 h1]; exact hb
  simp only at h
  by_cases hended : (!ended) = true
  · rw [if_pos hended] at h
    obtain ⟨⟨f, m2⟩, h2, h⟩ := Option.bind_eq_some.1 h
    cases h
    rw [(zkIsZNodeExists_requestSide _ _ _ _ _ _ h2).1]; exact hb1
  rw [if_neg hended] at h
  obtain ⟨⟨refilled, m2⟩, h2, hj⟩ := bind_ite_eq_some _ _ _ _ _ h
  have hb2 : m2.cached_write_reqlist_.length ≤ 1000 := by
    split at h2
    · exact cacheNewWriteFromZNode_bound env m1 st1 refilled m2 h2 hb1
    · cases h2; exact hb1
  simp only at hj
  split at hj
  · cases hj; exact hb2
  · split at hj
    · split at hj
      · rename_i hd hhandler
        have hr := hh hd rfl { m2 with calls := Call.onNewReqAvailable :: m2.calls } st1 hb2
        by_cases hacc : (!(hd { m2 with calls := Call.onNewReqAvailable :: m2.calls } st1).1)
            = true
        · rw [if_pos hacc] at hj
          obtain ⟨⟨e5, m5, st5⟩, h5, hj⟩ := Option.bind_eq_some.1 hj
          obtain ⟨⟨f6, m6⟩, h6, hj⟩ := Option.bind_eq_some.1 hj
          cases hj
          rw [(zkIsZNodeExists_requestSide _ _ _ _ _ _ h6).1,
            endWriteReq_cache env _ _ e5 m5 st5 h5]
          exact hr
        · rw [if_neg hacc] at hj
          cases hj; exact hr
      · cases hj; exact hb2
    · cases hj; exact hb2

theorem checkForWriteReq_bound (env : Env) (handler : Option NewReqHandler)
    (hh : HandlerKeepsBound handler) (m : MasterManagerBase) (st : Store)
    (m' : MasterManagerBase) (st' : Store)
    (h : m.checkForWriteReq env handler st = some (m', st'))
    (hb : m.cached_write_reqlist_.length ≤ 1000) : m'.cached_write_reqlist_.length ≤ 1000 := by
  unfold checkForWriteReq at h
  split at h
  · cases h; exact hb
  split at h
  · split at h
    · cases h; exact hb
    · obtain ⟨⟨f2, m2⟩, h2, h⟩ := Option.bind_eq_some.1 h
      obtain ⟨⟨f3, m3⟩, h3, h⟩ := Option.bind_eq_some.1 h
      cases h
      rw [(zkIsZNodeExists_requestSide _ _ _ _ _ _ h3).1,
        (zkIsZNodeExists_requestSide _ _ _ _ _ _ h2).1]
      split
      · exact Nat.zero_le _
      · exact hb
  · split at h
    · exact checkForNewWriteReq_bound env handler hh m st m' st' h hb
    · exact checkForNewWriteReq_bound env handler hh m st m' st' h hb
    · cases h; exact hb

theorem notifyChangedPrimary_bound (env : Env) (m : MasterManagerBase) (st : Store)
    (is_new_primary : Bool) (m' : MasterManagerBase) (st' : Store)
    (h : m.notifyChangedPrimary env st is_new_primary = some (m', st'))
    (hb : m.cached_write_reqlist_.length ≤ 1000) : m'.cached_write_reqlist_.length ≤ 1000 := by
  unfold notifyChangedPrimary at h
  obtain ⟨⟨m1, st1⟩, h1, hj⟩ := bind_ite_eq_some _ _ _ _ _ h
  have hb1 : m1.cached_write_reqlist_.length ≤ 1000 := by
    split at h1
    · obtain ⟨⟨e, m0, st0⟩, h0, h1⟩ := Option.map_eq_some'.1 h1
      cases h1
      rw [endWriteReq_cache env m st e m0 st0 h0]; exact hb
    · cases h1; exact hb
  simp only at hj
  split at hj
  · split at hj
    · split at hj
      · cases hj; exact hb1
      · obtain ⟨⟨g, m3⟩, h3, hj⟩ := Option.bind_eq_some.1 hj
        obtain ⟨⟨f, m4⟩, h4, hj⟩ := Option.bind_eq_some.1 hj
        have hb4 : m4.cached_write_reqlist_.length ≤ 1000 := by
          rw [(zkIsZNodeExists_requestSide _ _ _ _ _ _ h4).1,
            (detectWorkers_cache env st1 _ g m3 h3).1]
          exact hb1
        simp only at hj
        split at hj
        · obtain ⟨⟨b, m5⟩, h5, hj⟩ := Option.map_eq_some'.1 hj
          cases hj
          exact cacheNewWriteFromZNode_bound env m4 _ b m5 h5 hb4
        · cases hj; exact hb4
    · cases hj; exact hb1
  · cases hj; exact hb1

theorem handlerKeepsBound_acceptHandler : HandlerKeepsBound (some acceptHandler) := by
  intro h hh m st hb
  cases hh
  exact hb

/-- C28: the request cache never holds more than 1000 requests and never mixes two refills.
With a handler that leaves at most 1000 requests in the cache, every controller state
reachable from an empty cache through `cacheNewWriteFromZNode`, `popWriteReq`,
`checkForWriteReq` and `notifyChangedPrimary` (on any stores) has at most 1000 cached
requests.  A call of `cacheNewWriteFromZNode` that changes the cache started with an empty
cache and returns true; on a non-empty cache it returns false with the controller as it was;
and when the queue has no children to offer it returns false with the controller as it was
but for the watch that its client sets on the queue parent. -/
theorem request_cache_bounded (env : Env) (handler : Option NewReqHandler)
    (hh : HandlerKeepsBound handler) :
    (∀ m, CacheReachable env handler m → m.cached_write_reqlist_.length ≤ 1000) ∧
    (∀ (m : MasterManagerBase) (st : Store) (b : Bool) (m' : MasterManagerBase),
      m.cacheNewWriteFromZNode env st = some (b, m') →
      m'.cached_write_reqlist_ ≠ m.cached_write_reqlist_ →
      m.cached_write_reqlist_ = [] ∧ b = true) ∧
    (∀ (m : MasterManagerBase) (st : Store), m.cached_write_reqlist_ ≠ [] →
      m.cacheNewWriteFromZNode env st = some (false, m)) ∧
    (∀ (m : MasterManagerBase) (st : Store) (zk : ZooKeeper), m.zookeeper_ = some zk →
      m.cached_write_reqlist_ = [] →
      (zk.getZNodeChildren st m.write_req_queue_parent_ WatchType.NOT_WATCH).1 = [] →
      m.cacheNewWriteFromZNode env st = some (false, { m with
        zookeeper_ := some (zk.addWatch WatchType.WATCH m.write_req_queue_parent_) })) := by
  refine ⟨?_, ?_, ?_, ?_⟩
  · intro m hr
    induction hr with
    | start m h => rw [h]; exact Nat.zero_le _
    | cache m st b m' _ h ih => exact cacheNewWriteFromZNode_bound env m st b m' h ih
    | pop m st b reqdata type m' st' _ h ih =>
      exact popWriteReq_bound env m st b reqdata type m' st' h ih
    | check m st m' st' _ h ih => exact checkForWriteReq_bound env handler hh m st m' st' h ih
    | notify m st p m' st' _ h ih => exact notifyChangedPrimary_bound env m st p m' st' h ih
    | other m m' _ h ih => rw [h]; exact ih
  · intro m st b m' h hne
    rcases cacheNewWriteFromZNode_cache env m st b m' h with ⟨hc, -, -⟩ | ⟨he, hb, -, -⟩
    · exact absurd hc hne
    · exact ⟨he, hb⟩
  · intro m st hne
    have hemp : m.cached_write_reqlist_.isEmpty = false := by
      cases hc : m.cached_write_reqlist_ with
      | nil => exact absurd hc hne
      | cons _ _ => rfl
    simp [cacheNewWriteFromZNode, hemp]
  · intro m st zk hz hcache hchild
    have h2 : (zk.getZNodeChildren st m.write_req_queue_parent_ WatchType.NOT_WATCH).2 = zk :=
      rfl
    simp only [cacheNewWriteFromZNode, hcache, List.isEmpty_nil, Bool.not_true,
      Bool.false_eq_true, if_false, zkGetZNodeChildren, hz, Option.bind_eq_bind,
      Option.some_bind, hchild, if_true, h2]
    rfl

theorem request_cache_bounded_witness :
    HandlerKeepsBound (some acceptHandler) ∧
    ((∀ m, CacheReachable kvEnv (some acceptHandler) m →
      m.cached_write_reqlist_.length ≤ 1000) ∧
    (∀ (m : MasterManagerBase) (st : Store) (b : Bool) (m' : MasterManagerBase),
      m.cacheNewWriteFromZNode kvEnv st = some (b, m') →
      m'.cached_write_reqlist_ ≠ m.cached_write_reqlist_ →
      m.cached_write_reqlist_ = [] ∧ b = true) ∧
    (∀ (m : MasterManagerBase) (st : Store), m.cached_write_reqlist_ ≠ [] →
      m.cacheNewWriteFromZNode kvEnv st = some (false, m)) ∧
    (∀ (m : MasterManagerBase) (st : Store) (zk : ZooKeeper), m.zookeeper_ = some zk →
      m.cached_write_reqlist_ = [] →
      (zk.getZNodeChildren st m.write_req_queue_parent_ WatchType.NOT_WATCH).1 = [] →
      m.cacheNewWriteFromZNode kvEnv st = some (false, { m with
        zookeeper_ := some (zk.addWatch WatchType.WATCH m.write_req_queue_parent_) }))) :=
  ⟨handlerKeepsBound_acceptHandler,
    request_cache_bounded kvEnv (some acceptHandler) handlerKeepsBound_acceptHandler⟩

/-- A refill of the empty cache from the queue with two requests, followed by a pop, is a
run of the operations: the states on it are reachable, and the cache holds two requests after
the refill and one after the pop, which hands out the first request. -/
theorem cacheReachable_run :
    ∃ m1 m2 st2, CacheReachable kvEnv (some acceptHandler) m1 ∧
      CacheReachable kvEnv (some acceptHandler) m2 ∧
      (startedMaster 1 1 [1] 0 true).cacheNewWriteFromZNode kvEnv queuedStore =
        some (true, m1) ∧
      m1.popWriteReq kvEnv queuedStore = some (true, some "first", some "index", m2, st2) ∧
      m1.cached_write_reqlist_.length = 2 ∧ m2.cached_write_reqlist_.length = 1 := by
  have h0 : CacheReachable kvEnv (some acceptHandler) (startedMaster 1 1 [1] 0 true) :=
    CacheReachable.start _ rfl
  have d : (((startedMaster 1 1 [1] 0 true).cacheNewWriteFromZNode kvEnv queuedStore).bind
      (fun r1 => (r1.2.popWriteReq kvEnv queuedStore).map (fun r2 =>
        r1.1 && decide (r1.2.cached_write_reqlist_.length = 2) && r2.1 &&
        decide (r2.2.1 = some "first") && decide (r2.2.2.1 = some "index") &&
        decide (r2.2.2.2.1.cached_write_reqlist_.length = 1)))) = some true := by
    decide
  obtain ⟨⟨b1, m1⟩, h1, d⟩ := Option.bind_eq_some.1 d
  obtain ⟨⟨b2, x, y, m2, st2⟩, h2, d⟩ := Option.map_eq_some'.1 d
  simp only [Bool.and_eq_true, decide_eq_true_eq] at d
  obtain ⟨⟨⟨⟨⟨rfl, l1⟩, rfl⟩, rfl⟩, rfl⟩, l2⟩ := d
  have r1 := CacheReachable.cache _ _ _ _ h0 h1
  have r2 := CacheReachable.pop _ _ _ _ _ _ _ r1 h2
  exact ⟨m1, m2, st2, r1, r2, h1, h2, l1, l2⟩

/-! ## The comparison loops and structural equality -/

theorem isSameWorkerNode_iff (a b : Sf1rNode) :
    isSameWorkerNode a b = true ↔ sameNodeOfSpec a b := by
  unfold isSameWorkerNode sameNodeOfSpec
  constructor
  · intro h
    split at h
    · cases h
    split at h
    · cases h
    split at h
    · cases h
    split at h
    · cases h
    split at h
    · cases h
    rename_i h1 h2 h3 h4 h5
    exact ⟨not_not.1 h1, not_not.1 h2, not_not.1 h3, not_not.1 h4, not_not.1 h5⟩
  · rintro ⟨h1, h2, h3, h4, h5⟩
    simp [h1, h2, h3, h4, h5]

theorem comparedSize_le (old : WorkerMapT) :
    ∀ new : WorkerMapT, comparedSize old new ≤ old.length ∧
      comparedSize old new ≤ new.length := by
  induction old with
  | nil => intro new; simp [comparedSize]
  | cons x ro ih =>
    intro new
    cases new with
    | nil => simp [comparedSize]
    | cons y rn =>
      obtain ⟨ko, no⟩ := x
      obtain ⟨kn, nn⟩ := y
      simp only [comparedSize, List.length_cons]
      split
      · omega
      · split
        · omega
        · have := ih rn
          omega

theorem comparedSize_full_iff (old : WorkerMapT) :
    ∀ new : WorkerMapT,
      (comparedSize old new = old.length ∧ comparedSize old new = new.length) ↔
        List.Forall₂ (fun x y => x.1 = y.1 ∧ isSameWorkerNode x.2 y.2 = true) old new := by
  induction old with
  | nil =>
    intro new
    cases new with
    | nil => simp [comparedSize]
    | cons y rn => simp [comparedSize]
  | cons x ro ih =>
    intro new
    cases new with
    | nil => simp [comparedSize]
    | cons y rn =>
      obtain ⟨ko, no⟩ := x
      obtain ⟨kn, nn⟩ := y
      simp only [comparedSize, List.length_cons, List.forall₂_cons]
      by_cases hk : ko = kn
      · by_cases hs : isSameWorkerNode no nn = true
        · simp only [hk, ne_eq, not_true_eq_false, if_false, hs, Bool.not_true,
            Bool.false_eq_true, true_and, Nat.add_right_cancel_iff]
          exact ih rn
        · simp [hk, hs]
      · simp [hk]

theorem sameReplicaNodes_iff (old : ShardMap Sf1rNode) :
    ∀ new : ShardMap Sf1rNode, old.length = new.length →
      (sameReplicaNodes old new = true ↔
        List.Forall₂ (fun x y => x.1 = y.1 ∧ isSameWorkerNode x.2 y.2 = true) old new) := by
  induction old with
  | nil =>
    intro new hl
    cases new with
    | nil => simp [sameReplicaNodes]
    | cons y rn => simp at hl
  | cons x ro ih =>
    intro new hl
    cases new with
    | nil => simp at hl
    | cons y rn =>
      obtain ⟨ko, no⟩ := x
      obtain ⟨kn, nn⟩ := y
      simp only [List.length_cons, Nat.add_right_cancel_iff] at hl
      simp only [sameReplicaNodes, List.forall₂_cons]
      by_cases hk : ko = kn
      · by_cases hs : isSameWorkerNode no nn = true
        · simp only [hk, ne_eq, not_true_eq_false, if_false, hs, Bool.not_true,
            Bool.false_eq_true, true_and]
          exact ih rn hl
        · simp [hk, hs]
      · simp [hk]

theorem comparedSizeRO_full_iff (old : ROWorkerMapT) :
    ∀ new : ROWorkerMapT,
      (comparedSizeRO old new = old.length ∧ comparedSizeRO old new = new.length) ↔
        List.Forall₂ (fun x y => x.1 = y.1 ∧
          List.Forall₂ (fun x y => x.1 = y.1 ∧ isSameWorkerNode x.2 y.2 = true) x.2 y.2)
          old new := by
  have hle : ∀ (o n : ROWorkerMapT), comparedSizeRO o n ≤ o.length ∧
      comparedSizeRO o n ≤ n.length := by
    intro o
    induction o with
    | nil => intro n; simp [comparedSizeRO]
    | cons x ro ih =>
      intro n
      cases n with
      | nil => simp [comparedSizeRO]
      | cons y rn =>
        obtain ⟨ko, vo⟩ := x
        obtain ⟨kn, vn⟩ := y
        simp only [comparedSizeRO, List.length_cons]
        have := ih rn
        split_ifs <;> omega
  induction old with
  | nil =>
    intro new
    cases new with
    | nil => simp [comparedSizeRO]
    | cons y rn => simp [comparedSizeRO]
  | cons x ro ih =>
    intro new
    cases new with
    | nil => simp [comparedSizeRO]
    | cons y rn =>
      obtain ⟨ko, vo⟩ := x
      obtain ⟨kn, vn⟩ := y
      simp only [comparedSizeRO, List.length_cons, List.forall₂_cons]
      by_cases hk : ko = kn
      swap
      · simp [hk]
      by_cases hl : vo.length = vn.length
      swap
      · have hno : ¬ List.Forall₂
            (fun x y => x.1 = y.1 ∧ isSameWorkerNode x.2 y.2 = true) vo vn :=
          fun hf => hl hf.length_eq
        simp [hk, hl, hno]
      have hin := sameReplicaNodes_iff vo vn hl
      by_cases hs : sameReplicaNodes vo vn = true
      · simp only [hk, ne_eq, not_true_eq_false, if_false, hl, hs, Bool.not_true,
          Bool.false_eq_true, true_and, Nat.add_right_cancel_iff, hin.1 hs]
        exact ih rn
      · have hno : ¬ List.Forall₂
            (fun x y => x.1 = y.1 ∧ isSameWorkerNode x.2 y.2 = true) vo vn :=
          fun hf => hs (hin.2 hf)
        simp [hk, hl, hs, hno]

theorem ShardMap.find_none_of_ordered {V : Type} (k : Nat) (v : V) (rest : ShardMap V)
    (h : ShardMap.Ordered ((k, v) :: rest)) (j : Nat) (hj : j ≤ k) :
    ShardMap.find rest j = none := by
  cases hf : ShardMap.find rest j with
  | none => rfl
  | some w =>
    have hmem := ShardMap.mem_of_find _ _ _ hf
    have := (List.pairwise_cons.1 h).1 _ hmem
    simp only at this
    omega

/-- On maps in key order, the lock-step walk over the entries agrees with equality of the
maps: the same keys, and under every key related values. -/
theorem lockstep_iff_sameMapsOfSpec {V : Type} (C R : V → V → Prop) (old : ShardMap V) :
    ∀ new : ShardMap V, ShardMap.Ordered old → ShardMap.Ordered new →
      (∀ x ∈ old, ∀ y ∈ new, (C x.2 y.2 ↔ R x.2 y.2)) →
      (List.Forall₂ (fun x y => x.1 = y.1 ∧ C x.2 y.2) old new ↔
        sameMapsOfSpec R old new) := by
  induction old with
  | nil =>
    intro new _ _ _
    cases new with
    | nil => simp [sameMapsOfSpec, ShardMap.find]
    | cons y rn =>
      obtain ⟨kn, vn⟩ := y
      simp only [List.forall₂_nil_left_iff]
      constructor
      · intro h; cases h
      · intro h
        have := h.1 kn
        simp [ShardMap.find] at this
  | cons x ro ih =>
    intro new ho hn hcr
    obtain ⟨ko, vo⟩ := x
    cases new with
    | nil =>
      simp only [List.forall₂_nil_right_iff]
      constructor
      · intro h; cases h
      · intro h
        have := h.1 ko
        simp [ShardMap.find] at this
    | cons y rn =>
      obtain ⟨kn, vn⟩ := y
      have hro : ShardMap.Ordered ro := (List.pairwise_cons.1 ho).2
      have hrn : ShardMap.Ordered rn := (List.pairwise_cons.1 hn).2
      have hrec := ih rn hro hrn (fun x hx y hy =>
        hcr x (List.mem_cons_of_mem _ hx) y (List.mem_cons_of_mem _ hy))
      have hhead := hcr (ko, vo) (List.mem_cons_self _ _) (kn, vn) (List.mem_cons_self _ _)
      simp only at hhead
      simp only [List.forall₂_cons]
      constructor
      · rintro ⟨⟨hk, hc⟩, hrest⟩
        subst hk
        obtain ⟨hkeys, hvals⟩ := hrec.1 hrest
        constructor
        · intro k
          by_cases hkk : ko = k
          · simp [ShardMap.find, hkk]
          · simp only [ShardMap.find, hkk, if_false]
            exact hkeys k
        · intro k a b ha hb
          by_cases hkk : ko = k
          · simp only [ShardMap.find, hkk, if_true, Option.some.injEq] at ha hb
            subst ha; subst hb
            exact hhead.1 hc
          · simp only [ShardMap.find, hkk, if_false] at ha hb
            exact hvals k a b ha hb
      · rintro ⟨hkeys, hvals⟩
        have hk : ko = kn := by
          rcases Nat.lt_trichotomy ko kn with hlt | heq | hgt
          · have h1 := hkeys ko
            have h2 := ShardMap.find_none_of_ordered kn vn rn hn ko (by omega)
            have hne : ¬ kn = ko := by omega
            simp [ShardMap.find, hne, h2] at h1
          · exact heq
          · have h1 := hkeys kn
            have h2 := ShardMap.find_none_of_ordered ko vo ro ho kn (by omega)
            have hne : ¬ ko = kn := by omega
            simp [ShardMap.find, hne, h2] at h1
        subst hk
        refine ⟨⟨rfl, hhead.2 (hvals ko vo vn (by simp [ShardMap.find])
          (by simp [ShardMap.find]))⟩, hrec.2 ⟨?_, ?_⟩⟩
        · intro k
          by_cases hkk : ko = k
          · subst hkk
            rw [ShardMap.find_none_of_ordered ko vo ro ho ko (Nat.le_refl _),
              ShardMap.find_none_of_ordered ko vn rn hn ko (Nat.le_refl _)]
          · have := hkeys k
            simpa only [ShardMap.find, hkk, if_false] using this
        · intro k a b ha hb
          have hkk : ¬ ko = k := by
            intro hkk
            subst hkk
            rw [ShardMap.find_none_of_ordered ko vo ro ho ko (Nat.le_refl _)] at ha
            cases ha
          exact hvals k a b (by simp only [ShardMap.find, hkk, if_false]; exact ha)
            (by simp only [ShardMap.find, hkk, if_false]; exact hb)

theorem ShardMap.mem_insert {V : Type} (wm : ShardMap V) (k : Nat) (v : V) (e : Nat × V)
    (h : e ∈ ShardMap.insert wm k v) : e = (k, v) ∨ e ∈ wm := by
  induction wm with
  | nil => simpa [ShardMap.insert] using h
  | cons x rest ih =>
    obtain ⟨k', v'⟩ := x
    simp only [ShardMap.insert] at h
    split at h
    · simpa using h
    · split at h
      · rcases List.mem_cons.1 h with h | h
        · exact Or.inl h
        · exact Or.inr (List.mem_cons_of_mem _ h)
      · rcases List.mem_cons.1 h with h | h
        · exact Or.inr (by rw [h]; exact List.mem_cons_self _ _)
        · rcases ih h with h | h
          · exact Or.inl h
          · exact Or.inr (List.mem_cons_of_mem _ h)

theorem ShardMap.insert_ordered {V : Type} (wm : ShardMap V) (k : Nat) (v : V)
    (h : ShardMap.Ordered wm) : ShardMap.Ordered (ShardMap.insert wm k v) := by
  induction wm with
  | nil => simp [ShardMap.insert, ShardMap.Ordered]
  | cons x rest ih =>
    obtain ⟨k', v'⟩ := x
    obtain ⟨hhead, hrest⟩ := List.pairwise_cons.1 h
    simp only [ShardMap.insert]
    split
    · rename_i hlt
      refine List.pairwise_cons.2 ⟨?_, h⟩
      intro b hb
      rcases List.mem_cons.1 hb with hb | hb
      · rw [hb]; exact hlt
      · have := hhead b hb
        simp only at this ⊢
        omega
    · split
      · rename_i heq
        subst heq
        exact List.pairwise_cons.2 ⟨hhead, hrest⟩
      · rename_i hnlt hne
        refine List.pairwise_cons.2 ⟨?_, ih hrest⟩
        intro b hb
        rcases ShardMap.mem_insert rest k v b hb with hb | hb
        · rw [hb]
          simp only
          omega
        · exact hhead b hb

/-! ## The worker maps stay in key order under detection -/

theorem zkGetZNodeData_clientOnly (m : MasterManagerBase) (st : Store) (p : ZPath)
    (w : WatchType) (r : Option String) (m' : MasterManagerBase)
    (h : m.zkGetZNodeData st p w = some (r, m')) :
    m' = { m with zookeeper_ := m'.zookeeper_ } := by
  unfold zkGetZNodeData at h
  split at h
  · cases h
  · cases h; rfl

theorem zkIsZNodeExists_clientOnly (m : MasterManagerBase) (st : Store) (p : ZPath)
    (w : WatchType) (r : Bool) (m' : MasterManagerBase)
    (h : m.zkIsZNodeExists st p w = some (r, m')) :
    m' = { m with zookeeper_ := m'.zookeeper_ } := by
  unfold zkIsZNodeExists at h
  split at h
  · cases h
  · cases h; rfl

theorem detectWorkerStep_ordered (env : Env) (st : Store) (r : replicaid_t) (mp : Bool)
    (d : DetectState) (s : shardid_t) (d' : DetectState)
    (h : detectWorkerStep env st r mp d s = some d')
    (ho : ShardMap.Ordered d.m.workerMap_) : ShardMap.Ordered d'.m.workerMap_ := by
  simp only [detectWorkerStep, Option.bind_eq_bind] at h
  obtain ⟨⟨data, m1⟩, h1, h⟩ := Option.bind_eq_some.1 h
  have k1 := congrArg MasterManagerBase.workerMap_ (zkGetZNodeData_clientOnly _ _ _ _ _ _ h1)
  simp only at k1
  cases data with
  | none =>
    simp only [Option.bind_eq_bind] at h
    obtain ⟨⟨f, m2⟩, h2, h⟩ := Option.bind_eq_some.1 h
    cases h
    have k2 := congrArg MasterManagerBase.workerMap_
      (zkIsZNodeExists_clientOnly _ _ _ _ _ _ h2)
    simp only at k2
    rw [k2, k1]; exact ho
  | some data =>
    simp only at h
    have kp : (if mp = true then isPrimaryWorker env m1 st r s else (true, m1)).2.workerMap_ =
        m1.workerMap_ := by
      split
      · exact (isPrimaryWorker_kept env m1 st r s).1.1
      · rfl
    generalize (if mp = true then isPrimaryWorker env m1 st r s else (true, m1)) = pr at h kp
    have ho2 : ShardMap.Ordered pr.2.workerMap_ := by rw [kp, k1]; exact ho
    split at h
    · split at h
      · cases h; exact ho2
      · split at h
        · split at h
          · cases h; exact ho2
          · cases h; exact ShardMap.insert_ordered _ _ _ ho2
        · cases h; exact ShardMap.insert_ordered _ _ _ ho2
    · cases h; rw [k1]; exact ho

theorem detectWorkerLoop_ordered (env : Env) (st : Store) (r : replicaid_t) (mp : Bool)
    (l : List shardid_t) :
    ∀ d d' : DetectState, detectWorkerLoop env st r mp l d = some d' →
      ShardMap.Ordered d.m.workerMap_ → ShardMap.Ordered d'.m.workerMap_ := by
  induction l with
  | nil => intro d d' h ho; cases h; exact ho
  | cons s rest ih =>
    intro d d' h ho
    simp only [detectWorkerLoop, Option.bind_eq_bind] at h
    obtain ⟨d1, h1, h⟩ := Option.bind_eq_some.1 h
    exact ih d1 d' h (detectWorkerStep_ordered env st r mp d s d1 h1 ho)

theorem detectWorkersInReplica_ordered (env : Env) (st : Store) (r : replicaid_t)
    (d d' : DetectState) (h : detectWorkersInReplica env st r d = some d')
    (ho : ShardMap.Ordered d.m.workerMap_) : ShardMap.Ordered d'.m.workerMap_ := by
  simp only [detectWorkersInReplica, Option.bind_eq_bind] at h
  obtain ⟨d1, h1, h⟩ := Option.bind_eq_some.1 h
  have k1 := detectWorkerLoop_ordered env st r _ _ d d1 h1 ho
  split at h <;> (cases h; exact k1)

theorem detectOtherReplicas_ordered (env : Env) (st : Store) (cur : replicaid_t)
    (l : List replicaid_t) :
    ∀ d d' : DetectState, detectOtherReplicas env st cur l d = some d' →
      ShardMap.Ordered d.m.workerMap_ → ShardMap.Ordered d'.m.workerMap_ := by
  induction l with
  | nil => intro d d' h ho; cases h; exact ho
  | cons r rest ih =>
    intro d d' h ho
    simp only [detectOtherReplicas, Option.bind_eq_bind] at h
    split at h
    · cases h; exact ho
    · split at h
      · exact ih d d' h ho
      · obtain ⟨d1, h1, h⟩ := Option.bind_eq_some.1 h
        exact ih d1 d' h (detectWorkersInReplica_ordered env st r d d1 h1 ho)

theorem roInsert_ordered (ro : ROWorkerMapT) (s : shardid_t) (r : replicaid_t)
    (node : Sf1rNode) (h : ROOrdered ro) : ROOrdered (roInsert ro s r node) := by
  refine ⟨ShardMap.insert_ordered _ _ _ h.1, ?_⟩
  intro e he
  rcases ShardMap.mem_insert _ _ _ _ he with he | he
  · rw [he]
    apply ShardMap.insert_ordered
    cases hf : ShardMap.find ro s with
    | none => exact List.Pairwise.nil
    | some nodes => exact h.2 _ (ShardMap.mem_of_find _ _ _ hf)
  · exact h.2 e he

theorem detectReadOnlyLoop_ordered (env : Env) (st : Store) (r : replicaid_t)
    (l : List shardid_t) :
    ∀ m m' : MasterManagerBase, detectReadOnlyLoop env st r l m = some m' →
      ROOrdered m.readonly_workerMap_ →
      ROOrdered m'.readonly_workerMap_ ∧
        m'.readonly_aggregatorList_ = m.readonly_aggregatorList_ := by
  induction l with
  | nil => intro m m' h ho; cases h; exact ⟨ho, rfl⟩
  | cons s rest ih =>
    intro m m' h ho
    simp only [detectReadOnlyLoop, Option.bind_eq_bind] at h
    obtain ⟨⟨data, m1⟩, h1, h⟩ := Option.bind_eq_some.1 h
    have e1 := zkGetZNodeData_clientOnly _ _ _ _ _ _ h1
    have k1 := congrArg MasterManagerBase.readonly_workerMap_ e1
    have a1 := congrArg MasterManagerBase.readonly_aggregatorList_ e1
    simp only at k1 a1
    have ho1 : ROOrdered m1.readonly_workerMap_ := by rw [k1]; exact ho
    cases data with
    | none =>
      simp only [Option.bind_eq_bind] at h
      obtain ⟨⟨f, m2⟩, h2, h⟩ := Option.bind_eq_some.1 h
      have e2 := zkIsZNodeExists_clientOnly _ _ _ _ _ _ h2
      have k2 := congrArg MasterManagerBase.readonly_workerMap_ e2
      have a2 := congrArg MasterManagerBase.readonly_aggregatorList_ e2
      simp only at k2 a2
      obtain ⟨hr, ha⟩ := ih m2 m' h (by rw [k2]; exact ho1)
      exact ⟨hr, by rw [ha, a2, a1]⟩
    | some data =>
      simp only at h
      split at h
      · obtain ⟨hr, ha⟩ := ih _ m' h (roInsert_ordered _ _ _ _ ho1)
        exact ⟨hr, by rw [ha]; exact a1⟩
      · obtain ⟨hr, ha⟩ := ih m1 m' h ho1
        exact ⟨hr, by rw [ha, a1]⟩

theorem detectReadOnlyReplicas_ordered (env : Env) (st : Store) (l : List replicaid_t) :
    ∀ m m' : MasterManagerBase, detectReadOnlyReplicas env st l m = some m' →
      ROOrdered m.readonly_workerMap_ →
      ROOrdered m'.readonly_workerMap_ ∧
        m'.readonly_aggregatorList_ = m.readonly_aggregatorList_ := by
  induction l with
  | nil => intro m m' h ho; cases h; exact ⟨ho, rfl⟩
  | cons r rest ih =>
    intro m m' h ho
    simp only [detectReadOnlyReplicas, Option.bind_eq_bind] at h
    obtain ⟨m1, h1, h⟩ := Option.bind_eq_some.1 h
    obtain ⟨ho1, a1⟩ := detectReadOnlyLoop_ordered env st r _ m m1 h1 ho
    obtain ⟨hr, ha⟩ := ih m1 m' h ho1
    exact ⟨hr, by rw [ha, a1]⟩

/-- The lock-step loop of `detectWorkers` runs to the end of both maps exactly when the maps
are structurally equal. -/
theorem comparedSize_iff_sameWorkerMapsOfSpec (old new : WorkerMapT)
    (ho : ShardMap.Ordered old) (hn : ShardMap.Ordered new) :
    (comparedSize old new = old.length ∧ comparedSize old new = new.length) ↔
      sameWorkerMapsOfSpec old new :=
  (comparedSize_full_iff old new).trans
    (lockstep_iff_sameMapsOfSpec (fun a b => isSameWorkerNode a b = true) sameNodeOfSpec
      old new ho hn (fun _ _ _ _ => isSameWorkerNode_iff _ _))

/-- The lock-step loops of `detectReadOnlyWorkers` run to the end of both maps exactly when
the maps are structurally equal. -/
theorem comparedSizeRO_iff_sameROWorkerMapsOfSpec (old new : ROWorkerMapT)
    (ho : ROOrdered old) (hn : ROOrdered new) :
    (comparedSizeRO old new = old.length ∧ comparedSizeRO old new = new.length) ↔
      sameROWorkerMapsOfSpec old new :=
  (comparedSizeRO_full_iff old new).trans
    (lockstep_iff_sameMapsOfSpec
      (fun a b => List.Forall₂ (fun x y => x.1 = y.1 ∧ isSameWorkerNode x.2 y.2 = true) a b)
      (sameMapsOfSpec sameNodeOfSpec) old new ho.1 hn.1
      (fun x hx y hy => lockstep_iff_sameMapsOfSpec (fun a b => isSameWorkerNode a b = true)
        sameNodeOfSpec x.2 y.2 (ho.2 x hx) (hn.2 y hy)
        (fun _ _ _ _ => isSameWorkerNode_iff _ _)))

theorem detectWorkers_rebinds (env : Env) (st : Store) (m : MasterManagerBase)
    (zk : ZooKeeper) (hz : m.zookeeper_ = some zk) (ho : ShardMap.Ordered m.workerMap_) :
    ∃ good m', m.detectWorkers env st = some (good, m') ∧
      (sameWorkerMapsOfSpec m.workerMap_ m'.workerMap_ →
        m'.calls.count Call.resetAggregatorConfig =
          m.calls.count Call.resetAggregatorConfig) ∧
      (¬ sameWorkerMapsOfSpec m.workerMap_ m'.workerMap_ →
        m'.calls.count Call.resetAggregatorConfig =
          m.calls.count Call.resetAggregatorConfig + 1) := by
  obtain ⟨d1, zk1, h1, hz1, -, hs1⟩ := detectWorkersInReplica_client env st
    m.sf1rTopology_.curNode_.replicaId_
    { m := { m with workerMap_ := [] }, detected := 0, good := 0 } zk hz
  obtain ⟨d2, zk2, h2, hz2, -⟩ := detectOtherReplicas_client env st
    m.sf1rTopology_.curNode_.replicaId_ d1.m.replicaIdList_ d1 zk1 hz1 hs1
  have k1 := detectWorkersInReplica_requestSide env st _ _ d1 h1
  have k2 := detectOtherReplicas_requestSide env st _ _ d1 d2 h2
  have hcalls : d2.m.calls = m.calls := (requestSideKept_trans k1 k2).2.2
  have hn : ShardMap.Ordered d2.m.workerMap_ :=
    detectOtherReplicas_ordered env st _ _ d1 d2 h2
      (detectWorkersInReplica_ordered env st _ _ d1 h1 List.Pairwise.nil)
  have hiff := comparedSize_iff_sameWorkerMapsOfSpec m.workerMap_ d2.m.workerMap_ ho hn
  simp only [detectWorkers, h1, Option.bind_eq_bind, Option.some_bind, h2]
  by_cases hc : comparedSize m.workerMap_ d2.m.workerMap_ = m.workerMap_.length ∧
      comparedSize m.workerMap_ d2.m.workerMap_ = d2.m.workerMap_.length
  · have hcond : ¬ (comparedSize m.workerMap_ d2.m.workerMap_ ≠ m.workerMap_.length ∨
        comparedSize m.workerMap_ d2.m.workerMap_ ≠ d2.m.workerMap_.length) := by
      rintro (h | h)
      · exact h hc.1
      · exact h hc.2
    rw [if_neg hcond]
    obtain ⟨m4, h4, k4⟩ := detectReadOnlyWorkers_kept env st d2.m (ZPath.other "") true zk2 hz2
    rw [h4]
    refine ⟨d2.good, m4, rfl, ?_, ?_⟩
    · intro _
      rw [k4.2.2.2.2.2.1, hcalls]
    · intro hne
      rw [k4.1] at hne
      exact absurd (hiff.1 hc) hne
  · have hcond : comparedSize m.workerMap_ d2.m.workerMap_ ≠ m.workerMap_.length ∨
        comparedSize m.workerMap_ d2.m.workerMap_ ≠ d2.m.workerMap_.length := by
      by_contra hcon
      exact hc ⟨not_not.1 (fun h => hcon (Or.inl h)), not_not.1 (fun h => hcon (Or.inr h))⟩
    rw [if_pos hcond]
    obtain ⟨m4, h4, k4⟩ := detectReadOnlyWorkers_kept env st (resetAggregatorConfig d2.m)
      (ZPath.other "") true zk2 hz2
    rw [h4]
    refine ⟨d2.good, m4, rfl, ?_, ?_⟩
    · intro hsame
      rw [k4.1] at hsame
      exact absurd (hiff.2 hsame) hc
    · intro _
      rw [k4.2.2.2.2.2.1]
      simp [resetAggregatorConfig, hcalls]

theorem resetAggregatorBusyState_config (m : MasterManagerBase) :
    (resetAggregatorBusyState m).readonly_aggregatorList_.map AggregatorBase.config =
      m.readonly_aggregatorList_.map AggregatorBase.config := by
  simp only [resetAggregatorBusyState, List.map_map]
  apply List.map_congr_left
  intro a _
  simp only [Function.comp]
  split <;> rfl

theorem detectReadOnlyWorkers_rebinds (env : Env) (st : Store) (m : MasterManagerBase)
    (is_created_node : Bool) (zk : ZooKeeper) (hz : m.zookeeper_ = some zk)
    (ho : ROOrdered m.readonly_workerMap_) :
    ∃ m', detectReadOnlyWorkers env st m (ZPath.other "") is_created_node = some m' ∧
      (sameROWorkerMapsOfSpec m.readonly_workerMap_ m'.readonly_workerMap_ →
        m'.calls = Call.resetAggregatorBusyState :: m.calls ∧
        m'.readonly_aggregatorList_.map AggregatorBase.config =
          m.readonly_aggregatorList_.map AggregatorBase.config) ∧
      (¬ sameROWorkerMapsOfSpec m.readonly_workerMap_ m'.readonly_workerMap_ →
        m'.calls = Call.resetReadOnlyAggregatorConfig :: m.calls) := by
  obtain ⟨m', h, -⟩ := detectReadOnlyWorkers_kept env st m (ZPath.other "") is_created_node
    zk hz
  refine ⟨m', h, ?_⟩
  unfold detectReadOnlyWorkers at h
  rw [if_neg (by simp)] at h
  obtain ⟨m1, h1, h⟩ := Option.bind_eq_some.1 h
  have hcalls : m1.calls = m.calls :=
    (detectReadOnlyReplicas_requestSide env st _ _ m1 h1).2.2
  obtain ⟨hn, hagg⟩ := detectReadOnlyReplicas_ordered env st _ _ m1 h1
    ⟨List.Pairwise.nil, by simp⟩
  simp only at hagg
  have hiff := comparedSizeRO_iff_sameROWorkerMapsOfSpec m.readonly_workerMap_
    m1.readonly_workerMap_ ho hn
  by_cases hc : comparedSizeRO m.readonly_workerMap_ m1.readonly_workerMap_ =
      m.readonly_workerMap_.length ∧
      comparedSizeRO m.readonly_workerMap_ m1.readonly_workerMap_ =
        m1.readonly_workerMap_.length
  · have hcond : ¬ (comparedSizeRO m.readonly_workerMap_ m1.readonly_workerMap_ ≠
          m.readonly_workerMap_.length ∨
        comparedSizeRO m.readonly_workerMap_ m1.readonly_workerMap_ ≠
          m1.readonly_workerMap_.length) := by
      rintro (h | h)
      · exact h hc.1
      · exact h hc.2
    simp only at h
    rw [if_neg hcond] at h
    cases h
    refine ⟨fun _ => ⟨?_, ?_⟩, fun hne => absurd (hiff.1 hc) hne⟩
    · simp [resetAggregatorBusyState, hcalls]
    · rw [resetAggregatorBusyState_config, hagg]
  · have hcond : comparedSizeRO m.readonly_workerMap_ m1.readonly_workerMap_ ≠
          m.readonly_workerMap_.length ∨
        comparedSizeRO m.readonly_workerMap_ m1.readonly_workerMap_ ≠
          m1.readonly_workerMap_.length := by
      by_contra hcon
      exact hc ⟨not_not.1 (fun h => hcon (Or.inl h)), not_not.1 (fun h => hcon (Or.inr h))⟩
    simp only at h
    rw [if_pos hcond] at h
    cases h
    refine ⟨fun hsame => absurd (hiff.2 hsame) hc, fun _ => ?_⟩
    simp [resetReadOnlyAggregatorConfig, hcalls]

/-- C27: the comparison loops decide structural equality.  `isSameWorkerNode` holds exactly
for nodes equal in `nodeId`, `replicaId`, `host`, worker port and `isGood`, whatever their
`dataPort` and `busyState`.  On a controller with a client whose maps are in key order,
`detectWorkers` returns and calls `resetAggregatorConfig` (once) exactly when the new
`workerMap_` and the previous one are not structurally equal; a full read-only detection
returns and calls `resetReadOnlyAggregatorConfig` exactly when the new `readonly_workerMap_`
and the previous one are not structurally equal, and otherwise it calls
`resetAggregatorBusyState` and leaves the configuration of every read-only aggregator as it
was. -/
theorem comparison_loops_decide_structural_equality (env : Env) (st : Store)
    (m : MasterManagerBase) (is_created_node : Bool) (zk : ZooKeeper)
    (hz : m.zookeeper_ = some zk) (ho : ShardMap.Ordered m.workerMap_)
    (hro : ROOrdered m.readonly_workerMap_) :
    (∀ a b : Sf1rNode, isSameWorkerNode a b = true ↔ sameNodeOfSpec a b) ∧
    (∀ (a b : Sf1rNode) (p : port_t) (s : String), isSameWorkerNode a
      { b with dataPort_ := p, worker_ := { b.worker_ with busyState_ := s } } =
        isSameWorkerNode a b) ∧
    (∃ good m', m.detectWorkers env st = some (good, m') ∧
      (m'.calls.count Call.resetAggregatorConfig =
          m.calls.count Call.resetAggregatorConfig + 1 ↔
        ¬ sameWorkerMapsOfSpec m.workerMap_ m'.workerMap_) ∧
      (sameWorkerMapsOfSpec m.workerMap_ m'.workerMap_ →
        m'.calls.count Call.resetAggregatorConfig =
          m.calls.count Call.resetAggregatorConfig)) ∧
    (∃ m', detectReadOnlyWorkers env st m (ZPath.other "") is_created_node = some m' ∧
      (m'.calls = Call.resetReadOnlyAggregatorConfig :: m.calls ↔
        ¬ sameROWorkerMapsOfSpec m.readonly_workerMap_ m'.readonly_workerMap_) ∧
      (sameROWorkerMapsOfSpec m.readonly_workerMap_ m'.readonly_workerMap_ →
        m'.calls = Call.resetAggregatorBusyState :: m.calls ∧
        m'.readonly_aggregatorList_.map AggregatorBase.config =
          m.readonly_aggregatorList_.map AggregatorBase.config)) := by
  refine ⟨isSameWorkerNode_iff, fun a b p s => rfl, ?_, ?_⟩
  · obtain ⟨good, m', h, hsame, hdiff⟩ := detectWorkers_rebinds env st m zk hz ho
    refine ⟨good, m', h, ⟨fun hc hs => ?_, hdiff⟩, hsame⟩
    have := hsame hs
    omega
  · obtain ⟨m', h, hsame, hdiff⟩ :=
      detectReadOnlyWorkers_rebinds env st m is_created_node zk hz hro
    refine ⟨m', h, ⟨fun hc hs => ?_, hdiff⟩, hsame⟩
    have := (hsame hs).1
    rw [hc] at this
    simp at this

theorem comparison_loops_decide_structural_equality_witness :
    failoverMaster.zookeeper_ = some clientUp ∧
    ShardMap.Ordered failoverMaster.workerMap_ ∧
    ROOrdered failoverMaster.readonly_workerMap_ ∧
    (∃ good m', failoverMaster.detectWorkers kvEnv otherDataPortStore = some (good, m') ∧
      (m'.calls.count Call.resetAggregatorConfig =
          failoverMaster.calls.count Call.resetAggregatorConfig + 1 ↔
        ¬ sameWorkerMapsOfSpec failoverMaster.workerMap_ m'.workerMap_)) ∧
    (∃ m', detectReadOnlyWorkers kvEnv otherDataPortStore failoverMaster (ZPath.other "")
        true = some m' ∧
      (m'.calls = Call.resetReadOnlyAggregatorConfig :: failoverMaster.calls ↔
        ¬ sameROWorkerMapsOfSpec failoverMaster.readonly_workerMap_
          m'.readonly_workerMap_)) := by
  have ho : ShardMap.Ordered failoverMaster.workerMap_ :=
    List.pairwise_singleton _ _
  have hro : ROOrdered failoverMaster.readonly_workerMap_ :=
    ⟨List.Pairwise.nil, fun e he => by cases he⟩
  obtain ⟨-, -, ⟨good, m', h, hiff, -⟩, ⟨m2, h2, hiff2, -⟩⟩ :=
    comparison_loops_decide_structural_equality kvEnv otherDataPortStore failoverMaster true
      clientUp rfl ho hro
  exact ⟨rfl, ho, hro, ⟨good, m', h, hiff⟩, ⟨m2, h2, hiff2⟩⟩

/-- Three detections in a row.  The first finds the worker of shard 1 (both sides rebind);
before the second the worker moved only its data port (no rebind, the busy state is
refreshed, the slot takes the new data port); before the third it moved to another host
(both sides rebind).  The calls are listed latest first. -/
theorem detectWorkers_rebinds_on_structural_change :
    ((twoReplicaMaster.detectWorkers kvEnv goodStore).bind (fun r1 =>
      (r1.2.detectWorkers kvEnv movedDataPortStore).bind (fun r2 =>
        (r2.2.detectWorkers kvEnv movedHostStore).map (fun r3 =>
          (r1.2.calls, r2.2.calls, r3.2.calls,
            (ShardMap.find r2.2.workerMap_ 1).map Sf1rNode.dataPort_))))) =
      some ([Call.resetReadOnlyAggregatorConfig, Call.resetAggregatorConfig],
        [Call.resetAggregatorBusyState, Call.resetReadOnlyAggregatorConfig,
          Call.resetAggregatorConfig],
        [Call.resetReadOnlyAggregatorConfig, Call.resetAggregatorConfig,
          Call.resetAggregatorBusyState, Call.resetReadOnlyAggregatorConfig,
          Call.resetAggregatorConfig],
        some 19999) := by
  decide

/-! ## The order in which detection binds a slot -/

theorem detectKept_refl (m : MasterManagerBase) : m.DetectKept m :=
  ⟨rfl, rfl, rfl, rfl, fun zk h => ⟨zk, h, rfl⟩⟩

theorem detectKept_trans {a b c : MasterManagerBase}
    (h1 : a.DetectKept b) (h2 : b.DetectKept c) : a.DetectKept c := by
  refine ⟨h2.1.trans h1.1, h2.2.1.trans h1.2.1, h2.2.2.1.trans h1.2.2.1,
    h2.2.2.2.1.trans h1.2.2.2.1, ?_⟩
  intro zk hz
  obtain ⟨zk1, hz1, hc1⟩ := h1.2.2.2.2 zk hz
  obtain ⟨zk2, hz2, hc2⟩ := h2.2.2.2.2 zk1 hz1
  exact ⟨zk2, hz2, hc2.trans hc1⟩

theorem MasterManagerBase.PrimarySideKept.detectKept {m m' : MasterManagerBase}
    (k : m.PrimarySideKept m') : m.DetectKept m' :=
  ⟨k.2.2.1, k.2.2.2.1, k.2.2.2.2.2.2.1, k.2.2.2.2.2.2.2.1, k.2.2.2.2.2.2.2.2.2⟩

theorem detectKept_isMinePrimary {m m' : MasterManagerBase}
    (k : m.DetectKept m') (zk : ZooKeeper) (hz : m.zookeeper_ = some zk) :
    m'.isMinePrimary = m.isMinePrimary := by
  obtain ⟨zk', hz', hc'⟩ := k.2.2.2.2 zk hz
  simp only [MasterManagerBase.isMinePrimary, MasterManagerBase.notConnected, hz, hz',
    ZooKeeper.isConnected, hc', k.2.2.1, k.2.2.2.1]

theorem isPrimaryWorker_connected (env : Env) (m : MasterManagerBase) (st : Store)
    (r : replicaid_t) (s : shardid_t) (zk : ZooKeeper) (hz : m.zookeeper_ = some zk)
    (hc : zk.connected = true) :
    (isPrimaryWorker env m st r s).1 = registeredAsPrimary env st r s := by
  simp only [isPrimaryWorker, hz, ZooKeeper.getZNodeData, hc, if_true, registeredAsPrimary,
    ZooKeeper.getZNodeChildren, addWatch_connected]
  cases st.find (getNodePath r s) with
  | none => rfl
  | some e =>
    simp only [Option.map_some']
    cases st.childrenOf (getPrimaryNodeParentPath s) with
    | nil => rfl
    | cons first rest => rfl

theorem adoptedFrom_boundTo (env : Env) (st : Store) (r : replicaid_t) (s : shardid_t)
    (node : Sf1rNode) (h : AdoptedFrom env st r s node) (hg : node.worker_.isGood_ = true) :
    BoundTo env st r s node := by
  obtain ⟨e, hf, hn, hr, hh, hgood, hwp, hdp⟩ := h
  rw [hg] at hgood
  have hb := hgood.symm
  simp only [Bool.and_eq_true] at hb
  obtain ⟨w, hw⟩ := Option.isSome_iff_exists.1 hb.1
  obtain ⟨p, hp⟩ := Option.isSome_iff_exists.1 hb.2
  exact ⟨e, hf, hn, hr, hh, by rw [hw, hwp w hw], by rw [hp, hdp p hp], hg⟩

theorem usableNode_adoptable (env : Env) (st : Store) (mp : Bool) (r : replicaid_t)
    (s : shardid_t) (h : usableNode env st mp r s = true) :
    adoptableNode env st mp r s = true := by
  unfold usableNode at h
  unfold adoptableNode
  cases hf : st.find (getNodePath r s) with
  | none => rw [hf] at h; cases h
  | some e =>
    rw [hf] at h
    simp only [Bool.and_eq_true] at h ⊢
    exact ⟨h.1.1.1, h.2⟩

theorem adoptedFrom_usable_good (env : Env) (st : Store) (mp : Bool) (r : replicaid_t)
    (s : shardid_t) (node : Sf1rNode) (h : AdoptedFrom env st r s node)
    (hu : usableNode env st mp r s = true) : node.worker_.isGood_ = true := by
  obtain ⟨e, hf, -, -, -, hgood, -, -⟩ := h
  unfold usableNode at hu
  rw [hf] at hu
  simp only [Bool.and_eq_true] at hu
  rw [hgood, hu.1.1.2, hu.1.2]
  rfl

theorem adoptableNode_usable (env : Env) (st : Store) (mp : Bool) (r : replicaid_t)
    (s : shardid_t) (hparse : PortsParse env st) (h : adoptableNode env st mp r s = true) :
    usableNode env st mp r s = true := by
  unfold adoptableNode at h
  unfold usableNode
  cases hf : st.find (getNodePath r s) with
  | none => rw [hf] at h; cases h
  | some e =>
    rw [hf] at h
    simp only [Bool.and_eq_true] at h ⊢
    have hp := hparse r s e hf h.1
    exact ⟨⟨⟨h.1, hp.1⟩, hp.2⟩, h.2⟩

theorem adoptedFrom_update (env : Env) (st : Store) (r : replicaid_t) (s : shardid_t)
    (m : MasterManagerBase) (b : Sf1rNode) (e : ZEntry)
    (hf : st.find (getNodePath r s) = some e) (hb : b.worker_.isGood_ = true) :
    AdoptedFrom env st r s
      { updateWorkerNode env m { b with nodeId_ := s } (env.loadKvString e.data) with
        replicaId_ := r } := by
  refine ⟨e, hf, ?_, rfl, ?_, ?_, ?_, ?_⟩
  · simp only [updateWorkerNode]
    cases env.lexicalCastPort
        (ZNode.getStrValue (env.loadKvString e.data) ZNode.KEY_WORKER_PORT) <;>
      cases env.lexicalCastPort
        (ZNode.getStrValue (env.loadKvString e.data) ZNode.KEY_DATA_PORT) <;> rfl
  · simp only [updateWorkerNode]
    cases env.lexicalCastPort
        (ZNode.getStrValue (env.loadKvString e.data) ZNode.KEY_WORKER_PORT) <;>
      cases env.lexicalCastPort
        (ZNode.getStrValue (env.loadKvString e.data) ZNode.KEY_DATA_PORT) <;> rfl
  · show (updateWorkerNode env m _ (env.loadKvString e.data)).worker_.isGood_ = _
    rw [updateWorkerNode_isGood]
    simp only [hb, Bool.true_and]
  · intro p hp
    simp only [updateWorkerNode, hp]
    cases env.lexicalCastPort
        (ZNode.getStrValue (env.loadKvString e.data) ZNode.KEY_DATA_PORT) <;> rfl
  · intro p hp
    simp only [updateWorkerNode, hp]

/-- One round of the detection loop on a connected client: either the node is not adoptable
and the round changes no slot, or the slot of the shard is good already and stays, or the
slot is filled from the znode. -/
theorem detectWorkerStep_cases (env : Env) (st : Store) (r : replicaid_t) (mp : Bool)
    (d : DetectState) (s : shardid_t) (zk : ZooKeeper) (hz : d.m.zookeeper_ = some zk)
    (hc : zk.connected = true) :
    ∃ d', detectWorkerStep env st r mp d s = some d' ∧ d.m.DetectKept d'.m ∧
      ((adoptableNode env st mp r s = false ∧ d'.m.workerMap_ = d.m.workerMap_) ∨
       (adoptableNode env st mp r s = true ∧
         ∃ n, ShardMap.find d.m.workerMap_ s = some n ∧ n.worker_.isGood_ = true ∧
           d'.m.workerMap_ = d.m.workerMap_) ∨
       (adoptableNode env st mp r s = true ∧
         (∀ n, ShardMap.find d.m.workerMap_ s = some n → n.worker_.isGood_ = false) ∧
         ∃ node, d'.m.workerMap_ = ShardMap.insert d.m.workerMap_ s node ∧
           AdoptedFrom env st r s node)) := by
  obtain ⟨data, m1, zk1, h1, hdata, k1, -, hz1, hc1⟩ :=
    zkGetZNodeData_some d.m st (getNodePath r s) WatchType.WATCH zk hz
  rw [hc, if_pos rfl] at hdata
  simp only [detectWorkerStep, h1, Option.bind_eq_bind, Option.some_bind]
  cases hf : st.find (getNodePath r s) with
  | none =>
    rw [hf] at hdata
    simp only [Option.map_none'] at hdata
    subst hdata
    obtain ⟨found, m2, zk2, h2, k2, -, hz2, -⟩ :=
      zkIsZNodeExists_some m1 st (getNodePath r s) WatchType.WATCH zk1 hz1
    simp only [h2, Option.bind_eq_bind, Option.some_bind]
    have k := k1.trans k2
    exact ⟨_, rfl, k.detectKept, Or.inl ⟨by simp [adoptableNode, hf], k.1⟩⟩
  | some e =>
    rw [hf] at hdata
    simp only [Option.map_some'] at hdata
    subst hdata
    simp only
    by_cases hk : ZNode.hasKey (env.loadKvString e.data) ZNode.KEY_WORKER_PORT = true
    swap
    · rw [if_neg hk]
      exact ⟨_, rfl, k1.detectKept, Or.inl ⟨by simp [adoptableNode, hf, hk], k1.1⟩⟩
    rw [if_pos hk]
    have hkept : m1.PrimarySideKept
        (if mp = true then isPrimaryWorker env m1 st r s else (true, m1)).2 := by
      split
      · exact (isPrimaryWorker_kept env m1 st r s).1
      · exact MasterManagerBase.PrimarySideKept.refl m1
    have hfst : (if mp = true then isPrimaryWorker env m1 st r s else (true, m1)).1 =
        (!mp || registeredAsPrimary env st r s) := by
      cases mp with
      | false => rfl
      | true =>
        simp only [if_true, Bool.not_true, Bool.false_or]
        exact isPrimaryWorker_connected env m1 st r s zk1 hz1 (hc1.trans hc)
    generalize (if mp = true then isPrimaryWorker env m1 st r s else (true, m1)) = pr
      at hkept hfst ⊢
    have k := k1.trans hkept
    have hadopt : adoptableNode env st mp r s = pr.1 := by
      simp [adoptableNode, hf, hk, hfst]
    cases hpr : pr.1 with
    | false =>
      simp only [Bool.not_false, if_true]
      exact ⟨_, rfl, k.detectKept, Or.inl ⟨by rw [hadopt, hpr], k.1⟩⟩
    | true =>
      simp only [Bool.not_true, Bool.false_eq_true, if_false]
      rw [hpr] at hadopt
      cases hfind : ShardMap.find pr.2.workerMap_ s with
      | some existing =>
        simp only
        have hfind' : ShardMap.find d.m.workerMap_ s = some existing := by
          rw [← k.1]; exact hfind
        cases hg : existing.worker_.isGood_ with
        | true =>
          simp only [if_true]
          exact ⟨_, rfl, k.detectKept, Or.inr (Or.inl ⟨hadopt, existing, hfind', hg, k.1⟩)⟩
        | false =>
          simp only [Bool.false_eq_true, if_false]
          have hng : ∀ n, ShardMap.find d.m.workerMap_ s = some n →
              n.worker_.isGood_ = false := by
            intro n hn
            rw [hfind'] at hn
            cases hn
            exact hg
          exact ⟨_, rfl, k.detectKept, Or.inr (Or.inr ⟨hadopt, hng, _, by simp only [k.1],
            adoptedFrom_update env st r s pr.2
              { existing with worker_ := { existing.worker_ with isGood_ := true } } e hf
              rfl⟩)⟩
      | none =>
        simp only
        have hng : ∀ n, ShardMap.find d.m.workerMap_ s = some n →
            n.worker_.isGood_ = false := by
          intro n hn
          rw [← k.1, hfind] at hn
          cases hn
        exact ⟨_, rfl, k.detectKept, Or.inr (Or.inr ⟨hadopt, hng, _, by simp only [k.1],
          adoptedFrom_update env st r s pr.2
            { Sf1rNode.new with worker_ := { Sf1rNode.new.worker_ with isGood_ := true } } e hf
            rfl⟩)⟩

theorem detectWorkerStep_slots (env : Env) (st : Store) (r : replicaid_t) (mp : Bool)
    (d : DetectState) (s : shardid_t) (zk : ZooKeeper) (hz : d.m.zookeeper_ = some zk)
    (hc : zk.connected = true) :
    ∃ d', detectWorkerStep env st r mp d s = some d' ∧ d.m.DetectKept d'.m ∧
      (∀ k n, ShardMap.find d.m.workerMap_ k = some n → n.worker_.isGood_ = true →
        ShardMap.find d'.m.workerMap_ k = some n) ∧
      (∀ k, k ≠ s → ShardMap.find d'.m.workerMap_ k = ShardMap.find d.m.workerMap_ k) ∧
      (adoptableNode env st mp r s = false → d'.m.workerMap_ = d.m.workerMap_) ∧
      (usableNode env st mp r s = true → ∃ node,
        ShardMap.find d'.m.workerMap_ s = some node ∧ node.worker_.isGood_ = true ∧
        (ShardMap.find d.m.workerMap_ s = some node ∨ BoundTo env st r s node)) := by
  obtain ⟨d', h, k, hcases⟩ := detectWorkerStep_cases env st r mp d s zk hz hc
  refine ⟨d', h, k, ?_, ?_, ?_, ?_⟩
  · intro key n hfind hgood
    rcases hcases with ⟨-, hmap⟩ | ⟨-, -, -, -, hmap⟩ | ⟨-, hng, node, hmap, -⟩
    · rw [hmap]; exact hfind
    · rw [hmap]; exact hfind
    · have hne : s ≠ key := by
        intro heq
        subst heq
        have := hng n hfind
        rw [hgood] at this
        cases this
      rw [hmap, ShardMap.find_insert_ne _ _ _ _ hne]
      exact hfind
  · intro key hne
    rcases hcases with ⟨-, hmap⟩ | ⟨-, -, -, -, hmap⟩ | ⟨-, -, node, hmap, -⟩
    · rw [hmap]
    · rw [hmap]
    · rw [hmap, ShardMap.find_insert_ne _ _ _ _ (Ne.symm hne)]
  · intro hna
    rcases hcases with ⟨-, hmap⟩ | ⟨ha, -⟩ | ⟨ha, -⟩
    · exact hmap
    · rw [hna] at ha; cases ha
    · rw [hna] at ha; cases ha
  · intro hu
    have ha := usableNode_adoptable env st mp r s hu
    rcases hcases with ⟨hna, -⟩ | ⟨-, n, hfind, hgood, hmap⟩ |
      ⟨-, -, node, hmap, hadopted⟩
    · rw [ha] at hna; cases hna
    · exact ⟨n, by rw [hmap]; exact hfind, hgood, Or.inl hfind⟩
    · have hgood := adoptedFrom_usable_good env st mp r s node hadopted hu
      exact ⟨node, by rw [hmap]; exact ShardMap.find_insert_self _ _ _, hgood,
        Or.inr (adoptedFrom_boundTo env st r s node hadopted hgood)⟩

theorem detectWorkerLoop_slots (env : Env) (st : Store) (r : replicaid_t) (mp : Bool)
    (l : List shardid_t) :
    ∀ (d : DetectState) (zk : ZooKeeper), d.m.zookeeper_ = some zk → zk.connected = true →
      ∃ d', detectWorkerLoop env st r mp l d = some d' ∧ d.m.DetectKept d'.m ∧
        (∀ k n, ShardMap.find d.m.workerMap_ k = some n → n.worker_.isGood_ = true →
          ShardMap.find d'.m.workerMap_ k = some n) ∧
        (∀ k, adoptableNode env st mp r k = false →
          ShardMap.find d'.m.workerMap_ k = ShardMap.find d.m.workerMap_ k) ∧
        (∀ k ∈ l, usableNode env st mp r k = true → ∃ node,
          ShardMap.find d'.m.workerMap_ k = some node ∧ node.worker_.isGood_ = true ∧
          (ShardMap.find d.m.workerMap_ k = some node ∨ BoundTo env st r k node)) := by
  induction l with
  | nil =>
    intro d zk _ _
    exact ⟨d, rfl, detectKept_refl _, fun _ _ h _ => h, fun _ _ => rfl,
      fun k hk => by cases hk⟩
  | cons s rest ih =>
    intro d zk hz hc
    obtain ⟨d1, h1, k1, g1, o1, n1, u1⟩ := detectWorkerStep_slots env st r mp d s zk hz hc
    obtain ⟨zk1, hz1, hc1⟩ := k1.2.2.2.2 zk hz
    obtain ⟨d2, h2, k2, g2, n2, u2⟩ := ih d1 zk1 hz1 (hc1.trans hc)
    refine ⟨d2, by simp only [detectWorkerLoop, h1, Option.bind_eq_bind, Option.some_bind, h2],
      detectKept_trans k1 k2, ?_, ?_, ?_⟩
    · intro key n hfind hgood
      exact g2 key n (g1 key n hfind hgood) hgood
    · intro key hna
      rw [n2 key hna]
      by_cases hks : key = s
      · subst hks
        rw [n1 hna]
      · exact o1 key hks
    · intro key hmem hu
      by_cases hks : key = s
      · subst hks
        obtain ⟨node, hfind, hgood, hor⟩ := u1 hu
        exact ⟨node, g2 key node hfind hgood, hgood, hor⟩
      · have hrest : key ∈ rest := by
          rcases List.mem_cons.1 hmem with h | h
          · exact absurd h hks
          · exact h
        obtain ⟨node, hfind, hgood, hor⟩ := u2 key hrest hu
        refine ⟨node, hfind, hgood, ?_⟩
        rcases hor with hold | hb
        · exact Or.inl (by rw [← o1 key hks]; exact hold)
        · exact Or.inr hb

theorem detectWorkersInReplica_slots (env : Env) (st : Store) (r : replicaid_t)
    (d : DetectState) (zk : ZooKeeper) (hz : d.m.zookeeper_ = some zk)
    (hc : zk.connected = true) :
    ∃ d', detectWorkersInReplica env st r d = some d' ∧ d.m.DetectKept d'.m ∧
      (∀ k n, ShardMap.find d.m.workerMap_ k = some n → n.worker_.isGood_ = true →
        ShardMap.find d'.m.workerMap_ k = some n) ∧
      (∀ k, adoptableNode env st d.m.isMinePrimary r k = false →
        ShardMap.find d'.m.workerMap_ k = ShardMap.find d.m.workerMap_ k) ∧
      (∀ k ∈ d.m.sf1rTopology_.all_shard_nodes_,
        usableNode env st d.m.isMinePrimary r k = true → ∃ node,
          ShardMap.find d'.m.workerMap_ k = some node ∧ node.worker_.isGood_ = true ∧
          (ShardMap.find d.m.workerMap_ k = some node ∨ BoundTo env st r k node)) := by
  obtain ⟨d1, h1, k1, g1, n1, u1⟩ := detectWorkerLoop_slots env st r d.m.isMinePrimary
    d.m.sf1rTopology_.all_shard_nodes_ d zk hz hc
  simp only [detectWorkersInReplica, h1, Option.bind_eq_bind, Option.some_bind]
  split
  · exact ⟨_, rfl, k1, g1, n1, u1⟩
  · exact ⟨_, rfl, k1, g1, n1, u1⟩

theorem detectOtherReplicas_good (env : Env) (st : Store) (cur : replicaid_t)
    (l : List replicaid_t) :
    ∀ (d : DetectState) (zk : ZooKeeper), d.m.zookeeper_ = some zk → zk.connected = true →
      ∃ d', detectOtherReplicas env st cur l d = some d' ∧ d.m.DetectKept d'.m ∧
        (∀ k n, ShardMap.find d.m.workerMap_ k = some n → n.worker_.isGood_ = true →
          ShardMap.find d'.m.workerMap_ k = some n) := by
  induction l with
  | nil =>
    intro d zk _ _
    exact ⟨d, rfl, detectKept_refl _, fun _ _ h _ => h⟩
  | cons r rest ih =>
    intro d zk hz hc
    simp only [detectOtherReplicas]
    split
    · exact ⟨d, rfl, detectKept_refl _, fun _ _ h _ => h⟩
    · split
      · exact ih d zk hz hc
      · obtain ⟨d1, h1, k1, g1, -, -⟩ := detectWorkersInReplica_slots env st r d zk hz hc
        obtain ⟨zk1, hz1, hc1⟩ := k1.2.2.2.2 zk hz
        obtain ⟨d2, h2, k2, g2⟩ := ih d1 zk1 hz1 (hc1.trans hc)
        refine ⟨d2, by simp only [h1, Option.bind_eq_bind, Option.some_bind, h2],
          detectKept_trans k1 k2, ?_⟩
        intro key n hfind hgood
        exact g2 key n (g1 key n hfind hgood) hgood

theorem detectInv_unfilled (shards : List shardid_t) (d : DetectState) (s : shardid_t)
    (hinv : DetectInv shards d) (hs : s ∈ shards)
    (hnone : ShardMap.find d.m.workerMap_ s = none) : d.detected < shards.length := by
  obtain ⟨hnd, hmem, hdet⟩ := hinv
  have hnotin : s ∉ d.m.workerMap_.map Prod.fst := (ShardMap.find_eq_none_iff _ _).1 hnone
  have hnd2 : (s :: d.m.workerMap_.map Prod.fst).Nodup := List.nodup_cons.2 ⟨hnotin, hnd⟩
  have hsub : (s :: d.m.workerMap_.map Prod.fst) ⊆ shards := by
    intro x hx
    rcases List.mem_cons.1 hx with hx | hx
    · rw [hx]; exact hs
    · obtain ⟨e, he, hfst⟩ := List.mem_map.1 hx
      rw [← hfst]
      exact (hmem e he).2
  have hle := (List.subperm_of_subset hnd2 hsub).length_le
  simp only [List.length_cons, List.length_map] at hle
  omega

theorem detectWorkersInReplica_scan (env : Env) (st : Store) (r : replicaid_t)
    (shards : List shardid_t) (mp : Bool) (d : DetectState) (hparse : PortsParse env st)
    (hinv : ScanInv shards mp d) :
    ∃ d', detectWorkersInReplica env st r d = some d' ∧ ScanInv shards mp d' ∧
      (d'.m.masterState_ = MasterStateType.MASTER_STATE_STARTED ∨
        d'.m.masterState_ = MasterStateType.MASTER_STATE_STARTING_WAIT_WORKERS) ∧
      (d'.m.masterState_ = MasterStateType.MASTER_STATE_STARTED →
        shards.length ≤ d'.detected) ∧
      d'.m.replicaIdList_ = d.m.replicaIdList_ ∧
      (∀ k n, ShardMap.find d.m.workerMap_ k = some n → n.worker_.isGood_ = true →
        ShardMap.find d'.m.workerMap_ k = some n) ∧
      (∀ k, adoptableNode env st mp r k = false →
        ShardMap.find d'.m.workerMap_ k = ShardMap.find d.m.workerMap_ k) ∧
      (∀ k ∈ shards, usableNode env st mp r k = true → ∃ node,
        ShardMap.find d'.m.workerMap_ k = some node ∧ node.worker_.isGood_ = true ∧
        (ShardMap.find d.m.workerMap_ k = some node ∨ BoundTo env st r k node)) := by
  obtain ⟨⟨zk, hz, hc⟩, hsh, hmp, hdi⟩ := hinv
  obtain ⟨d1, h1, k1, g1, n1, u1⟩ := detectWorkersInReplica_slots env st r d zk hz hc
  obtain ⟨d2, zk2, h2, hdi2, -, ht2, hr2, hq2⟩ := detectWorkersInReplica_inv env st r hparse
    d zk hz (by rw [hsh]; exact hdi)
  obtain ⟨d3, zk3, h3, -, -, hs3⟩ := detectWorkersInReplica_client env st r d zk hz
  rw [h1] at h2 h3
  cases h2
  cases h3
  obtain ⟨zk1, hz1, hc1⟩ := k1.2.2.2.2 zk hz
  rw [hsh] at hdi2 hq2 u1
  rw [hmp] at n1 u1
  exact ⟨d1, h1, ⟨⟨zk1, hz1, hc1.trans hc⟩, by rw [ht2, hsh],
    by rw [detectKept_isMinePrimary k1 zk hz, hmp], hdi2⟩, hs3, hq2, hr2, g1, n1, u1⟩

theorem detectOtherReplicas_scan (env : Env) (st : Store) (cur : replicaid_t)
    (shards : List shardid_t) (mp : Bool) (s : shardid_t) (hparse : PortsParse env st)
    (hs : s ∈ shards) (l : List replicaid_t) :
    ∀ d : DetectState, ScanInv shards mp d →
      (d.m.masterState_ = MasterStateType.MASTER_STATE_STARTED ∨
        d.m.masterState_ = MasterStateType.MASTER_STATE_STARTING_WAIT_WORKERS) →
      (d.m.masterState_ = MasterStateType.MASTER_STATE_STARTED →
        shards.length ≤ d.detected) →
      ShardMap.find d.m.workerMap_ s = none →
      ∃ d', detectOtherReplicas env st cur l d = some d' ∧
        ((∀ r ∈ l, r ≠ cur → usableNode env st mp r s = false) →
          ShardMap.find d'.m.workerMap_ s = none) ∧
        (∀ pre r post, l = pre ++ r :: post →
          (∀ r' ∈ pre, usableNode env st mp r' s = false) → r ≠ cur →
          usableNode env st mp r s = true →
          ∃ node, ShardMap.find d'.m.workerMap_ s = some node ∧ BoundTo env st r s node) := by
  induction l with
  | nil =>
    intro d _ _ _ hnone
    refine ⟨d, rfl, fun _ => hnone, ?_⟩
    intro pre r post hl
    cases pre <;> cases hl
  | cons r0 rest ih =>
    intro d hinv hstate hq hnone
    have hlt := detectInv_unfilled shards d s hinv.2.2.2 hs hnone
    have hwait : d.m.masterState_ = MasterStateType.MASTER_STATE_STARTING_WAIT_WORKERS := by
      rcases hstate with h | h
      · have := hq h
        omega
      · exact h
    have hcond : ¬ d.m.masterState_ ≠ MasterStateType.MASTER_STATE_STARTING_WAIT_WORKERS :=
      fun h => h hwait
    simp only [detectOtherReplicas]
    rw [if_neg hcond]
    by_cases hcur : cur = r0
    · rw [if_pos hcur]
      obtain ⟨d', h', b1, b2⟩ := ih d hinv hstate hq hnone
      refine ⟨d', h', ?_, ?_⟩
      · intro hall
        exact b1 (fun r hr hne => hall r (List.mem_cons_of_mem _ hr) hne)
      · intro pre r post hl hpre hne hu
        cases pre with
        | nil =>
          simp only [List.nil_append, List.cons.injEq] at hl
          exact absurd (hcur.trans hl.1) (Ne.symm hne)
        | cons p pre' =>
          simp only [List.cons_append, List.cons.injEq] at hl
          exact b2 pre' r post hl.2 (fun r' hr' => hpre r' (List.mem_cons_of_mem _ hr')) hne hu
    · rw [if_neg hcur]
      obtain ⟨d1, h1, hinv1, hstate1, hq1, -, g1, n1, u1⟩ :=
        detectWorkersInReplica_scan env st r0 shards mp d hparse hinv
      simp only [h1, Option.bind_eq_bind, Option.some_bind]
      cases hu0 : usableNode env st mp r0 s with
      | true =>
        obtain ⟨node, hfind, hgood, hor⟩ := u1 s hs hu0
        have hb : BoundTo env st r0 s node := by
          rcases hor with hold | hb
          · rw [hnone] at hold; cases hold
          · exact hb
        obtain ⟨⟨zk1, hz1, hc1⟩, -, -, -⟩ := hinv1
        obtain ⟨d', h', -, g'⟩ := detectOtherReplicas_good env st cur rest d1 zk1 hz1 hc1
        refine ⟨d', h', ?_, ?_⟩
        · intro hall
          have := hall r0 (List.mem_cons_self _ _) (Ne.symm hcur)
          rw [hu0] at this
          cases this
        · intro pre r post hl hpre hne hu
          cases pre with
          | nil =>
            simp only [List.nil_append, List.cons.injEq] at hl
            rw [← hl.1]
            exact ⟨node, g' s node hfind hgood, hb⟩
          | cons p pre' =>
            simp only [List.cons_append, List.cons.injEq] at hl
            have := hpre p (List.mem_cons_self _ _)
            rw [← hl.1, hu0] at this
            cases this
      | false =>
        have hna : adoptableNode env st mp r0 s = false := by
          cases ha : adoptableNode env st mp r0 s with
          | false => rfl
          | true =>
            have := adoptableNode_usable env st mp r0 s hparse ha
            rw [hu0] at this
            cases this
        have hnone1 : ShardMap.find d1.m.workerMap_ s = none := by
          rw [n1 s hna]; exact hnone
        obtain ⟨d', h', b1, b2⟩ := ih d1 hinv1 hstate1 hq1 hnone1
        refine ⟨d', h', ?_, ?_⟩
        · intro hall
          exact b1 (fun r hr hne => hall r (List.mem_cons_of_mem _ hr) hne)
        · intro pre r post hl hpre hne hu
          cases pre with
          | nil =>
            simp only [List.nil_append, List.cons.injEq] at hl
            rw [← hl.1, hu0] at hu
            cases hu
          | cons p pre' =>
            simp only [List.cons_append, List.cons.injEq] at hl
            exact b2 pre' r post hl.2 (fun r' hr' => hpre r' (List.mem_cons_of_mem _ hr'))
              hne hu

/-- C26, as stated, fails where a port does not parse: the only shard has a znode in the
current replica 1 whose worker port is not a number, and a usable znode in replica 2, the
next replica of the list.  The slot is counted as detected in replica 1, the master is
`STARTED`, replica 2 is never scanned, and the slot stays bound to replica 1, not good. -/
theorem detectWorkers_keeps_unusable_current_replica :
    oneShardMaster.replicaIdList_ = [1, 2] ∧
    oneShardMaster.sf1rTopology_.curNode_.replicaId_ = 1 ∧
    usableNode kvEnv countedTwiceStore oneShardMaster.isMinePrimary 1 1 = false ∧
    usableNode kvEnv countedTwiceStore oneShardMaster.isMinePrimary 2 1 = true ∧
    (oneShardMaster.detectWorkers kvEnv countedTwiceStore).map (fun r =>
      (r.2.masterState_, (ShardMap.find r.2.workerMap_ 1).map
        (fun n => (n.replicaId_, n.host_, n.worker_.isGood_)))) =
      some (MasterStateType.MASTER_STATE_STARTED, some (1, "10.0.0.2", false)) := by
  refine ⟨rfl, rfl, ?_, ?_, ?_⟩ <;> decide

/-- C26 (amended): on a connected master `detectWorkers` returns, and afterwards every shard
of the topology with a usable node in the current replica has a good slot bound to the
current replica with the host and the ports of that znode, whatever the other replicas
advertise.  If moreover every node znode that offers a worker port carries ports that parse,
a shard with no usable node in the current replica is bound to the first replica of
`replicaIdList_` that has a usable one, and has no slot when no replica has one. -/
theorem detectWorkers_binding_order (env : Env) (st : Store) (m : MasterManagerBase)
    (zk : ZooKeeper) (hz : m.zookeeper_ = some zk) (hc : zk.connected = true) :
    ∃ good m', m.detectWorkers env st = some (good, m') ∧
      (∀ s ∈ m.sf1rTopology_.all_shard_nodes_,
        usableNode env st m.isMinePrimary m.sf1rTopology_.curNode_.replicaId_ s = true →
        ∃ node, ShardMap.find m'.workerMap_ s = some node ∧
          BoundTo env st m.sf1rTopology_.curNode_.replicaId_ s node) ∧
      (PortsParse env st → ∀ s ∈ m.sf1rTopology_.all_shard_nodes_,
        usableNode env st m.isMinePrimary m.sf1rTopology_.curNode_.replicaId_ s = false →
        (∀ pre r post, m.replicaIdList_ = pre ++ r :: post →
          (∀ r' ∈ pre, usableNode env st m.isMinePrimary r' s = false) →
          usableNode env st m.isMinePrimary r s = true →
          ∃ node, ShardMap.find m'.workerMap_ s = some node ∧ BoundTo env st r s node) ∧
        ((∀ r ∈ m.replicaIdList_, usableNode env st m.isMinePrimary r s = false) →
          ShardMap.find m'.workerMap_ s = none)) := by
  have hmp0 : ({ m with workerMap_ := [] } : MasterManagerBase).isMinePrimary =
      m.isMinePrimary := rfl
  obtain ⟨d1, h1, k1, -, n1, u1⟩ := detectWorkersInReplica_slots env st
    m.sf1rTopology_.curNode_.replicaId_
    { m := { m with workerMap_ := [] }, detected := 0, good := 0 } zk hz hc
  simp only [hmp0] at n1 u1
  obtain ⟨zk1, hz1, hc1⟩ := k1.2.2.2.2 zk hz
  have hc1' : zk1.connected = true := hc1.trans hc
  obtain ⟨d2, h2, k2, g2⟩ := detectOtherReplicas_good env st
    m.sf1rTopology_.curNode_.replicaId_ d1.m.replicaIdList_ d1 zk1 hz1 hc1'
  obtain ⟨zk2, hz2, -⟩ := k2.2.2.2.2 zk1 hz1
  have hfinal : ∃ m', m.detectWorkers env st = some (d2.good, m') ∧
      m'.workerMap_ = d2.m.workerMap_ := by
    simp only [detectWorkers, h1, Option.bind_eq_bind, Option.some_bind, h2]
    split
    · obtain ⟨m4, h4, k4⟩ := detectReadOnlyWorkers_kept env st (resetAggregatorConfig d2.m)
        (ZPath.other "") true zk2 hz2
      exact ⟨m4, by rw [h4]; rfl, k4.1⟩
    · obtain ⟨m4, h4, k4⟩ := detectReadOnlyWorkers_kept env st d2.m (ZPath.other "") true
        zk2 hz2
      exact ⟨m4, by rw [h4]; rfl, k4.1⟩
  obtain ⟨m', h', hmap⟩ := hfinal
  refine ⟨d2.good, m', h', ?_, ?_⟩
  · intro s hs hu
    obtain ⟨node, hfind, hgood, hor⟩ := u1 s hs hu
    have hb : BoundTo env st m.sf1rTopology_.curNode_.replicaId_ s node := by
      rcases hor with hold | hb
      · cases hold
      · exact hb
    exact ⟨node, by rw [hmap]; exact g2 s node hfind hgood, hb⟩
  · intro hparse s hs hnu
    have hna : adoptableNode env st m.isMinePrimary m.sf1rTopology_.curNode_.replicaId_ s =
        false := by
      cases ha : adoptableNode env st m.isMinePrimary m.sf1rTopology_.curNode_.replicaId_ s with
      | false => rfl
      | true =>
        have := adoptableNode_usable env st _ _ s hparse ha
        rw [hnu] at this
        cases this
    have hnone1 : ShardMap.find d1.m.workerMap_ s = none := by
      rw [n1 s hna]; rfl
    have hinv0 : ScanInv m.sf1rTopology_.all_shard_nodes_ m.isMinePrimary
        { m := { m with workerMap_ := [] }, detected := 0, good := 0 } :=
      ⟨⟨zk, hz, hc⟩, rfl, rfl, ⟨by simp, by simp, by simp⟩⟩
    obtain ⟨d1', h1', hinv1, hstate1, hq1, hr1, -, -, -⟩ := detectWorkersInReplica_scan env st
      m.sf1rTopology_.curNode_.replicaId_ m.sf1rTopology_.all_shard_nodes_ m.isMinePrimary
      { m := { m with workerMap_ := [] }, detected := 0, good := 0 } hparse hinv0
    rw [h1] at h1'
    cases h1'
    obtain ⟨d2', h2', b1, b2⟩ := detectOtherReplicas_scan env st
      m.sf1rTopology_.curNode_.replicaId_ m.sf1rTopology_.all_shard_nodes_ m.isMinePrimary s
      hparse hs d1.m.replicaIdList_ d1 hinv1 hstate1 hq1 hnone1
    rw [h2] at h2'
    cases h2'
    simp only at hr1
    rw [hr1] at b1 b2
    rw [hmap]
    refine ⟨?_, ?_⟩
    · intro pre r post hl hpre hu
      have hne : r ≠ m.sf1rTopology_.curNode_.replicaId_ := by
        intro heq
        rw [heq, hnu] at hu
        cases hu
      exact b2 pre r post hl hpre hne hu
    · intro hall
      exact b1 (fun r hr _ => hall r hr)

theorem otherDataPortStore_portsParse : PortsParse kvEnv otherDataPortStore := by
  intro r s e hfind hkey
  simp only [otherDataPortStore, Store.find, List.find?] at hfind
  split at hfind
  · cases hfind
    exact ⟨by decide, by decide⟩
  · cases hfind

theorem detectWorkers_binding_order_witness :
    failoverMaster.zookeeper_ = some clientUp ∧ clientUp.connected = true ∧
    ∃ good m', failoverMaster.detectWorkers kvEnv otherDataPortStore = some (good, m') ∧
      (∀ s ∈ failoverMaster.sf1rTopology_.all_shard_nodes_,
        usableNode kvEnv otherDataPortStore failoverMaster.isMinePrimary
          failoverMaster.sf1rTopology_.curNode_.replicaId_ s = true →
        ∃ node, ShardMap.find m'.workerMap_ s = some node ∧
          BoundTo kvEnv otherDataPortStore failoverMaster.sf1rTopology_.curNode_.replicaId_ s
            node) ∧
      (∃ node, ShardMap.find m'.workerMap_ 2 = some node ∧
        BoundTo kvEnv otherDataPortStore 2 2 node) ∧
      ShardMap.find m'.workerMap_ 1 = none := by
  obtain ⟨good, m', h, ha, hb⟩ :=
    detectWorkers_binding_order kvEnv otherDataPortStore failoverMaster clientUp rfl rfl
  have h2 := hb otherDataPortStore_portsParse 2 (by decide) (by decide)
  have h1 := hb otherDataPortStore_portsParse 1 (by decide) (by decide)
  exact ⟨rfl, rfl, good, m', h, ha,
    h2.1 [] 2 [1] rfl (fun _ hr => by cases hr) (by decide),
    h1.2 (by decide)⟩

/-- Shard 2 has no node in the current replica 1 and a usable one in replica 2, the first of
the list: detection binds the slot to replica 2 with the host and the ports of its znode.
Shard 1 has no usable node in any replica and gets no slot. -/
theorem detectWorkers_binds_first_usable_replica :
    failoverMaster.replicaIdList_ = [2, 1] ∧
    usableNode kvEnv otherDataPortStore failoverMaster.isMinePrimary 1 2 = false ∧
    usableNode kvEnv otherDataPortStore failoverMaster.isMinePrimary 2 2 = true ∧
    (failoverMaster.detectWorkers kvEnv otherDataPortStore).map (fun r =>
      (ShardMap.find r.2.workerMap_ 2).map
        (fun n => (n.replicaId_, n.host_, n.worker_.isGood_))) =
      some (some (2, "10.0.0.7", true)) ∧
    (failoverMaster.detectWorkers kvEnv otherDataPortStore).map (fun r =>
      ((ShardMap.find r.2.workerMap_ 2).map (fun n => (n.worker_.port_, n.dataPort_)),
        (ShardMap.find r.2.workerMap_ 1).isSome)) =
      some (some (18152, 19999), false) := by
  refine ⟨rfl, ?_, ?_, ?_, ?_⟩ <;> decide

end Sf1r
